import Mathlib

/-!
# Input checks of ARTS (`check_input.cc`): a shallow embedding

The checks of `src/check_input.cc` are translated function by function.

* `Numeric` (a C++ `double`) has two models.  In the namespace `Arts` it is the exact
  rationals `ℚ`: every value is a number, and ordering and arithmetic are those of the
  mathematical values.  In the namespace `Arts.Ieee` it is `Double`: NaN, the two
  infinities and the finite values, with the comparisons of IEEE 754, which are false as
  soon as an operand is NaN.  There the arithmetic `A : Arith` is an argument of each check
  that subtracts, adds or multiplies, so what is proved of the check holds however the
  machine rounds; `ieee` is the arithmetic of binary64 with rounding to nearest, ties to
  even.  The statements whose truth turns on a NaN or on a rounded result are made in
  `Arts.Ieee`.
* `Index` (a signed machine integer) is modelled by `Int`.
* A vector view is a list of `Numeric`; `nelem` is its length as an `Index`.
* A check returns `Except Fault α`.  `Fault.runtime_error m` is the C++
  `throw runtime_error(...)`, the structured value `m : Msg` standing for the text of the
  message.  `Fault.out_of_range` records that the code read an element outside its
  container (an assertion failure of the matrix library in a debug build, undefined
  behaviour otherwise); it is not a thrown `runtime_error`.
* The `x_name` / `which_interpolation` arguments only label the message text and are
  dropped, except where they tell two messages apart.
* A matrix or tensor view is its extents together with a function giving its elements;
  reading it outside the extents is a read out of range.  The rank-4 overload of
  `chk_atm_field` is `chk_atm_field4`.
* `for_index lo hi body` is the loop `for (Index i = lo; i < hi; i++)`, which stops at the
  first iteration that does not succeed.
-/

namespace Arts

/-- The floating point type of the source, modelled by exact rationals. -/
abbrev Numeric := ℚ

/-- The signed integer type used for sizes and positions. -/
abbrev Index := Int

/-- A read-only view of a vector of `Numeric`. -/
abbrev ConstVectorView := List Numeric

/-! ## Doubles

The checks whose outcome depends on a value that is no number, or on the rounding of a
difference, a product or a sum, are embedded over `Double` in the namespace `Ieee`. -/

/-- A C++ `double`, the machine type behind `Numeric`: not-a-number, minus infinity, plus
infinity, or a finite value.  A finite value is given as a rational number: every finite
double is one, and the two zeros, which compare equal, are the one value 0. -/
inductive Double where
  /-- Not-a-number. -/
  | nan
  /-- Minus infinity. -/
  | neg_inf
  /-- Plus infinity. -/
  | pos_inf
  /-- A finite value. -/
  | fin (q : ℚ)
  deriving DecidableEq, Repr

/-- The comparison `a < b` of two doubles: false as soon as one of them is NaN. -/
def Double.blt : Double → Double → Bool
  | .fin a, .fin b => decide (a < b)
  | .neg_inf, .fin _ => true
  | .neg_inf, .pos_inf => true
  | .fin _, .pos_inf => true
  | _, _ => false

/-- The comparison `a <= b` of two doubles: false as soon as one of them is NaN. -/
def Double.ble : Double → Double → Bool
  | .fin a, .fin b => decide (a ≤ b)
  | .neg_inf, .neg_inf => true
  | .neg_inf, .fin _ => true
  | .neg_inf, .pos_inf => true
  | .fin _, .pos_inf => true
  | .pos_inf, .pos_inf => true
  | _, _ => false

instance : LT Double := ⟨fun a b => Double.blt a b = true⟩

instance : LE Double := ⟨fun a b => Double.ble a b = true⟩

instance (a b : Double) : Decidable (a < b) :=
  inferInstanceAs (Decidable (Double.blt a b = true))

instance (a b : Double) : Decidable (a ≤ b) :=
  inferInstanceAs (Decidable (Double.ble a b = true))

/-- The function `fabs` (and `abs` on a double): exact, NaN for NaN. -/
def Double.abs : Double → Double
  | .nan => .nan
  | .neg_inf => .pos_inf
  | .pos_inf => .pos_inf
  | .fin q => .fin |q|

/-- The sign of a double that is no NaN: -1, 0 or 1. -/
def Double.sign : Double → Int
  | .nan => 0
  | .neg_inf => -1
  | .pos_inf => 1
  | .fin q => if q < 0 then -1 else if q = 0 then 0 else 1

/-- The difference before rounding: NaN for a NaN operand and for the difference of two
equal infinities. -/
def Double.sub_exact : Double → Double → Double
  | .nan, _ => .nan
  | _, .nan => .nan
  | .fin a, .fin b => .fin (a - b)
  | .pos_inf, .pos_inf => .nan
  | .neg_inf, .neg_inf => .nan
  | .pos_inf, _ => .pos_inf
  | .neg_inf, _ => .neg_inf
  | .fin _, .pos_inf => .neg_inf
  | .fin _, .neg_inf => .pos_inf

/-- The sum before rounding: NaN for a NaN operand and for the sum of two opposite
infinities. -/
def Double.add_exact : Double → Double → Double
  | .nan, _ => .nan
  | _, .nan => .nan
  | .fin a, .fin b => .fin (a + b)
  | .pos_inf, .neg_inf => .nan
  | .neg_inf, .pos_inf => .nan
  | .pos_inf, _ => .pos_inf
  | .neg_inf, _ => .neg_inf
  | .fin _, .pos_inf => .pos_inf
  | .fin _, .neg_inf => .neg_inf

/-- The product before rounding: NaN for a NaN operand and for zero times an infinity. -/
def Double.mul_exact : Double → Double → Double
  | .nan, _ => .nan
  | _, .nan => .nan
  | .fin a, .fin b => .fin (a * b)
  | a, b =>
    if a.sign * b.sign = 0 then .nan
    else if a.sign * b.sign > 0 then .pos_inf else .neg_inf

/-- The spacing of the doubles around a nonzero rational `q`: `2 ^ (e - 52)` where
`2 ^ e <= |q| < 2 ^ (e + 1)`, and `2 ^ (-1074)` in the subnormal range. -/
def ulp (q : ℚ) : ℚ := (2 : ℚ) ^ (max (Int.log 2 |q|) (-1022) - 52)

/-- The integer nearest to `t`, the even one of the two when `t` lies half-way. -/
def round_half_even (t : ℚ) : Int :=
  let f := ⌊t⌋
  let r := t - f
  if r < 1 / 2 then f else if r > 1 / 2 then f + 1 else if f % 2 = 0 then f else f + 1

/-- Rounding of a rational to the nearest double, ties to even (the default rounding of
IEEE 754 binary64): the nearest multiple of the spacing, an infinity when that reaches
`2 ^ 1024`. -/
def round_double (q : ℚ) : Double :=
  if q = 0 then .fin 0
  else
    let r : ℚ := (round_half_even (q / ulp q) : ℚ) * ulp q
    if (2 : ℚ) ^ (1024 : Nat) ≤ |r| then (if 0 < q then .pos_inf else .neg_inf)
    else .fin r

/-- Rounding of a result: a finite value is rounded to the nearest double, NaN and the
infinities stay. -/
def Double.round : Double → Double
  | .fin q => round_double q
  | d => d

/-- Whether a value of the type `Double` is a double of the machine: NaN and the two
infinities are, and a finite value is one exactly when rounding leaves it as it is. -/
def Double.is_double (d : Double) : Prop := d.round = d

instance (d : Double) : Decidable d.is_double :=
  inferInstanceAs (Decidable (d.round = d))

/-- The arithmetic of the machine on doubles, as far as the checks use it: the difference,
the sum and the product.  The checks are embedded for an arbitrary arithmetic, so what is
proved of them does not depend on how results are rounded. -/
structure Arith where
  /-- The difference `a - b` as the machine computes it. -/
  sub : Double → Double → Double
  /-- The sum `a + b` as the machine computes it. -/
  add : Double → Double → Double
  /-- The product `a * b` as the machine computes it. -/
  mul : Double → Double → Double

/-- The arithmetic of IEEE 754 binary64 with the default rounding: every result is the
exact one, rounded to the nearest double. -/
def ieee : Arith where
  sub a b := (Double.sub_exact a b).round
  add a b := (Double.add_exact a b).round
  mul a b := (Double.mul_exact a b).round

/-- Arithmetic without rounding.  The machine agrees with it wherever the exact result is
a double, as for small integers. -/
def unrounded : Arith where
  sub := Double.sub_exact
  add := Double.add_exact
  mul := Double.mul_exact

/-- The message carried by a `runtime_error`, one constructor for each message text of
`check_input.cc`, with the values the text prints. -/
inductive Msg where
  /-- "The original grid must have at least order+1 elements." -/
  | too_few_elements (required : Index)
  /-- "The original grid must be strictly sorted (no duplicate values). Yours is: ..." -/
  | not_strictly_sorted (old_grid : ConstVectorView)
  /-- "The minimum of the new grid must be inside the original grid. ..." -/
  | minimum_outside (old_min og_min ng_min : Numeric)
  /-- "The maximum of the new grid must be inside the original grid. ..." -/
  | maximum_outside (old_max og_max ng_max : Numeric)
  /-- "The new grid is not fully inside the original grid. ... Boundary value: ..." -/
  | boundary_not_zero (boundary_value : Numeric)
  /-- "The vector *x_name* must have strictly increasing values, ..." -/
  | not_increasing (x_name : String) (x : ConstVectorView)
  /-- "The vector *x_name* must have strictly decreasing values, ..." -/
  | not_decreasing (x_name : String)
  /-- "The length of *p_grid* must be >= 2." -/
  | p_grid_length
  /-- "For dim=1, the length of *lat_grid* must be 0." -/
  | lat_grid_length_0
  /-- "For dim>1, the length of *lat_grid* must be >= 2." -/
  | lat_grid_length_2
  /-- "For dim<3, the length of *lon_grid* must be 0." -/
  | lon_grid_length_0
  /-- "For dim=3, the length of *lon_grid* must be >= 2." -/
  | lon_grid_length_2
  /-- "The latitude grid cannot extend below -90 degrees for 3D" -/
  | lat_below
  /-- "The latitude grid cannot extend above 90 degrees for 3D" -/
  | lat_above
  /-- "No longitude (in lon_grid) can be below -360 degrees." -/
  | lon_below
  /-- "No longitude (in lon_grid) can be above 360 degrees." -/
  | lon_above
  /-- "The longitude grid is not allowed to cover more than 360 degrees." -/
  | lon_span
  /-- "The atmospheric field *x_name* has wrong size. Expected size is ..., while actual
  size is ...": both tuples, outermost extent first. -/
  | field_wrong_size (expected actual : List Index)
  /-- "... covers 360 degrees in the longitude direction, but the field seems to deviate
  between first and last longitude point."; the species index for the rank-4 form. -/
  | not_cyclic (species : Option Index)
  /-- "... covers the South pole. The data corresponding to the pole can not vary with
  longitude, ..."; the species index for the rank-4 form. -/
  | south_pole (species : Option Index)
  /-- "... covers the North pole. ..."; the species index for the rank-4 form. -/
  | north_pole (species : Option Index)
  /-- "The atmospheric field *x_name* should be empty." -/
  | should_be_empty
  /-- "The surface variable *x_name* has wrong size. Expected size is ..., while actual
  size is ...": rows, then columns. -/
  | surface_wrong_size (expected actual : List Index)
  /-- "... covers 360 degrees in the longitude direction, but the data seems to deviate
  between first and last longitude point. The surface must be cyclic." -/
  | surface_not_cyclic
  /-- "For 1D, the method requires that *lat_true* and *lon_true* have length 1." -/
  | latlon_true_1d
  /-- "For 2D, the method requires that *lat_true* and *lon_true* have the same length as
  *lat_grid*." -/
  | latlon_true_2d
  /-- "Found non-zero pnd outside cloudbox. Cloudbox extends from p=... Pa to p=... Pa,
  but found pnd=.../m3 at p=... Pa." -/
  | pnd_outside_p (limit_0 limit_1 v p : Numeric)
  /-- "Found non-zero pnd outside cloudbox. Cloudbox extends from lat=... to lat=..., but
  found pnd=.../m3 at lat=...". -/
  | pnd_outside_lat (limit_2 limit_3 v lat : Numeric)
  /-- "Found non-zero pnd outside cloudbox. Cloudbox extends from lon=... to lat=..., but
  found pnd=.../m3 at lon=...". -/
  | pnd_outside_lon (limit_4 limit_5 v lon : Numeric)
  /-- "For 1D (2D, 3D), *rte_pos* (or *rte_pos2*) must have length ...": whether the
  name printed is `rte_pos2`, the dimensionality named and the length asked for. -/
  | rte_pos_length (pos2 : Bool) (dims required : Nat)
  /-- "For 1D, the latitude in *rte_pos2* must be in the range [-180,180]." -/
  | rte_pos_lat_1d (pos2 : Bool)
  /-- "The (3D) latitude in *rte_pos* must be in the range [-90,90]." -/
  | rte_pos_lat_3d (pos2 : Bool)
  /-- "The longitude in *rte_pos* must be in the range [-360,360]." -/
  | rte_pos_lon (pos2 : Bool)
  /-- "For 1D (2D, 3D), *rte_los* must have length ...". -/
  | rte_los_length (dims required : Nat)
  /-- "For 1D (2D, 3D), the zenith angle of *rte_los* must be in the range ...". -/
  | rte_los_zenith (dims : Nat)
  /-- "For 3D, the azimuth angle of *rte_los* must be in the range [-180,180]." -/
  | rte_los_azimuth
  /-- "The variable *x_name* must fulfill: x_low <= x_name <= x_high. The present value
  of *x_name* is x." (Index form). -/
  | index_not_in_range (x x_low x_high : Index)
  /-- "The variable *x_name* must fulfill: x_low <= x_name <= x_high. The present value
  of *x_name* is x." (Numeric form). -/
  | not_in_range (x x_low x_high : Double)
  /-- "The ArrayOfIndex *x_name* must have strictly increasing values, but this is not the
  case. x = ...". -/
  | index_not_increasing (x : List Index)
  /-- "The vectors *x1_name* and *x2_name* must have the same length. The length of
  *x1_name* is ... The length of *x2_name* is ...". -/
  | not_same_length (length_1 length_2 : Index)
  /-- "Vectors x1_name and x2_name differ. x1_name[i] = ... x2_name[i] = ... Difference
  should not exceed margin". -/
  | vectors_differ (i : Index) (v1_i v2_i margin : Double)
  /-- "The object *x_name* does not have the right size. Dimensions should be: ..., but
  they are: ...": both tuples, outermost extent first. -/
  | wrong_size (expected actual : List Index)
  /-- The message of `not_strictly_sorted`, for a grid of doubles. -/
  | not_strictly_sorted_double (old_grid : List Double)
  /-- The message of `minimum_outside`, for doubles. -/
  | minimum_outside_double (old_min og_min ng_min : Double)
  /-- The message of `maximum_outside`, for doubles. -/
  | maximum_outside_double (old_max og_max ng_max : Double)
  /-- The message of `not_increasing`, for a vector of doubles. -/
  | not_increasing_double (x_name : String) (x : List Double)
  deriving DecidableEq, Repr

/-- How a check can end without succeeding. -/
inductive Fault where
  /-- The check threw `runtime_error` with this message. -/
  | runtime_error (what : Msg)
  /-- The check read an element outside a vector or tensor. -/
  | out_of_range
  deriving DecidableEq, Repr

/-- The outcome of a check that yields a value of type `α` when it succeeds. -/
abbrev Check (α : Type) := Except Fault α

/-- `x.nelem()`. -/
def nelem (x : ConstVectorView) : Index := (x.length : Int)

/-- `x[i]` for a vector view: the element at position `i`, inside the vector only for
`0 <= i < x.nelem()`. -/
def index (x : ConstVectorView) (i : Index) : Check Numeric :=
  if 0 ≤ i then
    match x.get? i.toNat with
    | some v => .ok v
    | none => .error .out_of_range
  else .error .out_of_range

/-- Modelled from the spec: `is_increasing` of `logic.cc`, which is not among the sources.
Section 4.3: true iff every adjacent pair satisfies the strict inequality; single-element
and empty sequences are trivially monotonic. -/
def is_increasing : ConstVectorView → Bool
  | a :: b :: r => decide (a < b) && is_increasing (b :: r)
  | _ => true

/-- Modelled from the spec: `is_decreasing` of `logic.cc`, which is not among the sources.
Section 4.3: true iff every adjacent pair satisfies the strict inequality; single-element
and empty sequences are trivially monotonic. -/
def is_decreasing : ConstVectorView → Bool
  | a :: b :: r => decide (a > b) && is_decreasing (b :: r)
  | _ => true

/-- Modelled from the spec: `min` of the matrix library, which is not among the sources.
The spec's `min(newGrid)`: the smallest element of the vector.  The library starts from
element 0, so an empty vector is read out of range. -/
def vec_min : ConstVectorView → Check Numeric
  | [] => .error .out_of_range
  | a :: r => .ok (r.foldl (fun m v => if v < m then v else m) a)

/-- Modelled from the spec: `max` of the matrix library, which is not among the sources.
The spec's `max(newGrid)`: the largest element of the vector.  The library starts from
element 0, so an empty vector is read out of range. -/
def vec_max : ConstVectorView → Check Numeric
  | [] => .error .out_of_range
  | a :: r => .ok (r.foldl (fun m v => if v > m then v else m) a)

/-- `chk_if_increasing` (Vector form), `check_input.cc` lines 295-307. -/
def chk_if_increasing (x_name : String) (x : ConstVectorView) : Check Unit :=
  if !is_increasing x then .error (.runtime_error (.not_increasing x_name x))
  else .ok ()

/-- `chk_if_decreasing`, `check_input.cc` lines 325-336. -/
def chk_if_decreasing (x_name : String) (x : ConstVectorView) : Check Unit :=
  if !is_decreasing x then .error (.runtime_error (.not_decreasing x_name))
  else .ok ()

/-- The setup shared, line for line, by `chk_interpolation_grids` (lines 950-1004) and
`chk_interpolation_grids_loose` (lines 826-882): the size test, the direction test on
the first two elements, the sortedness test and the limits of extrapolation.  Yields
`(ascending, og_min, og_max)`. -/
def grid_limits (old_grid : ConstVectorView) (order : Index) (extpolfac : Numeric) :
    Check (Bool × Numeric × Numeric) := do
  let n_old := nelem old_grid
  -- Old grid must have at least order+1 elements:
  if n_old < order + 1 then
    throw (.runtime_error (.too_few_elements (order + 1)))
  else
    -- Decide whether we have an ascending or descending grid:
    let g0 ← index old_grid 0
    let g1 ← index old_grid 1
    let ascending : Bool := decide (g0 ≤ g1)
    if ascending then
      -- Old grid must be strictly increasing (no duplicate values.)
      if !is_increasing old_grid then
        throw (.runtime_error (.not_strictly_sorted old_grid))
      else
        let a0 ← index old_grid 0
        let a1 ← index old_grid 1
        let og_min := a0 - extpolfac * (a1 - a0)
        let z1 ← index old_grid (n_old - 1)
        let z2 ← index old_grid (n_old - 2)
        let og_max := z1 + extpolfac * (z1 - z2)
        pure (true, og_min, og_max)
    else
      -- Old grid must be strictly decreasing (no duplicate values.)
      if !is_decreasing old_grid then
        throw (.runtime_error (.not_strictly_sorted old_grid))
      else
        -- The max is now the first point, the min the last point!
        let a0 ← index old_grid 0
        let a1 ← index old_grid 1
        let og_max := a0 - extpolfac * (a1 - a0)
        let z1 ← index old_grid (n_old - 1)
        let z2 ← index old_grid (n_old - 2)
        let og_min := z1 + extpolfac * (z1 - z2)
        pure (false, og_min, og_max)

/-- `chk_interpolation_grids` (vector form), `check_input.cc` lines 944-1036. -/
def chk_interpolation_grids (old_grid new_grid : ConstVectorView) (order : Index)
    (extpolfac : Numeric) : Check Unit := do
  let (_, og_min, og_max) ← grid_limits old_grid order extpolfac
  -- Min and max of new grid:
  let ng_min ← vec_min new_grid
  let ng_max ← vec_max new_grid
  -- New grid must be inside old grid (plus extpolfac).
  if ng_min < og_min then
    let old_min ← vec_min old_grid
    throw (.runtime_error (.minimum_outside old_min og_min ng_min))
  else if ng_max > og_max then
    let old_max ← vec_max old_grid
    throw (.runtime_error (.maximum_outside old_max og_max ng_max))
  else
    pure ()

/-- The loop `while (ing_max > 0 && new_grid[ing_max] < old_grid[iog_max]) ing_max--;`
(lines 896-897), by recursion on the current value of `ing_max`; yields its final value. -/
def walk_down (new_grid old_grid : ConstVectorView) (iog_max : Index) : Nat → Check Nat
  | 0 => pure 0
  | k + 1 => do
    let v ← index new_grid ((k + 1 : Nat) : Int)
    let w ← index old_grid iog_max
    if v < w then walk_down new_grid old_grid iog_max k else pure (k + 1)

/-- The loop
`while (ing_min < new_grid.nelem()-1 && new_grid[ing_min] > old_grid[iog_min]) ing_min++;`
(lines 902-903).  `last` is `new_grid.nelem()-1`; the first argument bounds the number
of iterations, `last - ing_min` of them being enough; yields the final `ing_min`. -/
def walk_up (new_grid old_grid : ConstVectorView) (iog_min : Index) (last : Nat) :
    Nat → Nat → Check Nat
  | 0, ing_min => pure ing_min
  | fuel + 1, ing_min =>
    if ing_min < last then do
      let v ← index new_grid (ing_min : Int)
      let w ← index old_grid iog_min
      if v > w then walk_up new_grid old_grid iog_min last fuel (ing_min + 1)
      else pure ing_min
    else pure ing_min

/-- `chk_interpolation_grids_loose`, `check_input.cc` lines 817-923.  The two output
parameters are returned as the pair `(ing_min, ing_max)`.  When the loops are reached
`min(new_grid)` has been taken, so `new_grid.nelem()-1` is not negative and the two
positions are kept as natural numbers. -/
def chk_interpolation_grids_loose (old_grid new_grid data : ConstVectorView)
    (order : Index) (extpolfac : Numeric) : Check (Index × Index) := do
  let (ascending, og_min, og_max) ← grid_limits old_grid order extpolfac
  -- Min and max of new grid:
  let ng_min ← vec_min new_grid
  let ng_max ← vec_max new_grid
  let last : Nat := new_grid.length - 1
  let iog_min : Index := if ascending then nelem old_grid - 1 else 0
  let iog_max : Index := if ascending then 0 else nelem old_grid - 1
  let ing_max ← if ng_min < og_min then walk_down new_grid old_grid iog_max last
                else pure last
  let ing_min ← if ng_max > og_max then walk_up new_grid old_grid iog_min last last 0
                else pure 0
  let d_min ← if ing_min > 0 then index data iog_min else pure 0
  if ing_min > 0 ∧ d_min ≠ 0 then
    throw (.runtime_error (.boundary_not_zero d_min))
  else
    let d_max ← if ing_max < last then index data iog_max else pure 0
    if ing_max < last ∧ d_max ≠ 0 then
      throw (.runtime_error (.boundary_not_zero d_max))
    else
      pure ((ing_min : Int), (ing_max : Int))

/-- The statement `if (c) throw runtime_error(m);`. -/
def throw_if (c : Prop) [Decidable c] (m : Msg) : Check Unit :=
  if c then .error (.runtime_error m) else .ok ()

/-- `chk_atm_grids`, `check_input.cc` lines 1099-1157. -/
def chk_atm_grids (dim : Index) (p_grid lat_grid lon_grid : ConstVectorView) :
    Check Unit := do
  -- p_grid
  throw_if (nelem p_grid < 2) .p_grid_length
  chk_if_decreasing "p_grid" p_grid
  -- lat_grid
  (if dim = 1 then
    throw_if (nelem lat_grid > 0) .lat_grid_length_0
  else do
    throw_if (nelem lat_grid < 2) .lat_grid_length_2
    chk_if_increasing "lat_grid" lat_grid)
  -- lon_grid
  (if dim < 3 then
    throw_if (nelem lon_grid > 0) .lon_grid_length_0
  else do
    throw_if (nelem lon_grid < 2) .lon_grid_length_2
    chk_if_increasing "lon_grid" lon_grid)
  -- Check that latitude and longitude grids are inside OK ranges for 3D
  (if dim = 3 then do
    throw_if ((← index lat_grid 0) < -90) .lat_below
    throw_if ((← index lat_grid (nelem lat_grid - 1)) > 90) .lat_above
    throw_if ((← index lon_grid 0) < -360) .lon_below
    throw_if ((← index lon_grid (nelem lon_grid - 1)) > 360) .lon_above
    throw_if ((← index lon_grid (nelem lon_grid - 1)) - (← index lon_grid 0) > 360) .lon_span
  else pure ())

/-- A read-only view of a rank-3 tensor: its three extents and its elements, which are
meaningful only at positions inside the extents. -/
structure ConstTensor3View where
  /-- The outermost extent, `x.npages()`. -/
  npages : Nat
  /-- The middle extent, `x.nrows()`. -/
  nrows : Nat
  /-- The innermost extent, `x.ncols()`. -/
  ncols : Nat
  /-- The stored values by (page, row, column). -/
  data : Nat → Nat → Nat → Numeric

/-- `x(p, r, c)` for a rank-3 view: inside the tensor only when every position is
inside its extent. -/
def ConstTensor3View.elem (x : ConstTensor3View) (p r c : Index) : Check Numeric :=
  if 0 ≤ p ∧ p < x.npages ∧ 0 ≤ r ∧ r < x.nrows ∧ 0 ≤ c ∧ c < x.ncols then
    .ok (x.data p.toNat r.toNat c.toNat)
  else .error .out_of_range

/-- The body of `for (Index i = ...; i < hi; i++)` run `n` more times from position
`i`, stopping at the first failure. -/
def for_index_from (body : Index → Check Unit) : Nat → Index → Check Unit
  | 0, _ => pure ()
  | n + 1, i => do
    body i
    for_index_from body n (i + 1)

/-- `for (Index i = lo; i < hi; i++) body(i);`, stopping at the first failure. -/
def for_index (lo hi : Index) (body : Index → Check Unit) : Check Unit :=
  for_index_from body (hi - lo).toNat lo

/-- `chk_atm_field` for simple (rank-3) fields, `check_input.cc` lines 1177-1264. -/
def chk_atm_field (x : ConstTensor3View) (dim : Index)
    (p_grid lat_grid lon_grid : ConstVectorView) : Check Unit := do
  -- It is assumed that grids OK-ed through chk_atm_grids
  let npages : Index := nelem p_grid
  let nrows : Index := if dim > 1 then nelem lat_grid else 1
  let ncols : Index := if dim > 2 then nelem lon_grid else 1
  throw_if ((x.ncols : Index) ≠ ncols ∨ (x.nrows : Index) ≠ nrows ∨ (x.npages : Index) ≠ npages)
    (.field_wrong_size [npages, nrows, ncols] [x.npages, x.nrows, x.ncols])
  -- Special 3D checks:
  (if dim = 3 then do
    -- If all lons are covered, check if cyclic
    (if (← index lon_grid (ncols - 1)) - (← index lon_grid 0) = 360 then
      let ic := ncols - 1
      for_index 0 npages fun ip =>
        for_index 0 nrows fun ir => do
          throw_if (|(← x.elem ip ir ic) - (← x.elem ip ir 0)| > 0) (.not_cyclic none)
    else pure ())
    -- No variation at the South pole!
    (if (← index lat_grid 0) = -90 then
      for_index 0 npages fun ip =>
        for_index 1 ncols fun ic => do
          throw_if (|(← x.elem ip 0 ic) - (← x.elem ip 0 (ic - 1))| > 0) (.south_pole none)
    else pure ())
    -- No variation at the North pole!
    (if (← index lat_grid (nrows - 1)) = 90 then
      let ir := nrows - 1
      for_index 0 npages fun ip =>
        for_index 1 ncols fun ic => do
          throw_if (|(← x.elem ip ir ic) - (← x.elem ip ir (ic - 1))| > 0) (.north_pole none)
    else pure ())
  else pure ())

/-- A read-only view of a rank-4 tensor: its four extents and its elements, which are
meaningful only at positions inside the extents. -/
structure ConstTensor4View where
  /-- The outermost extent, `x.nbooks()`. -/
  nbooks : Nat
  /-- The second extent, `x.npages()`. -/
  npages : Nat
  /-- The third extent, `x.nrows()`. -/
  nrows : Nat
  /-- The innermost extent, `x.ncols()`. -/
  ncols : Nat
  /-- The stored values by (book, page, row, column). -/
  data : Nat → Nat → Nat → Nat → Numeric

/-- `x(b, p, r, c)` for a rank-4 view: inside the tensor only when every position is
inside its extent. -/
def ConstTensor4View.elem (x : ConstTensor4View) (b p r c : Index) : Check Numeric :=
  if 0 ≤ b ∧ b < x.nbooks ∧ 0 ≤ p ∧ p < x.npages ∧ 0 ≤ r ∧ r < x.nrows ∧
      0 ≤ c ∧ c < x.ncols then
    .ok (x.data b.toNat p.toNat r.toNat c.toNat)
  else .error .out_of_range

/-- `chk_atm_field` for fields with a species dimension (rank 4), `check_input.cc`
lines 1287-1406. -/
def chk_atm_field4 (x : ConstTensor4View) (dim nspecies : Index)
    (p_grid lat_grid lon_grid : ConstVectorView) : Check Unit :=
  let nbooks : Index := nspecies
  if nbooks = 0 then
    (if (x.nbooks : Index) ≠ 0 then .error (.runtime_error .should_be_empty)
    else .ok ())
  else do
    let npages : Index := nelem p_grid
    let nrows : Index := if dim > 1 then nelem lat_grid else 1
    let ncols : Index := if dim > 2 then nelem lon_grid else 1
    throw_if ((x.ncols : Index) ≠ ncols ∨ (x.nrows : Index) ≠ nrows ∨
        (x.npages : Index) ≠ npages ∨ (x.nbooks : Index) ≠ nbooks)
      (.field_wrong_size [nbooks, npages, nrows, ncols]
        [x.nbooks, x.npages, x.nrows, x.ncols])
    -- Special 3D checks:
    (if dim = 3 then do
      -- If all lons are covered, check if cyclic
      (if (← index lon_grid (ncols - 1)) - (← index lon_grid 0) = 360 then
        let ic := ncols - 1
        for_index 0 nspecies fun is =>
          for_index 0 npages fun ip =>
            for_index 0 nrows fun ir => do
              throw_if (|(← x.elem is ip ir ic) - (← x.elem is ip ir 0)| > 0)
                (.not_cyclic (some is))
      else pure ())
      -- No variation at the South pole!
      (if (← index lat_grid 0) = -90 then
        for_index 0 nspecies fun is =>
          for_index 0 npages fun ip =>
            for_index 1 ncols fun ic => do
              throw_if (|(← x.elem is ip 0 ic) - (← x.elem is ip 0 (ic - 1))| > 0)
                (.south_pole (some is))
      else pure ())
      -- No variation at the North pole!
      (if (← index lat_grid (nrows - 1)) = 90 then
        let ir := nrows - 1
        for_index 0 nspecies fun is =>
          for_index 0 npages fun ip =>
            for_index 1 ncols fun ic => do
              throw_if (|(← x.elem is ip ir ic) - (← x.elem is ip ir (ic - 1))| > 0)
                (.north_pole (some is))
      else pure ())
    else pure ())

/-- `chk_latlon_true`, `check_input.cc` lines 1427-1464.  The two output vectors are
returned as the pair `(lat, lon)`. -/
def chk_latlon_true (atmosphere_dim : Index)
    (lat_grid lon_grid lat_true lon_true : ConstVectorView) :
    Check (ConstVectorView × ConstVectorView) :=
  if atmosphere_dim = 1 then
    (if nelem lat_true ≠ 1 ∨ nelem lon_true ≠ 1 then
      .error (.runtime_error .latlon_true_1d)
    else .ok (lat_true, lon_true))
  else if atmosphere_dim = 2 then
    (if nelem lat_true ≠ nelem lat_grid ∨ nelem lon_true ≠ nelem lon_grid then
      .error (.runtime_error .latlon_true_2d)
    else .ok (lat_true, lon_true))
  else .ok (lat_grid, lon_grid)

/-- A read-only matrix: its two extents and its elements, which are meaningful only at
positions inside the extents. -/
structure Matrix where
  /-- The outer extent, `x.nrows()`. -/
  nrows : Nat
  /-- The inner extent, `x.ncols()`. -/
  ncols : Nat
  /-- The stored values by (row, column). -/
  data : Nat → Nat → Numeric

/-- `x(r, c)` for a matrix: inside it only when both positions are inside their
extents. -/
def Matrix.elem (x : Matrix) (r c : Index) : Check Numeric :=
  if 0 ≤ r ∧ r < x.nrows ∧ 0 ≤ c ∧ c < x.ncols then .ok (x.data r.toNat c.toNat)
  else .error .out_of_range

/-- `chk_atm_surface`, `check_input.cc` lines 1483-1520. -/
def chk_atm_surface (x : Matrix) (dim : Index) (lat_grid lon_grid : ConstVectorView) :
    Check Unit := do
  let nrows : Index := if dim > 1 then nelem lat_grid else 1
  let ncols : Index := if dim > 2 then nelem lon_grid else 1
  throw_if ((x.ncols : Index) ≠ ncols ∨ (x.nrows : Index) ≠ nrows)
    (.surface_wrong_size [nrows, ncols] [x.nrows, x.ncols])
  -- If all lons are covered, check if cyclic
  (if dim = 3 then do
    (if (← index lon_grid (ncols - 1)) - (← index lon_grid 0) = 360 then
      let ic := ncols - 1
      for_index 0 nrows fun ir => do
        throw_if (|(← x.elem ir ic) - (← x.elem ir 0)| > 0) .surface_not_cyclic
    else pure ())
  else pure ())

/-- An array of `Index`, as `cloudbox_limits`. -/
abbrev ArrayOfIndex := List Index

/-- `a[i]` for an array of `Index`: inside the array only for `0 <= i < a.nelem()`. -/
def ArrayOfIndex.at_index (a : ArrayOfIndex) (i : Index) : Check Index :=
  if 0 ≤ i then
    match a.get? i.toNat with
    | some v => .ok v
    | none => .error .out_of_range
  else .error .out_of_range

/-- A `GriddedField3` with numeric grids: the data and the field's own pressure,
latitude and longitude grids, which `get_numeric_grid` selects by `GFIELD3_P_GRID`,
`GFIELD3_LAT_GRID` and `GFIELD3_LON_GRID`. -/
structure GriddedField3 where
  /-- The grid `get_numeric_grid(GFIELD3_P_GRID)`. -/
  p_grid : ConstVectorView
  /-- The grid `get_numeric_grid(GFIELD3_LAT_GRID)`. -/
  lat_grid : ConstVectorView
  /-- The grid `get_numeric_grid(GFIELD3_LON_GRID)`. -/
  lon_grid : ConstVectorView
  /-- The member `data`. -/
  data : ConstTensor3View

/-- An array of gridded fields, as `pnd_field_raw`. -/
abbrev ArrayOfGriddedField3 := List GriddedField3

/-- `a[n]` for an array of gridded fields. -/
def ArrayOfGriddedField3.at_index (a : ArrayOfGriddedField3) (n : Index) :
    Check GriddedField3 :=
  if 0 ≤ n then
    match a.get? n.toNat with
    | some f => .ok f
    | none => .error .out_of_range
  else .error .out_of_range

/-- The value `grid[cloudbox_limits[k]]` of a shared grid at the `k`-th cloudbox limit,
as the check reads it. -/
def limit_value (grid : ConstVectorView) (cloudbox_limits : ArrayOfIndex) (k : Index) :
    Check Numeric := do
  index grid (← cloudbox_limits.at_index k)

/-- What `chk_pnd_field_raw_only_in_cloudbox` does inside `if (v != 0)` (lines
1559-1604) for the sample `v` of the field `f` at `(p_i, lat_i, lon_i)`. -/
def pnd_sample_in_cloudbox (dim : Index) (f : GriddedField3)
    (p_grid lat_grid lon_grid : ConstVectorView) (cloudbox_limits : ArrayOfIndex)
    (p_i lat_i lon_i : Index) (v : Numeric) : Check Unit := do
  -- Verify pressure is between cloudbox limits
  let p ← index f.p_grid p_i
  let p0 ← index p_grid (← cloudbox_limits.at_index 0)
  let p1 ← index p_grid (← cloudbox_limits.at_index 1)
  throw_if (¬ (p ≤ p0 ∧ p ≥ p1)) (.pnd_outside_p p0 p1 v p)
  -- Verify latitude is too
  (if dim > 1 then do
    let lat ← index f.lat_grid lat_i
    let l2 ← index lat_grid (← cloudbox_limits.at_index 2)
    let l3 ← index lat_grid (← cloudbox_limits.at_index 3)
    throw_if (¬ (lat ≥ l2 ∧ lat ≤ l3)) (.pnd_outside_lat l2 l3 v lat)
  else pure ())
  -- Etc. for longitude
  (if dim > 2 then do
    let lon ← index f.lon_grid lon_i
    let l4 ← index lon_grid (← cloudbox_limits.at_index 4)
    let l5 ← index lon_grid (← cloudbox_limits.at_index 5)
    throw_if (¬ (lon ≥ l4 ∧ lon ≤ l5)) (.pnd_outside_lon l4 l5 v lon)
  else pure ())

/-- `chk_pnd_field_raw_only_in_cloudbox`, `check_input.cc` lines 1542-1610. -/
def chk_pnd_field_raw_only_in_cloudbox (dim : Index)
    (pnd_field_raw : ArrayOfGriddedField3) (p_grid lat_grid lon_grid : ConstVectorView)
    (cloudbox_limits : ArrayOfIndex) : Check Unit :=
  -- For any non-zero point, verify we're outside the cloudbox
  for_index 0 (pnd_field_raw.length : Int) fun n => do
    let f ← pnd_field_raw.at_index n
    for_index 0 (f.data.npages : Int) fun p_i =>
      for_index 0 (f.data.nrows : Int) fun lat_i =>
        for_index 0 (f.data.ncols : Int) fun lon_i => do
          let v ← f.data.elem p_i lat_i lon_i
          (if v ≠ 0 then
            pnd_sample_in_cloudbox dim f p_grid lat_grid lon_grid cloudbox_limits
              p_i lat_i lon_i v
          else pure ())

/-- `chk_if_in_range` for an `Index`, `check_input.cc` lines 99-113. -/
def chk_if_in_range_index (x x_low x_high : Index) : Check Unit :=
  if x < x_low ∨ x > x_high then .error (.runtime_error (.index_not_in_range x x_low x_high))
  else .ok ()

/-- Modelled from the spec: `is_increasing` for an `ArrayOfIndex`, of `logic.cc`, which is
not among the sources.  Sections 4.1 and 4.3: true iff every adjacent pair is strictly
increasing (duplicates rejected); single-element and empty sequences are trivially
monotonic. -/
def is_increasing_index : List Index → Bool
  | a :: b :: r => decide (a < b) && is_increasing_index (b :: r)
  | _ => true

/-- `chk_if_increasing` for an `ArrayOfIndex`, `check_input.cc` lines 130-142. -/
def chk_if_increasing_index (x : List Index) : Check Unit :=
  if !is_increasing_index x then .error (.runtime_error (.index_not_increasing x))
  else .ok ()

/-- Modelled from the spec: `is_size` of `logic.cc`, which is not among the sources.
Section 4.2: the array's per-axis extents (outermost to innermost) are compared with the
expected tuple.  The first list holds the extents of the array, the second the expected
ones. -/
def is_size (extents expected : List Index) : Bool :=
  decide (extents = expected)

/-- A read-only view of a rank-5 tensor: its extents and its elements. -/
structure ConstTensor5View where
  /-- The extent `x.nshelves()`. -/
  nshelves : Nat
  /-- The extent `x.nbooks()`. -/
  nbooks : Nat
  /-- The extent `x.npages()`. -/
  npages : Nat
  /-- The extent `x.nrows()`. -/
  nrows : Nat
  /-- The extent `x.ncols()`. -/
  ncols : Nat
  /-- The stored values. -/
  data : Nat → Nat → Nat → Nat → Nat → Numeric

/-- A read-only view of a rank-6 tensor: its extents and its elements. -/
structure ConstTensor6View where
  /-- The extent `x.nvitrines()`. -/
  nvitrines : Nat
  /-- The extent `x.nshelves()`. -/
  nshelves : Nat
  /-- The extent `x.nbooks()`. -/
  nbooks : Nat
  /-- The extent `x.npages()`. -/
  npages : Nat
  /-- The extent `x.nrows()`. -/
  nrows : Nat
  /-- The extent `x.ncols()`. -/
  ncols : Nat
  /-- The stored values. -/
  data : Nat → Nat → Nat → Nat → Nat → Nat → Numeric

/-- A read-only view of a rank-7 tensor: its extents and its elements. -/
structure ConstTensor7View where
  /-- The extent `x.nlibraries()`. -/
  nlibraries : Nat
  /-- The extent `x.nvitrines()`. -/
  nvitrines : Nat
  /-- The extent `x.nshelves()`. -/
  nshelves : Nat
  /-- The extent `x.nbooks()`. -/
  nbooks : Nat
  /-- The extent `x.npages()`. -/
  npages : Nat
  /-- The extent `x.nrows()`. -/
  nrows : Nat
  /-- The extent `x.ncols()`. -/
  ncols : Nat
  /-- The stored values. -/
  data : Nat → Nat → Nat → Nat → Nat → Nat → Nat → Numeric

/-- `chk_size` for a vector, `check_input.cc` lines 463-479. -/
def chk_size1 (x : ConstVectorView) (c : Index) : Check Unit :=
  if !is_size [nelem x] [c] then .error (.runtime_error (.wrong_size [c] [nelem x]))
  else .ok ()

/-- `chk_size` for a matrix, `check_input.cc` lines 494-513. -/
def chk_size2 (x : Matrix) (r c : Index) : Check Unit :=
  if !is_size [x.nrows, x.ncols] [r, c] then
    .error (.runtime_error (.wrong_size [r, c] [x.nrows, x.ncols]))
  else .ok ()

/-- `chk_size` for a rank-3 tensor, `check_input.cc` lines 529-551. -/
def chk_size3 (x : ConstTensor3View) (p r c : Index) : Check Unit :=
  if !is_size [x.npages, x.nrows, x.ncols] [p, r, c] then
    .error (.runtime_error (.wrong_size [p, r, c] [x.npages, x.nrows, x.ncols]))
  else .ok ()

/-- `chk_size` for a rank-4 tensor, `check_input.cc` lines 568-593. -/
def chk_size4 (x : ConstTensor4View) (b p r c : Index) : Check Unit :=
  if !is_size [x.nbooks, x.npages, x.nrows, x.ncols] [b, p, r, c] then
    .error (.runtime_error (.wrong_size [b, p, r, c]
      [x.nbooks, x.npages, x.nrows, x.ncols]))
  else .ok ()

/-- `chk_size` for a rank-5 tensor, `check_input.cc` lines 611-639. -/
def chk_size5 (x : ConstTensor5View) (s b p r c : Index) : Check Unit :=
  if !is_size [x.nshelves, x.nbooks, x.npages, x.nrows, x.ncols] [s, b, p, r, c] then
    .error (.runtime_error (.wrong_size [s, b, p, r, c]
      [x.nshelves, x.nbooks, x.npages, x.nrows, x.ncols]))
  else .ok ()

/-- `chk_size` for a rank-6 tensor, `check_input.cc` lines 658-689. -/
def chk_size6 (x : ConstTensor6View) (v s b p r c : Index) : Check Unit :=
  if !is_size [x.nvitrines, x.nshelves, x.nbooks, x.npages, x.nrows, x.ncols]
      [v, s, b, p, r, c] then
    .error (.runtime_error (.wrong_size [v, s, b, p, r, c]
      [x.nvitrines, x.nshelves, x.nbooks, x.npages, x.nrows, x.ncols]))
  else .ok ()

/-- `chk_size` for a rank-7 tensor, `check_input.cc` lines 709-743. -/
def chk_size7 (x : ConstTensor7View) (l v s b p r c : Index) : Check Unit :=
  if !is_size [x.nlibraries, x.nvitrines, x.nshelves, x.nbooks, x.npages, x.nrows, x.ncols]
      [l, v, s, b, p, r, c] then
    .error (.runtime_error (.wrong_size [l, v, s, b, p, r, c]
      [x.nlibraries, x.nvitrines, x.nshelves, x.nbooks, x.npages, x.nrows, x.ncols]))
  else .ok ()

/-- The constructor `Vector(n, fill)`: a vector of `n` elements, all equal to `fill`. -/
def Vector_fill (n : Nat) (fill : Numeric) : ConstVectorView := List.replicate n fill

/-- `chk_interpolation_grids` for a scalar new grid, `check_input.cc` lines 1062-1074:
`const Vector v(1, new_grid);` and the call of the vector form. -/
def chk_interpolation_grids_scalar (old_grid : ConstVectorView) (new_grid : Numeric)
    (order : Index) (extpolfac : Numeric) : Check Unit :=
  let v := Vector_fill 1 new_grid
  chk_interpolation_grids old_grid v order extpolfac

/-! ## The checks over doubles -/

namespace Ieee

/-- A read-only view of a vector of `Numeric`, its elements being doubles. -/
abbrev ConstVectorView := List Double

/-- `x.nelem()`. -/
def nelem (x : ConstVectorView) : Index := (x.length : Int)

/-- `x[i]` for a vector view: the element at position `i`, inside the vector only for
`0 <= i < x.nelem()`. -/
def index (x : ConstVectorView) (i : Index) : Check Double :=
  if 0 ≤ i then
    match x.get? i.toNat with
    | some v => .ok v
    | none => .error .out_of_range
  else .error .out_of_range

/-- Modelled from the spec: `is_increasing` of `logic.cc`, which is not among the sources.
Section 4.3: true iff every adjacent pair satisfies the strict inequality; single-element
and empty sequences are trivially monotonic.  The inequality is the comparison of
doubles, so a pair that holds a NaN does not satisfy it. -/
def is_increasing : ConstVectorView → Bool
  | a :: b :: r => decide (a < b) && is_increasing (b :: r)
  | _ => true

/-- Modelled from the spec: `is_decreasing` of `logic.cc`, which is not among the sources.
Section 4.3: true iff every adjacent pair satisfies the strict inequality; single-element
and empty sequences are trivially monotonic.  The inequality is the comparison of
doubles, so a pair that holds a NaN does not satisfy it. -/
def is_decreasing : ConstVectorView → Bool
  | a :: b :: r => decide (a > b) && is_decreasing (b :: r)
  | _ => true

/-- Modelled from the spec: `min` of the matrix library, which is not among the sources.
The spec's `min(newGrid)`: the smallest element of the vector, found by going through
the elements from element 0 and keeping an element that compares below the smallest one
so far.  An empty vector is read out of range. -/
def vec_min : ConstVectorView → Check Double
  | [] => .error .out_of_range
  | a :: r => .ok (r.foldl (fun m v => if v < m then v else m) a)

/-- Modelled from the spec: `max` of the matrix library, which is not among the sources.
The spec's `max(newGrid)`: the largest element of the vector, found by going through the
elements from element 0 and keeping an element that compares above the largest one so
far.  An empty vector is read out of range. -/
def vec_max : ConstVectorView → Check Double
  | [] => .error .out_of_range
  | a :: r => .ok (r.foldl (fun m v => if v > m then v else m) a)

/-- `chk_if_increasing` (Vector form), `check_input.cc` lines 295-307. -/
def chk_if_increasing (x_name : String) (x : ConstVectorView) : Check Unit :=
  if !is_increasing x then .error (.runtime_error (.not_increasing_double x_name x))
  else .ok ()

/-- `chk_if_decreasing`, `check_input.cc` lines 325-336. -/
def chk_if_decreasing (x_name : String) (x : ConstVectorView) : Check Unit :=
  if !is_decreasing x then .error (.runtime_error (.not_decreasing x_name))
  else .ok ()

/-- The setup of `chk_interpolation_grids`, `check_input.cc` lines 950-1004: the size
test, the direction test on the first two elements, the sortedness test and the limits of
extrapolation, computed with the machine's arithmetic.  Yields
`(ascending, og_min, og_max)`. -/
def grid_limits (A : Arith) (old_grid : ConstVectorView) (order : Index)
    (extpolfac : Double) : Check (Bool × Double × Double) := do
  let n_old := nelem old_grid
  -- Old grid must have at least order+1 elements:
  if n_old < order + 1 then
    throw (.runtime_error (.too_few_elements (order + 1)))
  else
    -- Decide whether we have an ascending or descending grid:
    let g0 ← index old_grid 0
    let g1 ← index old_grid 1
    let ascending : Bool := decide (g0 ≤ g1)
    if ascending then
      -- Old grid must be strictly increasing (no duplicate values.)
      if !is_increasing old_grid then
        throw (.runtime_error (.not_strictly_sorted_double old_grid))
      else
        let a0 ← index old_grid 0
        let a1 ← index old_grid 1
        let og_min := A.sub a0 (A.mul extpolfac (A.sub a1 a0))
        let z1 ← index old_grid (n_old - 1)
        let z2 ← index old_grid (n_old - 2)
        let og_max := A.add z1 (A.mul extpolfac (A.sub z1 z2))
        pure (true, og_min, og_max)
    else
      -- Old grid must be strictly decreasing (no duplicate values.)
      if !is_decreasing old_grid then
        throw (.runtime_error (.not_strictly_sorted_double old_grid))
      else
        -- The max is now the first point, the min the last point!
        let a0 ← index old_grid 0
        let a1 ← index old_grid 1
        let og_max := A.sub a0 (A.mul extpolfac (A.sub a1 a0))
        let z1 ← index old_grid (n_old - 1)
        let z2 ← index old_grid (n_old - 2)
        let og_min := A.add z1 (A.mul extpolfac (A.sub z1 z2))
        pure (false, og_min, og_max)

/-- `chk_interpolation_grids` (vector form), `check_input.cc` lines 944-1036. -/
def chk_interpolation_grids (A : Arith) (old_grid new_grid : ConstVectorView)
    (order : Index) (extpolfac : Double) : Check Unit := do
  let (_, og_min, og_max) ← grid_limits A old_grid order extpolfac
  -- Min and max of new grid:
  let ng_min ← vec_min new_grid
  let ng_max ← vec_max new_grid
  -- New grid must be inside old grid (plus extpolfac).
  if ng_min < og_min then
    let old_min ← vec_min old_grid
    throw (.runtime_error (.minimum_outside_double old_min og_min ng_min))
  else if ng_max > og_max then
    let old_max ← vec_max old_grid
    throw (.runtime_error (.maximum_outside_double old_max og_max ng_max))
  else
    pure ()

/-- `chk_atm_grids`, `check_input.cc` lines 1099-1157. -/
def chk_atm_grids (A : Arith) (dim : Index) (p_grid lat_grid lon_grid : ConstVectorView) :
    Check Unit := do
  -- p_grid
  throw_if (nelem p_grid < 2) .p_grid_length
  chk_if_decreasing "p_grid" p_grid
  -- lat_grid
  (if dim = 1 then
    throw_if (nelem lat_grid > 0) .lat_grid_length_0
  else do
    throw_if (nelem lat_grid < 2) .lat_grid_length_2
    chk_if_increasing "lat_grid" lat_grid)
  -- lon_grid
  (if dim < 3 then
    throw_if (nelem lon_grid > 0) .lon_grid_length_0
  else do
    throw_if (nelem lon_grid < 2) .lon_grid_length_2
    chk_if_increasing "lon_grid" lon_grid)
  -- Check that latitude and longitude grids are inside OK ranges for 3D
  (if dim = 3 then do
    throw_if ((← index lat_grid 0) < .fin (-90)) .lat_below
    throw_if ((← index lat_grid (nelem lat_grid - 1)) > .fin 90) .lat_above
    throw_if ((← index lon_grid 0) < .fin (-360)) .lon_below
    throw_if ((← index lon_grid (nelem lon_grid - 1)) > .fin 360) .lon_above
    throw_if (A.sub (← index lon_grid (nelem lon_grid - 1)) (← index lon_grid 0) > .fin 360)
      .lon_span
  else pure ())

/-- A read-only view of a rank-3 tensor of doubles: its three extents and its elements,
which are meaningful only at positions inside the extents. -/
structure ConstTensor3View where
  /-- The outermost extent, `x.npages()`. -/
  npages : Nat
  /-- The middle extent, `x.nrows()`. -/
  nrows : Nat
  /-- The innermost extent, `x.ncols()`. -/
  ncols : Nat
  /-- The stored values by (page, row, column). -/
  data : Nat → Nat → Nat → Double

/-- `x(p, r, c)` for a rank-3 view: inside the tensor only when every position is
inside its extent. -/
def ConstTensor3View.elem (x : ConstTensor3View) (p r c : Index) : Check Double :=
  if 0 ≤ p ∧ p < x.npages ∧ 0 ≤ r ∧ r < x.nrows ∧ 0 ≤ c ∧ c < x.ncols then
    .ok (x.data p.toNat r.toNat c.toNat)
  else .error .out_of_range

/-- The test `fabs(a - b) > 0` of the cyclic and the pole checks, `check_input.cc` lines
1211, 1231, 1251, 1343, 1367, 1391 and 1509, on the difference as the machine computes
it: false when that difference is 0, and false when it is NaN. -/
def differ (A : Arith) (a b : Double) : Prop := (A.sub a b).abs > .fin 0

instance (A : Arith) (a b : Double) : Decidable (differ A a b) :=
  inferInstanceAs (Decidable ((A.sub a b).abs > .fin 0))

/-- `chk_atm_field` for simple (rank-3) fields, `check_input.cc` lines 1177-1264.  A
comparison `==` with a constant is equality of the values: a NaN equals no constant. -/
def chk_atm_field (A : Arith) (x : ConstTensor3View) (dim : Index)
    (p_grid lat_grid lon_grid : ConstVectorView) : Check Unit := do
  -- It is assumed that grids OK-ed through chk_atm_grids
  let npages : Index := nelem p_grid
  let nrows : Index := if dim > 1 then nelem lat_grid else 1
  let ncols : Index := if dim > 2 then nelem lon_grid else 1
  throw_if ((x.ncols : Index) ≠ ncols ∨ (x.nrows : Index) ≠ nrows ∨ (x.npages : Index) ≠ npages)
    (.field_wrong_size [npages, nrows, ncols] [x.npages, x.nrows, x.ncols])
  -- Special 3D checks:
  (if dim = 3 then do
    -- If all lons are covered, check if cyclic
    (if A.sub (← index lon_grid (ncols - 1)) (← index lon_grid 0) = .fin 360 then
      let ic := ncols - 1
      for_index 0 npages fun ip =>
        for_index 0 nrows fun ir => do
          throw_if (differ A (← x.elem ip ir ic) (← x.elem ip ir 0))
            (.not_cyclic none)
    else pure ())
    -- No variation at the South pole!
    (if (← index lat_grid 0) = .fin (-90) then
      for_index 0 npages fun ip =>
        for_index 1 ncols fun ic => do
          throw_if (differ A (← x.elem ip 0 ic) (← x.elem ip 0 (ic - 1)))
            (.south_pole none)
    else pure ())
    -- No variation at the North pole!
    (if (← index lat_grid (nrows - 1)) = .fin 90 then
      let ir := nrows - 1
      for_index 0 npages fun ip =>
        for_index 1 ncols fun ic => do
          throw_if (differ A (← x.elem ip ir ic) (← x.elem ip ir (ic - 1)))
            (.north_pole none)
    else pure ())
  else pure ())

/-- A read-only view of a rank-4 tensor of doubles: its four extents and its elements,
which are meaningful only at positions inside the extents. -/
structure ConstTensor4View where
  /-- The outermost extent, `x.nbooks()`. -/
  nbooks : Nat
  /-- The second extent, `x.npages()`. -/
  npages : Nat
  /-- The third extent, `x.nrows()`. -/
  nrows : Nat
  /-- The innermost extent, `x.ncols()`. -/
  ncols : Nat
  /-- The stored values by (book, page, row, column). -/
  data : Nat → Nat → Nat → Nat → Double

/-- `x(b, p, r, c)` for a rank-4 view: inside the tensor only when every position is
inside its extent. -/
def ConstTensor4View.elem (x : ConstTensor4View) (b p r c : Index) : Check Double :=
  if 0 ≤ b ∧ b < x.nbooks ∧ 0 ≤ p ∧ p < x.npages ∧ 0 ≤ r ∧ r < x.nrows ∧
      0 ≤ c ∧ c < x.ncols then
    .ok (x.data b.toNat p.toNat r.toNat c.toNat)
  else .error .out_of_range

/-- `chk_atm_field` for fields with a species dimension (rank 4), `check_input.cc`
lines 1287-1406. -/
def chk_atm_field4 (A : Arith) (x : ConstTensor4View) (dim nspecies : Index)
    (p_grid lat_grid lon_grid : ConstVectorView) : Check Unit :=
  let nbooks : Index := nspecies
  if nbooks = 0 then
    (if (x.nbooks : Index) ≠ 0 then .error (.runtime_error .should_be_empty)
    else .ok ())
  else do
    let npages : Index := nelem p_grid
    let nrows : Index := if dim > 1 then nelem lat_grid else 1
    let ncols : Index := if dim > 2 then nelem lon_grid else 1
    throw_if ((x.ncols : Index) ≠ ncols ∨ (x.nrows : Index) ≠ nrows ∨
        (x.npages : Index) ≠ npages ∨ (x.nbooks : Index) ≠ nbooks)
      (.field_wrong_size [nbooks, npages, nrows, ncols]
        [x.nbooks, x.npages, x.nrows, x.ncols])
    -- Special 3D checks:
    (if dim = 3 then do
      -- If all lons are covered, check if cyclic
      (if A.sub (← index lon_grid (ncols - 1)) (← index lon_grid 0) = .fin 360 then
        let ic := ncols - 1
        for_index 0 nspecies fun is =>
          for_index 0 npages fun ip =>
            for_index 0 nrows fun ir => do
              throw_if (differ A (← x.elem is ip ir ic) (← x.elem is ip ir 0))
                (.not_cyclic (some is))
      else pure ())
      -- No variation at the South pole!
      (if (← index lat_grid 0) = .fin (-90) then
        for_index 0 nspecies fun is =>
          for_index 0 npages fun ip =>
            for_index 1 ncols fun ic => do
              throw_if (differ A (← x.elem is ip 0 ic) (← x.elem is ip 0 (ic - 1)))
                (.south_pole (some is))
      else pure ())
      -- No variation at the North pole!
      (if (← index lat_grid (nrows - 1)) = .fin 90 then
        let ir := nrows - 1
        for_index 0 nspecies fun is =>
          for_index 0 npages fun ip =>
            for_index 1 ncols fun ic => do
              throw_if (differ A (← x.elem is ip ir ic) (← x.elem is ip ir (ic - 1)))
                (.north_pole (some is))
      else pure ())
    else pure ())

/-- A read-only matrix of doubles: its two extents and its elements, which are meaningful
only at positions inside the extents. -/
structure Matrix where
  /-- The outer extent, `x.nrows()`. -/
  nrows : Nat
  /-- The inner extent, `x.ncols()`. -/
  ncols : Nat
  /-- The stored values by (row, column). -/
  data : Nat → Nat → Double

/-- `x(r, c)` for a matrix: inside it only when both positions are inside their
extents. -/
def Matrix.elem (x : Matrix) (r c : Index) : Check Double :=
  if 0 ≤ r ∧ r < x.nrows ∧ 0 ≤ c ∧ c < x.ncols then .ok (x.data r.toNat c.toNat)
  else .error .out_of_range

/-- `chk_atm_surface`, `check_input.cc` lines 1483-1520. -/
def chk_atm_surface (A : Arith) (x : Matrix) (dim : Index)
    (lat_grid lon_grid : ConstVectorView) : Check Unit := do
  let nrows : Index := if dim > 1 then nelem lat_grid else 1
  let ncols : Index := if dim > 2 then nelem lon_grid else 1
  throw_if ((x.ncols : Index) ≠ ncols ∨ (x.nrows : Index) ≠ nrows)
    (.surface_wrong_size [nrows, ncols] [x.nrows, x.ncols])
  -- If all lons are covered, check if cyclic
  (if dim = 3 then do
    (if A.sub (← index lon_grid (ncols - 1)) (← index lon_grid 0) = .fin 360 then
      let ic := ncols - 1
      for_index 0 nrows fun ir => do
        throw_if (differ A (← x.elem ir ic) (← x.elem ir 0)) .surface_not_cyclic
    else pure ())
  else pure ())

/-- `chk_if_in_range` for a `Numeric`, `check_input.cc` lines 194-208. -/
def chk_if_in_range (x x_low x_high : Double) : Check Unit :=
  if x < x_low ∨ x > x_high then .error (.runtime_error (.not_in_range x x_low x_high))
  else .ok ()

/-- `chk_vector_length` for two vectors, `check_input.cc` lines 262-277. -/
def chk_vector_length2 (x1 x2 : ConstVectorView) : Check Unit :=
  if nelem x1 ≠ nelem x2 then .error (.runtime_error (.not_same_length (nelem x1) (nelem x2)))
  else .ok ()

/-- `chk_if_equal`, `check_input.cc` lines 354-377. -/
def chk_if_equal (A : Arith) (v1 v2 : ConstVectorView) (margin : Double) : Check Unit := do
  chk_vector_length2 v1 v2
  for_index 0 (nelem v1) fun i => do
    let a ← index v1 i
    let b ← index v2 i
    throw_if ((A.sub a b).abs > margin) (.vectors_differ i a b margin)

end Ieee

/-- Modelled from the spec: the species slice `x(is, :, :, :)` of a rank-4 view (the
matrix library's `x(is, joker, joker, joker)`, which is not among the sources): the
rank-3 view with the pages, rows and columns of `x` and the elements of book `is`. -/
def ConstTensor4View.book (x : ConstTensor4View) (is : Nat) : ConstTensor3View :=
  ⟨x.npages, x.nrows, x.ncols, fun p r c => x.data is p r c⟩

/-- A check has failed: it threw `runtime_error` (with some message). -/
def fails {α : Type} (r : Check α) : Prop := ∃ m, r = .error (.runtime_error m)

/-! ## Elements, sortedness and extrema -/

/-- Reading a position inside the vector yields the element there. -/
theorem index_natCast (x : ConstVectorView) (i : Nat) (h : i < x.length) :
    index x (i : Int) = .ok (x.getD i 0) := by
  unfold index
  simp [List.getD_eq_getElem?_getD, List.getElem?_eq_getElem h]

theorem index_zero (x : ConstVectorView) (h : 0 < x.length) :
    index x 0 = .ok (x.getD 0 0) := by
  simpa using index_natCast x 0 h

theorem index_one (x : ConstVectorView) (h : 1 < x.length) :
    index x 1 = .ok (x.getD 1 0) := by
  simpa using index_natCast x 1 h

theorem index_nelem_sub (x : ConstVectorView) (k : Nat) (hk : 0 < k) (h : k ≤ x.length) :
    index x (nelem x - (k : Int)) = .ok (x.getD (x.length - k) 0) := by
  have : nelem x - (k : Int) = ((x.length - k : Nat) : Int) := by
    unfold nelem
    rw [Nat.cast_sub h]
  rw [this]
  exact index_natCast x _ (by omega)

/-- `is_increasing` holds exactly of the strictly increasing lists. -/
theorem is_increasing_iff (x : ConstVectorView) :
    is_increasing x = true ↔ x.Sorted (· < ·) := by
  unfold List.Sorted
  rw [← List.chain'_iff_pairwise]
  induction x with
  | nil => simp [is_increasing]
  | cons a r ih =>
    cases r with
    | nil => simp [is_increasing]
    | cons b r => simp [is_increasing, List.chain'_cons, ih]

/-- `is_decreasing` holds exactly of the strictly decreasing lists. -/
theorem is_decreasing_iff (x : ConstVectorView) :
    is_decreasing x = true ↔ x.Sorted (· > ·) := by
  unfold List.Sorted
  rw [← List.chain'_iff_pairwise]
  induction x with
  | nil => simp [is_decreasing]
  | cons a r ih =>
    cases r with
    | nil => simp [is_decreasing]
    | cons b r => simp [is_decreasing, List.chain'_cons, ih]

theorem foldl_min_isLeast (r : List Numeric) (a : Numeric) :
    IsLeast {v | v ∈ a :: r} (r.foldl (fun m v => if v < m then v else m) a) := by
  induction r generalizing a with
  | nil => simp [IsLeast, lowerBounds]
  | cons b r ih =>
    simp only [List.foldl_cons]
    by_cases hba : b < a
    · rw [if_pos hba]
      obtain ⟨hmem, hlow⟩ := ih b
      refine ⟨?_, ?_⟩
      · simp only [Set.mem_setOf_eq, List.mem_cons] at hmem ⊢
        tauto
      · intro v hv
        simp only [Set.mem_setOf_eq, List.mem_cons] at hv
        rcases hv with rfl | rfl | hv
        · exact le_trans (hlow (by simp)) (le_of_lt hba)
        · exact hlow (by simp)
        · exact hlow (by simp [hv])
    · rw [if_neg hba]
      obtain ⟨hmem, hlow⟩ := ih a
      refine ⟨?_, ?_⟩
      · simp only [Set.mem_setOf_eq, List.mem_cons] at hmem ⊢
        tauto
      · intro v hv
        simp only [Set.mem_setOf_eq, List.mem_cons] at hv
        rcases hv with rfl | rfl | hv
        · exact hlow (by simp)
        · exact le_trans (hlow (by simp)) (not_lt.mp hba)
        · exact hlow (by simp [hv])

/-- On a non-empty vector `vec_min` yields its least element. -/
theorem vec_min_isLeast (x : ConstVectorView) (hx : x ≠ []) :
    ∃ m, vec_min x = .ok m ∧ IsLeast {v | v ∈ x} m := by
  cases x with
  | nil => exact absurd rfl hx
  | cons a r => exact ⟨_, rfl, foldl_min_isLeast r a⟩

theorem foldl_max_isGreatest (r : List Numeric) (a : Numeric) :
    IsGreatest {v | v ∈ a :: r} (r.foldl (fun m v => if v > m then v else m) a) := by
  induction r generalizing a with
  | nil => simp [IsGreatest, upperBounds]
  | cons b r ih =>
    simp only [List.foldl_cons]
    by_cases hba : b > a
    · rw [if_pos hba]
      obtain ⟨hmem, hup⟩ := ih b
      refine ⟨?_, ?_⟩
      · simp only [Set.mem_setOf_eq, List.mem_cons] at hmem ⊢
        tauto
      · intro v hv
        simp only [Set.mem_setOf_eq, List.mem_cons] at hv
        rcases hv with rfl | rfl | hv
        · exact le_trans (le_of_lt hba) (hup (by simp))
        · exact hup (by simp)
        · exact hup (by simp [hv])
    · rw [if_neg hba]
      obtain ⟨hmem, hup⟩ := ih a
      refine ⟨?_, ?_⟩
      · simp only [Set.mem_setOf_eq, List.mem_cons] at hmem ⊢
        tauto
      · intro v hv
        simp only [Set.mem_setOf_eq, List.mem_cons] at hv
        rcases hv with rfl | rfl | hv
        · exact hup (by simp)
        · exact le_trans (not_lt.mp hba) (hup (by simp))
        · exact hup (by simp [hv])

/-- On a non-empty vector `vec_max` yields its greatest element. -/
theorem vec_max_isGreatest (x : ConstVectorView) (hx : x ≠ []) :
    ∃ m, vec_max x = .ok m ∧ IsGreatest {v | v ∈ x} m := by
  cases x with
  | nil => exact absurd rfl hx
  | cons a r => exact ⟨_, rfl, foldl_max_isGreatest r a⟩

/-! ## The limits of extrapolation and the strict interpolation check -/

/-- The setup on a strictly increasing old grid that is long enough. -/
theorem grid_limits_ascending (old_grid : ConstVectorView) (order : Index) (e : Numeric)
    (hsorted : old_grid.Sorted (· < ·)) (hlen : max 2 (order + 1) ≤ nelem old_grid) :
    grid_limits old_grid order e = .ok (true,
      old_grid.getD 0 0 - e * (old_grid.getD 1 0 - old_grid.getD 0 0),
      old_grid.getD (old_grid.length - 1) 0 +
        e * (old_grid.getD (old_grid.length - 1) 0 - old_grid.getD (old_grid.length - 2) 0)) := by
  have h2 : 2 ≤ old_grid.length := by
    have : (2 : Int) ≤ nelem old_grid := le_trans (le_max_left _ _) hlen
    unfold nelem at this; omega
  have ho : ¬ nelem old_grid < order + 1 := not_lt.mpr (le_trans (le_max_right _ _) hlen)
  have hinc : is_increasing old_grid = true := (is_increasing_iff _).mpr hsorted
  have h01 : old_grid.getD 0 0 ≤ old_grid.getD 1 0 := by
    match old_grid, hsorted, h2 with
    | a :: b :: r, hs, _ =>
      simp only [List.sorted_cons, List.mem_cons] at hs
      simpa using le_of_lt (hs.1 b (Or.inl rfl))
  have i0 := index_zero old_grid (by omega)
  have i1 := index_one old_grid (by omega)
  have z1 := index_nelem_sub old_grid 1 (by omega) (by omega)
  have z2 := index_nelem_sub old_grid 2 (by omega) (by omega)
  simp only [Nat.cast_one, Nat.cast_ofNat] at z1 z2
  unfold grid_limits
  simp only [ho, i0, i1, z1, z2, hinc, h01, bind, Except.bind, pure, Except.pure, if_false,
    decide_True, if_true, Bool.not_true, Bool.false_eq_true]

/-- The setup on a strictly decreasing old grid that is long enough. -/
theorem grid_limits_descending (old_grid : ConstVectorView) (order : Index) (e : Numeric)
    (hsorted : old_grid.Sorted (· > ·)) (hlen : max 2 (order + 1) ≤ nelem old_grid) :
    grid_limits old_grid order e = .ok (false,
      old_grid.getD (old_grid.length - 1) 0 +
        e * (old_grid.getD (old_grid.length - 1) 0 - old_grid.getD (old_grid.length - 2) 0),
      old_grid.getD 0 0 - e * (old_grid.getD 1 0 - old_grid.getD 0 0)) := by
  have h2 : 2 ≤ old_grid.length := by
    have : (2 : Int) ≤ nelem old_grid := le_trans (le_max_left _ _) hlen
    unfold nelem at this; omega
  have ho : ¬ nelem old_grid < order + 1 := not_lt.mpr (le_trans (le_max_right _ _) hlen)
  have hdec : is_decreasing old_grid = true := (is_decreasing_iff _).mpr hsorted
  have h01 : ¬ old_grid.getD 0 0 ≤ old_grid.getD 1 0 := by
    match old_grid, hsorted, h2 with
    | a :: b :: r, hs, _ =>
      simp only [List.sorted_cons, List.mem_cons] at hs
      simpa using hs.1 b (Or.inl rfl)
  have i0 := index_zero old_grid (by omega)
  have i1 := index_one old_grid (by omega)
  have z1 := index_nelem_sub old_grid 1 (by omega) (by omega)
  have z2 := index_nelem_sub old_grid 2 (by omega) (by omega)
  simp only [Nat.cast_one, Nat.cast_ofNat] at z1 z2
  unfold grid_limits
  simp only [ho, i0, i1, z1, z2, hdec, h01, bind, Except.bind, pure, Except.pure, if_false,
    decide_False, if_true, Bool.not_true, Bool.false_eq_true]

/-- The strict check once the limits and the extrema of the new grid are known. -/
theorem chk_interpolation_grids_eq (old_grid new_grid : ConstVectorView) (order : Index)
    (e : Numeric) (asc : Bool) (og_min og_max lo hi : Numeric)
    (hl : grid_limits old_grid order e = .ok (asc, og_min, og_max))
    (hlo : vec_min new_grid = .ok lo) (hhi : vec_max new_grid = .ok hi) :
    chk_interpolation_grids old_grid new_grid order e =
      if lo < og_min then
        (vec_min old_grid).bind fun m => .error (.runtime_error (.minimum_outside m og_min lo))
      else if hi > og_max then
        (vec_max old_grid).bind fun m => .error (.runtime_error (.maximum_outside m og_max hi))
      else .ok () := by
  unfold chk_interpolation_grids
  simp only [hl, hlo, hhi, bind, Except.bind, pure, Except.pure, throw, throwThe,
    MonadExceptOf.throw]

/-- Success of the strict check in terms of the limits and the extrema. -/
theorem chk_interpolation_grids_ok_iff (old_grid new_grid : ConstVectorView) (order : Index)
    (e : Numeric) (asc : Bool) (og_min og_max lo hi : Numeric)
    (hl : grid_limits old_grid order e = .ok (asc, og_min, og_max))
    (hlo : vec_min new_grid = .ok lo) (hhi : vec_max new_grid = .ok hi) :
    chk_interpolation_grids old_grid new_grid order e = .ok () ↔ og_min ≤ lo ∧ hi ≤ og_max := by
  rw [chk_interpolation_grids_eq old_grid new_grid order e asc og_min og_max lo hi hl hlo hhi]
  by_cases h1 : lo < og_min
  · rw [if_pos h1]
    constructor
    · intro h
      cases hv : vec_min old_grid <;> simp [hv, Except.bind] at h
    · intro h
      exact absurd h.1 (not_le.mpr h1)
  · rw [if_neg h1]
    by_cases h2 : hi > og_max
    · rw [if_pos h2]
      constructor
      · intro h
        cases hv : vec_max old_grid <;> simp [hv, Except.bind] at h
      · intro h
        exact absurd h.2 (not_le.mpr h2)
    · rw [if_neg h2]
      exact ⟨fun _ => ⟨not_lt.mp h1, not_lt.mp h2⟩, fun _ => rfl⟩

theorem vec_min_eq_of_isLeast (x : ConstVectorView) (lo : Numeric)
    (h : IsLeast {v | v ∈ x} lo) : vec_min x = .ok lo := by
  have hne : x ≠ [] := by
    intro h0
    have := h.1
    simp [h0] at this
  obtain ⟨m, hm, hl⟩ := vec_min_isLeast x hne
  rw [hm, hl.unique h]

theorem vec_max_eq_of_isGreatest (x : ConstVectorView) (hi : Numeric)
    (h : IsGreatest {v | v ∈ x} hi) : vec_max x = .ok hi := by
  have hne : x ≠ [] := by
    intro h0
    have := h.1
    simp [h0] at this
  obtain ⟨m, hm, hl⟩ := vec_max_isGreatest x hne
  rw [hm, hl.unique h]

/-- Every element of a strictly increasing list lies between its first and last. -/
theorem sorted_lt_bounds (x : ConstVectorView) (h : x.Sorted (· < ·)) (v : Numeric)
    (hv : v ∈ x) : x.getD 0 0 ≤ v ∧ v ≤ x.getD (x.length - 1) 0 := by
  obtain ⟨i, hi, rfl⟩ := List.getElem_of_mem hv
  have hp := List.pairwise_iff_getElem.mp h
  rw [List.getD_eq_getElem x 0 (by omega), List.getD_eq_getElem x 0 (by omega)]
  constructor
  · rcases Nat.eq_zero_or_pos i with h0 | h0
    · subst h0; exact le_refl _
    · exact le_of_lt (hp 0 i (by omega) hi h0)
  · rcases Nat.lt_or_ge i (x.length - 1) with h1 | h1
    · exact le_of_lt (hp i (x.length - 1) hi (by omega) h1)
    · have : i = x.length - 1 := by omega
      subst this; exact le_refl _

/-- Every element of a strictly decreasing list lies between its last and first. -/
theorem sorted_gt_bounds (x : ConstVectorView) (h : x.Sorted (· > ·)) (v : Numeric)
    (hv : v ∈ x) : x.getD (x.length - 1) 0 ≤ v ∧ v ≤ x.getD 0 0 := by
  obtain ⟨i, hi, rfl⟩ := List.getElem_of_mem hv
  have hp := List.pairwise_iff_getElem.mp h
  rw [List.getD_eq_getElem x 0 (by omega), List.getD_eq_getElem x 0 (by omega)]
  constructor
  · rcases Nat.lt_or_ge i (x.length - 1) with h1 | h1
    · exact le_of_lt (hp i (x.length - 1) hi (by omega) h1)
    · have : i = x.length - 1 := by omega
      subst this; exact le_refl _
  · rcases Nat.eq_zero_or_pos i with h0 | h0
    · subst h0; exact le_refl _
    · exact le_of_lt (hp 0 i (by omega) hi h0)

theorem length_ge_two_of_nelem (x : ConstVectorView) (order : Index)
    (hlen : max 2 (order + 1) ≤ nelem x) : 2 ≤ x.length := by
  have : (2 : Int) ≤ nelem x := le_trans (le_max_left _ _) hlen
  unfold nelem at this; omega

theorem sorted_lt_first_two (x : ConstVectorView) (h : x.Sorted (· < ·)) (h2 : 2 ≤ x.length) :
    x.getD 0 0 < x.getD 1 0 ∧ x.getD (x.length - 2) 0 < x.getD (x.length - 1) 0 := by
  have hp := List.pairwise_iff_getElem.mp h
  rw [List.getD_eq_getElem x 0 (by omega), List.getD_eq_getElem x 0 (by omega),
    List.getD_eq_getElem x 0 (by omega), List.getD_eq_getElem x 0 (by omega)]
  exact ⟨hp 0 1 (by omega) (by omega) (by omega),
    hp (x.length - 2) (x.length - 1) (by omega) (by omega) (by omega)⟩

theorem sorted_gt_first_two (x : ConstVectorView) (h : x.Sorted (· > ·)) (h2 : 2 ≤ x.length) :
    x.getD 1 0 < x.getD 0 0 ∧ x.getD (x.length - 1) 0 < x.getD (x.length - 2) 0 := by
  have hp := List.pairwise_iff_getElem.mp h
  rw [List.getD_eq_getElem x 0 (by omega), List.getD_eq_getElem x 0 (by omega),
    List.getD_eq_getElem x 0 (by omega), List.getD_eq_getElem x 0 (by omega)]
  exact ⟨hp 0 1 (by omega) (by omega) (by omega),
    hp (x.length - 2) (x.length - 1) (by omega) (by omega) (by omega)⟩

/-- C3, as stated, fails on the code. With the strictly increasing old grid 1, 2, 3 (three
elements, order 1) and the new grid consisting of 1 alone, which lies inside the range of
the old grid, the factor -1/2 moves the lower limit up to 3/2 and the check throws; and
with order 0 the one-element old grid 1 has `order+1` elements, yet the direction test
reads `old_grid[1]` outside the grid and the check does not succeed. -/
theorem chk_interpolation_grids_inside_counterexample :
    (([1, 2, 3] : ConstVectorView).Sorted (· < ·) ∧ (1 : Index) + 1 ≤ nelem [1, 2, 3] ∧
      IsLeast {v | v ∈ ([1] : ConstVectorView)} 1 ∧
      IsGreatest {v | v ∈ ([1] : ConstVectorView)} 1 ∧
      IsLeast {v | v ∈ ([1, 2, 3] : ConstVectorView)} 1 ∧
      IsGreatest {v | v ∈ ([1, 2, 3] : ConstVectorView)} 3 ∧
      ((1 : Numeric) ≤ 1 ∧ (1 : Numeric) ≤ 3) ∧
      chk_interpolation_grids [1, 2, 3] [1] 1 (-1 / 2) =
        .error (.runtime_error (.minimum_outside 1 (3 / 2) 1))) ∧
    (([1] : ConstVectorView).Sorted (· < ·) ∧ (0 : Index) + 1 ≤ nelem [1] ∧
      chk_interpolation_grids [1] [1] 0 0 = .error .out_of_range) := by
  refine ⟨⟨by norm_num [List.Sorted], by decide, ⟨by simp, ?_⟩, ⟨by simp, ?_⟩, ⟨by simp, ?_⟩,
    ⟨by simp, ?_⟩, by norm_num, ?_⟩, by simp [List.Sorted], by decide, ?_⟩
  · intro v hv; simp at hv; subst hv; exact le_refl _
  · intro v hv; simp at hv; subst hv; exact le_refl _
  · intro v hv; simp at hv; rcases hv with rfl | rfl | rfl <;> norm_num
  · intro v hv; simp at hv; rcases hv with rfl | rfl | rfl <;> norm_num
  · norm_num [chk_interpolation_grids, grid_limits, index, nelem, is_increasing, vec_min,
      vec_max, bind, Except.bind, pure, Except.pure, throw, throwThe, MonadExceptOf.throw]
  · norm_num [chk_interpolation_grids, grid_limits, index, nelem, is_increasing, vec_min,
      vec_max, bind, Except.bind, pure, Except.pure, throw, throwThe, MonadExceptOf.throw]

/-- C3, amended. For a strictly monotonic old grid with at least `max(2, order+1)`
elements, an extrapolation factor `e >= 0` and a new grid whose least and greatest
elements lie inside `[min(old_grid), max(old_grid)]`, `chk_interpolation_grids`
succeeds. -/
theorem chk_interpolation_grids_inside (old_grid new_grid : ConstVectorView)
    (order : Index) (e lo hi old_min old_max : Numeric)
    (hmono : old_grid.Sorted (· < ·) ∨ old_grid.Sorted (· > ·))
    (hlen : max 2 (order + 1) ≤ nelem old_grid) (he : 0 ≤ e)
    (hlo : IsLeast {v | v ∈ new_grid} lo) (hhi : IsGreatest {v | v ∈ new_grid} hi)
    (hmin : IsLeast {v | v ∈ old_grid} old_min)
    (hmax : IsGreatest {v | v ∈ old_grid} old_max)
    (h1 : old_min ≤ lo) (h2 : hi ≤ old_max) :
    chk_interpolation_grids old_grid new_grid order e = .ok () := by
  have hl2 := length_ge_two_of_nelem old_grid order hlen
  rcases hmono with hs | hs
  · rw [chk_interpolation_grids_ok_iff old_grid new_grid order e true _ _ lo hi
      (grid_limits_ascending old_grid order e hs hlen)
      (vec_min_eq_of_isLeast new_grid lo hlo) (vec_max_eq_of_isGreatest new_grid hi hhi)]
    have ha := (sorted_lt_bounds old_grid hs old_min hmin.1).1
    have hb := (sorted_lt_bounds old_grid hs old_max hmax.1).2
    obtain ⟨hf, hg⟩ := sorted_lt_first_two old_grid hs hl2
    constructor
    · nlinarith [mul_nonneg he (le_of_lt (sub_pos.mpr hf))]
    · nlinarith [mul_nonneg he (le_of_lt (sub_pos.mpr hg))]
  · rw [chk_interpolation_grids_ok_iff old_grid new_grid order e false _ _ lo hi
      (grid_limits_descending old_grid order e hs hlen)
      (vec_min_eq_of_isLeast new_grid lo hlo) (vec_max_eq_of_isGreatest new_grid hi hhi)]
    have ha := (sorted_gt_bounds old_grid hs old_min hmin.1).1
    have hb := (sorted_gt_bounds old_grid hs old_max hmax.1).2
    obtain ⟨hf, hg⟩ := sorted_gt_first_two old_grid hs hl2
    constructor
    · nlinarith [mul_nonneg he (le_of_lt (sub_pos.mpr hf))]
    · nlinarith [mul_nonneg he (le_of_lt (sub_pos.mpr hg))]

/-- The amended C3 applied to the old grid 1, 2, 3 and the new grid 1, 3 with factor 0. -/
theorem chk_interpolation_grids_inside_witness :
    chk_interpolation_grids [1, 2, 3] [1, 3] 1 0 = .ok () :=
  chk_interpolation_grids_inside [1, 2, 3] [1, 3] 1 0 1 3 1 3
    (Or.inl (by norm_num [List.Sorted])) (by decide) (le_refl 0)
    ⟨by simp, by intro v hv; simp at hv; rcases hv with rfl | rfl <;> norm_num⟩
    ⟨by simp, by intro v hv; simp at hv; rcases hv with rfl | rfl <;> norm_num⟩
    ⟨by simp, by intro v hv; simp at hv; rcases hv with rfl | rfl | rfl <;> norm_num⟩
    ⟨by simp, by intro v hv; simp at hv; rcases hv with rfl | rfl | rfl <;> norm_num⟩
    (le_refl 1) (le_refl 3)

theorem grid_limits_ok_nonempty (old_grid : ConstVectorView) (order : Index) (e : Numeric)
    (r : Bool × Numeric × Numeric) (h : grid_limits old_grid order e = .ok r) :
    old_grid ≠ [] := by
  intro h0
  subst h0
  unfold grid_limits at h
  by_cases hc : nelem [] < order + 1
  · simp [hc, throw, throwThe, MonadExceptOf.throw] at h
  · simp [hc, index, bind, Except.bind] at h

theorem chk_interpolation_grids_of_error (old_grid new_grid : ConstVectorView)
    (order : Index) (e : Numeric) (f : Fault) (h : grid_limits old_grid order e = .error f) :
    chk_interpolation_grids old_grid new_grid order e = .error f := by
  unfold chk_interpolation_grids
  simp only [h, bind, Except.bind]

theorem chk_interpolation_grids_loose_of_error (old_grid new_grid data : ConstVectorView)
    (order : Index) (e : Numeric) (f : Fault) (h : grid_limits old_grid order e = .error f) :
    chk_interpolation_grids_loose old_grid new_grid data order e = .error f := by
  unfold chk_interpolation_grids_loose
  simp only [h, bind, Except.bind]

/-- The setup throws on an old grid with fewer than `order+1` elements. -/
theorem grid_limits_too_few (old_grid : ConstVectorView) (order : Index) (e : Numeric)
    (h : nelem old_grid < order + 1) :
    grid_limits old_grid order e = .error (.runtime_error (.too_few_elements (order + 1))) := by
  unfold grid_limits
  simp only [h, if_true, throw, throwThe, MonadExceptOf.throw]

/-- The setup throws on an old grid not sorted in the direction of its first two
elements. -/
theorem grid_limits_unsorted (old_grid : ConstVectorView) (order : Index) (e : Numeric)
    (h : ¬ nelem old_grid < order + 1) (h2 : 2 ≤ old_grid.length)
    (hns : ¬ (if old_grid.getD 0 0 ≤ old_grid.getD 1 0 then old_grid.Sorted (· < ·)
      else old_grid.Sorted (· > ·))) :
    grid_limits old_grid order e = .error (.runtime_error (.not_strictly_sorted old_grid)) := by
  have i0 := index_zero old_grid (by omega)
  have i1 := index_one old_grid (by omega)
  unfold grid_limits
  by_cases h01 : old_grid.getD 0 0 ≤ old_grid.getD 1 0
  · rw [if_pos h01, ← is_increasing_iff] at hns
    have hinc : is_increasing old_grid = false := by simpa using hns
    simp only [h, i0, i1, hinc, h01, bind, Except.bind, if_false, decide_True, if_true,
      Bool.not_false, throw, throwThe, MonadExceptOf.throw]
  · rw [if_neg h01, ← is_decreasing_iff] at hns
    have hdec : is_decreasing old_grid = false := by simpa using hns
    simp only [h, i0, i1, hdec, h01, bind, Except.bind, if_false, decide_False, if_true,
      Bool.not_false, throw, throwThe, MonadExceptOf.throw, Bool.false_eq_true]

theorem not_sorted_of_adjacent_eq (x : ConstVectorView) (i : Nat) (hi : i + 1 < x.length)
    (heq : x.getD i 0 = x.getD (i + 1) 0) :
    ¬ x.Sorted (· < ·) ∧ ¬ x.Sorted (· > ·) := by
  rw [List.getD_eq_getElem x 0 (by omega), List.getD_eq_getElem x 0 hi] at heq
  constructor
  · intro h
    have := List.pairwise_iff_getElem.mp h i (i + 1) (by omega) hi (by omega)
    rw [heq] at this
    exact lt_irrefl _ this
  · intro h
    have := List.pairwise_iff_getElem.mp h i (i + 1) (by omega) hi (by omega)
    rw [heq] at this
    exact lt_irrefl _ this

theorem grid_limits_fails_unsorted (old_grid : ConstVectorView) (order : Index) (e : Numeric)
    (h2 : 2 ≤ old_grid.length)
    (hns : ¬ (if old_grid.getD 0 0 ≤ old_grid.getD 1 0 then old_grid.Sorted (· < ·)
      else old_grid.Sorted (· > ·))) :
    ∃ m, grid_limits old_grid order e = .error (.runtime_error m) := by
  by_cases h : nelem old_grid < order + 1
  · exact ⟨_, grid_limits_too_few old_grid order e h⟩
  · exact ⟨_, grid_limits_unsorted old_grid order e h h2 hns⟩

/-- C4. Boundary inclusivity of `chk_interpolation_grids`. For an old grid that passes the
setup with limits `og_min` and `og_max`, and a new grid with least element `lo` and
greatest element `hi`: the check succeeds when `lo = og_min` and `hi <= og_max`, it fails
whenever `lo < og_min`; symmetrically it succeeds when `hi = og_max` and `lo >= og_min`,
and it fails whenever `hi > og_max`. -/
theorem chk_interpolation_grids_boundary (old_grid new_grid : ConstVectorView)
    (order : Index) (e : Numeric) (asc : Bool) (og_min og_max lo hi : Numeric)
    (hl : grid_limits old_grid order e = .ok (asc, og_min, og_max))
    (hlo : IsLeast {v | v ∈ new_grid} lo) (hhi : IsGreatest {v | v ∈ new_grid} hi) :
    (lo = og_min → hi ≤ og_max → chk_interpolation_grids old_grid new_grid order e = .ok ()) ∧
    (lo < og_min → fails (chk_interpolation_grids old_grid new_grid order e)) ∧
    (hi = og_max → og_min ≤ lo → chk_interpolation_grids old_grid new_grid order e = .ok ()) ∧
    (og_max < hi → fails (chk_interpolation_grids old_grid new_grid order e)) := by
  have hmin := vec_min_eq_of_isLeast new_grid lo hlo
  have hmax := vec_max_eq_of_isGreatest new_grid hi hhi
  have hiff := chk_interpolation_grids_ok_iff old_grid new_grid order e asc og_min og_max lo hi
    hl hmin hmax
  have heq := chk_interpolation_grids_eq old_grid new_grid order e asc og_min og_max lo hi
    hl hmin hmax
  have hne := grid_limits_ok_nonempty old_grid order e _ hl
  obtain ⟨m1, hm1, -⟩ := vec_min_isLeast old_grid hne
  obtain ⟨m2, hm2, -⟩ := vec_max_isGreatest old_grid hne
  refine ⟨fun h1 h2 => hiff.mpr ⟨le_of_eq h1.symm, h2⟩, fun h1 => ?_,
    fun h1 h2 => hiff.mpr ⟨h2, le_of_eq h1⟩, fun h1 => ?_⟩
  · rw [heq, if_pos h1, hm1]
    exact ⟨_, rfl⟩
  · rw [heq]
    by_cases h0 : lo < og_min
    · rw [if_pos h0, hm1]
      exact ⟨_, rfl⟩
    · rw [if_neg h0, if_pos h1, hm2]
      exact ⟨_, rfl⟩

/-- The witness of C4: the old grid 1, 2, 3, 4 with factor 1/2 and order 1 has
`og_min = 1/2`; the new grid holding 1/2 alone is accepted and the one holding 49/100
alone is rejected. -/
theorem chk_interpolation_grids_boundary_witness :
    grid_limits [1, 2, 3, 4] 1 (1 / 2) = .ok (true, 1 / 2, 9 / 2) ∧
    chk_interpolation_grids [1, 2, 3, 4] [1 / 2] 1 (1 / 2) = .ok () ∧
    fails (chk_interpolation_grids [1, 2, 3, 4] [49 / 100] 1 (1 / 2)) := by
  have hl : grid_limits [1, 2, 3, 4] 1 (1 / 2) = .ok (true, 1 / 2, 9 / 2) := by
    have h := grid_limits_ascending [1, 2, 3, 4] 1 (1 / 2) (by norm_num [List.Sorted])
      (by decide)
    rw [h]
    norm_num
  refine ⟨hl, ?_, ?_⟩
  · exact (chk_interpolation_grids_boundary [1, 2, 3, 4] [1 / 2] 1 (1 / 2) true (1 / 2) (9 / 2)
      (1 / 2) (1 / 2) hl
      ⟨by simp, by intro v hv; simp at hv; subst hv; norm_num⟩
      ⟨by simp, by intro v hv; simp at hv; subst hv; norm_num⟩).1 rfl (by norm_num)
  · exact (chk_interpolation_grids_boundary [1, 2, 3, 4] [49 / 100] 1 (1 / 2) true (1 / 2)
      (9 / 2) (49 / 100) (49 / 100) hl
      ⟨by simp, by intro v hv; simp at hv; subst hv; exact le_refl _⟩
      ⟨by simp, by intro v hv; simp at hv; subst hv; exact le_refl _⟩).2.1 (by norm_num)

/-- C5. `chk_interpolation_grids` and `chk_interpolation_grids_loose` both fail when the
old grid has fewer than `order+1` elements, and both fail when an old grid of length at
least 2 is not strictly monotonic in the direction given by its first two elements, in
particular when two adjacent old-grid values are equal; the new grid, the data and the
extrapolation factor are arbitrary. -/
theorem interpolation_checks_fail_on_bad_old_grid (old_grid new_grid data : ConstVectorView)
    (order : Index) (e : Numeric) :
    (nelem old_grid < order + 1 →
      fails (chk_interpolation_grids old_grid new_grid order e) ∧
      fails (chk_interpolation_grids_loose old_grid new_grid data order e)) ∧
    (2 ≤ old_grid.length →
      ¬ (if old_grid.getD 0 0 ≤ old_grid.getD 1 0 then old_grid.Sorted (· < ·)
          else old_grid.Sorted (· > ·)) →
      fails (chk_interpolation_grids old_grid new_grid order e) ∧
      fails (chk_interpolation_grids_loose old_grid new_grid data order e)) ∧
    ((∃ i, i + 1 < old_grid.length ∧ old_grid.getD i 0 = old_grid.getD (i + 1) 0) →
      fails (chk_interpolation_grids old_grid new_grid order e) ∧
      fails (chk_interpolation_grids_loose old_grid new_grid data order e)) := by
  have key : (∃ m, grid_limits old_grid order e = .error (.runtime_error m)) →
      fails (chk_interpolation_grids old_grid new_grid order e) ∧
      fails (chk_interpolation_grids_loose old_grid new_grid data order e) := by
    rintro ⟨m, hm⟩
    exact ⟨⟨m, chk_interpolation_grids_of_error old_grid new_grid order e _ hm⟩,
      ⟨m, chk_interpolation_grids_loose_of_error old_grid new_grid data order e _ hm⟩⟩
  refine ⟨fun h => key ⟨_, grid_limits_too_few old_grid order e h⟩,
    fun h2 hns => key (grid_limits_fails_unsorted old_grid order e h2 hns), ?_⟩
  rintro ⟨i, hi, heq⟩
  obtain ⟨hn1, hn2⟩ := not_sorted_of_adjacent_eq old_grid i hi heq
  refine key (grid_limits_fails_unsorted old_grid order e (by omega) ?_)
  split_ifs <;> assumption

/-- C5 on concrete grids: a one-element old grid with order 1, and the old grid 1, 2, 2. -/
theorem interpolation_checks_fail_on_bad_old_grid_witness :
    (fails (chk_interpolation_grids [1] [1] 1 0) ∧
      fails (chk_interpolation_grids_loose [1] [1] [0] 1 0)) ∧
    (fails (chk_interpolation_grids [1, 2, 2] [1] 1 0) ∧
      fails (chk_interpolation_grids_loose [1, 2, 2] [1] [0, 0, 0] 1 0)) :=
  ⟨(interpolation_checks_fail_on_bad_old_grid [1] [1] [0] 1 0).1 (by decide),
   (interpolation_checks_fail_on_bad_old_grid [1, 2, 2] [1] [0, 0, 0] 1 0).2.2
     ⟨1, by decide, by simp⟩⟩

/-! ## The tolerant interpolation check -/

theorem index_nil (i : Index) : index [] i = .error .out_of_range := by
  unfold index
  split_ifs <;> simp

theorem index_cons_zero (a : Numeric) (r : ConstVectorView) : index (a :: r) 0 = .ok a := by
  simp [index]

/-- Reading a positive position of `a :: r` reads the previous position of `r`. -/
theorem index_cons_pos (a : Numeric) (r : ConstVectorView) (i : Index) (h : 0 < i) :
    index (a :: r) i = index r (i - 1) := by
  obtain ⟨n, rfl⟩ := Int.eq_ofNat_of_zero_le (le_of_lt h)
  cases n with
  | zero => exact absurd h (lt_irrefl _)
  | succ n =>
    have h1 : ((n + 1 : Nat) : Int) - 1 = (n : Int) := by push_cast; ring
    rw [h1]
    unfold index
    simp only [Int.toNat_ofNat, List.get?_cons_succ, Int.ofNat_nonneg, if_true]

/-- C6, evaluated on the code. Old grid 1, 2, 3 (ascending), new grid 1, 5, data 1, 1, 1,
order 1 and factor 1/2: the limits are `og_min = 1/2` and `og_max = 7/2`, the maximum 5 of
the new grid exceeds `og_max`, the data value at the old-grid end holding the largest grid
value (position 2) is 1, not 0, and still the loose check succeeds, returning `(0, 1)`.
The upward walk of `ing_min` starts at `new_grid[0] = 1`, which is not above the old
grid, so `ing_min` stays 0 and the boundary value is never looked at. -/
theorem chk_interpolation_grids_loose_unchecked_boundary :
    grid_limits [1, 2, 3] 1 (1 / 2) = .ok (true, 1 / 2, 7 / 2) ∧
    vec_max [1, 5] = .ok 5 ∧
    index [1, 1, 1] 2 = .ok 1 ∧
    chk_interpolation_grids_loose [1, 2, 3] [1, 5] [1, 1, 1] 1 (1 / 2) = .ok (0, 1) := by
  refine ⟨?_, ?_, ?_, ?_⟩
  · norm_num [grid_limits, index_cons_zero, index_cons_pos, nelem, is_increasing, bind,
      Except.bind, pure, Except.pure]
  · norm_num [vec_max]
  · norm_num [index_cons_zero, index_cons_pos]
  · norm_num [chk_interpolation_grids_loose, grid_limits, index_cons_zero, index_cons_pos,
      nelem, is_increasing, vec_min, vec_max, walk_up, walk_down, bind, Except.bind, pure,
      Except.pure]

/-- C7, evaluated on the code. Old grid 1, 2, 3 (ascending), new grid 0, 1, 2, data
5, 5, 5, order 1 and factor 1/2: the limits are `og_min = 1/2` and `og_max = 7/2`, the
loose check succeeds and returns the full range `(0, 2)`, although `new_grid[0] = 0` lies
below `og_min`.  The downward walk of `ing_max` starts at `new_grid[2] = 2`, which is not
below the old grid, so nothing is cut off. -/
theorem chk_interpolation_grids_loose_uncovered_range :
    grid_limits [1, 2, 3] 1 (1 / 2) = .ok (true, 1 / 2, 7 / 2) ∧
    index [0, 1, 2] 0 = .ok 0 ∧
    chk_interpolation_grids_loose [1, 2, 3] [0, 1, 2] [5, 5, 5] 1 (1 / 2) = .ok (0, 2) := by
  refine ⟨?_, ?_, ?_⟩
  · norm_num [grid_limits, index_cons_zero, index_cons_pos, nelem, is_increasing, bind,
      Except.bind, pure, Except.pure]
  · norm_num [index_cons_zero]
  · norm_num [chk_interpolation_grids_loose, grid_limits, index_cons_zero, index_cons_pos,
      nelem, is_increasing, vec_min, vec_max, walk_up, walk_down, bind, Except.bind, pure,
      Except.pure]

/-! ## Atmospheric grids and fields -/

/-- Two checks in sequence succeed exactly when both succeed. -/
theorem seq_ok_iff (a : Check Unit) (b : Unit → Check Unit) :
    (a >>= b) = .ok () ↔ a = .ok () ∧ b () = .ok () := by
  cases a <;> simp [bind, Except.bind]

theorem throw_if_ok_iff (c : Prop) [Decidable c] (m : Msg) :
    throw_if c m = .ok () ↔ ¬ c := by
  by_cases h : c <;> simp [h, throw_if]

theorem throw_if_pos (c : Prop) [Decidable c] (m : Msg) (h : c) :
    throw_if c m = .error (.runtime_error m) := by
  simp [h, throw_if]

theorem throw_if_neg (c : Prop) [Decidable c] (m : Msg) (h : ¬ c) :
    throw_if c m = .ok () := by
  simp [h, throw_if]

theorem chk_if_increasing_ok_iff (n : String) (x : ConstVectorView) :
    chk_if_increasing n x = .ok () ↔ x.Sorted (· < ·) := by
  rw [← is_increasing_iff]
  unfold chk_if_increasing
  cases is_increasing x <;> simp

theorem chk_if_decreasing_ok_iff (n : String) (x : ConstVectorView) :
    chk_if_decreasing n x = .ok () ↔ x.Sorted (· > ·) := by
  rw [← is_decreasing_iff]
  unfold chk_if_decreasing
  cases is_decreasing x <;> simp

/-- Success of `chk_atm_grids` for `dim = 2`. -/
theorem chk_atm_grids_two_iff (p_grid lat_grid lon_grid : ConstVectorView) :
    chk_atm_grids 2 p_grid lat_grid lon_grid = .ok () ↔
      (2 ≤ p_grid.length ∧ p_grid.Sorted (· > ·)) ∧
      (2 ≤ lat_grid.length ∧ lat_grid.Sorted (· < ·)) ∧ lon_grid = [] := by
  unfold chk_atm_grids
  simp [seq_ok_iff, throw_if_ok_iff, chk_if_decreasing_ok_iff, chk_if_increasing_ok_iff, nelem,
    and_assoc]

/-- Success of `chk_atm_grids` for `dim = 3`. -/
theorem chk_atm_grids_three_iff (p_grid lat_grid lon_grid : ConstVectorView) :
    chk_atm_grids 3 p_grid lat_grid lon_grid = .ok () ↔
      (2 ≤ p_grid.length ∧ p_grid.Sorted (· > ·)) ∧
      (2 ≤ lat_grid.length ∧ lat_grid.Sorted (· < ·)) ∧
      (2 ≤ lon_grid.length ∧ lon_grid.Sorted (· < ·)) ∧
      (-90 ≤ lat_grid.getD 0 0 ∧ lat_grid.getD (lat_grid.length - 1) 0 ≤ 90 ∧
        -360 ≤ lon_grid.getD 0 0 ∧ lon_grid.getD (lon_grid.length - 1) 0 ≤ 360 ∧
        lon_grid.getD (lon_grid.length - 1) 0 - lon_grid.getD 0 0 ≤ 360) := by
  unfold chk_atm_grids
  simp only [seq_ok_iff, throw_if_ok_iff, chk_if_decreasing_ok_iff, chk_if_increasing_ok_iff,
    nelem, if_true, if_false, show ¬ ((3 : Index) = 1) by decide,
    show ¬ ((3 : Index) < 3) by decide, not_lt, and_assoc]
  have key : ∀ (h1 : 2 ≤ lat_grid.length) (h2 : 2 ≤ lon_grid.length),
      ((do
        throw_if ((← index lat_grid 0) < -90) .lat_below
        throw_if ((← index lat_grid ((lat_grid.length : Int) - 1)) > 90) .lat_above
        throw_if ((← index lon_grid 0) < -360) .lon_below
        throw_if ((← index lon_grid ((lon_grid.length : Int) - 1)) > 360) .lon_above
        throw_if ((← index lon_grid ((lon_grid.length : Int) - 1)) - (← index lon_grid 0) > 360)
          .lon_span) = (.ok () : Check Unit)) ↔
      (-90 ≤ lat_grid.getD 0 0 ∧ lat_grid.getD (lat_grid.length - 1) 0 ≤ 90 ∧
        -360 ≤ lon_grid.getD 0 0 ∧ lon_grid.getD (lon_grid.length - 1) 0 ≤ 360 ∧
        lon_grid.getD (lon_grid.length - 1) 0 - lon_grid.getD 0 0 ≤ 360) := by
    intro h1 h2
    have a0 := index_zero lat_grid (by omega)
    have a1 := index_nelem_sub lat_grid 1 (by omega) (by omega)
    have b0 := index_zero lon_grid (by omega)
    have b1 := index_nelem_sub lon_grid 1 (by omega) (by omega)
    simp only [nelem, Nat.cast_one] at a1 b1
    simp only [a0, a1, b0, b1, bind, Except.bind]
    simp only [throw_if]
    split_ifs with c1 c2 c3 c4 c5
    all_goals simp only [reduceCtorEq, false_iff, true_iff, not_and, not_le]
    · intro h; exact absurd c1 (not_lt.mpr h)
    · intro _ h; exact absurd c2 (not_lt.mpr h)
    · intro _ _ h; exact absurd c3 (not_lt.mpr h)
    · intro _ _ _ h; exact absurd c4 (not_lt.mpr h)
    · intro _ _ _ _; exact c5
    · exact ⟨not_lt.mp c1, not_lt.mp c2, not_lt.mp c3, not_lt.mp c4, not_lt.mp c5⟩
  constructor
  · rintro ⟨h1, h2, h3, h4, h5, h6, h7⟩
    have h3' : 2 ≤ lat_grid.length := by exact_mod_cast h3
    have h5' : 2 ≤ lon_grid.length := by exact_mod_cast h5
    exact ⟨by exact_mod_cast h1, h2, h3', h4, h5', h6, (key h3' h5').mp h7⟩
  · rintro ⟨h1, h2, h3, h4, h5, h6, h7⟩
    exact ⟨by exact_mod_cast h1, h2, by exact_mod_cast h3, h4, by exact_mod_cast h5, h6,
      (key h3 h5).mpr h7⟩

/-- C10. The rank-3 `chk_atm_field` fails, reporting the expected and the actual shape,
whenever the shape of the field differs from `(|p_grid|, |lat_grid| if dim > 1 else 1,
|lon_grid| if dim > 2 else 1)`; and for `dim` 1 or 2 it succeeds if and only if the shape
equals that tuple. -/
theorem chk_atm_field_shape (x : ConstTensor3View) (dim : Index)
    (p_grid lat_grid lon_grid : ConstVectorView) :
    (((x.npages : Index), (x.nrows : Index), (x.ncols : Index)) ≠
        (nelem p_grid, (if dim > 1 then nelem lat_grid else 1),
          (if dim > 2 then nelem lon_grid else 1)) →
      chk_atm_field x dim p_grid lat_grid lon_grid =
        .error (.runtime_error (.field_wrong_size
          [nelem p_grid, (if dim > 1 then nelem lat_grid else 1),
            (if dim > 2 then nelem lon_grid else 1)]
          [x.npages, x.nrows, x.ncols]))) ∧
    (dim = 1 ∨ dim = 2 →
      (chk_atm_field x dim p_grid lat_grid lon_grid = .ok () ↔
        ((x.npages : Index), (x.nrows : Index), (x.ncols : Index)) =
          (nelem p_grid, (if dim > 1 then nelem lat_grid else 1),
            (if dim > 2 then nelem lon_grid else 1)))) := by
  constructor
  · intro hne
    have hc : (x.ncols : Index) ≠ (if dim > 2 then nelem lon_grid else 1) ∨
        (x.nrows : Index) ≠ (if dim > 1 then nelem lat_grid else 1) ∨
        (x.npages : Index) ≠ nelem p_grid := by
      by_contra hcon
      push_neg at hcon
      exact hne (by rw [hcon.1, hcon.2.1, hcon.2.2])
    unfold chk_atm_field
    simp only [throw_if_pos _ _ hc, bind, Except.bind]
  · intro hdim
    have h3 : ¬ dim = 3 := by rcases hdim with rfl | rfl <;> decide
    unfold chk_atm_field
    simp only [seq_ok_iff, throw_if_ok_iff, h3, if_false, pure, Except.pure, and_true,
      Prod.mk.injEq]
    tauto

/-- C10 on a field with three pages, one row and one column for `dim = 1`, and on one
with two columns. -/
theorem chk_atm_field_shape_witness :
    chk_atm_field ⟨3, 1, 1, fun _ _ _ => 0⟩ 1 [3, 2, 1] [] [] = .ok () ∧
    chk_atm_field ⟨3, 1, 2, fun _ _ _ => 0⟩ 1 [3, 2, 1] [] [] =
      .error (.runtime_error (.field_wrong_size [3, 1, 1] [3, 1, 2])) :=
  ⟨((chk_atm_field_shape ⟨3, 1, 1, fun _ _ _ => 0⟩ 1 [3, 2, 1] [] []).2 (Or.inl rfl)).mpr
    (by simp [nelem]),
   by simpa [nelem] using
    (chk_atm_field_shape ⟨3, 1, 2, fun _ _ _ => 0⟩ 1 [3, 2, 1] [] []).1 (by simp [nelem])⟩

/-! ## Species fields without species, sensor position and line of sight, true positions -/

/-- C14. For the rank-4 `chk_atm_field` with `nspecies = 0`: the check succeeds if and only
if the field has zero books, whatever `dim`, the grids and the other extents of the field
are; with a field that has books it fails with the "should be empty" error. -/
theorem chk_atm_field4_no_species (x : ConstTensor4View) (dim : Index)
    (p_grid lat_grid lon_grid : ConstVectorView) :
    (chk_atm_field4 x dim 0 p_grid lat_grid lon_grid = .ok () ↔ x.nbooks = 0) ∧
    (x.nbooks ≠ 0 →
      chk_atm_field4 x dim 0 p_grid lat_grid lon_grid =
        .error (.runtime_error .should_be_empty)) := by
  unfold chk_atm_field4
  by_cases h : x.nbooks = 0
  · simp [h]
  · have h' : ¬ ((x.nbooks : Index) = 0) := by exact_mod_cast h
    simp [h, h']

/-- C14 on a field without books and on a field with one book. -/
theorem chk_atm_field4_no_species_witness :
    chk_atm_field4 ⟨0, 2, 1, 1, fun _ _ _ _ => 0⟩ 1 0 [3, 2] [] [] = .ok () ∧
    chk_atm_field4 ⟨1, 2, 1, 1, fun _ _ _ _ => 0⟩ 1 0 [3, 2] [] [] =
      .error (.runtime_error .should_be_empty) :=
  ⟨(chk_atm_field4_no_species ⟨0, 2, 1, 1, fun _ _ _ _ => 0⟩ 1 [3, 2] [] []).1.mpr rfl,
   (chk_atm_field4_no_species ⟨1, 2, 1, 1, fun _ _ _ _ => 0⟩ 1 [3, 2] [] []).2 (by decide)⟩

/-- A successful step hands its value to the rest of the check. -/
theorem ok_bind {α β : Type} (v : α) (f : α → Check β) :
    ((Except.ok v : Check α) >>= f) = f v := rfl

/-- A failed step ends the check. -/
theorem error_bind {α β : Type} (e : Fault) (f : α → Check β) :
    ((Except.error e : Check α) >>= f) = .error e := rfl

theorem nelem_eq_iff (x : ConstVectorView) (n : Nat) : nelem x = (n : Int) ↔ x.length = n := by
  unfold nelem
  exact Nat.cast_inj

/-- C20. `chk_latlon_true` for `dim = 1` succeeds if and only if `lat_true` and `lon_true`
both have length exactly 1, and for `dim = 2` if and only if `|lat_true| = |lat_grid|` and
`|lon_true| = |lon_grid|`; in both cases the outputs on success are `lat = lat_true` and
`lon = lon_true`. -/
theorem chk_latlon_true_1d_2d (lat_grid lon_grid lat_true lon_true : ConstVectorView) :
    ((∃ r, chk_latlon_true 1 lat_grid lon_grid lat_true lon_true = .ok r) ↔
      lat_true.length = 1 ∧ lon_true.length = 1) ∧
    ((∃ r, chk_latlon_true 2 lat_grid lon_grid lat_true lon_true = .ok r) ↔
      lat_true.length = lat_grid.length ∧ lon_true.length = lon_grid.length) ∧
    (∀ r, chk_latlon_true 1 lat_grid lon_grid lat_true lon_true = .ok r →
      r = (lat_true, lon_true)) ∧
    (∀ r, chk_latlon_true 2 lat_grid lon_grid lat_true lon_true = .ok r →
      r = (lat_true, lon_true)) := by
  have e1 : nelem lat_true = 1 ↔ lat_true.length = 1 := nelem_eq_iff lat_true 1
  have e2 : nelem lon_true = 1 ↔ lon_true.length = 1 := nelem_eq_iff lon_true 1
  have e3 : nelem lat_true = nelem lat_grid ↔ lat_true.length = lat_grid.length :=
    nelem_eq_iff lat_true lat_grid.length
  have e4 : nelem lon_true = nelem lon_grid ↔ lon_true.length = lon_grid.length :=
    nelem_eq_iff lon_true lon_grid.length
  unfold chk_latlon_true
  simp only [if_true, show ¬ ((2 : Index) = 1) by decide, if_false, ne_eq, e1, e2, e3, e4]
  refine ⟨?_, ?_, ?_, ?_⟩
  · by_cases h : ¬ lat_true.length = 1 ∨ ¬ lon_true.length = 1
    · rw [if_pos h]
      simp only [reduceCtorEq, exists_false, false_iff]
      tauto
    · rw [if_neg h]
      simp only [Except.ok.injEq, exists_eq', true_iff]
      tauto
  · by_cases h : ¬ lat_true.length = lat_grid.length ∨ ¬ lon_true.length = lon_grid.length
    · rw [if_pos h]
      simp only [reduceCtorEq, exists_false, false_iff]
      tauto
    · rw [if_neg h]
      simp only [Except.ok.injEq, exists_eq', true_iff]
      tauto
  · intro r hr
    split_ifs at hr
    exact (Except.ok.inj hr).symm
  · intro r hr
    split_ifs at hr
    exact (Except.ok.inj hr).symm

/-- C20 on concrete vectors for `dim = 1` and `dim = 2`. -/
theorem chk_latlon_true_1d_2d_witness :
    chk_latlon_true 1 [] [] [45] [10] = .ok ([45], [10]) ∧
    chk_latlon_true 2 [0, 1, 2] [] [45, 46, 47] [] = .ok ([45, 46, 47], []) := by
  obtain ⟨h1, -, h3, -⟩ := chk_latlon_true_1d_2d [] [] [45] [10]
  obtain ⟨-, k2, -, k4⟩ := chk_latlon_true_1d_2d [0, 1, 2] [] [45, 46, 47] []
  obtain ⟨r, hr⟩ := h1.mpr ⟨rfl, rfl⟩
  obtain ⟨q, hq⟩ := k2.mpr ⟨rfl, rfl⟩
  exact ⟨by rw [hr, h3 r hr], by rw [hq, k4 q hq]⟩

/-! ## Loops -/

theorem bind_error_iff (a : Check Unit) (b : Unit → Check Unit) (e : Fault) :
    (a >>= b) = .error e ↔ a = .error e ∨ (a = .ok () ∧ b () = .error e) := by
  cases a <;> simp [bind, Except.bind]

/-- A counted loop succeeds exactly when every iteration succeeds. -/
theorem for_index_from_ok_iff (body : Int → Check Unit) (n : Nat) (i : Int) :
    for_index_from body n i = .ok () ↔ ∀ k : Nat, k < n → body (i + k) = .ok () := by
  induction n generalizing i with
  | zero => simp [for_index_from, pure, Except.pure]
  | succ n ih =>
    unfold for_index_from
    rw [seq_ok_iff, ih]
    constructor
    · rintro ⟨h0, h⟩ k hk
      cases k with
      | zero => simpa using h0
      | succ k =>
        have := h k (by omega)
        rw [show i + ((k + 1 : Nat) : Int) = i + 1 + (k : Int) by push_cast; ring]
        exact this
    · intro h
      refine ⟨by simpa using h 0 (by omega), fun k hk => ?_⟩
      have := h (k + 1) (by omega)
      rw [show i + ((k + 1 : Nat) : Int) = i + 1 + (k : Int) by push_cast; ring] at this
      exact this

/-- A counted loop ends with the failure of its first failing iteration. -/
theorem for_index_from_error_iff (body : Int → Check Unit) (n : Nat) (i : Int) (e : Fault) :
    for_index_from body n i = .error e ↔
      ∃ k : Nat, k < n ∧ body (i + k) = .error e ∧
        ∀ j : Nat, j < k → body (i + j) = .ok () := by
  induction n generalizing i with
  | zero => simp [for_index_from, pure, Except.pure]
  | succ n ih =>
    unfold for_index_from
    rw [bind_error_iff, ih]
    constructor
    · rintro (h0 | ⟨h0, k, hk, hke, hkj⟩)
      · exact ⟨0, by omega, by simpa using h0, fun j hj => absurd hj (by omega)⟩
      · refine ⟨k + 1, by omega, ?_, ?_⟩
        · rw [show i + ((k + 1 : Nat) : Int) = i + 1 + (k : Int) by push_cast; ring]
          exact hke
        · intro j hj
          cases j with
          | zero => simpa using h0
          | succ j =>
            rw [show i + ((j + 1 : Nat) : Int) = i + 1 + (j : Int) by push_cast; ring]
            exact hkj j (by omega)
    · rintro ⟨k, hk, hke, hkj⟩
      cases k with
      | zero => left; simpa using hke
      | succ k =>
        right
        refine ⟨by simpa using hkj 0 (by omega), k, by omega, ?_, ?_⟩
        · rw [show i + ((k + 1 : Nat) : Int) = i + 1 + (k : Int) by push_cast; ring] at hke
          exact hke
        · intro j hj
          have := hkj (j + 1) (by omega)
          rw [show i + ((j + 1 : Nat) : Int) = i + 1 + (j : Int) by push_cast; ring] at this
          exact this

/-- The loop `for (i = lo; i < hi; i++)` succeeds exactly when its body succeeds at every
position from `lo` up to, not including, `hi`. -/
theorem for_index_ok_iff (lo hi : Int) (body : Int → Check Unit) :
    for_index lo hi body = .ok () ↔ ∀ j : Int, lo ≤ j → j < hi → body j = .ok () := by
  unfold for_index
  rw [for_index_from_ok_iff]
  constructor
  · intro h j h1 h2
    have := h (j - lo).toNat (by omega)
    rw [show lo + ((j - lo).toNat : Int) = j by omega] at this
    exact this
  · intro h k hk
    exact h _ (by omega) (by omega)

/-- The loop `for (i = lo; i < hi; i++)` ends with the failure of the first position at
which its body fails. -/
theorem for_index_error_iff (lo hi : Int) (body : Int → Check Unit) (e : Fault) :
    for_index lo hi body = .error e ↔
      ∃ j : Int, lo ≤ j ∧ j < hi ∧ body j = .error e ∧
        ∀ i : Int, lo ≤ i → i < j → body i = .ok () := by
  unfold for_index
  rw [for_index_from_error_iff]
  constructor
  · rintro ⟨k, hk, hke, hkj⟩
    refine ⟨lo + k, by omega, by omega, hke, fun i h1 h2 => ?_⟩
    have := hkj (i - lo).toNat (by omega)
    rw [show lo + ((i - lo).toNat : Int) = i by omega] at this
    exact this
  · rintro ⟨j, h1, h2, hje, hji⟩
    refine ⟨(j - lo).toNat, by omega, ?_, fun i hi => hji _ (by omega) (by omega)⟩
    rw [show lo + ((j - lo).toNat : Int) = j by omega]
    exact hje

/-- A loop whose body, at each position `j`, either succeeds (and then `P j` holds) or
fails with `E j` (and then `P j` does not hold): the loop succeeds and `P` holds
throughout, or it fails with `E j` for the first position `j` where `P` does not hold. -/
theorem for_index_first (lo hi : Int) (body : Int → Check Unit) (E : Int → Fault)
    (P : Int → Prop)
    (h : ∀ j : Int, lo ≤ j → j < hi →
      (body j = .ok () ∧ P j) ∨ (body j = .error (E j) ∧ ¬ P j)) :
    (for_index lo hi body = .ok () ∧ ∀ j : Int, lo ≤ j → j < hi → P j) ∨
    (∃ j : Int, lo ≤ j ∧ j < hi ∧ ¬ P j ∧ (∀ i : Int, lo ≤ i → i < j → P i) ∧
      for_index lo hi body = .error (E j)) := by
  cases hr : for_index lo hi body with
  | ok u =>
    left
    refine ⟨rfl, fun j h1 h2 => ?_⟩
    have hj := (for_index_ok_iff lo hi body).mp hr j h1 h2
    rcases h j h1 h2 with ⟨-, hp⟩ | ⟨he, -⟩
    · exact hp
    · rw [hj] at he; cases he
  | error e =>
    right
    obtain ⟨j, h1, h2, hje, hji⟩ := (for_index_error_iff lo hi body e).mp hr
    refine ⟨j, h1, h2, ?_, ?_, ?_⟩
    · rcases h j h1 h2 with ⟨ho, -⟩ | ⟨-, hp⟩
      · rw [hje] at ho; cases ho
      · exact hp
    · intro i hi1 hi2
      rcases h i hi1 (by omega) with ⟨-, hp⟩ | ⟨he, -⟩
      · exact hp
      · rw [hji i hi1 hi2] at he; cases he
    · rcases h j h1 h2 with ⟨ho, -⟩ | ⟨he, -⟩
      · rw [hje] at ho; cases ho
      · rw [hje] at he
        rw [Except.error.inj he]

/-! ## Rank-3 fields in three dimensions -/

/-- Reading a rank-3 view at a position inside its extents. -/
theorem tensor3_elem_ok (x : ConstTensor3View) (p r c : Int)
    (hp : 0 ≤ p ∧ p < x.npages) (hr : 0 ≤ r ∧ r < x.nrows) (hc : 0 ≤ c ∧ c < x.ncols) :
    x.elem p r c = .ok (x.data p.toNat r.toNat c.toNat) := by
  unfold ConstTensor3View.elem
  rw [if_pos ⟨hp.1, hp.2, hr.1, hr.2, hc.1, hc.2⟩]

/-- The statement `if (fabs(a - b) > 0) throw` either passes, and then `a = b`, or throws,
and then `a` and `b` differ. -/
theorem throw_if_abs_cases (a b : Numeric) (m : Msg) :
    (throw_if (|a - b| > 0) m = .ok () ∧ a = b) ∨
    (throw_if (|a - b| > 0) m = .error (.runtime_error m) ∧ ¬ a = b) := by
  by_cases h : a = b
  · left
    subst h
    exact ⟨throw_if_neg _ _ (by simp), rfl⟩
  · right
    exact ⟨throw_if_pos _ _ (abs_pos.mpr (sub_ne_zero.mpr h)), h⟩

/-- The cyclic check of a rank-3 field: it passes and the first and last longitude values
agree at every page and row, or it throws the cyclic error and they differ somewhere. -/
theorem cyclic_block3 (x : ConstTensor3View) (hC : 0 < x.ncols) :
    ((for_index 0 (x.npages : Int) fun ip =>
        for_index 0 (x.nrows : Int) fun ir => do
          throw_if (|(← x.elem ip ir ((x.ncols : Int) - 1)) - (← x.elem ip ir 0)| > 0)
            (.not_cyclic none)) = .ok () ∧
      ∀ ip ir : Nat, ip < x.npages → ir < x.nrows →
        x.data ip ir (x.ncols - 1) = x.data ip ir 0) ∨
    ((for_index 0 (x.npages : Int) fun ip =>
        for_index 0 (x.nrows : Int) fun ir => do
          throw_if (|(← x.elem ip ir ((x.ncols : Int) - 1)) - (← x.elem ip ir 0)| > 0)
            (.not_cyclic none)) = .error (.runtime_error (.not_cyclic none)) ∧
      ∃ ip ir : Nat, ip < x.npages ∧ ir < x.nrows ∧
        ¬ x.data ip ir (x.ncols - 1) = x.data ip ir 0) := by
  have inner : ∀ ip : Int, 0 ≤ ip → ip < x.npages →
      ((for_index 0 (x.nrows : Int) fun ir => do
          throw_if (|(← x.elem ip ir ((x.ncols : Int) - 1)) - (← x.elem ip ir 0)| > 0)
            (.not_cyclic none)) = .ok () ∧
        (∀ ir : Int, 0 ≤ ir → ir < x.nrows →
          x.data ip.toNat ir.toNat (x.ncols - 1) = x.data ip.toNat ir.toNat 0)) ∨
      ((for_index 0 (x.nrows : Int) fun ir => do
          throw_if (|(← x.elem ip ir ((x.ncols : Int) - 1)) - (← x.elem ip ir 0)| > 0)
            (.not_cyclic none)) = .error (.runtime_error (.not_cyclic none)) ∧
        ¬ (∀ ir : Int, 0 ≤ ir → ir < x.nrows →
          x.data ip.toNat ir.toNat (x.ncols - 1) = x.data ip.toNat ir.toNat 0)) := by
    intro ip h1 h2
    have := for_index_first 0 (x.nrows : Int) (fun ir => do
          throw_if (|(← x.elem ip ir ((x.ncols : Int) - 1)) - (← x.elem ip ir 0)| > 0)
            (.not_cyclic none)) (fun _ => .runtime_error (.not_cyclic none))
        (fun ir => x.data ip.toNat ir.toNat (x.ncols - 1) = x.data ip.toNat ir.toNat 0)
        (by
          intro ir h3 h4
          have e1 := tensor3_elem_ok x ip ir ((x.ncols : Int) - 1) ⟨h1, h2⟩ ⟨h3, h4⟩
            ⟨by omega, by omega⟩
          have e2 := tensor3_elem_ok x ip ir 0 ⟨h1, h2⟩ ⟨h3, h4⟩ ⟨le_refl 0, by omega⟩
          rw [show ((x.ncols : Int) - 1).toNat = x.ncols - 1 by omega] at e1
          simp only [e1, e2, ok_bind, Int.toNat_zero]
          exact throw_if_abs_cases _ _ _)
    rcases this with ⟨h, hp⟩ | ⟨j, hj1, hj2, hnp, -, h⟩
    · exact Or.inl ⟨h, hp⟩
    · exact Or.inr ⟨h, fun hall => hnp (hall j hj1 hj2)⟩
  have := for_index_first 0 (x.npages : Int) (fun ip =>
        for_index 0 (x.nrows : Int) fun ir => do
          throw_if (|(← x.elem ip ir ((x.ncols : Int) - 1)) - (← x.elem ip ir 0)| > 0)
            (.not_cyclic none)) (fun _ => .runtime_error (.not_cyclic none))
      (fun ip => ∀ ir : Int, 0 ≤ ir → ir < x.nrows →
          x.data ip.toNat ir.toNat (x.ncols - 1) = x.data ip.toNat ir.toNat 0) inner
  rcases this with ⟨h, hp⟩ | ⟨j, hj1, hj2, hnp, -, h⟩
  · left
    refine ⟨h, fun ip ir h1 h2 => ?_⟩
    have := hp ip (by omega) (by omega) ir (by omega) (by omega)
    simpa using this
  · right
    refine ⟨h, ?_⟩
    by_contra hcon
    apply hnp
    intro ir h1 h2
    by_contra hne
    exact hcon ⟨j.toNat, ir.toNat, by omega, by omega, hne⟩

/-- The pole check of a rank-3 field at row `r`: it passes and neighbouring longitude
values of that row agree on every page, or it throws and two neighbours differ. -/
theorem pole_block3 (x : ConstTensor3View) (r : Int) (hr : 0 ≤ r ∧ r < x.nrows) (m : Msg) :
    ((for_index 0 (x.npages : Int) fun ip =>
        for_index 1 (x.ncols : Int) fun ic => do
          throw_if (|(← x.elem ip r ic) - (← x.elem ip r (ic - 1))| > 0) m) = .ok () ∧
      ∀ ip ic : Nat, ip < x.npages → 1 ≤ ic → ic < x.ncols →
        x.data ip r.toNat ic = x.data ip r.toNat (ic - 1)) ∨
    ((for_index 0 (x.npages : Int) fun ip =>
        for_index 1 (x.ncols : Int) fun ic => do
          throw_if (|(← x.elem ip r ic) - (← x.elem ip r (ic - 1))| > 0) m) =
        .error (.runtime_error m) ∧
      ∃ ip ic : Nat, ip < x.npages ∧ 1 ≤ ic ∧ ic < x.ncols ∧
        ¬ x.data ip r.toNat ic = x.data ip r.toNat (ic - 1)) := by
  have inner : ∀ ip : Int, 0 ≤ ip → ip < x.npages →
      ((for_index 1 (x.ncols : Int) fun ic => do
          throw_if (|(← x.elem ip r ic) - (← x.elem ip r (ic - 1))| > 0) m) = .ok () ∧
        (∀ ic : Int, 1 ≤ ic → ic < x.ncols →
          x.data ip.toNat r.toNat ic.toNat = x.data ip.toNat r.toNat (ic - 1).toNat)) ∨
      ((for_index 1 (x.ncols : Int) fun ic => do
          throw_if (|(← x.elem ip r ic) - (← x.elem ip r (ic - 1))| > 0) m) =
          .error (.runtime_error m) ∧
        ¬ (∀ ic : Int, 1 ≤ ic → ic < x.ncols →
          x.data ip.toNat r.toNat ic.toNat = x.data ip.toNat r.toNat (ic - 1).toNat)) := by
    intro ip h1 h2
    have := for_index_first 1 (x.ncols : Int) (fun ic => do
          throw_if (|(← x.elem ip r ic) - (← x.elem ip r (ic - 1))| > 0) m)
        (fun _ => .runtime_error m)
        (fun ic => x.data ip.toNat r.toNat ic.toNat = x.data ip.toNat r.toNat (ic - 1).toNat)
        (by
          intro ic h3 h4
          have e1 := tensor3_elem_ok x ip r ic ⟨h1, h2⟩ hr ⟨by omega, h4⟩
          have e2 := tensor3_elem_ok x ip r (ic - 1) ⟨h1, h2⟩ hr ⟨by omega, by omega⟩
          simp only [e1, e2, ok_bind]
          exact throw_if_abs_cases _ _ _)
    rcases this with ⟨h, hp⟩ | ⟨j, hj1, hj2, hnp, -, h⟩
    · exact Or.inl ⟨h, hp⟩
    · exact Or.inr ⟨h, fun hall => hnp (hall j hj1 hj2)⟩
  have := for_index_first 0 (x.npages : Int) (fun ip =>
        for_index 1 (x.ncols : Int) fun ic => do
          throw_if (|(← x.elem ip r ic) - (← x.elem ip r (ic - 1))| > 0) m)
      (fun _ => .runtime_error m)
      (fun ip => ∀ ic : Int, 1 ≤ ic → ic < x.ncols →
          x.data ip.toNat r.toNat ic.toNat = x.data ip.toNat r.toNat (ic - 1).toNat) inner
  rcases this with ⟨h, hp⟩ | ⟨j, hj1, hj2, hnp, -, h⟩
  · left
    refine ⟨h, fun ip ic h1 h2 h3 => ?_⟩
    have := hp ip (by omega) (by omega) ic (by omega) (by omega)
    rw [show ((ic : Int) - 1).toNat = ic - 1 by omega] at this
    simpa using this
  · right
    refine ⟨h, ?_⟩
    by_contra hcon
    apply hnp
    intro ic h1 h2
    by_contra hne
    refine hcon ⟨j.toNat, ic.toNat, by omega, by omega, by omega, ?_⟩
    rw [show ic.toNat - 1 = (ic - 1).toNat by omega]
    exact hne

/-- Neighbouring values of a row all agree exactly when the row is constant. -/
theorem adjacent_eq_iff_const (f : Nat → Numeric) (n : Nat) :
    (∀ ic : Nat, 1 ≤ ic → ic < n → f ic = f (ic - 1)) ↔ ∀ ic : Nat, ic < n → f ic = f 0 := by
  constructor
  · intro h ic
    induction ic with
    | zero => intro _; rfl
    | succ k ih =>
      intro hk
      rw [h (k + 1) (by omega) hk]
      exact ih (by omega)
  · intro h ic h1 h2
    rw [h ic h2, h (ic - 1) (by omega)]

/-- The rank-3 `chk_atm_field` for `dim = 3` on a field of the expected shape and
non-empty latitude and longitude grids: which of its four outcomes it has.  The cyclic
check comes first, then the South pole, then the North pole. -/
theorem chk_atm_field_3d_cases (x : ConstTensor3View)
    (p_grid lat_grid lon_grid : ConstVectorView)
    (hs : x.npages = p_grid.length ∧ x.nrows = lat_grid.length ∧ x.ncols = lon_grid.length)
    (hlat : 0 < lat_grid.length) (hlon : 0 < lon_grid.length) :
    (lon_grid.getD (lon_grid.length - 1) 0 - lon_grid.getD 0 0 = 360 →
      (∃ ip ir : Nat, ip < x.npages ∧ ir < x.nrows ∧
        ¬ x.data ip ir (x.ncols - 1) = x.data ip ir 0) →
      chk_atm_field x 3 p_grid lat_grid lon_grid =
        .error (.runtime_error (.not_cyclic none))) ∧
    ((lon_grid.getD (lon_grid.length - 1) 0 - lon_grid.getD 0 0 = 360 →
        ∀ ip ir : Nat, ip < x.npages → ir < x.nrows →
          x.data ip ir (x.ncols - 1) = x.data ip ir 0) →
      lat_grid.getD 0 0 = -90 →
      (∃ ip ic : Nat, ip < x.npages ∧ 1 ≤ ic ∧ ic < x.ncols ∧
        ¬ x.data ip 0 ic = x.data ip 0 (ic - 1)) →
      chk_atm_field x 3 p_grid lat_grid lon_grid =
        .error (.runtime_error (.south_pole none))) ∧
    ((lon_grid.getD (lon_grid.length - 1) 0 - lon_grid.getD 0 0 = 360 →
        ∀ ip ir : Nat, ip < x.npages → ir < x.nrows →
          x.data ip ir (x.ncols - 1) = x.data ip ir 0) →
      (lat_grid.getD 0 0 = -90 →
        ∀ ip ic : Nat, ip < x.npages → 1 ≤ ic → ic < x.ncols →
          x.data ip 0 ic = x.data ip 0 (ic - 1)) →
      lat_grid.getD (lat_grid.length - 1) 0 = 90 →
      (∃ ip ic : Nat, ip < x.npages ∧ 1 ≤ ic ∧ ic < x.ncols ∧
        ¬ x.data ip (x.nrows - 1) ic = x.data ip (x.nrows - 1) (ic - 1)) →
      chk_atm_field x 3 p_grid lat_grid lon_grid =
        .error (.runtime_error (.north_pole none))) ∧
    ((lon_grid.getD (lon_grid.length - 1) 0 - lon_grid.getD 0 0 = 360 →
        ∀ ip ir : Nat, ip < x.npages → ir < x.nrows →
          x.data ip ir (x.ncols - 1) = x.data ip ir 0) →
      (lat_grid.getD 0 0 = -90 →
        ∀ ip ic : Nat, ip < x.npages → 1 ≤ ic → ic < x.ncols →
          x.data ip 0 ic = x.data ip 0 (ic - 1)) →
      (lat_grid.getD (lat_grid.length - 1) 0 = 90 →
        ∀ ip ic : Nat, ip < x.npages → 1 ≤ ic → ic < x.ncols →
          x.data ip (x.nrows - 1) ic = x.data ip (x.nrows - 1) (ic - 1)) →
      chk_atm_field x 3 p_grid lat_grid lon_grid = .ok ()) := by
  obtain ⟨h1, h2, h3⟩ := hs
  have i0 := index_zero lon_grid hlon
  have i1 := index_nelem_sub lon_grid 1 (by omega) (by omega)
  have j0 := index_zero lat_grid hlat
  have j1 := index_nelem_sub lat_grid 1 (by omega) (by omega)
  simp only [Nat.cast_one, nelem] at i1 j1
  have hc := cyclic_block3 x (by omega)
  have hsp := pole_block3 x 0 ⟨le_refl 0, by omega⟩ (.south_pole none)
  have hnp := pole_block3 x ((x.nrows : Int) - 1) ⟨by omega, by omega⟩ (.north_pole none)
  rw [show ((x.nrows : Int) - 1).toNat = x.nrows - 1 by omega] at hnp
  simp only [Int.toNat_zero] at hsp
  have h2' : lat_grid.length = x.nrows := h2.symm
  have h3' : lon_grid.length = x.ncols := h3.symm
  simp only [h2', h3'] at i1 j1 ⊢
  have unfolded : chk_atm_field x 3 p_grid lat_grid lon_grid =
      (do
        (if lon_grid.getD (x.ncols - 1) 0 - lon_grid.getD 0 0 = 360 then
          for_index 0 (x.npages : Int) fun ip =>
            for_index 0 (x.nrows : Int) fun ir => do
              throw_if (|(← x.elem ip ir ((x.ncols : Int) - 1)) - (← x.elem ip ir 0)| > 0)
                (.not_cyclic none)
        else pure ())
        (if lat_grid.getD 0 0 = -90 then
          for_index 0 (x.npages : Int) fun ip =>
            for_index 1 (x.ncols : Int) fun ic => do
              throw_if (|(← x.elem ip 0 ic) - (← x.elem ip 0 (ic - 1))| > 0)
                (.south_pole none)
        else pure ())
        (if lat_grid.getD (x.nrows - 1) 0 = 90 then
          for_index 0 (x.npages : Int) fun ip =>
            for_index 1 (x.ncols : Int) fun ic => do
              throw_if (|(← x.elem ip ((x.nrows : Int) - 1) ic) -
                  (← x.elem ip ((x.nrows : Int) - 1) (ic - 1))| > 0)
                (.north_pole none)
        else pure ())) := by
    unfold chk_atm_field
    simp only [show (3 : Index) > 1 by decide, show (3 : Index) > 2 by decide, if_true]
    rw [throw_if_neg _ _ (by simp [nelem, h1, h2, h3])]
    simp only [nelem, ← h1, h2', h3', ok_bind, i0, i1, j0, j1]
  rw [unfolded]
  refine ⟨?_, ?_, ?_, ?_⟩
  · intro hspan hex
    rcases hc with ⟨-, hall⟩ | ⟨hblk, -⟩
    · obtain ⟨ip, ir, a, b, hne⟩ := hex
      exact absurd (hall ip ir a b) hne
    · rw [if_pos hspan, hblk]
      rfl
  · intro hcyc hpole hex
    have e1 : (if lon_grid.getD (x.ncols - 1) 0 - lon_grid.getD 0 0 = 360 then
          for_index 0 (x.npages : Int) fun ip =>
            for_index 0 (x.nrows : Int) fun ir => do
              throw_if (|(← x.elem ip ir ((x.ncols : Int) - 1)) - (← x.elem ip ir 0)| > 0)
                (.not_cyclic none)
        else pure ()) = .ok () := by
      split_ifs with hspan
      · rcases hc with ⟨hblk, -⟩ | ⟨-, ip, ir, a, b, hne⟩
        · exact hblk
        · exact absurd (hcyc hspan ip ir a b) hne
      · rfl
    rw [e1, if_pos hpole]
    rcases hsp with ⟨-, hall⟩ | ⟨hblk, -⟩
    · obtain ⟨ip, ic, a, b, c, hne⟩ := hex
      exact absurd (hall ip ic a b c) hne
    · rw [hblk]
      rfl
  · intro hcyc hsouth hpole hex
    have e1 : (if lon_grid.getD (x.ncols - 1) 0 - lon_grid.getD 0 0 = 360 then
          for_index 0 (x.npages : Int) fun ip =>
            for_index 0 (x.nrows : Int) fun ir => do
              throw_if (|(← x.elem ip ir ((x.ncols : Int) - 1)) - (← x.elem ip ir 0)| > 0)
                (.not_cyclic none)
        else pure ()) = .ok () := by
      split_ifs with hspan
      · rcases hc with ⟨hblk, -⟩ | ⟨-, ip, ir, a, b, hne⟩
        · exact hblk
        · exact absurd (hcyc hspan ip ir a b) hne
      · rfl
    have e2 : (if lat_grid.getD 0 0 = -90 then
          for_index 0 (x.npages : Int) fun ip =>
            for_index 1 (x.ncols : Int) fun ic => do
              throw_if (|(← x.elem ip 0 ic) - (← x.elem ip 0 (ic - 1))| > 0)
                (.south_pole none)
        else pure ()) = .ok () := by
      split_ifs with hp
      · rcases hsp with ⟨hblk, -⟩ | ⟨-, ip, ic, a, b, c, hne⟩
        · exact hblk
        · exact absurd (hsouth hp ip ic a b c) hne
      · rfl
    rw [e1, e2, if_pos hpole]
    rcases hnp with ⟨-, hall⟩ | ⟨hblk, -⟩
    · obtain ⟨ip, ic, a, b, c, hne⟩ := hex
      exact absurd (hall ip ic a b c) hne
    · rw [hblk]
      rfl
  · intro hcyc hsouth hnorth
    have e1 : (if lon_grid.getD (x.ncols - 1) 0 - lon_grid.getD 0 0 = 360 then
          for_index 0 (x.npages : Int) fun ip =>
            for_index 0 (x.nrows : Int) fun ir => do
              throw_if (|(← x.elem ip ir ((x.ncols : Int) - 1)) - (← x.elem ip ir 0)| > 0)
                (.not_cyclic none)
        else pure ()) = .ok () := by
      split_ifs with hspan
      · rcases hc with ⟨hblk, -⟩ | ⟨-, ip, ir, a, b, hne⟩
        · exact hblk
        · exact absurd (hcyc hspan ip ir a b) hne
      · rfl
    have e2 : (if lat_grid.getD 0 0 = -90 then
          for_index 0 (x.npages : Int) fun ip =>
            for_index 1 (x.ncols : Int) fun ic => do
              throw_if (|(← x.elem ip 0 ic) - (← x.elem ip 0 (ic - 1))| > 0)
                (.south_pole none)
        else pure ()) = .ok () := by
      split_ifs with hp
      · rcases hsp with ⟨hblk, -⟩ | ⟨-, ip, ic, a, b, c, hne⟩
        · exact hblk
        · exact absurd (hsouth hp ip ic a b c) hne
      · rfl
    rw [e1, e2]
    split_ifs with hp
    · rcases hnp with ⟨hblk, -⟩ | ⟨-, ip, ic, a, b, c, hne⟩
      · rw [hblk]
        rfl
      · exact absurd (hnorth hp ip ic a b c) hne
    · rfl

/-- The rank-3 `chk_atm_field` for `dim = 3` on a field of the expected shape and
non-empty latitude and longitude grids succeeds exactly when the three conditions hold;
otherwise it throws. -/
theorem chk_atm_field_3d_ok_iff (x : ConstTensor3View)
    (p_grid lat_grid lon_grid : ConstVectorView)
    (hs : x.npages = p_grid.length ∧ x.nrows = lat_grid.length ∧ x.ncols = lon_grid.length)
    (hlat : 0 < lat_grid.length) (hlon : 0 < lon_grid.length) :
    (chk_atm_field x 3 p_grid lat_grid lon_grid = .ok () ↔
      (lon_grid.getD (lon_grid.length - 1) 0 - lon_grid.getD 0 0 = 360 →
        ∀ ip ir : Nat, ip < x.npages → ir < x.nrows →
          x.data ip ir (x.ncols - 1) = x.data ip ir 0) ∧
      (lat_grid.getD 0 0 = -90 →
        ∀ ip ic : Nat, ip < x.npages → ic < x.ncols → x.data ip 0 ic = x.data ip 0 0) ∧
      (lat_grid.getD (lat_grid.length - 1) 0 = 90 →
        ∀ ip ic : Nat, ip < x.npages → ic < x.ncols →
          x.data ip (x.nrows - 1) ic = x.data ip (x.nrows - 1) 0)) ∧
    (chk_atm_field x 3 p_grid lat_grid lon_grid = .ok () ∨
      fails (chk_atm_field x 3 p_grid lat_grid lon_grid)) := by
  obtain ⟨hA, hB, hC, hD⟩ := chk_atm_field_3d_cases x p_grid lat_grid lon_grid hs hlat hlon
  have south_iff : (∀ ip ic : Nat, ip < x.npages → ic < x.ncols →
        x.data ip 0 ic = x.data ip 0 0) ↔
      (∀ ip ic : Nat, ip < x.npages → 1 ≤ ic → ic < x.ncols →
        x.data ip 0 ic = x.data ip 0 (ic - 1)) := by
    constructor
    · intro h ip ic h1 h2 h3
      exact (adjacent_eq_iff_const (x.data ip 0) x.ncols).mpr (fun ic => h ip ic h1) ic h2 h3
    · intro h ip ic h1 h2
      exact (adjacent_eq_iff_const (x.data ip 0) x.ncols).mp (fun ic => h ip ic h1) ic h2
  have north_iff : (∀ ip ic : Nat, ip < x.npages → ic < x.ncols →
        x.data ip (x.nrows - 1) ic = x.data ip (x.nrows - 1) 0) ↔
      (∀ ip ic : Nat, ip < x.npages → 1 ≤ ic → ic < x.ncols →
        x.data ip (x.nrows - 1) ic = x.data ip (x.nrows - 1) (ic - 1)) := by
    constructor
    · intro h ip ic h1 h2 h3
      exact (adjacent_eq_iff_const (x.data ip (x.nrows - 1)) x.ncols).mpr
        (fun ic => h ip ic h1) ic h2 h3
    · intro h ip ic h1 h2
      exact (adjacent_eq_iff_const (x.data ip (x.nrows - 1)) x.ncols).mp
        (fun ic => h ip ic h1) ic h2
  rw [south_iff, north_iff]
  by_cases c1 : lon_grid.getD (lon_grid.length - 1) 0 - lon_grid.getD 0 0 = 360 →
      ∀ ip ir : Nat, ip < x.npages → ir < x.nrows →
        x.data ip ir (x.ncols - 1) = x.data ip ir 0
  swap
  · have hspan : lon_grid.getD (lon_grid.length - 1) 0 - lon_grid.getD 0 0 = 360 := by
      by_contra hn; exact c1 (fun h => absurd h hn)
    have hex : ∃ ip ir : Nat, ip < x.npages ∧ ir < x.nrows ∧
        ¬ x.data ip ir (x.ncols - 1) = x.data ip ir 0 := by
      by_contra hn
      apply c1
      intro _ ip ir a b
      by_contra hne
      exact hn ⟨ip, ir, a, b, hne⟩
    have he := hA hspan hex
    rw [he]
    exact ⟨⟨fun h => (by cases h), fun h => absurd h.1 c1⟩, Or.inr ⟨_, rfl⟩⟩
  by_cases c2 : lat_grid.getD 0 0 = -90 →
      ∀ ip ic : Nat, ip < x.npages → 1 ≤ ic → ic < x.ncols →
        x.data ip 0 ic = x.data ip 0 (ic - 1)
  swap
  · have hpole : lat_grid.getD 0 0 = -90 := by
      by_contra hn; exact c2 (fun h => absurd h hn)
    have hex : ∃ ip ic : Nat, ip < x.npages ∧ 1 ≤ ic ∧ ic < x.ncols ∧
        ¬ x.data ip 0 ic = x.data ip 0 (ic - 1) := by
      by_contra hn
      apply c2
      intro _ ip ic a b c
      by_contra hne
      exact hn ⟨ip, ic, a, b, c, hne⟩
    have he := hB c1 hpole hex
    rw [he]
    exact ⟨⟨fun h => (by cases h), fun h => absurd h.2.1 c2⟩, Or.inr ⟨_, rfl⟩⟩
  by_cases c3 : lat_grid.getD (lat_grid.length - 1) 0 = 90 →
      ∀ ip ic : Nat, ip < x.npages → 1 ≤ ic → ic < x.ncols →
        x.data ip (x.nrows - 1) ic = x.data ip (x.nrows - 1) (ic - 1)
  swap
  · have hpole : lat_grid.getD (lat_grid.length - 1) 0 = 90 := by
      by_contra hn; exact c3 (fun h => absurd h hn)
    have hex : ∃ ip ic : Nat, ip < x.npages ∧ 1 ≤ ic ∧ ic < x.ncols ∧
        ¬ x.data ip (x.nrows - 1) ic = x.data ip (x.nrows - 1) (ic - 1) := by
      by_contra hn
      apply c3
      intro _ ip ic a b c
      by_contra hne
      exact hn ⟨ip, ic, a, b, c, hne⟩
    have he := hC c1 c2 hpole hex
    rw [he]
    exact ⟨⟨fun h => (by cases h), fun h => absurd h.2.2 c3⟩, Or.inr ⟨_, rfl⟩⟩
  have he := hD c1 c2 c3
  exact ⟨⟨fun _ => ⟨c1, c2, c3⟩, fun _ => he⟩, Or.inl he⟩

/-- Grids accepted by `chk_atm_grids` for `dim = 3` are not empty. -/
theorem chk_atm_grids_three_nonempty (p_grid lat_grid lon_grid : ConstVectorView)
    (hg : chk_atm_grids 3 p_grid lat_grid lon_grid = .ok ()) :
    0 < lat_grid.length ∧ 0 < lon_grid.length := by
  obtain ⟨-, ⟨h1, -⟩, ⟨h2, -⟩, -⟩ := (chk_atm_grids_three_iff p_grid lat_grid lon_grid).mp hg
  exact ⟨by omega, by omega⟩

/-! ## Surfaces -/

/-- Reading a matrix at a position inside its extents. -/
theorem matrix_elem_ok (x : Matrix) (r c : Int)
    (hr : 0 ≤ r ∧ r < x.nrows) (hc : 0 ≤ c ∧ c < x.ncols) :
    x.elem r c = .ok (x.data r.toNat c.toNat) := by
  unfold Matrix.elem
  rw [if_pos ⟨hr.1, hr.2, hc.1, hc.2⟩]

/-! ## Particle number density fields and the cloudbox -/

/-- Reading an array of gridded fields at a position inside it. -/
theorem ArrayOfGriddedField3.at_index_ok (a : ArrayOfGriddedField3) (n : Nat)
    (h : n < a.length) : a.at_index (n : Int) = .ok (a.get ⟨n, h⟩) := by
  unfold ArrayOfGriddedField3.at_index
  simp [List.getElem?_eq_getElem h]

/-- The check succeeds exactly when every nonzero sample of every field passes the
comparison with the cloudbox limits. -/
theorem chk_pnd_field_raw_only_in_cloudbox_ok_iff_samples (dim : Index)
    (pnd_field_raw : ArrayOfGriddedField3) (p_grid lat_grid lon_grid : ConstVectorView)
    (cloudbox_limits : ArrayOfIndex) :
    chk_pnd_field_raw_only_in_cloudbox dim pnd_field_raw p_grid lat_grid lon_grid
        cloudbox_limits = .ok () ↔
      ∀ f ∈ pnd_field_raw, ∀ p_i lat_i lon_i : Nat,
        p_i < f.data.npages → lat_i < f.data.nrows → lon_i < f.data.ncols →
        f.data.data p_i lat_i lon_i ≠ 0 →
        pnd_sample_in_cloudbox dim f p_grid lat_grid lon_grid cloudbox_limits
          p_i lat_i lon_i (f.data.data p_i lat_i lon_i) = .ok () := by
  unfold chk_pnd_field_raw_only_in_cloudbox
  rw [for_index_ok_iff]
  have field_iff : ∀ f : GriddedField3,
      (for_index 0 (f.data.npages : Int) fun p_i =>
        for_index 0 (f.data.nrows : Int) fun lat_i =>
          for_index 0 (f.data.ncols : Int) fun lon_i => do
            let v ← f.data.elem p_i lat_i lon_i
            (if v ≠ 0 then
              pnd_sample_in_cloudbox dim f p_grid lat_grid lon_grid cloudbox_limits
                p_i lat_i lon_i v
            else pure ())) = .ok () ↔
      ∀ p_i lat_i lon_i : Nat,
        p_i < f.data.npages → lat_i < f.data.nrows → lon_i < f.data.ncols →
        f.data.data p_i lat_i lon_i ≠ 0 →
        pnd_sample_in_cloudbox dim f p_grid lat_grid lon_grid cloudbox_limits
          p_i lat_i lon_i (f.data.data p_i lat_i lon_i) = .ok () := by
    intro f
    simp only [for_index_ok_iff]
    constructor
    · intro h p_i lat_i lon_i h1 h2 h3 hv
      have := h p_i (by omega) (by omega) lat_i (by omega) (by omega) lon_i (by omega)
        (by omega)
      rw [tensor3_elem_ok f.data p_i lat_i lon_i ⟨by omega, by omega⟩ ⟨by omega, by omega⟩
        ⟨by omega, by omega⟩] at this
      simp only [ok_bind, Int.toNat_ofNat, if_pos hv] at this
      exact this
    · intro h p_i a1 a2 lat_i b1 b2 lon_i c1 c2
      rw [tensor3_elem_ok f.data p_i lat_i lon_i ⟨a1, a2⟩ ⟨b1, b2⟩ ⟨c1, c2⟩]
      simp only [ok_bind]
      split_ifs with hv
      · have := h p_i.toNat lat_i.toNat lon_i.toNat (by omega) (by omega) (by omega) hv
        rw [Int.toNat_of_nonneg a1, Int.toNat_of_nonneg b1, Int.toNat_of_nonneg c1] at this
        exact this
      · rfl
  constructor
  · intro h f hf
    obtain ⟨n, hn, rfl⟩ := List.getElem_of_mem hf
    have := h n (by omega) (by omega)
    rw [pnd_field_raw.at_index_ok n hn] at this
    simp only [ok_bind, List.get_eq_getElem] at this
    exact (field_iff _).mp this
  · intro h n h1 h2
    have hn : n.toNat < pnd_field_raw.length := by omega
    have e := pnd_field_raw.at_index_ok n.toNat hn
    rw [Int.toNat_of_nonneg h1] at e
    rw [e]
    simp only [ok_bind]
    exact (field_iff _).mpr (h _ (List.get_mem _ _ _))

/-- C17. `chk_pnd_field_raw_only_in_cloudbox` succeeds whenever every sample of every
species' raw field is exactly zero (also when there are no species), for every `dim`,
every shared grid and every content of `cloudbox_limits`, valid as positions or not. -/
theorem chk_pnd_field_raw_only_in_cloudbox_all_zero (dim : Index)
    (pnd_field_raw : ArrayOfGriddedField3) (p_grid lat_grid lon_grid : ConstVectorView)
    (cloudbox_limits : ArrayOfIndex)
    (hz : ∀ f ∈ pnd_field_raw, ∀ p_i lat_i lon_i : Nat,
      p_i < f.data.npages → lat_i < f.data.nrows → lon_i < f.data.ncols →
      f.data.data p_i lat_i lon_i = 0) :
    chk_pnd_field_raw_only_in_cloudbox dim pnd_field_raw p_grid lat_grid lon_grid
      cloudbox_limits = .ok () := by
  rw [chk_pnd_field_raw_only_in_cloudbox_ok_iff_samples]
  intro f hf p_i lat_i lon_i h1 h2 h3 hv
  exact absurd (hz f hf p_i lat_i lon_i h1 h2 h3) hv

/-- C17 on one all-zero field with limits that are no positions of the grids, and on no
field at all. -/
theorem chk_pnd_field_raw_only_in_cloudbox_all_zero_witness :
    chk_pnd_field_raw_only_in_cloudbox 3
      [⟨[10, 5, 1], [0], [0], ⟨3, 1, 1, fun _ _ _ => 0⟩⟩] [10, 8, 6] [] [] [100, -1] = .ok () ∧
    chk_pnd_field_raw_only_in_cloudbox 1 [] [] [] [] [] = .ok () :=
  ⟨chk_pnd_field_raw_only_in_cloudbox_all_zero 3 _ _ _ _ _ (by
      intro f hf p_i lat_i lon_i _ _ _
      simp only [List.mem_singleton] at hf
      subst hf
      rfl),
   chk_pnd_field_raw_only_in_cloudbox_all_zero 1 [] [] [] [] [] (by
      intro f hf
      simp at hf)⟩

theorem ArrayOfIndex.at_index_cons_zero (a : Index) (r : ArrayOfIndex) :
    ArrayOfIndex.at_index (a :: r) 0 = .ok a := by
  simp [ArrayOfIndex.at_index]

theorem ArrayOfIndex.at_index_cons_pos (a : Index) (r : ArrayOfIndex) (i : Int) (h : 0 < i) :
    ArrayOfIndex.at_index (a :: r) i = ArrayOfIndex.at_index r (i - 1) := by
  obtain ⟨n, rfl⟩ := Int.eq_ofNat_of_zero_le (le_of_lt h)
  cases n with
  | zero => exact absurd h (lt_irrefl _)
  | succ n =>
    have h1 : ((n + 1 : Nat) : Int) - 1 = (n : Int) := by push_cast; ring
    rw [h1]
    unfold ArrayOfIndex.at_index
    simp only [Int.toNat_ofNat, List.get?_cons_succ, Int.ofNat_nonneg, if_true]

/-- A step followed by the rest succeeds exactly when the step succeeds with some value on
which the rest succeeds. -/
theorem bind_eq_ok_iff {α β : Type} (a : Check α) (f : α → Check β) (v : β) :
    (a >>= f) = .ok v ↔ ∃ u, a = .ok u ∧ f u = .ok v := by
  cases a <;> simp [bind, Except.bind]

/-- A loop whose body never reads out of range does not either. -/
theorem for_index_ok_or_fails (lo hi : Int) (body : Int → Check Unit)
    (h : ∀ j : Int, lo ≤ j → j < hi → body j = .ok () ∨ fails (body j)) :
    for_index lo hi body = .ok () ∨ fails (for_index lo hi body) := by
  cases hr : for_index lo hi body with
  | ok u => exact Or.inl rfl
  | error e =>
    right
    obtain ⟨j, h1, h2, hje, -⟩ := (for_index_error_iff lo hi body e).mp hr
    rcases h j h1 h2 with ho | ⟨m, hm⟩
    · rw [hje] at ho; cases ho
    · rw [hje] at hm
      exact ⟨m, hm⟩

theorem throw_if_ok_or_fails (c : Prop) [Decidable c] (m : Msg) :
    throw_if c m = .ok () ∨ fails (throw_if c m) := by
  by_cases h : c
  · exact Or.inr ⟨m, throw_if_pos c m h⟩
  · exact Or.inl (throw_if_neg c m h)

theorem seq_ok_or_fails (a : Check Unit) (b : Unit → Check Unit)
    (ha : a = .ok () ∨ fails a) (hb : b () = .ok () ∨ fails (b ())) :
    (a >>= b) = .ok () ∨ fails (a >>= b) := by
  rcases ha with ha | ⟨m, hm⟩
  · rw [ha]
    exact hb
  · rw [hm]
    exact Or.inr ⟨m, rfl⟩

/-- The comparison of one nonzero sample with the cloudbox limits, when the field's own
grid values and the limit values can be read: it passes exactly when the pressure, and for
`dim > 1` the latitude, and for `dim > 2` the longitude, lie within the limits, and
otherwise it throws. -/
theorem pnd_sample_in_cloudbox_ok_iff (dim : Index) (f : GriddedField3)
    (p_grid lat_grid lon_grid : ConstVectorView) (cloudbox_limits : ArrayOfIndex)
    (p_i lat_i lon_i : Nat) (v P0 P1 L2 L3 L4 L5 : Numeric)
    (hown : p_i < f.p_grid.length ∧ (dim > 1 → lat_i < f.lat_grid.length) ∧
      (dim > 2 → lon_i < f.lon_grid.length))
    (hP : limit_value p_grid cloudbox_limits 0 = .ok P0 ∧
      limit_value p_grid cloudbox_limits 1 = .ok P1)
    (hL : dim > 1 → limit_value lat_grid cloudbox_limits 2 = .ok L2 ∧
      limit_value lat_grid cloudbox_limits 3 = .ok L3)
    (hG : dim > 2 → limit_value lon_grid cloudbox_limits 4 = .ok L4 ∧
      limit_value lon_grid cloudbox_limits 5 = .ok L5) :
    (pnd_sample_in_cloudbox dim f p_grid lat_grid lon_grid cloudbox_limits
        p_i lat_i lon_i v = .ok () ↔
      (f.p_grid.getD p_i 0 ≤ P0 ∧ f.p_grid.getD p_i 0 ≥ P1) ∧
      (dim > 1 → f.lat_grid.getD lat_i 0 ≥ L2 ∧ f.lat_grid.getD lat_i 0 ≤ L3) ∧
      (dim > 2 → f.lon_grid.getD lon_i 0 ≥ L4 ∧ f.lon_grid.getD lon_i 0 ≤ L5)) ∧
    (pnd_sample_in_cloudbox dim f p_grid lat_grid lon_grid cloudbox_limits
        p_i lat_i lon_i v = .ok () ∨
      fails (pnd_sample_in_cloudbox dim f p_grid lat_grid lon_grid cloudbox_limits
        p_i lat_i lon_i v)) := by
  obtain ⟨c0, hc0, hP0⟩ := (bind_eq_ok_iff _ _ _).mp hP.1
  obtain ⟨c1, hc1, hP1⟩ := (bind_eq_ok_iff _ _ _).mp hP.2
  have ip := index_natCast f.p_grid p_i hown.1
  unfold pnd_sample_in_cloudbox
  simp only [ip, hc0, hc1, hP0, hP1, ok_bind]
  have lat_part : ((if dim > 1 then do
        let lat ← index f.lat_grid lat_i
        let l2 ← index lat_grid (← cloudbox_limits.at_index 2)
        let l3 ← index lat_grid (← cloudbox_limits.at_index 3)
        throw_if (¬ (lat ≥ l2 ∧ lat ≤ l3)) (.pnd_outside_lat l2 l3 v lat)
      else pure ()) = (.ok () : Check Unit) ↔
        (dim > 1 → f.lat_grid.getD lat_i 0 ≥ L2 ∧ f.lat_grid.getD lat_i 0 ≤ L3)) ∧
      ((if dim > 1 then do
        let lat ← index f.lat_grid lat_i
        let l2 ← index lat_grid (← cloudbox_limits.at_index 2)
        let l3 ← index lat_grid (← cloudbox_limits.at_index 3)
        throw_if (¬ (lat ≥ l2 ∧ lat ≤ l3)) (.pnd_outside_lat l2 l3 v lat)
      else pure ()) = (.ok () : Check Unit) ∨
      fails ((if dim > 1 then do
        let lat ← index f.lat_grid lat_i
        let l2 ← index lat_grid (← cloudbox_limits.at_index 2)
        let l3 ← index lat_grid (← cloudbox_limits.at_index 3)
        throw_if (¬ (lat ≥ l2 ∧ lat ≤ l3)) (.pnd_outside_lat l2 l3 v lat)
      else pure () : Check Unit))) := by
    by_cases hd : dim > 1
    · obtain ⟨c2, hc2, hL2⟩ := (bind_eq_ok_iff _ _ _).mp (hL hd).1
      obtain ⟨c3, hc3, hL3⟩ := (bind_eq_ok_iff _ _ _).mp (hL hd).2
      have il := index_natCast f.lat_grid lat_i (hown.2.1 hd)
      simp only [if_pos hd, il, hc2, hc3, hL2, hL3, ok_bind, throw_if_ok_iff, not_not]
      exact ⟨⟨fun h _ => h, fun h => h hd⟩,
        (Classical.em _).imp id (fun hc => ⟨_, throw_if_pos _ _ hc⟩)⟩
    · rw [if_neg hd]
      exact ⟨⟨fun _ h => absurd h hd, fun _ => rfl⟩, Or.inl rfl⟩
  have lon_part : ((if dim > 2 then do
        let lon ← index f.lon_grid lon_i
        let l4 ← index lon_grid (← cloudbox_limits.at_index 4)
        let l5 ← index lon_grid (← cloudbox_limits.at_index 5)
        throw_if (¬ (lon ≥ l4 ∧ lon ≤ l5)) (.pnd_outside_lon l4 l5 v lon)
      else pure ()) = (.ok () : Check Unit) ↔
        (dim > 2 → f.lon_grid.getD lon_i 0 ≥ L4 ∧ f.lon_grid.getD lon_i 0 ≤ L5)) ∧
      ((if dim > 2 then do
        let lon ← index f.lon_grid lon_i
        let l4 ← index lon_grid (← cloudbox_limits.at_index 4)
        let l5 ← index lon_grid (← cloudbox_limits.at_index 5)
        throw_if (¬ (lon ≥ l4 ∧ lon ≤ l5)) (.pnd_outside_lon l4 l5 v lon)
      else pure ()) = (.ok () : Check Unit) ∨
      fails ((if dim > 2 then do
        let lon ← index f.lon_grid lon_i
        let l4 ← index lon_grid (← cloudbox_limits.at_index 4)
        let l5 ← index lon_grid (← cloudbox_limits.at_index 5)
        throw_if (¬ (lon ≥ l4 ∧ lon ≤ l5)) (.pnd_outside_lon l4 l5 v lon)
      else pure () : Check Unit))) := by
    by_cases hd : dim > 2
    · obtain ⟨c4, hc4, hL4⟩ := (bind_eq_ok_iff _ _ _).mp (hG hd).1
      obtain ⟨c5, hc5, hL5⟩ := (bind_eq_ok_iff _ _ _).mp (hG hd).2
      have il := index_natCast f.lon_grid lon_i (hown.2.2 hd)
      simp only [if_pos hd, il, hc4, hc5, hL4, hL5, ok_bind, throw_if_ok_iff, not_not]
      exact ⟨⟨fun h _ => h, fun h => h hd⟩,
        (Classical.em _).imp id (fun hc => ⟨_, throw_if_pos _ _ hc⟩)⟩
    · rw [if_neg hd]
      exact ⟨⟨fun _ h => absurd h hd, fun _ => rfl⟩, Or.inl rfl⟩
  constructor
  · rw [seq_ok_iff, seq_ok_iff, throw_if_ok_iff, not_not, lat_part.1, lon_part.1]
  · exact seq_ok_or_fails _ _ (throw_if_ok_or_fails _ _)
      (seq_ok_or_fails _ _ lat_part.2 lon_part.2)

/-- When every read of the comparison is inside its vector, the check never ends with a
read out of range: it succeeds or it throws. -/
theorem chk_pnd_field_raw_only_in_cloudbox_ok_or_fails (dim : Index)
    (pnd_field_raw : ArrayOfGriddedField3) (p_grid lat_grid lon_grid : ConstVectorView)
    (cloudbox_limits : ArrayOfIndex) (P0 P1 L2 L3 L4 L5 : Numeric)
    (hown : ∀ f ∈ pnd_field_raw, f.data.npages ≤ f.p_grid.length ∧
      (dim > 1 → f.data.nrows ≤ f.lat_grid.length) ∧
      (dim > 2 → f.data.ncols ≤ f.lon_grid.length))
    (hP : limit_value p_grid cloudbox_limits 0 = .ok P0 ∧
      limit_value p_grid cloudbox_limits 1 = .ok P1)
    (hL : dim > 1 → limit_value lat_grid cloudbox_limits 2 = .ok L2 ∧
      limit_value lat_grid cloudbox_limits 3 = .ok L3)
    (hG : dim > 2 → limit_value lon_grid cloudbox_limits 4 = .ok L4 ∧
      limit_value lon_grid cloudbox_limits 5 = .ok L5) :
    chk_pnd_field_raw_only_in_cloudbox dim pnd_field_raw p_grid lat_grid lon_grid
        cloudbox_limits = .ok () ∨
    fails (chk_pnd_field_raw_only_in_cloudbox dim pnd_field_raw p_grid lat_grid lon_grid
        cloudbox_limits) := by
  unfold chk_pnd_field_raw_only_in_cloudbox
  apply for_index_ok_or_fails
  intro n h1 h2
  have hn : n.toNat < pnd_field_raw.length := by omega
  have e := pnd_field_raw.at_index_ok n.toNat hn
  rw [Int.toNat_of_nonneg h1] at e
  rw [e]
  simp only [ok_bind]
  obtain ⟨o1, o2, o3⟩ := hown _ (List.get_mem pnd_field_raw n.toNat hn)
  apply for_index_ok_or_fails
  intro p_i a1 a2
  apply for_index_ok_or_fails
  intro lat_i b1 b2
  apply for_index_ok_or_fails
  intro lon_i c1 c2
  rw [tensor3_elem_ok _ p_i lat_i lon_i ⟨a1, a2⟩ ⟨b1, b2⟩ ⟨c1, c2⟩]
  simp only [ok_bind]
  split_ifs with hv
  · have q1 : p_i.toNat < (pnd_field_raw.get ⟨n.toNat, hn⟩).p_grid.length := by omega
    have q2 : dim > 1 → lat_i.toNat < (pnd_field_raw.get ⟨n.toNat, hn⟩).lat_grid.length :=
      fun hd => by have := o2 hd; omega
    have q3 : dim > 2 → lon_i.toNat < (pnd_field_raw.get ⟨n.toNat, hn⟩).lon_grid.length :=
      fun hd => by have := o3 hd; omega
    have key := fun v : Numeric =>
      (pnd_sample_in_cloudbox_ok_iff dim (pnd_field_raw.get ⟨n.toNat, hn⟩) p_grid lat_grid
        lon_grid cloudbox_limits p_i.toNat lat_i.toNat lon_i.toNat v P0 P1 L2 L3 L4 L5
        ⟨q1, q2, q3⟩ hP hL hG).2
    rw [Int.toNat_of_nonneg a1, Int.toNat_of_nonneg b1, Int.toNat_of_nonneg c1] at key
    exact key _
  · exact Or.inl rfl

/-- C16. `chk_pnd_field_raw_only_in_cloudbox` succeeds if and only if for every species and
every sample `(p_i, lat_i, lon_i)` of its raw field with a nonzero value: the species' own
pressure `p` at `p_i` satisfies `p_grid[cloudbox_limits[0]] >= p >= p_grid[cloudbox_limits[1]]`;
and, when `dim > 1`, its own latitude at `lat_i` lies in `[lat_grid[cloudbox_limits[2]],
lat_grid[cloudbox_limits[3]]]`; and, when `dim > 2`, its own longitude at `lon_i` lies in
`[lon_grid[cloudbox_limits[4]], lon_grid[cloudbox_limits[5]]]`, all bounds inclusive.  In
particular a nonzero sample at a pressure outside the pressure bounds is rejected, for
every `dim`.  The names `P0` ... `L5` stand for the six limit values, which are taken to
exist for the axes that `dim` uses, and every raw field is taken to carry own grids as
long as its data on those axes. -/
theorem chk_pnd_field_raw_only_in_cloudbox_ok_iff (dim : Index)
    (pnd_field_raw : ArrayOfGriddedField3) (p_grid lat_grid lon_grid : ConstVectorView)
    (cloudbox_limits : ArrayOfIndex) (P0 P1 L2 L3 L4 L5 : Numeric)
    (hown : ∀ f ∈ pnd_field_raw, f.data.npages ≤ f.p_grid.length ∧
      (dim > 1 → f.data.nrows ≤ f.lat_grid.length) ∧
      (dim > 2 → f.data.ncols ≤ f.lon_grid.length))
    (hP : limit_value p_grid cloudbox_limits 0 = .ok P0 ∧
      limit_value p_grid cloudbox_limits 1 = .ok P1)
    (hL : dim > 1 → limit_value lat_grid cloudbox_limits 2 = .ok L2 ∧
      limit_value lat_grid cloudbox_limits 3 = .ok L3)
    (hG : dim > 2 → limit_value lon_grid cloudbox_limits 4 = .ok L4 ∧
      limit_value lon_grid cloudbox_limits 5 = .ok L5) :
    (chk_pnd_field_raw_only_in_cloudbox dim pnd_field_raw p_grid lat_grid lon_grid
        cloudbox_limits = .ok () ↔
      ∀ f ∈ pnd_field_raw, ∀ p_i lat_i lon_i : Nat,
        p_i < f.data.npages → lat_i < f.data.nrows → lon_i < f.data.ncols →
        f.data.data p_i lat_i lon_i ≠ 0 →
        (P0 ≥ f.p_grid.getD p_i 0 ∧ f.p_grid.getD p_i 0 ≥ P1) ∧
        (dim > 1 → L2 ≤ f.lat_grid.getD lat_i 0 ∧ f.lat_grid.getD lat_i 0 ≤ L3) ∧
        (dim > 2 → L4 ≤ f.lon_grid.getD lon_i 0 ∧ f.lon_grid.getD lon_i 0 ≤ L5)) ∧
    ((∃ f ∈ pnd_field_raw, ∃ p_i lat_i lon_i : Nat,
        p_i < f.data.npages ∧ lat_i < f.data.nrows ∧ lon_i < f.data.ncols ∧
        f.data.data p_i lat_i lon_i ≠ 0 ∧
        ¬ (P0 ≥ f.p_grid.getD p_i 0 ∧ f.p_grid.getD p_i 0 ≥ P1)) →
      fails (chk_pnd_field_raw_only_in_cloudbox dim pnd_field_raw p_grid lat_grid lon_grid
        cloudbox_limits)) := by
  have hiff : chk_pnd_field_raw_only_in_cloudbox dim pnd_field_raw p_grid lat_grid lon_grid
        cloudbox_limits = .ok () ↔
      ∀ f ∈ pnd_field_raw, ∀ p_i lat_i lon_i : Nat,
        p_i < f.data.npages → lat_i < f.data.nrows → lon_i < f.data.ncols →
        f.data.data p_i lat_i lon_i ≠ 0 →
        (P0 ≥ f.p_grid.getD p_i 0 ∧ f.p_grid.getD p_i 0 ≥ P1) ∧
        (dim > 1 → L2 ≤ f.lat_grid.getD lat_i 0 ∧ f.lat_grid.getD lat_i 0 ≤ L3) ∧
        (dim > 2 → L4 ≤ f.lon_grid.getD lon_i 0 ∧ f.lon_grid.getD lon_i 0 ≤ L5) := by
    rw [chk_pnd_field_raw_only_in_cloudbox_ok_iff_samples]
    constructor
    · intro h f hf p_i lat_i lon_i h1 h2 h3 hv
      obtain ⟨o1, o2, o3⟩ := hown f hf
      exact (pnd_sample_in_cloudbox_ok_iff dim f p_grid lat_grid lon_grid cloudbox_limits
        p_i lat_i lon_i _ P0 P1 L2 L3 L4 L5
        ⟨by omega, fun hd => by have := o2 hd; omega, fun hd => by have := o3 hd; omega⟩
        hP hL hG).1.mp (h f hf p_i lat_i lon_i h1 h2 h3 hv)
    · intro h f hf p_i lat_i lon_i h1 h2 h3 hv
      obtain ⟨o1, o2, o3⟩ := hown f hf
      exact (pnd_sample_in_cloudbox_ok_iff dim f p_grid lat_grid lon_grid cloudbox_limits
        p_i lat_i lon_i _ P0 P1 L2 L3 L4 L5
        ⟨by omega, fun hd => by have := o2 hd; omega, fun hd => by have := o3 hd; omega⟩
        hP hL hG).1.mpr (h f hf p_i lat_i lon_i h1 h2 h3 hv)
  refine ⟨hiff, ?_⟩
  rintro ⟨f, hf, p_i, lat_i, lon_i, h1, h2, h3, hv, hout⟩
  rcases chk_pnd_field_raw_only_in_cloudbox_ok_or_fails dim pnd_field_raw p_grid lat_grid
    lon_grid cloudbox_limits P0 P1 L2 L3 L4 L5 hown hP hL hG with hok | hfail
  · exact absurd ((hiff.mp hok) f hf p_i lat_i lon_i h1 h2 h3 hv).1 hout
  · exact hfail

/-- C16 for `dim = 1` with the shared pressure grid 10, 8, 6, 4, 2 and the limits 1 and 3,
so that the bounds are 8 and 4: a raw field whose only nonzero sample sits at its own
pressure 10 is rejected, and one whose only nonzero sample sits at its own pressure 5 is
accepted. -/
theorem chk_pnd_field_raw_only_in_cloudbox_ok_iff_witness :
    fails (chk_pnd_field_raw_only_in_cloudbox 1
      [⟨[10, 5, 1], [], [], ⟨3, 1, 1, fun p _ _ => if p = 0 then 1 else 0⟩⟩]
      [10, 8, 6, 4, 2] [] [] [1, 3]) ∧
    chk_pnd_field_raw_only_in_cloudbox 1
      [⟨[10, 5, 1], [], [], ⟨3, 1, 1, fun p _ _ => if p = 1 then 1 else 0⟩⟩]
      [10, 8, 6, 4, 2] [] [] [1, 3] = .ok () := by
  have hP : limit_value [10, 8, 6, 4, 2] [1, 3] 0 = .ok 8 ∧
      limit_value [10, 8, 6, 4, 2] [1, 3] 1 = .ok 4 := by
    constructor <;>
    norm_num [limit_value, ArrayOfIndex.at_index_cons_zero, ArrayOfIndex.at_index_cons_pos,
      index_cons_zero, index_cons_pos, bind, Except.bind]
  have hL : (1 : Index) > 1 → limit_value [] [1, 3] 2 = .ok 0 ∧
      limit_value [] [1, 3] 3 = .ok 0 := fun h => absurd h (by decide)
  have hG : (1 : Index) > 2 → limit_value [] [1, 3] 4 = .ok 0 ∧
      limit_value [] [1, 3] 5 = .ok 0 := fun h => absurd h (by decide)
  constructor
  · refine (chk_pnd_field_raw_only_in_cloudbox_ok_iff 1 _ _ _ _ _ 8 4 0 0 0 0 ?_ hP hL hG).2
      ⟨_, List.mem_singleton.mpr rfl, 0, 0, 0, by decide, by decide, by decide, by simp,
        by norm_num⟩
    intro f hf
    rw [List.mem_singleton.mp hf]
    exact ⟨by decide, fun h => absurd h (by decide), fun h => absurd h (by decide)⟩
  · refine (chk_pnd_field_raw_only_in_cloudbox_ok_iff 1 _ _ _ _ _ 8 4 0 0 0 0 ?_ hP hL hG).1.mpr
      ?_
    · intro f hf
      rw [List.mem_singleton.mp hf]
      exact ⟨by decide, fun h => absurd h (by decide), fun h => absurd h (by decide)⟩
    · intro f hf p_i lat_i lon_i h1 h2 h3 hv
      rw [List.mem_singleton.mp hf] at h1 hv ⊢
      refine ⟨?_, fun h => absurd h (by decide), fun h => absurd h (by decide)⟩
      have hp : p_i = 1 := by
        by_contra hne
        simp [hne] at hv
      subst hp
      norm_num

/-! ## True positions in 3D, ranges, monotonic sequences, sizes, the scalar overload -/

/-- C21. `chk_latlon_true` for `dim = 3` never fails and returns `lat = lat_grid` and
`lon = lon_grid`, whatever `lat_true` and `lon_true` are. -/
theorem chk_latlon_true_3d (lat_grid lon_grid lat_true lon_true : ConstVectorView) :
    chk_latlon_true 3 lat_grid lon_grid lat_true lon_true = .ok (lat_grid, lon_grid) := by
  unfold chk_latlon_true
  rw [if_neg (by decide), if_neg (by decide)]

/-- C26. The scalar overload of `chk_interpolation_grids` has, for every old grid, order,
extrapolation factor and scalar `x`, the outcome of the vector form on the new grid that
holds `x` alone: the same success or the same failure. -/
theorem chk_interpolation_grids_scalar_eq (old_grid : ConstVectorView) (x : Numeric)
    (order : Index) (e : Numeric) :
    chk_interpolation_grids_scalar old_grid x order e =
      chk_interpolation_grids old_grid [x] order e := by
  unfold chk_interpolation_grids_scalar Vector_fill
  rfl

/-- A relation holds between all neighbours of a list exactly when it holds at every pair
of adjacent positions. -/
theorem chain_iff_adjacent {α : Type} (R : α → α → Prop) (d : α) (l : List α) :
    l.Chain' R ↔ ∀ i : Nat, i + 1 < l.length → R (l.getD i d) (l.getD (i + 1) d) := by
  induction l with
  | nil => simp
  | cons a r ih =>
    cases r with
    | nil => simp
    | cons b r =>
      rw [List.chain'_cons, ih]
      constructor
      · rintro ⟨hab, h⟩ i hi
        cases i with
        | zero => simpa using hab
        | succ i =>
          have := h i (by simpa using hi)
          simpa using this
      · intro h
        refine ⟨by simpa using h 0 (by simp), fun i hi => ?_⟩
        have := h (i + 1) (by simpa using hi)
        simpa using this

theorem is_increasing_chain (x : ConstVectorView) :
    is_increasing x = true ↔ x.Chain' (· < ·) := by
  induction x with
  | nil => simp [is_increasing]
  | cons a r ih =>
    cases r with
    | nil => simp [is_increasing]
    | cons b r => simp [is_increasing, List.chain'_cons, ih]

theorem is_decreasing_chain (x : ConstVectorView) :
    is_decreasing x = true ↔ x.Chain' (· > ·) := by
  induction x with
  | nil => simp [is_decreasing]
  | cons a r ih =>
    cases r with
    | nil => simp [is_decreasing]
    | cons b r => simp [is_decreasing, List.chain'_cons, ih]

theorem is_increasing_index_chain (x : List Index) :
    is_increasing_index x = true ↔ x.Chain' (· < ·) := by
  induction x with
  | nil => simp [is_increasing_index]
  | cons a r ih =>
    cases r with
    | nil => simp [is_increasing_index]
    | cons b r => simp [is_increasing_index, List.chain'_cons, ih]

/-- C23. `chk_if_increasing`, on index arrays and on vectors, succeeds iff every adjacent
pair satisfies `x[i] < x[i+1]`, and `chk_if_decreasing` succeeds iff every adjacent pair
satisfies `x[i] > x[i+1]`; a sequence with two equal neighbours is rejected by all three,
and the empty and the one-element sequences are accepted. -/
theorem chk_if_monotonic_ok_iff :
    (∀ x : List Index, chk_if_increasing_index x = .ok () ↔
      ∀ i : Nat, i + 1 < x.length → x.getD i 0 < x.getD (i + 1) 0) ∧
    (∀ (x_name : String) (x : ConstVectorView), chk_if_increasing x_name x = .ok () ↔
      ∀ i : Nat, i + 1 < x.length → x.getD i 0 < x.getD (i + 1) 0) ∧
    (∀ (x_name : String) (x : ConstVectorView), chk_if_decreasing x_name x = .ok () ↔
      ∀ i : Nat, i + 1 < x.length → x.getD i 0 > x.getD (i + 1) 0) ∧
    (∀ (x : List Index) (i : Nat), i + 1 < x.length → x.getD i 0 = x.getD (i + 1) 0 →
      fails (chk_if_increasing_index x)) ∧
    (∀ (x_name : String) (x : ConstVectorView) (i : Nat), i + 1 < x.length →
      x.getD i 0 = x.getD (i + 1) 0 →
      fails (chk_if_increasing x_name x) ∧ fails (chk_if_decreasing x_name x)) ∧
    (chk_if_increasing_index [] = .ok () ∧
      ∀ a : Index, chk_if_increasing_index [a] = .ok ()) ∧
    (∀ (x_name : String), chk_if_increasing x_name [] = .ok () ∧
      chk_if_decreasing x_name [] = .ok () ∧
      ∀ a : Numeric, chk_if_increasing x_name [a] = .ok () ∧
        chk_if_decreasing x_name [a] = .ok ()) := by
  have hi : ∀ x : List Index, chk_if_increasing_index x = .ok () ↔
      ∀ i : Nat, i + 1 < x.length → x.getD i 0 < x.getD (i + 1) 0 := by
    intro x
    rw [← chain_iff_adjacent (· < ·) 0 x, ← is_increasing_index_chain]
    unfold chk_if_increasing_index
    cases is_increasing_index x <;> simp
  have hv : ∀ (x_name : String) (x : ConstVectorView), chk_if_increasing x_name x = .ok () ↔
      ∀ i : Nat, i + 1 < x.length → x.getD i 0 < x.getD (i + 1) 0 := by
    intro n x
    rw [← chain_iff_adjacent (· < ·) 0 x, ← is_increasing_chain]
    unfold chk_if_increasing
    cases is_increasing x <;> simp
  have hd : ∀ (x_name : String) (x : ConstVectorView), chk_if_decreasing x_name x = .ok () ↔
      ∀ i : Nat, i + 1 < x.length → x.getD i 0 > x.getD (i + 1) 0 := by
    intro n x
    rw [← chain_iff_adjacent (· > ·) 0 x, ← is_decreasing_chain]
    unfold chk_if_decreasing
    cases is_decreasing x <;> simp
  have fi : ∀ x : List Index, chk_if_increasing_index x = .ok () ∨
      fails (chk_if_increasing_index x) := by
    intro x
    unfold chk_if_increasing_index
    cases is_increasing_index x
    · exact Or.inr ⟨_, rfl⟩
    · exact Or.inl rfl
  have fv : ∀ (n : String) (x : ConstVectorView), chk_if_increasing n x = .ok () ∨
      fails (chk_if_increasing n x) := by
    intro n x
    unfold chk_if_increasing
    cases is_increasing x
    · exact Or.inr ⟨_, rfl⟩
    · exact Or.inl rfl
  have fd : ∀ (n : String) (x : ConstVectorView), chk_if_decreasing n x = .ok () ∨
      fails (chk_if_decreasing n x) := by
    intro n x
    unfold chk_if_decreasing
    cases is_decreasing x
    · exact Or.inr ⟨_, rfl⟩
    · exact Or.inl rfl
  refine ⟨hi, hv, hd, ?_, ?_, ?_, ?_⟩
  · intro x i h1 h2
    rcases fi x with h | h
    · exact absurd ((hi x).mp h i h1) (by rw [h2]; exact lt_irrefl _)
    · exact h
  · intro n x i h1 h2
    constructor
    · rcases fv n x with h | h
      · exact absurd ((hv n x).mp h i h1) (by rw [h2]; exact lt_irrefl _)
      · exact h
    · rcases fd n x with h | h
      · exact absurd ((hd n x).mp h i h1) (by rw [h2]; exact lt_irrefl _)
      · exact h
  · exact ⟨rfl, fun _ => rfl⟩
  · intro n
    exact ⟨rfl, rfl, fun _ => ⟨rfl, rfl⟩⟩

/-- C23 on concrete sequences: 1, 2, 4 is increasing, 3, 3 is neither increasing nor
decreasing. -/
theorem chk_if_monotonic_ok_iff_witness :
    chk_if_increasing_index [1, 2, 4] = .ok () ∧
    fails (chk_if_increasing_index [3, 3]) ∧
    fails (chk_if_increasing "x" [3, 3]) ∧ fails (chk_if_decreasing "x" [3, 3]) :=
  ⟨(chk_if_monotonic_ok_iff.1 [1, 2, 4]).mpr (by
      intro i hi
      have : i = 0 ∨ i = 1 := by simp at hi; omega
      rcases this with rfl | rfl <;> simp),
   chk_if_monotonic_ok_iff.2.2.2.1 [3, 3] 0 (by simp) (by simp),
   (chk_if_monotonic_ok_iff.2.2.2.2.1 "x" [3, 3] 0 (by simp) (by simp)).1,
   (chk_if_monotonic_ok_iff.2.2.2.2.1 "x" [3, 3] 0 (by simp) (by simp)).2⟩

/-- The common shape of the seven `chk_size` functions: success exactly when the extents
are the expected ones, and otherwise the failure that carries both complete tuples. -/
theorem chk_size_form (extents expected : List Index) :
    ((if !is_size extents expected then
        (.error (.runtime_error (.wrong_size expected extents)) : Check Unit)
      else .ok ()) = .ok () ↔ extents = expected) ∧
    (extents ≠ expected →
      (if !is_size extents expected then
        (.error (.runtime_error (.wrong_size expected extents)) : Check Unit)
      else .ok ()) = .error (.runtime_error (.wrong_size expected extents))) := by
  unfold is_size
  by_cases h : extents = expected
  · simp [h]
  · simp [h]

/-- C25. For every rank from 1 to 7, `chk_size` succeeds if and only if each per-axis
extent of the array equals the corresponding expected extent, taken outermost to
innermost; on a mismatch the failure reports the complete expected tuple and the complete
actual tuple. -/
theorem chk_size_ok_iff :
    (∀ (x : ConstVectorView) (c : Index),
      (chk_size1 x c = .ok () ↔ nelem x = c) ∧
      (¬ nelem x = c →
        chk_size1 x c = .error (.runtime_error (.wrong_size [c] [nelem x])))) ∧
    (∀ (x : Matrix) (r c : Index),
      (chk_size2 x r c = .ok () ↔ (x.nrows : Index) = r ∧ (x.ncols : Index) = c) ∧
      (¬ ((x.nrows : Index) = r ∧ (x.ncols : Index) = c) →
        chk_size2 x r c = .error (.runtime_error (.wrong_size [r, c] [x.nrows, x.ncols])))) ∧
    (∀ (x : ConstTensor3View) (p r c : Index),
      (chk_size3 x p r c = .ok () ↔
        (x.npages : Index) = p ∧ (x.nrows : Index) = r ∧ (x.ncols : Index) = c) ∧
      (¬ ((x.npages : Index) = p ∧ (x.nrows : Index) = r ∧ (x.ncols : Index) = c) →
        chk_size3 x p r c = .error (.runtime_error (.wrong_size [p, r, c]
          [x.npages, x.nrows, x.ncols])))) ∧
    (∀ (x : ConstTensor4View) (b p r c : Index),
      (chk_size4 x b p r c = .ok () ↔
        (x.nbooks : Index) = b ∧ (x.npages : Index) = p ∧ (x.nrows : Index) = r ∧
          (x.ncols : Index) = c) ∧
      (¬ ((x.nbooks : Index) = b ∧ (x.npages : Index) = p ∧ (x.nrows : Index) = r ∧
          (x.ncols : Index) = c) →
        chk_size4 x b p r c = .error (.runtime_error (.wrong_size [b, p, r, c]
          [x.nbooks, x.npages, x.nrows, x.ncols])))) ∧
    (∀ (x : ConstTensor5View) (s b p r c : Index),
      (chk_size5 x s b p r c = .ok () ↔
        (x.nshelves : Index) = s ∧ (x.nbooks : Index) = b ∧ (x.npages : Index) = p ∧
          (x.nrows : Index) = r ∧ (x.ncols : Index) = c) ∧
      (¬ ((x.nshelves : Index) = s ∧ (x.nbooks : Index) = b ∧ (x.npages : Index) = p ∧
          (x.nrows : Index) = r ∧ (x.ncols : Index) = c) →
        chk_size5 x s b p r c = .error (.runtime_error (.wrong_size [s, b, p, r, c]
          [x.nshelves, x.nbooks, x.npages, x.nrows, x.ncols])))) ∧
    (∀ (x : ConstTensor6View) (v s b p r c : Index),
      (chk_size6 x v s b p r c = .ok () ↔
        (x.nvitrines : Index) = v ∧ (x.nshelves : Index) = s ∧ (x.nbooks : Index) = b ∧
          (x.npages : Index) = p ∧ (x.nrows : Index) = r ∧ (x.ncols : Index) = c) ∧
      (¬ ((x.nvitrines : Index) = v ∧ (x.nshelves : Index) = s ∧ (x.nbooks : Index) = b ∧
          (x.npages : Index) = p ∧ (x.nrows : Index) = r ∧ (x.ncols : Index) = c) →
        chk_size6 x v s b p r c = .error (.runtime_error (.wrong_size [v, s, b, p, r, c]
          [x.nvitrines, x.nshelves, x.nbooks, x.npages, x.nrows, x.ncols])))) ∧
    (∀ (x : ConstTensor7View) (l v s b p r c : Index),
      (chk_size7 x l v s b p r c = .ok () ↔
        (x.nlibraries : Index) = l ∧ (x.nvitrines : Index) = v ∧ (x.nshelves : Index) = s ∧
          (x.nbooks : Index) = b ∧ (x.npages : Index) = p ∧ (x.nrows : Index) = r ∧
          (x.ncols : Index) = c) ∧
      (¬ ((x.nlibraries : Index) = l ∧ (x.nvitrines : Index) = v ∧
          (x.nshelves : Index) = s ∧ (x.nbooks : Index) = b ∧ (x.npages : Index) = p ∧
          (x.nrows : Index) = r ∧ (x.ncols : Index) = c) →
        chk_size7 x l v s b p r c = .error (.runtime_error (.wrong_size [l, v, s, b, p, r, c]
          [x.nlibraries, x.nvitrines, x.nshelves, x.nbooks, x.npages, x.nrows,
            x.ncols])))) := by
  refine ⟨?_, ?_, ?_, ?_, ?_, ?_, ?_⟩
  · intro x c
    have h := chk_size_form [nelem x] [c]
    unfold chk_size1
    simpa using h
  · intro x r c
    have h := chk_size_form [(x.nrows : Index), x.ncols] [r, c]
    unfold chk_size2
    simpa using h
  · intro x p r c
    have h := chk_size_form [(x.npages : Index), x.nrows, x.ncols] [p, r, c]
    unfold chk_size3
    simpa using h
  · intro x b p r c
    have h := chk_size_form [(x.nbooks : Index), x.npages, x.nrows, x.ncols] [b, p, r, c]
    unfold chk_size4
    simpa using h
  · intro x s b p r c
    have h := chk_size_form [(x.nshelves : Index), x.nbooks, x.npages, x.nrows, x.ncols]
      [s, b, p, r, c]
    unfold chk_size5
    simpa using h
  · intro x v s b p r c
    have h := chk_size_form
      [(x.nvitrines : Index), x.nshelves, x.nbooks, x.npages, x.nrows, x.ncols]
      [v, s, b, p, r, c]
    unfold chk_size6
    simpa using h
  · intro x l v s b p r c
    have h := chk_size_form
      [(x.nlibraries : Index), x.nvitrines, x.nshelves, x.nbooks, x.npages, x.nrows, x.ncols]
      [l, v, s, b, p, r, c]
    unfold chk_size7
    simpa using h

/-- C25 on a 2 by 3 matrix: the expected size 2, 3 is accepted, and with the expected
size 2, 4, which differs in the second axis only, both tuples are reported in full. -/
theorem chk_size_ok_iff_witness :
    chk_size2 ⟨2, 3, fun _ _ => 0⟩ 2 3 = .ok () ∧
    chk_size2 ⟨2, 3, fun _ _ => 0⟩ 2 4 = .error (.runtime_error (.wrong_size [2, 4] [2, 3])) :=
  ⟨(chk_size_ok_iff.2.1 ⟨2, 3, fun _ _ => 0⟩ 2 3).1.mpr ⟨rfl, rfl⟩,
   (chk_size_ok_iff.2.1 ⟨2, 3, fun _ _ => 0⟩ 2 4).2 (by decide)⟩

/-! ## The index walks of the tolerant interpolation check -/

/-- The downward walk from position `k` ends at a position `r <= k`: every position above
`r` up to `k` holds a value below `w`, and `r` is 0 or holds a value not below `w`. -/
theorem walk_down_spec (new_grid old_grid : ConstVectorView) (iog_max : Index) (w : Numeric)
    (hw : index old_grid iog_max = .ok w) (k : Nat) (hk : k < new_grid.length) :
    ∃ r : Nat, walk_down new_grid old_grid iog_max k = .ok r ∧ r ≤ k ∧
      (∀ j : Nat, r < j → j ≤ k → new_grid.getD j 0 < w) ∧
      (r = 0 ∨ ¬ new_grid.getD r 0 < w) := by
  induction k with
  | zero => exact ⟨0, rfl, le_refl 0, fun j h1 h2 => absurd h1 (by omega), Or.inl rfl⟩
  | succ k ih =>
    obtain ⟨r, hr, hle, hall, hstop⟩ := ih (by omega)
    unfold walk_down
    rw [index_natCast new_grid (k + 1) hk, hw]
    simp only [ok_bind]
    by_cases hv : new_grid.getD (k + 1) 0 < w
    · rw [if_pos hv]
      refine ⟨r, hr, by omega, fun j h1 h2 => ?_, hstop⟩
      rcases Nat.lt_or_ge j (k + 1) with h3 | h3
      · exact hall j h1 (by omega)
      · have : j = k + 1 := by omega
        rw [this]; exact hv
    · rw [if_neg hv]
      exact ⟨k + 1, rfl, le_refl _, fun j h1 h2 => absurd h1 (by omega), Or.inr hv⟩

/-- The upward walk from position `i` ends at a position `r` between `i` and `last`: every
position from `i` up to, not including, `r` holds a value above `w`, and `r` is `last` or
holds a value not above `w`. -/
theorem walk_up_spec (new_grid old_grid : ConstVectorView) (iog_min : Index) (w : Numeric)
    (hw : index old_grid iog_min = .ok w) (last : Nat) (hlast : last < new_grid.length)
    (fuel i : Nat) (hi : i ≤ last) (hf : last - i ≤ fuel) :
    ∃ r : Nat, walk_up new_grid old_grid iog_min last fuel i = .ok r ∧ i ≤ r ∧ r ≤ last ∧
      (∀ j : Nat, i ≤ j → j < r → new_grid.getD j 0 > w) ∧
      (r = last ∨ ¬ new_grid.getD r 0 > w) := by
  induction fuel generalizing i with
  | zero =>
    have : i = last := by omega
    exact ⟨i, rfl, le_refl i, hi, fun j h1 h2 => absurd h2 (by omega), Or.inl this⟩
  | succ fuel ih =>
    unfold walk_up
    by_cases hlt : i < last
    · rw [if_pos hlt, index_natCast new_grid i (by omega), hw]
      simp only [ok_bind]
      by_cases hv : new_grid.getD i 0 > w
      · rw [if_pos hv]
        obtain ⟨r, hr, h1, h2, hall, hstop⟩ := ih (i + 1) (by omega) (by omega)
        refine ⟨r, hr, by omega, h2, fun j h3 h4 => ?_, hstop⟩
        rcases Nat.eq_or_lt_of_le h3 with h5 | h5
        · rw [← h5]; exact hv
        · exact hall j (by omega) h4
      · rw [if_neg hv]
        exact ⟨i, rfl, le_refl i, hi, fun j h1 h2 => absurd h2 (by omega), Or.inr hv⟩
    · rw [if_neg hlt]
      have : i = last := by omega
      exact ⟨i, rfl, le_refl i, hi, fun j h1 h2 => absurd h2 (by omega), Or.inl this⟩

/-- What a successful setup says about the old grid: it has at least two elements and it
is strictly sorted in the direction reported. -/
theorem grid_limits_ok_cases (old_grid : ConstVectorView) (order : Index) (e : Numeric)
    (asc : Bool) (og_min og_max : Numeric)
    (h : grid_limits old_grid order e = .ok (asc, og_min, og_max)) :
    2 ≤ old_grid.length ∧
    ((asc = true ∧ old_grid.Sorted (· < ·)) ∨ (asc = false ∧ old_grid.Sorted (· > ·))) := by
  have h2 : 2 ≤ old_grid.length := by
    by_contra hlt
    have h1 : index old_grid 1 = .error .out_of_range := by
      rcases old_grid with _ | ⟨a, _ | ⟨b, r⟩⟩
      · exact index_nil 1
      · rw [index_cons_pos a [] 1 (by decide)]
        exact index_nil _
      · exact absurd (by simp) hlt
    unfold grid_limits at h
    by_cases hc : nelem old_grid < order + 1
    · simp [hc, throw, throwThe, MonadExceptOf.throw] at h
    · simp only [hc, if_false, h1] at h
      cases h0 : index old_grid 0 <;> simp [h0, bind, Except.bind] at h
  refine ⟨h2, ?_⟩
  have i0 := index_zero old_grid (by omega)
  have i1 := index_one old_grid (by omega)
  unfold grid_limits at h
  by_cases hc : nelem old_grid < order + 1
  · simp [hc, throw, throwThe, MonadExceptOf.throw] at h
  · simp only [hc, if_false, i0, i1, ok_bind] at h
    by_cases h01 : old_grid.getD 0 0 ≤ old_grid.getD 1 0
    · simp only [h01, decide_True, if_true] at h
      cases hinc : is_increasing old_grid
      · simp [hinc, throw, throwThe, MonadExceptOf.throw] at h
      · simp only [hinc, Bool.not_true, Bool.false_eq_true, if_false] at h
        have z1 := index_nelem_sub old_grid 1 (by omega) (by omega)
        have z2 := index_nelem_sub old_grid 2 (by omega) (by omega)
        simp only [Nat.cast_one, Nat.cast_ofNat] at z1 z2
        simp only [z1, z2, ok_bind, pure, Except.pure, Except.ok.injEq, Prod.mk.injEq] at h
        exact Or.inl ⟨h.1.symm, (is_increasing_iff _).mp hinc⟩
    · simp only [h01, decide_False, Bool.false_eq_true, if_false] at h
      cases hdec : is_decreasing old_grid
      · simp [hdec, throw, throwThe, MonadExceptOf.throw] at h
      · simp only [hdec, Bool.not_true, Bool.false_eq_true, if_false] at h
        have z1 := index_nelem_sub old_grid 1 (by omega) (by omega)
        have z2 := index_nelem_sub old_grid 2 (by omega) (by omega)
        simp only [Nat.cast_one, Nat.cast_ofNat] at z1 z2
        simp only [z1, z2, ok_bind, pure, Except.pure, Except.ok.injEq, Prod.mk.injEq] at h
        exact Or.inr ⟨h.1.symm, (is_decreasing_iff _).mp hdec⟩

theorem vec_min_ok_nonempty (x : ConstVectorView) (lo : Numeric) (h : vec_min x = .ok lo) :
    0 < x.length := by
  cases x with
  | nil => simp [vec_min] at h
  | cons a r => simp

/-- The tolerant check after its setup and its two walks.  The final positions `a`
(`ing_min`) and `b` (`ing_max`) depend on the grids only; `b` is the last position unless
the minimum of the new grid is below `og_min`, `a` is 0 unless its maximum is above
`og_max`; every new-grid value not below the smallest old-grid value sits at or below
`b`, every one not above the largest old-grid value sits at or above `a`; and the data
are looked at only afterwards, at the old-grid end of the largest value when `a > 0` and
at the end of the smallest value when `b` is short of the last position. -/
theorem chk_interpolation_grids_loose_form (old_grid new_grid : ConstVectorView)
    (order : Index) (e : Numeric) (asc : Bool) (og_min og_max lo hi : Numeric)
    (hl : grid_limits old_grid order e = .ok (asc, og_min, og_max))
    (hlo : vec_min new_grid = .ok lo) (hhi : vec_max new_grid = .ok hi) :
    ∃ a b : Nat, a ≤ new_grid.length - 1 ∧ b ≤ new_grid.length - 1 ∧
      (¬ lo < og_min → b = new_grid.length - 1) ∧ (¬ hi > og_max → a = 0) ∧
      (∀ j : Nat, j < new_grid.length →
        ¬ new_grid.getD j 0 <
          (if asc then old_grid.getD 0 0 else old_grid.getD (old_grid.length - 1) 0) →
        j ≤ b) ∧
      (∀ j : Nat, j < new_grid.length →
        ¬ new_grid.getD j 0 >
          (if asc then old_grid.getD (old_grid.length - 1) 0 else old_grid.getD 0 0) →
        a ≤ j) ∧
      ∀ data : ConstVectorView,
        chk_interpolation_grids_loose old_grid new_grid data order e =
          (do
            let d_min ← if a > 0 then
                index data (if asc then nelem old_grid - 1 else 0) else pure 0
            if a > 0 ∧ d_min ≠ 0 then
              throw (.runtime_error (.boundary_not_zero d_min))
            else
              let d_max ← if b < new_grid.length - 1 then
                  index data (if asc then 0 else nelem old_grid - 1) else pure 0
              if b < new_grid.length - 1 ∧ d_max ≠ 0 then
                throw (.runtime_error (.boundary_not_zero d_max))
              else
                pure ((a : Int), (b : Int))) := by
  obtain ⟨h2, -⟩ := grid_limits_ok_cases old_grid order e asc og_min og_max hl
  have hn := vec_min_ok_nonempty new_grid lo hlo
  have o0 := index_zero old_grid (by omega)
  have o1 := index_nelem_sub old_grid 1 (by omega) (by omega)
  simp only [Nat.cast_one] at o1
  have hwmax : index old_grid (if asc then 0 else nelem old_grid - 1) =
      .ok (if asc then old_grid.getD 0 0 else old_grid.getD (old_grid.length - 1) 0) := by
    cases asc
    · simpa using o1
    · simpa using o0
  have hwmin : index old_grid (if asc then nelem old_grid - 1 else 0) =
      .ok (if asc then old_grid.getD (old_grid.length - 1) 0 else old_grid.getD 0 0) := by
    cases asc
    · simpa using o0
    · simpa using o1
  -- the walk of ing_max
  have hb : ∃ b : Nat, (if lo < og_min then
        walk_down new_grid old_grid (if asc then 0 else nelem old_grid - 1)
          (new_grid.length - 1)
      else pure (new_grid.length - 1)) = (.ok b : Check Nat) ∧ b ≤ new_grid.length - 1 ∧
      (¬ lo < og_min → b = new_grid.length - 1) ∧
      (∀ j : Nat, j < new_grid.length →
        ¬ new_grid.getD j 0 <
          (if asc then old_grid.getD 0 0 else old_grid.getD (old_grid.length - 1) 0) →
        j ≤ b) := by
    by_cases hc : lo < og_min
    · obtain ⟨r, hr, hle, hall, -⟩ := walk_down_spec new_grid old_grid _ _ hwmax
        (new_grid.length - 1) (by omega)
      refine ⟨r, by rw [if_pos hc]; exact hr, hle, fun h => absurd hc h, fun j hj hge => ?_⟩
      by_contra hlt
      exact hge (hall j (by omega) (by omega))
    · exact ⟨new_grid.length - 1, by rw [if_neg hc]; rfl, le_refl _, fun _ => rfl,
        fun j hj _ => by omega⟩
  -- the walk of ing_min
  have ha : ∃ a : Nat, (if hi > og_max then
        walk_up new_grid old_grid (if asc then nelem old_grid - 1 else 0)
          (new_grid.length - 1) (new_grid.length - 1) 0
      else pure 0) = (.ok a : Check Nat) ∧ a ≤ new_grid.length - 1 ∧
      (¬ hi > og_max → a = 0) ∧
      (∀ j : Nat, j < new_grid.length →
        ¬ new_grid.getD j 0 >
          (if asc then old_grid.getD (old_grid.length - 1) 0 else old_grid.getD 0 0) →
        a ≤ j) := by
    by_cases hc : hi > og_max
    · obtain ⟨r, hr, -, hle, hall, -⟩ := walk_up_spec new_grid old_grid _ _ hwmin
        (new_grid.length - 1) (by omega) (new_grid.length - 1) 0 (by omega) (by omega)
      refine ⟨r, by rw [if_pos hc]; exact hr, hle, fun h => absurd hc h, fun j hj hle' => ?_⟩
      by_contra hlt
      exact hle' (hall j (by omega) (by omega))
    · exact ⟨0, by rw [if_neg hc]; rfl, by omega, fun _ => rfl, fun j _ _ => by omega⟩
  obtain ⟨b, hbeq, hb1, hb2, hb3⟩ := hb
  obtain ⟨a, haeq, ha1, ha2, ha3⟩ := ha
  refine ⟨a, b, ha1, hb1, hb2, ha2, hb3, ha3, fun data => ?_⟩
  unfold chk_interpolation_grids_loose
  simp only [hl, hlo, hhi, ok_bind]
  by_cases c1 : lo < og_min
  · rw [if_pos c1] at hbeq
    rw [if_pos c1, hbeq]
    by_cases c2 : hi > og_max
    · rw [if_pos c2] at haeq
      simp only [ok_bind, if_pos c2, haeq]
    · rw [if_neg c2] at haeq
      have ha0 : a = 0 := (Except.ok.inj haeq).symm
      subst ha0
      simp only [ok_bind, if_neg c2]
      by_cases c4 : b < new_grid.length - 1 <;>
        simp [c4, bind, Except.bind, pure, Except.pure]
  · rw [if_neg c1] at hbeq
    have hb0 : b = new_grid.length - 1 := (Except.ok.inj hbeq).symm
    subst hb0
    rw [if_neg c1]
    by_cases c2 : hi > og_max
    · rw [if_pos c2] at haeq
      simp only [ok_bind, if_pos c2, haeq, pure_bind]
    · rw [if_neg c2] at haeq
      have ha0 : a = 0 := (Except.ok.inj haeq).symm
      subst ha0
      simp [c2, bind, Except.bind, pure, Except.pure]

/-- The two boundary tests that end the tolerant check: with final positions `a` and `b`
the result is `(a, b)` exactly when the boundary value read for each shortened end is 0. -/
theorem loose_tail_ok_iff (data : ConstVectorView) (iu il : Index) (a b last : Nat)
    (p q : Index) :
    ((do
      let d_min ← if a > 0 then index data iu else pure 0
      if a > 0 ∧ d_min ≠ 0 then
        throw (.runtime_error (.boundary_not_zero d_min))
      else
        let d_max ← if b < last then index data il else pure 0
        if b < last ∧ d_max ≠ 0 then
          throw (.runtime_error (.boundary_not_zero d_max))
        else
          pure ((a : Int), (b : Int))) : Check (Index × Index)) = .ok (p, q) ↔
      (p = (a : Int) ∧ q = (b : Int)) ∧ (0 < a → index data iu = .ok 0) ∧
        (b < last → index data il = .ok 0) := by
  by_cases ha : a > 0 <;> by_cases hb : b < last
  · cases hu : index data iu with
    | error f =>
      simp [ha, hb, bind, Except.bind, pure, Except.pure, throw, throwThe,
        MonadExceptOf.throw, eq_comm]
    | ok u =>
      by_cases h1 : u = 0
      · cases hl : index data il with
        | error f =>
          simp [ha, hb, h1, bind, Except.bind, pure, Except.pure, throw, throwThe,
            MonadExceptOf.throw, eq_comm]
        | ok l =>
          by_cases h2 : l = 0 <;>
            simp [ha, hb, h1, h2, bind, Except.bind, pure, Except.pure, throw, throwThe,
              MonadExceptOf.throw, eq_comm]
      · simp [ha, hb, h1, bind, Except.bind, pure, Except.pure, throw, throwThe,
          MonadExceptOf.throw, eq_comm]
  · cases hu : index data iu with
    | error f =>
      simp [ha, hb, bind, Except.bind, pure, Except.pure, throw, throwThe,
        MonadExceptOf.throw, eq_comm]
    | ok u =>
      by_cases h1 : u = 0 <;>
        simp [ha, hb, h1, bind, Except.bind, pure, Except.pure, throw, throwThe,
          MonadExceptOf.throw, eq_comm]
  · cases hl : index data il with
    | error f =>
      simp [ha, hb, bind, Except.bind, pure, Except.pure, throw, throwThe,
        MonadExceptOf.throw, eq_comm]
    | ok l =>
      by_cases h2 : l = 0 <;>
        simp [ha, hb, h2, bind, Except.bind, pure, Except.pure, throw, throwThe,
          MonadExceptOf.throw, eq_comm]
  · simp [ha, hb, bind, Except.bind, pure, Except.pure, eq_comm]

/-- A tolerant check that returns has got through its setup: the old grid has limits and
the new grid has a least and a greatest element. -/
theorem chk_interpolation_grids_loose_ok_setup (old_grid new_grid data : ConstVectorView)
    (order : Index) (e : Numeric) (r : Index × Index)
    (h : chk_interpolation_grids_loose old_grid new_grid data order e = .ok r) :
    ∃ (asc : Bool) (og_min og_max lo hi : Numeric),
      grid_limits old_grid order e = .ok (asc, og_min, og_max) ∧
      vec_min new_grid = .ok lo ∧ vec_max new_grid = .ok hi := by
  unfold chk_interpolation_grids_loose at h
  cases hl : grid_limits old_grid order e with
  | error f => rw [hl] at h; exact absurd h (by simp [error_bind])
  | ok t =>
    obtain ⟨asc, og_min, og_max⟩ := t
    cases hlo : vec_min new_grid with
    | error f => rw [hl, hlo] at h; exact absurd h (by simp [ok_bind, error_bind])
    | ok lo =>
      cases hhi : vec_max new_grid with
      | error f => rw [hl, hlo, hhi] at h; exact absurd h (by simp [ok_bind, error_bind])
      | ok hi => exact ⟨asc, og_min, og_max, lo, hi, rfl, rfl, rfl⟩

/-- The first boundary test: a non-zero boundary value at a shortened lower end is
reported. -/
theorem loose_tail_error_min (data : ConstVectorView) (iu il : Index) (a b last : Nat)
    (d : Numeric) (ha : 0 < a) (hu : index data iu = .ok d) (hd : d ≠ 0) :
    ((do
      let d_min ← if a > 0 then index data iu else pure 0
      if a > 0 ∧ d_min ≠ 0 then
        throw (.runtime_error (.boundary_not_zero d_min))
      else
        let d_max ← if b < last then index data il else pure 0
        if b < last ∧ d_max ≠ 0 then
          throw (.runtime_error (.boundary_not_zero d_max))
        else
          pure ((a : Int), (b : Int))) : Check (Index × Index)) =
      .error (.runtime_error (.boundary_not_zero d)) := by
  simp [ha, hu, hd, bind, Except.bind, throw, throwThe, MonadExceptOf.throw]

/-- The second boundary test: when the first one passes, a non-zero boundary value at a
shortened upper end is reported. -/
theorem loose_tail_error_max (data : ConstVectorView) (iu il : Index) (a b last : Nat)
    (d : Numeric) (ha : 0 < a → index data iu = .ok 0) (hb : b < last)
    (hl : index data il = .ok d) (hd : d ≠ 0) :
    ((do
      let d_min ← if a > 0 then index data iu else pure 0
      if a > 0 ∧ d_min ≠ 0 then
        throw (.runtime_error (.boundary_not_zero d_min))
      else
        let d_max ← if b < last then index data il else pure 0
        if b < last ∧ d_max ≠ 0 then
          throw (.runtime_error (.boundary_not_zero d_max))
        else
          pure ((a : Int), (b : Int))) : Check (Index × Index)) =
      .error (.runtime_error (.boundary_not_zero d)) := by
  by_cases h0 : 0 < a
  · simp [h0, ha h0, hb, hl, hd, bind, Except.bind, throw, throwThe, MonadExceptOf.throw]
  · simp [h0, hb, hl, hd, bind, Except.bind, pure, Except.pure, throw, throwThe,
      MonadExceptOf.throw]

/-- C27, evaluated on the code. Old grid 3, 2, 1 (descending), order 1 and factor 1/2: the
limits are `og_min = 1/2` and `og_max = 7/2`.  With the new grid 3, 2, 1, 0 and data
0, 0, 0 the maximum 3 of the new grid does not exceed `og_max`, and still the returned
`ing_max` is 2, not the last position 3: the downward walk is started by the minimum 0
lying below `og_min`.  With the new grid 4, 3, 2 the minimum 2 is not below `og_min`, and
still the returned `ing_min` is 1, not 0: the upward walk is started by the maximum 4
lying above `og_max`. -/
theorem chk_interpolation_grids_loose_walks_counterexample :
    grid_limits [3, 2, 1] 1 (1 / 2) = .ok (false, 1 / 2, 7 / 2) ∧
    (vec_max [3, 2, 1, 0] = .ok 3 ∧ (3 : Numeric) ≤ 7 / 2 ∧
      chk_interpolation_grids_loose [3, 2, 1] [3, 2, 1, 0] [0, 0, 0] 1 (1 / 2) = .ok (0, 2) ∧
      (2 : Index) ≠ nelem [3, 2, 1, 0] - 1) ∧
    (vec_min [4, 3, 2] = .ok 2 ∧ (1 / 2 : Numeric) ≤ 2 ∧
      chk_interpolation_grids_loose [3, 2, 1] [4, 3, 2] [0, 0, 0] 1 (1 / 2) = .ok (1, 2) ∧
      (1 : Index) ≠ 0) := by
  refine ⟨?_, ⟨?_, ?_, ?_, ?_⟩, ⟨?_, ?_, ?_, ?_⟩⟩
  · norm_num [grid_limits, index_cons_zero, index_cons_pos, nelem, is_increasing,
      is_decreasing, bind, Except.bind, pure, Except.pure]
  · norm_num [vec_max]
  · norm_num
  · norm_num [chk_interpolation_grids_loose, grid_limits, index_cons_zero, index_cons_pos,
      nelem, is_increasing, is_decreasing, vec_min, vec_max, walk_up, walk_down, bind,
      Except.bind, pure, Except.pure]
  · norm_num [nelem]
  · norm_num [vec_min]
  · norm_num
  · norm_num [chk_interpolation_grids_loose, grid_limits, index_cons_zero, index_cons_pos,
      nelem, is_increasing, is_decreasing, vec_min, vec_max, walk_up, walk_down, bind,
      Except.bind, pure, Except.pure]
  · decide

/-- C27, amended. In `chk_interpolation_grids_loose` the output positions start at
`ing_min = 0` and `ing_max = |new_grid| - 1`; `ing_max` is walked downward only if
`min(new_grid) < og_min`, and `ing_min` is walked upward only if `max(new_grid) > og_max`.
So, `og_min` and `og_max` being the limits of the old grid, `lo` and `hi` the least and the
greatest element of the new grid: every returned pair has `ing_max = |new_grid| - 1`
whenever `lo >= og_min` and `ing_min = 0` whenever `hi <= og_max`; and when both hold
the check returns `(0, |new_grid| - 1)` whatever the data. -/
theorem chk_interpolation_grids_loose_walks (old_grid new_grid data : ConstVectorView)
    (order : Index) (e : Numeric) (asc : Bool) (og_min og_max lo hi : Numeric)
    (hl : grid_limits old_grid order e = .ok (asc, og_min, og_max))
    (hlo : vec_min new_grid = .ok lo) (hhi : vec_max new_grid = .ok hi) :
    (∀ ing_min ing_max : Index,
      chk_interpolation_grids_loose old_grid new_grid data order e =
        .ok (ing_min, ing_max) →
      (og_min ≤ lo → ing_max = nelem new_grid - 1) ∧ (hi ≤ og_max → ing_min = 0)) ∧
    (og_min ≤ lo → hi ≤ og_max →
      chk_interpolation_grids_loose old_grid new_grid data order e =
        .ok (0, nelem new_grid - 1)) := by
  have hn := vec_min_ok_nonempty new_grid lo hlo
  have hlast : nelem new_grid - 1 = ((new_grid.length - 1 : Nat) : Int) := by
    unfold nelem
    rw [Nat.cast_sub (by omega)]
    rfl
  obtain ⟨a, b, -, -, hb, ha, -, -, hform⟩ :=
    chk_interpolation_grids_loose_form old_grid new_grid order e asc og_min og_max lo hi
      hl hlo hhi
  refine ⟨fun p q h => ?_, fun h1 h2 => ?_⟩
  · rw [hform data] at h
    obtain ⟨⟨hp, hq⟩, -, -⟩ := (loose_tail_ok_iff data _ _ a b _ p q).mp h
    refine ⟨fun h1 => ?_, fun h2 => ?_⟩
    · rw [hq, hlast, hb (not_lt.mpr h1)]
    · rw [hp, ha (not_lt.mpr h2)]
      rfl
  · rw [hform data, hlast]
    refine (loose_tail_ok_iff data _ _ a b _ 0 _).mpr ⟨⟨?_, ?_⟩, ?_, ?_⟩
    · rw [ha (not_lt.mpr h2)]
      rfl
    · rw [hb (not_lt.mpr h1)]
    · intro h0
      rw [ha (not_lt.mpr h2)] at h0
      exact absurd h0 (by decide)
    · intro h0
      rw [hb (not_lt.mpr h1)] at h0
      exact absurd h0 (lt_irrefl _)

theorem chk_interpolation_grids_loose_walks_witness :
    (∀ ing_min ing_max : Index,
      chk_interpolation_grids_loose [3, 2, 1] [3, 2, 1, 0] [0, 0, 0] 1 (1 / 2) =
        .ok (ing_min, ing_max) →
      ((1 / 2 : Numeric) ≤ 0 → ing_max = nelem [3, 2, 1, 0] - 1) ∧
        ((3 : Numeric) ≤ 7 / 2 → ing_min = 0)) ∧
    ((1 / 2 : Numeric) ≤ 0 → (3 : Numeric) ≤ 7 / 2 →
      chk_interpolation_grids_loose [3, 2, 1] [3, 2, 1, 0] [0, 0, 0] 1 (1 / 2) =
        .ok (0, nelem [3, 2, 1, 0] - 1)) :=
  chk_interpolation_grids_loose_walks [3, 2, 1] [3, 2, 1, 0] [0, 0, 0] 1 (1 / 2) false
    (1 / 2) (7 / 2) 0 3
    (by norm_num [grid_limits, index_cons_zero, index_cons_pos, nelem, is_increasing,
      is_decreasing, bind, Except.bind, pure, Except.pure])
    (by norm_num [vec_min]) (by norm_num [vec_max])

/-- The old-grid positions the tolerant check reads hold the extreme values of the old
grid: `iog_min` the greatest and `iog_max` the least. -/
theorem loose_boundary_positions (old_grid : ConstVectorView) (order : Index) (e : Numeric)
    (asc : Bool) (og_min og_max : Numeric)
    (hl : grid_limits old_grid order e = .ok (asc, og_min, og_max)) :
    index old_grid (if asc then nelem old_grid - 1 else 0) = vec_max old_grid ∧
    index old_grid (if asc then 0 else nelem old_grid - 1) = vec_min old_grid ∧
    (old_grid.Sorted (· < ·) → asc = true) ∧ (old_grid.Sorted (· > ·) → asc = false) ∧
    (∀ u ∈ old_grid,
      (if asc then old_grid.getD 0 0 else old_grid.getD (old_grid.length - 1) 0) ≤ u ∧
      u ≤ (if asc then old_grid.getD (old_grid.length - 1) 0 else old_grid.getD 0 0)) := by
  obtain ⟨h2, hs⟩ := grid_limits_ok_cases old_grid order e asc og_min og_max hl
  have o0 := index_zero old_grid (by omega)
  have o1 := index_nelem_sub old_grid 1 (by omega) (by omega)
  simp only [Nat.cast_one] at o1
  have m0 : old_grid.getD 0 0 ∈ old_grid := by
    rw [List.getD_eq_getElem old_grid 0 (by omega)]
    exact List.getElem_mem _
  have m1 : old_grid.getD (old_grid.length - 1) 0 ∈ old_grid := by
    rw [List.getD_eq_getElem old_grid 0 (by omega)]
    exact List.getElem_mem _
  rcases hs with ⟨ha, hs⟩ | ⟨ha, hs⟩
  · subst ha
    refine ⟨?_, ?_, fun _ => rfl, fun hd => ?_, fun u hu => ?_⟩
    · rw [if_pos rfl, o1]
      exact (vec_max_eq_of_isGreatest _ _
        ⟨m1, fun v hv => (sorted_lt_bounds old_grid hs v hv).2⟩).symm
    · rw [if_pos rfl, o0]
      exact (vec_min_eq_of_isLeast _ _
        ⟨m0, fun v hv => (sorted_lt_bounds old_grid hs v hv).1⟩).symm
    · exact absurd (sorted_gt_first_two old_grid hd h2).1
        (not_lt.mpr (le_of_lt (sorted_lt_first_two old_grid hs h2).1))
    · simpa using sorted_lt_bounds old_grid hs u hu
  · subst ha
    refine ⟨?_, ?_, fun hi => ?_, fun _ => rfl, fun u hu => ?_⟩
    · rw [if_neg (by decide), o0]
      exact (vec_max_eq_of_isGreatest _ _
        ⟨m0, fun v hv => (sorted_gt_bounds old_grid hs v hv).2⟩).symm
    · rw [if_neg (by decide), o1]
      exact (vec_min_eq_of_isLeast _ _
        ⟨m1, fun v hv => (sorted_gt_bounds old_grid hs v hv).1⟩).symm
    · exact absurd (sorted_gt_first_two old_grid hs h2).1
        (not_lt.mpr (le_of_lt (sorted_lt_first_two old_grid hi h2).1))
    · simpa using sorted_gt_bounds old_grid hs u hu

/-- C28. Whenever `chk_interpolation_grids_loose` succeeds, returning
`(ing_min, ing_max)`: there are old-grid positions `i_largest` and `i_smallest` holding
the largest and the smallest value of the old grid (the last and the first position for
an ascending old grid, the first and the last for a descending one) such that
`ing_min > 0` implies that the data value at `i_largest` is exactly 0, and
`ing_max < |new_grid| - 1` implies that the data value at `i_smallest` is exactly 0.
The test is exact: with the same grids, any data whose value `eps` at `i_largest` is not
0, however small, make the check fail when `ing_min > 0`, reporting `eps`; and likewise
at `i_smallest` when `ing_max < |new_grid| - 1` (and the first test passes). -/
theorem chk_interpolation_grids_loose_boundary_zero
    (old_grid new_grid data : ConstVectorView) (order : Index) (e : Numeric)
    (ing_min ing_max : Index)
    (h : chk_interpolation_grids_loose old_grid new_grid data order e =
      .ok (ing_min, ing_max)) :
    ∃ i_largest i_smallest : Index,
      index old_grid i_largest = vec_max old_grid ∧
      index old_grid i_smallest = vec_min old_grid ∧
      (old_grid.Sorted (· < ·) → i_largest = nelem old_grid - 1 ∧ i_smallest = 0) ∧
      (old_grid.Sorted (· > ·) → i_largest = 0 ∧ i_smallest = nelem old_grid - 1) ∧
      (0 < ing_min → index data i_largest = .ok 0) ∧
      (ing_max < nelem new_grid - 1 → index data i_smallest = .ok 0) ∧
      ∀ (data2 : ConstVectorView) (eps : Numeric), eps ≠ 0 →
        (0 < ing_min → index data2 i_largest = .ok eps →
          chk_interpolation_grids_loose old_grid new_grid data2 order e =
            .error (.runtime_error (.boundary_not_zero eps))) ∧
        (ing_max < nelem new_grid - 1 → index data2 i_smallest = .ok eps →
          (0 < ing_min → index data2 i_largest = .ok 0) →
          chk_interpolation_grids_loose old_grid new_grid data2 order e =
            .error (.runtime_error (.boundary_not_zero eps))) := by
  obtain ⟨asc, og_min, og_max, lo, hi, hl, hlo, hhi⟩ :=
    chk_interpolation_grids_loose_ok_setup old_grid new_grid data order e _ h
  have hn := vec_min_ok_nonempty new_grid lo hlo
  have hlast : nelem new_grid - 1 = ((new_grid.length - 1 : Nat) : Int) := by
    unfold nelem
    rw [Nat.cast_sub (by omega)]
    rfl
  obtain ⟨hmax, hmin, hasc, hdesc, -⟩ :=
    loose_boundary_positions old_grid order e asc og_min og_max hl
  obtain ⟨a, b, -, -, -, -, -, -, hform⟩ :=
    chk_interpolation_grids_loose_form old_grid new_grid order e asc og_min og_max lo hi
      hl hlo hhi
  rw [hform data] at h
  obtain ⟨⟨hp, hq⟩, hda, hdb⟩ := (loose_tail_ok_iff data _ _ a b _ _ _).mp h
  have hpa : 0 < ing_min → 0 < a := by
    intro h0
    rw [hp] at h0
    exact_mod_cast h0
  have hqb : ing_max < nelem new_grid - 1 → b < new_grid.length - 1 := by
    intro h0
    rw [hq, hlast] at h0
    exact_mod_cast h0
  refine ⟨if asc then nelem old_grid - 1 else 0, if asc then 0 else nelem old_grid - 1,
    hmax, hmin, fun hs => ?_, fun hs => ?_, fun h0 => hda (hpa h0), fun h0 => hdb (hqb h0),
    fun data2 eps heps => ⟨fun h0 hv => ?_, fun h0 hv h1 => ?_⟩⟩
  · rw [hasc hs]
    exact ⟨rfl, rfl⟩
  · rw [hdesc hs]
    exact ⟨rfl, rfl⟩
  · rw [hform data2]
    exact loose_tail_error_min data2 _ _ a b _ eps (hpa h0) hv heps
  · rw [hform data2]
    refine loose_tail_error_max data2 _ _ a b _ eps (fun ha => h1 ?_) (hqb h0) hv heps
    rw [hp]
    exact_mod_cast ha

theorem chk_interpolation_grids_loose_boundary_zero_witness :
    ∃ i_largest i_smallest : Index,
      index [3, 2, 1] i_largest = vec_max [3, 2, 1] ∧
      index [3, 2, 1] i_smallest = vec_min [3, 2, 1] ∧
      (List.Sorted (· < ·) ([3, 2, 1] : ConstVectorView) →
        i_largest = nelem [3, 2, 1] - 1 ∧ i_smallest = 0) ∧
      (List.Sorted (· > ·) ([3, 2, 1] : ConstVectorView) →
        i_largest = 0 ∧ i_smallest = nelem [3, 2, 1] - 1) ∧
      ((0 : Index) < 1 → index [0, 7, 0] i_largest = .ok 0) ∧
      ((0 : Index) < nelem [5, 0] - 1 → index [0, 7, 0] i_smallest = .ok 0) ∧
      ∀ (data2 : ConstVectorView) (eps : Numeric), eps ≠ 0 →
        ((0 : Index) < 1 → index data2 i_largest = .ok eps →
          chk_interpolation_grids_loose [3, 2, 1] [5, 0] data2 1 (1 / 2) =
            .error (.runtime_error (.boundary_not_zero eps))) ∧
        ((0 : Index) < nelem [5, 0] - 1 → index data2 i_smallest = .ok eps →
          ((0 : Index) < 1 → index data2 i_largest = .ok 0) →
          chk_interpolation_grids_loose [3, 2, 1] [5, 0] data2 1 (1 / 2) =
            .error (.runtime_error (.boundary_not_zero eps))) :=
  chk_interpolation_grids_loose_boundary_zero [3, 2, 1] [5, 0] [0, 7, 0] 1 (1 / 2) 1 0
    (by norm_num [chk_interpolation_grids_loose, grid_limits, index_cons_zero,
      index_cons_pos, nelem, is_increasing, is_decreasing, vec_min, vec_max, walk_up,
      walk_down, bind, Except.bind, pure, Except.pure])

/-- C29, evaluated on the code. Old grid 3, 2, 1, new grid 5, 0 (not empty), data 0, 0, 0,
order 1 and factor 1/2: the check succeeds and returns `ing_min = 1`, `ing_max = 0`, so
`ing_min > ing_max`.  Both walks run to the far end, as no value of the new grid lies
within the old grid. -/
theorem chk_interpolation_grids_loose_range_counterexample :
    ([5, 0] : ConstVectorView) ≠ [] ∧
    chk_interpolation_grids_loose [3, 2, 1] [5, 0] [0, 0, 0] 1 (1 / 2) = .ok (1, 0) ∧
    ¬ (1 : Index) ≤ 0 := by
  refine ⟨by simp, ?_, by decide⟩
  norm_num [chk_interpolation_grids_loose, grid_limits, index_cons_zero,
    index_cons_pos, nelem, is_increasing, is_decreasing, vec_min, vec_max, walk_up,
    walk_down, bind, Except.bind, pure, Except.pure]

/-- C29, amended. Whenever `chk_interpolation_grids_loose` succeeds, returning
`(ing_min, ing_max)`, on a new grid one value of which lies within the old grid (not
below one old-grid value and not above one), or whose least element is not below
`og_min`, or whose greatest element is not above `og_max`, the returned positions form
a non-empty range: `ing_min <= ing_max`. -/
theorem chk_interpolation_grids_loose_range (old_grid new_grid data : ConstVectorView)
    (order : Index) (e : Numeric) (asc : Bool) (og_min og_max lo hi : Numeric)
    (ing_min ing_max : Index)
    (hl : grid_limits old_grid order e = .ok (asc, og_min, og_max))
    (hlo : vec_min new_grid = .ok lo) (hhi : vec_max new_grid = .ok hi)
    (h : chk_interpolation_grids_loose old_grid new_grid data order e =
      .ok (ing_min, ing_max))
    (hin : (∃ v ∈ new_grid, (∃ u ∈ old_grid, u ≤ v) ∧ (∃ u ∈ old_grid, v ≤ u)) ∨
      og_min ≤ lo ∨ hi ≤ og_max) :
    ing_min ≤ ing_max := by
  obtain ⟨-, -, -, -, hbd⟩ := loose_boundary_positions old_grid order e asc og_min og_max hl
  obtain ⟨a, b, ha1, hb1, hb, ha, hbj, haj, hform⟩ :=
    chk_interpolation_grids_loose_form old_grid new_grid order e asc og_min og_max lo hi
      hl hlo hhi
  rw [hform data] at h
  obtain ⟨⟨hp, hq⟩, -, -⟩ := (loose_tail_ok_iff data _ _ a b _ _ _).mp h
  rw [hp, hq]
  have hab : a ≤ b := by
    rcases hin with ⟨v, hv, ⟨u1, hu1, h1⟩, ⟨u2, hu2, h2⟩⟩ | h1 | h2
    · obtain ⟨j, hj, rfl⟩ := List.getElem_of_mem hv
      have hg : new_grid.getD j 0 = new_grid[j] := List.getD_eq_getElem new_grid 0 hj
      have hjb := hbj j hj (by
        rw [hg]
        exact not_lt.mpr (le_trans (hbd u1 hu1).1 h1))
      have hja := haj j hj (by
        rw [hg]
        exact not_lt.mpr (le_trans h2 (hbd u2 hu2).2))
      omega
    · rw [hb (not_lt.mpr h1)]
      exact ha1
    · rw [ha (not_lt.mpr h2)]
      exact Nat.zero_le _
  exact_mod_cast hab

theorem chk_interpolation_grids_loose_range_witness :
    chk_interpolation_grids_loose [3, 2, 1] [4, 3, 2] [0, 0, 0] 1 (1 / 2) = .ok (1, 2) ∧
    (1 : Index) ≤ 2 :=
  have h : chk_interpolation_grids_loose [3, 2, 1] [4, 3, 2] [0, 0, 0] 1 (1 / 2) =
      .ok (1, 2) := by
    norm_num [chk_interpolation_grids_loose, grid_limits, index_cons_zero,
      index_cons_pos, nelem, is_increasing, is_decreasing, vec_min, vec_max, walk_up,
      walk_down, bind, Except.bind, pure, Except.pure]
  ⟨h, chk_interpolation_grids_loose_range [3, 2, 1] [4, 3, 2] [0, 0, 0] 1 (1 / 2) false
    (1 / 2) (7 / 2) 2 4 1 2
    (by norm_num [grid_limits, index_cons_zero, index_cons_pos, nelem, is_increasing,
      is_decreasing, bind, Except.bind, pure, Except.pure])
    (by norm_num [vec_min]) (by norm_num [vec_max]) h
    (Or.inl ⟨3, by simp, ⟨3, by simp, le_refl _⟩, ⟨3, by simp, le_refl _⟩⟩)⟩

/-! ## Rank-4 fields in three dimensions -/

/-- Reading a rank-4 view at a position inside its extents. -/
theorem tensor4_elem_ok (x : ConstTensor4View) (b p r c : Int)
    (hb : 0 ≤ b ∧ b < x.nbooks) (hp : 0 ≤ p ∧ p < x.npages) (hr : 0 ≤ r ∧ r < x.nrows)
    (hc : 0 ≤ c ∧ c < x.ncols) :
    x.elem b p r c = .ok (x.data b.toNat p.toNat r.toNat c.toNat) := by
  unfold ConstTensor4View.elem
  rw [if_pos ⟨hb.1, hb.2, hp.1, hp.2, hr.1, hr.2, hc.1, hc.2⟩]

/-- Two nested loops whose body either succeeds (and then `P` holds at the position) or
fails with the one error `E` (and then `P` does not hold): the loops succeed and `P` holds
throughout, or they fail with `E` and `P` does not hold somewhere. -/
theorem for_index_nested_first (lo1 hi1 lo2 hi2 : Int) (body : Int → Int → Check Unit)
    (E : Fault) (P : Int → Int → Prop)
    (h : ∀ i j : Int, lo1 ≤ i → i < hi1 → lo2 ≤ j → j < hi2 →
      (body i j = .ok () ∧ P i j) ∨ (body i j = .error E ∧ ¬ P i j)) :
    ((for_index lo1 hi1 fun i => for_index lo2 hi2 fun j => body i j) = .ok () ∧
      ∀ i j : Int, lo1 ≤ i → i < hi1 → lo2 ≤ j → j < hi2 → P i j) ∨
    ((for_index lo1 hi1 fun i => for_index lo2 hi2 fun j => body i j) = .error E ∧
      ∃ i j : Int, lo1 ≤ i ∧ i < hi1 ∧ lo2 ≤ j ∧ j < hi2 ∧ ¬ P i j) := by
  have inner : ∀ i : Int, lo1 ≤ i → i < hi1 →
      ((for_index lo2 hi2 fun j => body i j) = .ok () ∧
        (∀ j : Int, lo2 ≤ j → j < hi2 → P i j)) ∨
      ((for_index lo2 hi2 fun j => body i j) = .error E ∧
        ¬ (∀ j : Int, lo2 ≤ j → j < hi2 → P i j)) := by
    intro i h1 h2
    rcases for_index_first lo2 hi2 (fun j => body i j) (fun _ => E) (fun j => P i j)
      (fun j h3 h4 => h i j h1 h2 h3 h4) with ⟨hok, hp⟩ | ⟨j, hj1, hj2, hnp, -, herr⟩
    · exact Or.inl ⟨hok, hp⟩
    · exact Or.inr ⟨herr, fun hall => hnp (hall j hj1 hj2)⟩
  rcases for_index_first lo1 hi1 (fun i => for_index lo2 hi2 fun j => body i j)
    (fun _ => E) (fun i => ∀ j : Int, lo2 ≤ j → j < hi2 → P i j) inner with
    ⟨hok, hp⟩ | ⟨i, hi1, hi2, hnp, -, herr⟩
  · exact Or.inl ⟨hok, fun i j h1 h2 h3 h4 => hp i h1 h2 j h3 h4⟩
  · right
    refine ⟨herr, ?_⟩
    by_contra hcon
    apply hnp
    intro j h1 h2
    by_contra hne
    exact hcon ⟨i, j, hi1, hi2, h1, h2, hne⟩

/-- A loop over the species around two nested loops, the error of the body naming the
species: the loops succeed and `P` holds throughout, or they fail with the error of the
first species at which `P` does not hold somewhere. -/
theorem species_loop_first (n lo1 hi1 lo2 hi2 : Int) (body : Int → Int → Int → Check Unit)
    (E : Int → Fault) (P : Int → Int → Int → Prop)
    (h : ∀ s i j : Int, 0 ≤ s → s < n → lo1 ≤ i → i < hi1 → lo2 ≤ j → j < hi2 →
      (body s i j = .ok () ∧ P s i j) ∨ (body s i j = .error (E s) ∧ ¬ P s i j)) :
    ((for_index 0 n fun s => for_index lo1 hi1 fun i => for_index lo2 hi2 fun j =>
        body s i j) = .ok () ∧
      ∀ s i j : Int, 0 ≤ s → s < n → lo1 ≤ i → i < hi1 → lo2 ≤ j → j < hi2 → P s i j) ∨
    (∃ s : Int, 0 ≤ s ∧ s < n ∧
      (for_index 0 n fun s => for_index lo1 hi1 fun i => for_index lo2 hi2 fun j =>
        body s i j) = .error (E s) ∧
      (∃ i j : Int, lo1 ≤ i ∧ i < hi1 ∧ lo2 ≤ j ∧ j < hi2 ∧ ¬ P s i j) ∧
      ∀ s2 i j : Int, 0 ≤ s2 → s2 < s → lo1 ≤ i → i < hi1 → lo2 ≤ j → j < hi2 →
        P s2 i j) := by
  have inner : ∀ s : Int, 0 ≤ s → s < n →
      ((for_index lo1 hi1 fun i => for_index lo2 hi2 fun j => body s i j) = .ok () ∧
        (∀ i j : Int, lo1 ≤ i → i < hi1 → lo2 ≤ j → j < hi2 → P s i j)) ∨
      ((for_index lo1 hi1 fun i => for_index lo2 hi2 fun j => body s i j) = .error (E s) ∧
        ¬ (∀ i j : Int, lo1 ≤ i → i < hi1 → lo2 ≤ j → j < hi2 → P s i j)) := by
    intro s h1 h2
    rcases for_index_nested_first lo1 hi1 lo2 hi2 (fun i j => body s i j) (E s)
      (fun i j => P s i j) (fun i j h3 h4 h5 h6 => h s i j h1 h2 h3 h4 h5 h6) with
      ⟨hok, hp⟩ | ⟨herr, i, j, a, b, c, d, hnp⟩
    · exact Or.inl ⟨hok, hp⟩
    · exact Or.inr ⟨herr, fun hall => hnp (hall i j a b c d)⟩
  rcases for_index_first 0 n
    (fun s => for_index lo1 hi1 fun i => for_index lo2 hi2 fun j => body s i j) E
    (fun s => ∀ i j : Int, lo1 ≤ i → i < hi1 → lo2 ≤ j → j < hi2 → P s i j) inner with
    ⟨hok, hp⟩ | ⟨s, hs1, hs2, hnp, hbefore, herr⟩
  · exact Or.inl ⟨hok, fun s i j h1 h2 h3 h4 h5 h6 => hp s h1 h2 i j h3 h4 h5 h6⟩
  · right
    refine ⟨s, hs1, hs2, herr, ?_,
      fun s2 i j h1 h2 h3 h4 h5 h6 => hbefore s2 h1 h2 i j h3 h4 h5 h6⟩
    by_contra hcon
    apply hnp
    intro i j h1 h2 h3 h4
    by_contra hne
    exact hcon ⟨i, j, h1, h2, h3, h4, hne⟩

/-- The cyclic check of a rank-4 field: it passes and the first and last longitude values
agree for every species, page and row, or it throws the cyclic error naming the first
species for which they differ somewhere. -/
theorem cyclic_block4 (x : ConstTensor4View) (hC : 0 < x.ncols) :
    ((for_index 0 (x.nbooks : Int) fun is =>
        for_index 0 (x.npages : Int) fun ip =>
          for_index 0 (x.nrows : Int) fun ir => do
            throw_if (|(← x.elem is ip ir ((x.ncols : Int) - 1)) - (← x.elem is ip ir 0)| > 0)
              (.not_cyclic (some is))) = .ok () ∧
      ∀ is ip ir : Nat, is < x.nbooks → ip < x.npages → ir < x.nrows →
        x.data is ip ir (x.ncols - 1) = x.data is ip ir 0) ∨
    (∃ is : Nat, is < x.nbooks ∧
      (for_index 0 (x.nbooks : Int) fun is =>
        for_index 0 (x.npages : Int) fun ip =>
          for_index 0 (x.nrows : Int) fun ir => do
            throw_if (|(← x.elem is ip ir ((x.ncols : Int) - 1)) - (← x.elem is ip ir 0)| > 0)
              (.not_cyclic (some is))) =
        .error (.runtime_error (.not_cyclic (some (is : Int)))) ∧
      (∃ ip ir : Nat, ip < x.npages ∧ ir < x.nrows ∧
        ¬ x.data is ip ir (x.ncols - 1) = x.data is ip ir 0) ∧
      ∀ is2 ip ir : Nat, is2 < is → ip < x.npages → ir < x.nrows →
        x.data is2 ip ir (x.ncols - 1) = x.data is2 ip ir 0) := by
  rcases species_loop_first (x.nbooks : Int) 0 (x.npages : Int) 0 (x.nrows : Int)
    (fun is ip ir => do
      throw_if (|(← x.elem is ip ir ((x.ncols : Int) - 1)) - (← x.elem is ip ir 0)| > 0)
        (.not_cyclic (some is)))
    (fun is => .runtime_error (.not_cyclic (some is)))
    (fun is ip ir => x.data is.toNat ip.toNat ir.toNat (x.ncols - 1) =
      x.data is.toNat ip.toNat ir.toNat 0)
    (by
      intro is ip ir h1 h2 h3 h4 h5 h6
      have e1 := tensor4_elem_ok x is ip ir ((x.ncols : Int) - 1) ⟨h1, h2⟩ ⟨h3, h4⟩ ⟨h5, h6⟩
        ⟨by omega, by omega⟩
      have e2 := tensor4_elem_ok x is ip ir 0 ⟨h1, h2⟩ ⟨h3, h4⟩ ⟨h5, h6⟩ ⟨le_refl 0, by omega⟩
      rw [show ((x.ncols : Int) - 1).toNat = x.ncols - 1 by omega] at e1
      simp only [e1, e2, ok_bind, Int.toNat_zero]
      exact throw_if_abs_cases _ _ _) with
    ⟨hok, hp⟩ | ⟨s, hs1, hs2, herr, ⟨i, j, a, b, c, d, hne⟩, hbefore⟩
  · left
    refine ⟨hok, fun is ip ir h1 h2 h3 => ?_⟩
    have := hp is ip ir (by omega) (by omega) (by omega) (by omega) (by omega) (by omega)
    simpa using this
  · right
    refine ⟨s.toNat, by omega, ?_, ⟨i.toNat, j.toNat, by omega, by omega, hne⟩,
      fun is2 ip ir h1 h2 h3 => ?_⟩
    · rw [show ((s.toNat : Nat) : Int) = s by omega]
      exact herr
    · have := hbefore is2 ip ir (by omega) (by omega) (by omega) (by omega) (by omega)
        (by omega)
      simpa using this

/-- The pole check of a rank-4 field at row `r`: it passes and neighbouring longitude
values of that row agree for every species and page, or it throws the error naming the
first species for which two neighbours differ. -/
theorem pole_block4 (x : ConstTensor4View) (r : Int) (hr : 0 ≤ r ∧ r < x.nrows)
    (m : Option Index → Msg) :
    ((for_index 0 (x.nbooks : Int) fun is =>
        for_index 0 (x.npages : Int) fun ip =>
          for_index 1 (x.ncols : Int) fun ic => do
            throw_if (|(← x.elem is ip r ic) - (← x.elem is ip r (ic - 1))| > 0)
              (m (some is))) = .ok () ∧
      ∀ is ip ic : Nat, is < x.nbooks → ip < x.npages → 1 ≤ ic → ic < x.ncols →
        x.data is ip r.toNat ic = x.data is ip r.toNat (ic - 1)) ∨
    (∃ is : Nat, is < x.nbooks ∧
      (for_index 0 (x.nbooks : Int) fun is =>
        for_index 0 (x.npages : Int) fun ip =>
          for_index 1 (x.ncols : Int) fun ic => do
            throw_if (|(← x.elem is ip r ic) - (← x.elem is ip r (ic - 1))| > 0)
              (m (some is))) = .error (.runtime_error (m (some (is : Int)))) ∧
      (∃ ip ic : Nat, ip < x.npages ∧ 1 ≤ ic ∧ ic < x.ncols ∧
        ¬ x.data is ip r.toNat ic = x.data is ip r.toNat (ic - 1)) ∧
      ∀ is2 ip ic : Nat, is2 < is → ip < x.npages → 1 ≤ ic → ic < x.ncols →
        x.data is2 ip r.toNat ic = x.data is2 ip r.toNat (ic - 1)) := by
  rcases species_loop_first (x.nbooks : Int) 0 (x.npages : Int) 1 (x.ncols : Int)
    (fun is ip ic => do
      throw_if (|(← x.elem is ip r ic) - (← x.elem is ip r (ic - 1))| > 0) (m (some is)))
    (fun is => .runtime_error (m (some is)))
    (fun is ip ic => x.data is.toNat ip.toNat r.toNat ic.toNat =
      x.data is.toNat ip.toNat r.toNat (ic - 1).toNat)
    (by
      intro is ip ic h1 h2 h3 h4 h5 h6
      have e1 := tensor4_elem_ok x is ip r ic ⟨h1, h2⟩ ⟨h3, h4⟩ hr ⟨by omega, h6⟩
      have e2 := tensor4_elem_ok x is ip r (ic - 1) ⟨h1, h2⟩ ⟨h3, h4⟩ hr
        ⟨by omega, by omega⟩
      simp only [e1, e2, ok_bind]
      exact throw_if_abs_cases _ _ _) with
    ⟨hok, hp⟩ | ⟨s, hs1, hs2, herr, ⟨i, j, a, b, c, d, hne⟩, hbefore⟩
  · left
    refine ⟨hok, fun is ip ic h1 h2 h3 h4 => ?_⟩
    have := hp is ip ic (by omega) (by omega) (by omega) (by omega) (by omega) (by omega)
    rw [show ((ic : Int) - 1).toNat = ic - 1 by omega] at this
    simpa using this
  · right
    refine ⟨s.toNat, by omega, ?_, ⟨i.toNat, j.toNat, by omega, by omega, by omega, ?_⟩,
      fun is2 ip ic h1 h2 h3 h4 => ?_⟩
    · rw [show ((s.toNat : Nat) : Int) = s by omega]
      exact herr
    · rw [show j.toNat - 1 = (j - 1).toNat by omega]
      exact hne
    · have := hbefore is2 ip ic (by omega) (by omega) (by omega) (by omega) (by omega)
        (by omega)
      rw [show ((ic : Int) - 1).toNat = ic - 1 by omega] at this
      simpa using this

/-- The rank-4 `chk_atm_field` for `dim = 3` with species, on a field of the expected
shape and non-empty latitude and longitude grids: which of its four outcomes it has.
The cyclic check comes first, then the South pole, then the North pole, and the error
names the first species that violates the check reported. -/
theorem chk_atm_field4_3d_cases (x : ConstTensor4View) (nspecies : Index)
    (p_grid lat_grid lon_grid : ConstVectorView) (hns : nspecies ≠ 0)
    (hs : (x.nbooks : Index) = nspecies ∧ x.npages = p_grid.length ∧
      x.nrows = lat_grid.length ∧ x.ncols = lon_grid.length)
    (hlat : 0 < lat_grid.length) (hlon : 0 < lon_grid.length) :
    (lon_grid.getD (lon_grid.length - 1) 0 - lon_grid.getD 0 0 = 360 →
      (∃ is ip ir : Nat, is < x.nbooks ∧ ip < x.npages ∧ ir < x.nrows ∧
        ¬ x.data is ip ir (x.ncols - 1) = x.data is ip ir 0) →
      ∃ is : Nat, is < x.nbooks ∧
        chk_atm_field4 x 3 nspecies p_grid lat_grid lon_grid =
          .error (.runtime_error (.not_cyclic (some (is : Int)))) ∧
        (∃ ip ir : Nat, ip < x.npages ∧ ir < x.nrows ∧
          ¬ x.data is ip ir (x.ncols - 1) = x.data is ip ir 0) ∧
        ∀ is2 ip ir : Nat, is2 < is → ip < x.npages → ir < x.nrows →
          x.data is2 ip ir (x.ncols - 1) = x.data is2 ip ir 0) ∧
    ((lon_grid.getD (lon_grid.length - 1) 0 - lon_grid.getD 0 0 = 360 →
        ∀ is ip ir : Nat, is < x.nbooks → ip < x.npages → ir < x.nrows →
          x.data is ip ir (x.ncols - 1) = x.data is ip ir 0) →
      lat_grid.getD 0 0 = -90 →
      (∃ is ip ic : Nat, is < x.nbooks ∧ ip < x.npages ∧ 1 ≤ ic ∧ ic < x.ncols ∧
        ¬ x.data is ip 0 ic = x.data is ip 0 (ic - 1)) →
      ∃ is : Nat, is < x.nbooks ∧
        chk_atm_field4 x 3 nspecies p_grid lat_grid lon_grid =
          .error (.runtime_error (.south_pole (some (is : Int)))) ∧
        (∃ ip ic : Nat, ip < x.npages ∧ 1 ≤ ic ∧ ic < x.ncols ∧
          ¬ x.data is ip 0 ic = x.data is ip 0 (ic - 1)) ∧
        ∀ is2 ip ic : Nat, is2 < is → ip < x.npages → 1 ≤ ic → ic < x.ncols →
          x.data is2 ip 0 ic = x.data is2 ip 0 (ic - 1)) ∧
    ((lon_grid.getD (lon_grid.length - 1) 0 - lon_grid.getD 0 0 = 360 →
        ∀ is ip ir : Nat, is < x.nbooks → ip < x.npages → ir < x.nrows →
          x.data is ip ir (x.ncols - 1) = x.data is ip ir 0) →
      (lat_grid.getD 0 0 = -90 →
        ∀ is ip ic : Nat, is < x.nbooks → ip < x.npages → 1 ≤ ic → ic < x.ncols →
          x.data is ip 0 ic = x.data is ip 0 (ic - 1)) →
      lat_grid.getD (lat_grid.length - 1) 0 = 90 →
      (∃ is ip ic : Nat, is < x.nbooks ∧ ip < x.npages ∧ 1 ≤ ic ∧ ic < x.ncols ∧
        ¬ x.data is ip (x.nrows - 1) ic = x.data is ip (x.nrows - 1) (ic - 1)) →
      ∃ is : Nat, is < x.nbooks ∧
        chk_atm_field4 x 3 nspecies p_grid lat_grid lon_grid =
          .error (.runtime_error (.north_pole (some (is : Int)))) ∧
        (∃ ip ic : Nat, ip < x.npages ∧ 1 ≤ ic ∧ ic < x.ncols ∧
          ¬ x.data is ip (x.nrows - 1) ic = x.data is ip (x.nrows - 1) (ic - 1)) ∧
        ∀ is2 ip ic : Nat, is2 < is → ip < x.npages → 1 ≤ ic → ic < x.ncols →
          x.data is2 ip (x.nrows - 1) ic = x.data is2 ip (x.nrows - 1) (ic - 1)) ∧
    ((lon_grid.getD (lon_grid.length - 1) 0 - lon_grid.getD 0 0 = 360 →
        ∀ is ip ir : Nat, is < x.nbooks → ip < x.npages → ir < x.nrows →
          x.data is ip ir (x.ncols - 1) = x.data is ip ir 0) →
      (lat_grid.getD 0 0 = -90 →
        ∀ is ip ic : Nat, is < x.nbooks → ip < x.npages → 1 ≤ ic → ic < x.ncols →
          x.data is ip 0 ic = x.data is ip 0 (ic - 1)) →
      (lat_grid.getD (lat_grid.length - 1) 0 = 90 →
        ∀ is ip ic : Nat, is < x.nbooks → ip < x.npages → 1 ≤ ic → ic < x.ncols →
          x.data is ip (x.nrows - 1) ic = x.data is ip (x.nrows - 1) (ic - 1)) →
      chk_atm_field4 x 3 nspecies p_grid lat_grid lon_grid = .ok ()) := by
  obtain ⟨h0, h1, h2, h3⟩ := hs
  subst h0
  have i0 := index_zero lon_grid hlon
  have i1 := index_nelem_sub lon_grid 1 (by omega) (by omega)
  have j0 := index_zero lat_grid hlat
  have j1 := index_nelem_sub lat_grid 1 (by omega) (by omega)
  simp only [Nat.cast_one, nelem] at i1 j1
  have hc := cyclic_block4 x (by omega)
  have hsp := pole_block4 x 0 ⟨le_refl 0, by omega⟩ .south_pole
  have hnp := pole_block4 x ((x.nrows : Int) - 1) ⟨by omega, by omega⟩ .north_pole
  rw [show ((x.nrows : Int) - 1).toNat = x.nrows - 1 by omega] at hnp
  simp only [Int.toNat_zero] at hsp
  have h2' : lat_grid.length = x.nrows := h2.symm
  have h3' : lon_grid.length = x.ncols := h3.symm
  simp only [h2', h3'] at i1 j1 ⊢
  have unfolded : chk_atm_field4 x 3 (x.nbooks : Int) p_grid lat_grid lon_grid =
      (do
        (if lon_grid.getD (x.ncols - 1) 0 - lon_grid.getD 0 0 = 360 then
          for_index 0 (x.nbooks : Int) fun is =>
            for_index 0 (x.npages : Int) fun ip =>
              for_index 0 (x.nrows : Int) fun ir => do
                throw_if (|(← x.elem is ip ir ((x.ncols : Int) - 1)) -
                    (← x.elem is ip ir 0)| > 0)
                  (.not_cyclic (some is))
        else pure ())
        (if lat_grid.getD 0 0 = -90 then
          for_index 0 (x.nbooks : Int) fun is =>
            for_index 0 (x.npages : Int) fun ip =>
              for_index 1 (x.ncols : Int) fun ic => do
                throw_if (|(← x.elem is ip 0 ic) - (← x.elem is ip 0 (ic - 1))| > 0)
                  (.south_pole (some is))
        else pure ())
        (if lat_grid.getD (x.nrows - 1) 0 = 90 then
          for_index 0 (x.nbooks : Int) fun is =>
            for_index 0 (x.npages : Int) fun ip =>
              for_index 1 (x.ncols : Int) fun ic => do
                throw_if (|(← x.elem is ip ((x.nrows : Int) - 1) ic) -
                    (← x.elem is ip ((x.nrows : Int) - 1) (ic - 1))| > 0)
                  (.north_pole (some is))
        else pure ())) := by
    unfold chk_atm_field4
    simp only [hns, if_false]
    simp only [show (3 : Index) > 1 by decide, show (3 : Index) > 2 by decide, if_true]
    rw [throw_if_neg _ _ (by simp [nelem, h1, h2, h3])]
    simp only [nelem, ← h1, h2', h3', ok_bind, i0, i1, j0, j1]
  rw [unfolded]
  have e1 : (lon_grid.getD (x.ncols - 1) 0 - lon_grid.getD 0 0 = 360 →
        ∀ is ip ir : Nat, is < x.nbooks → ip < x.npages → ir < x.nrows →
          x.data is ip ir (x.ncols - 1) = x.data is ip ir 0) →
      (if lon_grid.getD (x.ncols - 1) 0 - lon_grid.getD 0 0 = 360 then
          for_index 0 (x.nbooks : Int) fun is =>
            for_index 0 (x.npages : Int) fun ip =>
              for_index 0 (x.nrows : Int) fun ir => do
                throw_if (|(← x.elem is ip ir ((x.ncols : Int) - 1)) -
                    (← x.elem is ip ir 0)| > 0)
                  (.not_cyclic (some is))
        else pure ()) = .ok () := by
    intro hcyc
    split_ifs with hspan
    · rcases hc with ⟨hblk, -⟩ | ⟨is, a0, -, ⟨ip, ir, a, b, hne⟩, -⟩
      · exact hblk
      · exact absurd (hcyc hspan is ip ir a0 a b) hne
    · rfl
  have e2 : (lat_grid.getD 0 0 = -90 →
        ∀ is ip ic : Nat, is < x.nbooks → ip < x.npages → 1 ≤ ic → ic < x.ncols →
          x.data is ip 0 ic = x.data is ip 0 (ic - 1)) →
      (if lat_grid.getD 0 0 = -90 then
          for_index 0 (x.nbooks : Int) fun is =>
            for_index 0 (x.npages : Int) fun ip =>
              for_index 1 (x.ncols : Int) fun ic => do
                throw_if (|(← x.elem is ip 0 ic) - (← x.elem is ip 0 (ic - 1))| > 0)
                  (.south_pole (some is))
        else pure ()) = .ok () := by
    intro hsouth
    split_ifs with hp
    · rcases hsp with ⟨hblk, -⟩ | ⟨is, a0, -, ⟨ip, ic, a, b, c, hne⟩, -⟩
      · exact hblk
      · exact absurd (hsouth hp is ip ic a0 a b c) hne
    · rfl
  refine ⟨?_, ?_, ?_, ?_⟩
  · intro hspan hex
    rcases hc with ⟨-, hall⟩ | ⟨is, his, hblk, hviol, hbefore⟩
    · obtain ⟨is, ip, ir, a0, a, b, hne⟩ := hex
      exact absurd (hall is ip ir a0 a b) hne
    · refine ⟨is, his, ?_, hviol, hbefore⟩
      rw [if_pos hspan, hblk]
      rfl
  · intro hcyc hpole hex
    rcases hsp with ⟨-, hall⟩ | ⟨is, his, hblk, hviol, hbefore⟩
    · obtain ⟨is, ip, ic, a0, a, b, c, hne⟩ := hex
      exact absurd (hall is ip ic a0 a b c) hne
    · refine ⟨is, his, ?_, hviol, hbefore⟩
      rw [e1 hcyc, if_pos hpole, hblk]
      rfl
  · intro hcyc hsouth hpole hex
    rcases hnp with ⟨-, hall⟩ | ⟨is, his, hblk, hviol, hbefore⟩
    · obtain ⟨is, ip, ic, a0, a, b, c, hne⟩ := hex
      exact absurd (hall is ip ic a0 a b c) hne
    · refine ⟨is, his, ?_, hviol, hbefore⟩
      rw [e1 hcyc, e2 hsouth, if_pos hpole, hblk]
      rfl
  · intro hcyc hsouth hnorth
    rw [e1 hcyc, e2 hsouth]
    split_ifs with hp
    · rcases hnp with ⟨hblk, -⟩ | ⟨is, a0, -, ⟨ip, ic, a, b, c, hne⟩, -⟩
      · rw [hblk]
        rfl
      · exact absurd (hnorth hp is ip ic a0 a b c) hne
    · rfl

/-! ## Relations between the interpolation checks -/

/-- A strict check that succeeds has got through its setup, and the extrema of the new
grid lie within the limits. -/
theorem chk_interpolation_grids_ok_setup (old_grid new_grid : ConstVectorView)
    (order : Index) (e : Numeric)
    (h : chk_interpolation_grids old_grid new_grid order e = .ok ()) :
    ∃ (asc : Bool) (og_min og_max lo hi : Numeric),
      grid_limits old_grid order e = .ok (asc, og_min, og_max) ∧
      vec_min new_grid = .ok lo ∧ vec_max new_grid = .ok hi ∧
      og_min ≤ lo ∧ hi ≤ og_max := by
  cases hl : grid_limits old_grid order e with
  | error f =>
    rw [chk_interpolation_grids_of_error old_grid new_grid order e f hl] at h
    cases h
  | ok t =>
    obtain ⟨asc, og_min, og_max⟩ := t
    cases hlo : vec_min new_grid with
    | error f =>
      unfold chk_interpolation_grids at h
      rw [hl, hlo] at h
      exact absurd h (by simp [ok_bind, error_bind])
    | ok lo =>
      cases hhi : vec_max new_grid with
      | error f =>
        unfold chk_interpolation_grids at h
        rw [hl, hlo, hhi] at h
        exact absurd h (by simp [ok_bind, error_bind])
      | ok hi =>
        exact ⟨asc, og_min, og_max, lo, hi, rfl, rfl, rfl,
          (chk_interpolation_grids_ok_iff old_grid new_grid order e asc og_min og_max lo hi
            hl hlo hhi).mp h⟩

/-- A setup that succeeds has passed the size test. -/
theorem grid_limits_ok_length (old_grid : ConstVectorView) (order : Index) (e : Numeric)
    (r : Bool × Numeric × Numeric) (h : grid_limits old_grid order e = .ok r) :
    max 2 (order + 1) ≤ nelem old_grid := by
  obtain ⟨asc, og_min, og_max⟩ := r
  obtain ⟨h2, -⟩ := grid_limits_ok_cases old_grid order e asc og_min og_max h
  have hn : ¬ nelem old_grid < order + 1 := by
    intro hc
    rw [grid_limits_too_few old_grid order e hc] at h
    cases h
  refine max_le ?_ (not_lt.mp hn)
  unfold nelem
  exact_mod_cast h2

/-- The limits a successful setup yields, by the direction of the old grid. -/
theorem grid_limits_ok_values (old_grid : ConstVectorView) (order : Index) (e : Numeric)
    (asc : Bool) (og_min og_max : Numeric)
    (h : grid_limits old_grid order e = .ok (asc, og_min, og_max)) :
    (asc = true ∧ old_grid.Sorted (· < ·) ∧
      og_min = old_grid.getD 0 0 - e * (old_grid.getD 1 0 - old_grid.getD 0 0) ∧
      og_max = old_grid.getD (old_grid.length - 1) 0 +
        e * (old_grid.getD (old_grid.length - 1) 0 -
          old_grid.getD (old_grid.length - 2) 0)) ∨
    (asc = false ∧ old_grid.Sorted (· > ·) ∧
      og_min = old_grid.getD (old_grid.length - 1) 0 +
        e * (old_grid.getD (old_grid.length - 1) 0 -
          old_grid.getD (old_grid.length - 2) 0) ∧
      og_max = old_grid.getD 0 0 - e * (old_grid.getD 1 0 - old_grid.getD 0 0)) := by
  have hlen := grid_limits_ok_length old_grid order e _ h
  obtain ⟨-, hs⟩ := grid_limits_ok_cases old_grid order e asc og_min og_max h
  rcases hs with ⟨ha, hs⟩ | ⟨ha, hs⟩
  · left
    have := grid_limits_ascending old_grid order e hs hlen
    rw [h] at this
    simp only [Except.ok.injEq, Prod.mk.injEq] at this
    exact ⟨ha, hs, this.2.1, this.2.2⟩
  · right
    have := grid_limits_descending old_grid order e hs hlen
    rw [h] at this
    simp only [Except.ok.injEq, Prod.mk.injEq] at this
    exact ⟨ha, hs, this.2.1, this.2.2⟩

/-- C33. Whenever `chk_interpolation_grids` succeeds for
`(old_grid, new_grid, order, extpolfac)`, `chk_interpolation_grids_loose` on the same
arguments succeeds for every data vector, zero or not, and returns the full range
`ing_min = 0`, `ing_max = |new_grid| - 1`. -/
theorem chk_interpolation_grids_loose_of_strict (old_grid new_grid : ConstVectorView)
    (order : Index) (e : Numeric)
    (h : chk_interpolation_grids old_grid new_grid order e = .ok ()) :
    ∀ data : ConstVectorView,
      chk_interpolation_grids_loose old_grid new_grid data order e =
        .ok (0, nelem new_grid - 1) := by
  intro data
  obtain ⟨asc, og_min, og_max, lo, hi, hl, hlo, hhi, h1, h2⟩ :=
    chk_interpolation_grids_ok_setup old_grid new_grid order e h
  have hn := vec_min_ok_nonempty new_grid lo hlo
  have hlast : nelem new_grid - 1 = ((new_grid.length - 1 : Nat) : Int) := by
    unfold nelem
    rw [Nat.cast_sub (by omega)]
    rfl
  obtain ⟨a, b, -, -, hb, ha, -, -, hform⟩ :=
    chk_interpolation_grids_loose_form old_grid new_grid order e asc og_min og_max lo hi
      hl hlo hhi
  have ha0 : a = 0 := ha (not_lt.mpr h2)
  have hb0 : b = new_grid.length - 1 := hb (not_lt.mpr h1)
  rw [hform data, hlast]
  refine (loose_tail_ok_iff data _ _ a b _ 0 _).mpr ⟨⟨?_, ?_⟩, ?_, ?_⟩
  · rw [ha0]
    rfl
  · rw [hb0]
  · intro h0
    rw [ha0] at h0
    exact absurd h0 (by decide)
  · intro h0
    rw [hb0] at h0
    exact absurd h0 (lt_irrefl _)

/-- C33 on the old grid 1, 2, 3 and the new grid 2, 3 with data that are not zero. -/
theorem chk_interpolation_grids_loose_of_strict_witness :
    chk_interpolation_grids [1, 2, 3] [2, 3] 1 (1 / 2) = .ok () ∧
    chk_interpolation_grids_loose [1, 2, 3] [2, 3] [7, 8, 9] 1 (1 / 2) =
      .ok (0, nelem [2, 3] - 1) :=
  have h : chk_interpolation_grids [1, 2, 3] [2, 3] 1 (1 / 2) = .ok () := by
    norm_num [chk_interpolation_grids, grid_limits, index_cons_zero, index_cons_pos,
      nelem, is_increasing, is_decreasing, vec_min, vec_max, bind, Except.bind, pure,
      Except.pure]
  ⟨h, chk_interpolation_grids_loose_of_strict [1, 2, 3] [2, 3] 1 (1 / 2) h [7, 8, 9]⟩

/-- C36. `chk_interpolation_grids` is monotone in the extrapolation factor: if it succeeds
for `(old_grid, new_grid, order, e)` and `e <= e2`, it also succeeds for
`(old_grid, new_grid, order, e2)`. -/
theorem chk_interpolation_grids_mono_extpolfac (old_grid new_grid : ConstVectorView)
    (order : Index) (e e2 : Numeric)
    (h : chk_interpolation_grids old_grid new_grid order e = .ok ()) (hle : e ≤ e2) :
    chk_interpolation_grids old_grid new_grid order e2 = .ok () := by
  obtain ⟨asc, og_min, og_max, lo, hi, hl, hlo, hhi, h1, h2⟩ :=
    chk_interpolation_grids_ok_setup old_grid new_grid order e h
  have hlen := grid_limits_ok_length old_grid order e _ hl
  have h2len := length_ge_two_of_nelem old_grid order hlen
  rcases grid_limits_ok_values old_grid order e asc og_min og_max hl with
    ⟨-, hs, hm, hM⟩ | ⟨-, hs, hm, hM⟩
  · obtain ⟨f1, f2⟩ := sorted_lt_first_two old_grid hs h2len
    refine (chk_interpolation_grids_ok_iff old_grid new_grid order e2 true _ _ lo hi
      (grid_limits_ascending old_grid order e2 hs hlen) hlo hhi).mpr ⟨?_, ?_⟩
    · rw [hm] at h1
      nlinarith [mul_le_mul_of_nonneg_right hle (le_of_lt (sub_pos.mpr f1))]
    · rw [hM] at h2
      nlinarith [mul_le_mul_of_nonneg_right hle (le_of_lt (sub_pos.mpr f2))]
  · obtain ⟨f1, f2⟩ := sorted_gt_first_two old_grid hs h2len
    refine (chk_interpolation_grids_ok_iff old_grid new_grid order e2 false _ _ lo hi
      (grid_limits_descending old_grid order e2 hs hlen) hlo hhi).mpr ⟨?_, ?_⟩
    · rw [hm] at h1
      nlinarith [mul_le_mul_of_nonneg_right hle (le_of_lt (sub_pos.mpr f2))]
    · rw [hM] at h2
      nlinarith [mul_le_mul_of_nonneg_right hle (le_of_lt (sub_pos.mpr f1))]

/-- C36 on the old grid 1, 2, 3 and the new grid 1/2, 3, from the factor 1/2 to the
factor 2. -/
theorem chk_interpolation_grids_mono_extpolfac_witness :
    chk_interpolation_grids [1, 2, 3] [1 / 2, 3] 1 (1 / 2) = .ok () ∧
    (1 / 2 : Numeric) ≤ 2 ∧
    chk_interpolation_grids [1, 2, 3] [1 / 2, 3] 1 2 = .ok () :=
  have h : chk_interpolation_grids [1, 2, 3] [1 / 2, 3] 1 (1 / 2) = .ok () := by
    norm_num [chk_interpolation_grids, grid_limits, index_cons_zero, index_cons_pos,
      nelem, is_increasing, is_decreasing, vec_min, vec_max, bind, Except.bind, pure,
      Except.pure]
  ⟨h, by norm_num,
    chk_interpolation_grids_mono_extpolfac [1, 2, 3] [1 / 2, 3] 1 (1 / 2) 2 h (by norm_num)⟩

/-- C37. Whenever `chk_interpolation_grids_loose` returns normally, the new grid is not
empty and both output indices are valid positions of it:
`0 <= ing_min <= |new_grid| - 1` and `0 <= ing_max <= |new_grid| - 1`. -/
theorem chk_interpolation_grids_loose_valid_positions
    (old_grid new_grid data : ConstVectorView) (order : Index) (e : Numeric)
    (ing_min ing_max : Index)
    (h : chk_interpolation_grids_loose old_grid new_grid data order e =
      .ok (ing_min, ing_max)) :
    new_grid ≠ [] ∧ (0 ≤ ing_min ∧ ing_min ≤ nelem new_grid - 1) ∧
      (0 ≤ ing_max ∧ ing_max ≤ nelem new_grid - 1) := by
  obtain ⟨asc, og_min, og_max, lo, hi, hl, hlo, hhi⟩ :=
    chk_interpolation_grids_loose_ok_setup old_grid new_grid data order e _ h
  have hn := vec_min_ok_nonempty new_grid lo hlo
  have hlast : nelem new_grid - 1 = ((new_grid.length - 1 : Nat) : Int) := by
    unfold nelem
    rw [Nat.cast_sub (by omega)]
    rfl
  obtain ⟨a, b, ha, hb, -, -, -, -, hform⟩ :=
    chk_interpolation_grids_loose_form old_grid new_grid order e asc og_min og_max lo hi
      hl hlo hhi
  rw [hform data] at h
  obtain ⟨⟨hp, hq⟩, -, -⟩ := (loose_tail_ok_iff data _ _ a b _ _ _).mp h
  refine ⟨fun h0 => ?_, ⟨?_, ?_⟩, ⟨?_, ?_⟩⟩
  · rw [h0] at hn
    exact absurd hn (by decide)
  · rw [hp]
    exact Int.ofNat_nonneg a
  · rw [hp, hlast]
    exact_mod_cast ha
  · rw [hq]
    exact Int.ofNat_nonneg b
  · rw [hq, hlast]
    exact_mod_cast hb

/-- C37 on a check that shortens the range at both ends. -/
theorem chk_interpolation_grids_loose_valid_positions_witness :
    chk_interpolation_grids_loose [3, 2, 1] [4, 3, 2, 0] [0, 0, 0] 1 (1 / 2) =
      .ok (1, 2) ∧
    ([4, 3, 2, 0] : ConstVectorView) ≠ [] ∧
    ((0 : Index) ≤ 1 ∧ (1 : Index) ≤ nelem [4, 3, 2, 0] - 1) ∧
    ((0 : Index) ≤ 2 ∧ (2 : Index) ≤ nelem [4, 3, 2, 0] - 1) :=
  have h : chk_interpolation_grids_loose [3, 2, 1] [4, 3, 2, 0] [0, 0, 0] 1 (1 / 2) =
      .ok (1, 2) := by
    norm_num [chk_interpolation_grids_loose, grid_limits, index_cons_zero,
      index_cons_pos, nelem, is_increasing, is_decreasing, vec_min, vec_max, walk_up,
      walk_down, bind, Except.bind, pure, Except.pure]
  ⟨h, chk_interpolation_grids_loose_valid_positions [3, 2, 1] [4, 3, 2, 0] [0, 0, 0] 1
    (1 / 2) 1 2 h⟩

/-- C40. For `dim = 2` with grids accepted by `chk_atm_grids`, the longitude grid is
empty, and `chk_latlon_true` succeeds exactly when `lon_true` is empty and
`|lat_true| = |lat_grid|`; any non-empty `lon_true` is rejected. -/
theorem chk_latlon_true_2d_accepted (p_grid lat_grid lon_grid lat_true lon_true :
    ConstVectorView) (hg : chk_atm_grids 2 p_grid lat_grid lon_grid = .ok ()) :
    lon_grid = [] ∧
    ((∃ r, chk_latlon_true 2 lat_grid lon_grid lat_true lon_true = .ok r) ↔
      lon_true = [] ∧ lat_true.length = lat_grid.length) ∧
    (lon_true ≠ [] →
      chk_latlon_true 2 lat_grid lon_grid lat_true lon_true =
        .error (.runtime_error .latlon_true_2d)) := by
  obtain ⟨-, -, hlon⟩ := (chk_atm_grids_two_iff p_grid lat_grid lon_grid).mp hg
  subst hlon
  have e3 : nelem lat_true = nelem lat_grid ↔ lat_true.length = lat_grid.length :=
    nelem_eq_iff lat_true lat_grid.length
  have e4 : nelem lon_true = nelem [] ↔ lon_true = [] := by
    rw [show nelem ([] : ConstVectorView) = ((0 : Nat) : Int) from rfl, nelem_eq_iff]
    exact List.length_eq_zero
  refine ⟨rfl, ?_, fun hne => ?_⟩
  · unfold chk_latlon_true
    rw [if_neg (by decide), if_pos rfl]
    by_cases hc : nelem lat_true ≠ nelem lat_grid ∨ nelem lon_true ≠ nelem []
    · rw [if_pos hc]
      constructor
      · rintro ⟨r, hr⟩
        cases hr
      · rintro ⟨h1, h2⟩
        rcases hc with hc | hc
        · exact absurd (e3.mpr h2) hc
        · exact absurd (e4.mpr h1) hc
    · rw [if_neg hc]
      rw [not_or, not_not, not_not] at hc
      exact ⟨fun _ => ⟨e4.mp hc.2, e3.mp hc.1⟩, fun _ => ⟨_, rfl⟩⟩
  · unfold chk_latlon_true
    rw [if_neg (by decide), if_pos rfl, if_pos (Or.inr (fun h0 => hne (e4.mp h0)))]

/-- C40 on the latitude grid 0, 1, 2 with an empty longitude grid: an empty `lon_true`
with three true latitudes is accepted, a `lon_true` with one element is rejected. -/
theorem chk_latlon_true_2d_accepted_witness :
    chk_atm_grids 2 [3, 2, 1] [0, 1, 2] [] = .ok () ∧
    (∃ r, chk_latlon_true 2 [0, 1, 2] [] [45, 46, 47] [] = .ok r) ∧
    chk_latlon_true 2 [0, 1, 2] [] [45, 46, 47] [10] =
      .error (.runtime_error .latlon_true_2d) :=
  have hg : chk_atm_grids 2 [3, 2, 1] [0, 1, 2] [] = .ok () :=
    (chk_atm_grids_two_iff [3, 2, 1] [0, 1, 2] []).mpr
      ⟨⟨by decide, by simp [List.Sorted]; norm_num⟩,
        ⟨by decide, by simp [List.Sorted]⟩, rfl⟩
  ⟨hg, (chk_latlon_true_2d_accepted [3, 2, 1] [0, 1, 2] [] [45, 46, 47] [] hg).2.1.mpr
      ⟨rfl, rfl⟩,
   (chk_latlon_true_2d_accepted [3, 2, 1] [0, 1, 2] [] [45, 46, 47] [10] hg).2.2
      (by simp)⟩

/-- Reading a reversed vector. -/
theorem getD_reverse (x : ConstVectorView) (k : Nat) (h : k < x.length) :
    x.reverse.getD k 0 = x.getD (x.length - 1 - k) 0 := by
  rw [List.getD_eq_getElem x.reverse 0 (by simpa using h),
    List.getD_eq_getElem x 0 (by omega), List.getElem_reverse]

/-- The setup on the reversed old grid: the other direction and the same limits. -/
theorem grid_limits_reverse (old_grid : ConstVectorView) (order : Index) (e : Numeric)
    (asc : Bool) (og_min og_max : Numeric)
    (h : grid_limits old_grid order e = .ok (asc, og_min, og_max)) :
    grid_limits old_grid.reverse order e = .ok (!asc, og_min, og_max) := by
  have hlen := grid_limits_ok_length old_grid order e _ h
  have h2 := length_ge_two_of_nelem old_grid order hlen
  have hlen2 : max 2 (order + 1) ≤ nelem old_grid.reverse := by
    unfold nelem at hlen ⊢
    rw [List.length_reverse]
    exact hlen
  have g0 := getD_reverse old_grid 0 (by omega)
  have g1 := getD_reverse old_grid 1 (by omega)
  have gz1 := getD_reverse old_grid (old_grid.length - 1) (by omega)
  have gz2 := getD_reverse old_grid (old_grid.length - 2) (by omega)
  rw [show old_grid.length - 1 - 0 = old_grid.length - 1 by omega] at g0
  rw [show old_grid.length - 1 - 1 = old_grid.length - 2 by omega] at g1
  rw [show old_grid.length - 1 - (old_grid.length - 1) = 0 by omega] at gz1
  rw [show old_grid.length - 1 - (old_grid.length - 2) = 1 by omega] at gz2
  rcases grid_limits_ok_values old_grid order e asc og_min og_max h with
    ⟨ha, hs, hm, hM⟩ | ⟨ha, hs, hm, hM⟩
  · have hr : old_grid.reverse.Sorted (· > ·) := List.pairwise_reverse.mpr hs
    rw [grid_limits_descending old_grid.reverse order e hr hlen2, ha, hm, hM,
      List.length_reverse, g0, g1, gz1, gz2]
    simp only [Bool.not_true, Except.ok.injEq, Prod.mk.injEq, true_and]
    constructor <;> ring
  · have hr : old_grid.reverse.Sorted (· < ·) := List.pairwise_reverse.mpr hs
    rw [grid_limits_ascending old_grid.reverse order e hr hlen2, ha, hm, hM,
      List.length_reverse, g0, g1, gz1, gz2]
    simp only [Bool.not_false, Except.ok.injEq, Prod.mk.injEq, true_and]
    constructor <;> ring

/-- C35. The outcome of `chk_interpolation_grids` is invariant under reversing the old
grid: for every old grid (of length at least 2 or not), new grid, order and extrapolation
factor, the check succeeds on `old_grid` if and only if it succeeds on the reversed old
grid; a grid and its mirror get the other direction and the same `og_min` and
`og_max`. -/
theorem chk_interpolation_grids_reverse (old_grid new_grid : ConstVectorView)
    (order : Index) (e : Numeric) :
    (chk_interpolation_grids old_grid new_grid order e = .ok () ↔
      chk_interpolation_grids old_grid.reverse new_grid order e = .ok ()) ∧
    (∀ (asc : Bool) (og_min og_max : Numeric),
      grid_limits old_grid order e = .ok (asc, og_min, og_max) →
      grid_limits old_grid.reverse order e = .ok (!asc, og_min, og_max)) := by
  have key : ∀ g : ConstVectorView, chk_interpolation_grids g new_grid order e = .ok () →
      chk_interpolation_grids g.reverse new_grid order e = .ok () := by
    intro g h
    obtain ⟨asc, og_min, og_max, lo, hi, hl, hlo, hhi, hb⟩ :=
      chk_interpolation_grids_ok_setup g new_grid order e h
    exact (chk_interpolation_grids_ok_iff g.reverse new_grid order e (!asc) og_min og_max
      lo hi (grid_limits_reverse g order e asc og_min og_max hl) hlo hhi).mpr hb
  refine ⟨⟨key old_grid, fun h => ?_⟩, grid_limits_reverse old_grid order e⟩
  have := key old_grid.reverse h
  rwa [List.reverse_reverse] at this

/-- C35 on the old grid 1, 2, 3 and its mirror 3, 2, 1 with the factor 1/2: both have
the limits 1/2 and 7/2, and the new grid 2, 3 accepted on the one is accepted on the
other. -/
theorem chk_interpolation_grids_reverse_witness :
    grid_limits [1, 2, 3] 1 (1 / 2) = .ok (true, 1 / 2, 7 / 2) ∧
    grid_limits [3, 2, 1] 1 (1 / 2) = .ok (false, 1 / 2, 7 / 2) ∧
    chk_interpolation_grids [1, 2, 3] [2, 3] 1 (1 / 2) = .ok () ∧
    chk_interpolation_grids [3, 2, 1] [2, 3] 1 (1 / 2) = .ok () :=
  have hl : grid_limits [1, 2, 3] 1 (1 / 2) = .ok (true, 1 / 2, 7 / 2) := by
    norm_num [grid_limits, index_cons_zero, index_cons_pos, nelem, is_increasing, bind,
      Except.bind, pure, Except.pure]
  have h : chk_interpolation_grids [1, 2, 3] [2, 3] 1 (1 / 2) = .ok () := by
    norm_num [chk_interpolation_grids, grid_limits, index_cons_zero, index_cons_pos,
      nelem, is_increasing, is_decreasing, vec_min, vec_max, bind, Except.bind, pure,
      Except.pure]
  ⟨hl, (chk_interpolation_grids_reverse [1, 2, 3] [2, 3] 1 (1 / 2)).2 true _ _ hl, h,
    (chk_interpolation_grids_reverse [1, 2, 3] [2, 3] 1 (1 / 2)).1.mp h⟩

/-- C38, evaluated on the code. Order 0, the old grid 5 (one element, so at least
`order + 1` elements) and the new grid 5 (not empty): the size test passes, and the
direction test then reads `old_grid[1]`, a position outside the old grid, in
`chk_interpolation_grids` and in `chk_interpolation_grids_loose` alike. -/
theorem interpolation_checks_read_outside_old_grid :
    (0 : Index) ≤ 0 ∧ (0 : Index) + 1 ≤ nelem [5] ∧ ([5] : ConstVectorView) ≠ [] ∧
    index [5] 1 = .error .out_of_range ∧
    grid_limits [5] 0 (1 / 2) = .error .out_of_range ∧
    chk_interpolation_grids [5] [5] 0 (1 / 2) = .error .out_of_range ∧
    chk_interpolation_grids_loose [5] [5] [0] 0 (1 / 2) = .error .out_of_range := by
  have h1 : index [5] 1 = .error .out_of_range := by
    rw [index_cons_pos 5 [] 1 (by decide)]
    exact index_nil _
  have hg : grid_limits [5] 0 (1 / 2) = .error .out_of_range := by
    unfold grid_limits
    rw [if_neg (by simp [nelem]), index_cons_zero, h1]
    rfl
  exact ⟨le_refl 0, by simp [nelem], by simp, h1, hg,
    chk_interpolation_grids_of_error _ _ _ _ _ hg,
    chk_interpolation_grids_loose_of_error _ _ _ _ _ _ hg⟩

/-! ## The field checks outside the regular three-dimensional case -/

/-- A loop over an empty range does nothing. -/
theorem for_index_empty (lo hi : Int) (body : Int → Check Unit) (h : hi ≤ lo) :
    for_index lo hi body = .ok () :=
  (for_index_ok_iff lo hi body).mpr (fun j h1 h2 => absurd h2 (by omega))

/-- A rank-3 field of another shape than expected gets the wrong-size error, for every
`dim`. -/
theorem chk_atm_field_wrong_shape (x : ConstTensor3View) (dim : Index)
    (p_grid lat_grid lon_grid : ConstVectorView)
    (h : (x.ncols : Index) ≠ (if dim > 2 then nelem lon_grid else 1) ∨
      (x.nrows : Index) ≠ (if dim > 1 then nelem lat_grid else 1) ∨
      (x.npages : Index) ≠ nelem p_grid) :
    chk_atm_field x dim p_grid lat_grid lon_grid =
      .error (.runtime_error (.field_wrong_size
        [nelem p_grid, (if dim > 1 then nelem lat_grid else 1),
          (if dim > 2 then nelem lon_grid else 1)]
        [x.npages, x.nrows, x.ncols])) := by
  unfold chk_atm_field
  simp only [throw_if_pos _ _ h, bind, Except.bind]

/-- A rank-3 field of the expected shape is accepted when `dim` is not 3. -/
theorem chk_atm_field_not_3d (x : ConstTensor3View) (dim : Index)
    (p_grid lat_grid lon_grid : ConstVectorView)
    (h : ¬ ((x.ncols : Index) ≠ (if dim > 2 then nelem lon_grid else 1) ∨
      (x.nrows : Index) ≠ (if dim > 1 then nelem lat_grid else 1) ∨
      (x.npages : Index) ≠ nelem p_grid)) (hd : dim ≠ 3) :
    chk_atm_field x dim p_grid lat_grid lon_grid = .ok () := by
  unfold chk_atm_field
  simp only [throw_if_neg _ _ h, ok_bind, hd, if_false]
  rfl

/-- A rank-3 field of the expected shape for `dim = 3` with an empty latitude or longitude
grid: the check reads a grid outside its range. -/
theorem chk_atm_field_3d_unreadable (x : ConstTensor3View)
    (p_grid lat_grid lon_grid : ConstVectorView)
    (hs : x.npages = p_grid.length ∧ x.nrows = lat_grid.length ∧ x.ncols = lon_grid.length)
    (he : lat_grid = [] ∨ lon_grid = []) :
    chk_atm_field x 3 p_grid lat_grid lon_grid = .error .out_of_range := by
  obtain ⟨h1, h2, h3⟩ := hs
  unfold chk_atm_field
  simp only [show (3 : Index) > 1 by decide, show (3 : Index) > 2 by decide, if_true]
  rw [throw_if_neg _ _ (by simp [nelem, h1, h2, h3])]
  simp only [ok_bind]
  by_cases hlon : lon_grid = []
  · subst hlon
    simp only [index_nil, error_bind]
  · have hlat : lat_grid = [] := he.resolve_right hlon
    subst hlat
    have hl : 0 < lon_grid.length := List.length_pos.mpr hlon
    have i0 := index_zero lon_grid hl
    have i1 := index_nelem_sub lon_grid 1 (by omega) (by omega)
    simp only [Nat.cast_one] at i1
    simp only [i0, i1, ok_bind]
    rw [bind_error_iff]
    right
    constructor
    · split_ifs
      · rw [for_index_ok_iff]
        intro ip _ _
        exact for_index_empty _ _ _ (by simp [nelem])
      · rfl
    · simp only [index_nil, error_bind]

/-- A rank-4 field of another shape than expected gets the wrong-size error, for every
`dim`, when species are expected. -/
theorem chk_atm_field4_wrong_shape (x : ConstTensor4View) (dim nspecies : Index)
    (p_grid lat_grid lon_grid : ConstVectorView) (hns : nspecies ≠ 0)
    (h : (x.ncols : Index) ≠ (if dim > 2 then nelem lon_grid else 1) ∨
      (x.nrows : Index) ≠ (if dim > 1 then nelem lat_grid else 1) ∨
      (x.npages : Index) ≠ nelem p_grid ∨ (x.nbooks : Index) ≠ nspecies) :
    chk_atm_field4 x dim nspecies p_grid lat_grid lon_grid =
      .error (.runtime_error (.field_wrong_size
        [nspecies, nelem p_grid, (if dim > 1 then nelem lat_grid else 1),
          (if dim > 2 then nelem lon_grid else 1)]
        [x.nbooks, x.npages, x.nrows, x.ncols])) := by
  unfold chk_atm_field4
  simp only [hns, if_false]
  rw [throw_if_pos _ _ h]
  rfl

/-- A rank-4 field of the expected shape is accepted when `dim` is not 3. -/
theorem chk_atm_field4_not_3d (x : ConstTensor4View) (dim nspecies : Index)
    (p_grid lat_grid lon_grid : ConstVectorView) (hns : nspecies ≠ 0)
    (h : ¬ ((x.ncols : Index) ≠ (if dim > 2 then nelem lon_grid else 1) ∨
      (x.nrows : Index) ≠ (if dim > 1 then nelem lat_grid else 1) ∨
      (x.npages : Index) ≠ nelem p_grid ∨ (x.nbooks : Index) ≠ nspecies)) (hd : dim ≠ 3) :
    chk_atm_field4 x dim nspecies p_grid lat_grid lon_grid = .ok () := by
  unfold chk_atm_field4
  simp only [hns, if_false]
  rw [throw_if_neg _ _ h]
  simp only [ok_bind, hd, if_false]
  rfl

/-- A rank-4 field of the expected shape for `dim = 3` with an empty latitude or longitude
grid: the check reads a grid outside its range. -/
theorem chk_atm_field4_3d_unreadable (x : ConstTensor4View) (nspecies : Index)
    (p_grid lat_grid lon_grid : ConstVectorView) (hns : nspecies ≠ 0)
    (hs : (x.nbooks : Index) = nspecies ∧ x.npages = p_grid.length ∧
      x.nrows = lat_grid.length ∧ x.ncols = lon_grid.length)
    (he : lat_grid = [] ∨ lon_grid = []) :
    chk_atm_field4 x 3 nspecies p_grid lat_grid lon_grid = .error .out_of_range := by
  obtain ⟨h0, h1, h2, h3⟩ := hs
  unfold chk_atm_field4
  simp only [hns, if_false]
  simp only [show (3 : Index) > 1 by decide, show (3 : Index) > 2 by decide, if_true]
  rw [throw_if_neg _ _ (by simp [nelem, h0, h1, h2, h3])]
  simp only [ok_bind]
  by_cases hlon : lon_grid = []
  · subst hlon
    simp only [index_nil, error_bind]
  · have hlat : lat_grid = [] := he.resolve_right hlon
    subst hlat
    have hl : 0 < lon_grid.length := List.length_pos.mpr hlon
    have i0 := index_zero lon_grid hl
    have i1 := index_nelem_sub lon_grid 1 (by omega) (by omega)
    simp only [Nat.cast_one] at i1
    simp only [i0, i1, ok_bind]
    rw [bind_error_iff]
    right
    constructor
    · split_ifs
      · rw [for_index_ok_iff]
        intro is _ _
        rw [for_index_ok_iff]
        intro ip _ _
        exact for_index_empty _ _ _ (by simp [nelem])
      · rfl
    · simp only [index_nil, error_bind]

/-- The rank-4 `chk_atm_field` for `dim = 3` with species, on a field of the expected
shape and non-empty latitude and longitude grids, has exactly one of four outcomes: the
cyclic error, when the cyclic condition is violated; else the South-pole error, when the
South-pole condition is violated; else the North-pole error, when the North-pole
condition is violated; else success.  Each error names the first species that violates
the condition. -/
theorem chk_atm_field4_3d_outcome (x : ConstTensor4View) (nspecies : Index)
    (p_grid lat_grid lon_grid : ConstVectorView) (hns : nspecies ≠ 0)
    (hs : (x.nbooks : Index) = nspecies ∧ x.npages = p_grid.length ∧
      x.nrows = lat_grid.length ∧ x.ncols = lon_grid.length)
    (hlat : 0 < lat_grid.length) (hlon : 0 < lon_grid.length) :
    (¬ (lon_grid.getD (lon_grid.length - 1) 0 - lon_grid.getD 0 0 = 360 →
        ∀ is ip ir : Nat, is < x.nbooks → ip < x.npages → ir < x.nrows →
          x.data is ip ir (x.ncols - 1) = x.data is ip ir 0) ∧
      ∃ is : Nat, is < x.nbooks ∧
        chk_atm_field4 x 3 nspecies p_grid lat_grid lon_grid =
          .error (.runtime_error (.not_cyclic (some (is : Int)))) ∧
        (∃ ip ir : Nat, ip < x.npages ∧ ir < x.nrows ∧
          ¬ x.data is ip ir (x.ncols - 1) = x.data is ip ir 0) ∧
        ∀ is2 ip ir : Nat, is2 < is → ip < x.npages → ir < x.nrows →
          x.data is2 ip ir (x.ncols - 1) = x.data is2 ip ir 0) ∨
    ((lon_grid.getD (lon_grid.length - 1) 0 - lon_grid.getD 0 0 = 360 →
        ∀ is ip ir : Nat, is < x.nbooks → ip < x.npages → ir < x.nrows →
          x.data is ip ir (x.ncols - 1) = x.data is ip ir 0) ∧
      ¬ (lat_grid.getD 0 0 = -90 →
        ∀ is ip ic : Nat, is < x.nbooks → ip < x.npages → 1 ≤ ic → ic < x.ncols →
          x.data is ip 0 ic = x.data is ip 0 (ic - 1)) ∧
      ∃ is : Nat, is < x.nbooks ∧
        chk_atm_field4 x 3 nspecies p_grid lat_grid lon_grid =
          .error (.runtime_error (.south_pole (some (is : Int)))) ∧
        (∃ ip ic : Nat, ip < x.npages ∧ 1 ≤ ic ∧ ic < x.ncols ∧
          ¬ x.data is ip 0 ic = x.data is ip 0 (ic - 1)) ∧
        ∀ is2 ip ic : Nat, is2 < is → ip < x.npages → 1 ≤ ic → ic < x.ncols →
          x.data is2 ip 0 ic = x.data is2 ip 0 (ic - 1)) ∨
    ((lon_grid.getD (lon_grid.length - 1) 0 - lon_grid.getD 0 0 = 360 →
        ∀ is ip ir : Nat, is < x.nbooks → ip < x.npages → ir < x.nrows →
          x.data is ip ir (x.ncols - 1) = x.data is ip ir 0) ∧
      (lat_grid.getD 0 0 = -90 →
        ∀ is ip ic : Nat, is < x.nbooks → ip < x.npages → 1 ≤ ic → ic < x.ncols →
          x.data is ip 0 ic = x.data is ip 0 (ic - 1)) ∧
      ¬ (lat_grid.getD (lat_grid.length - 1) 0 = 90 →
        ∀ is ip ic : Nat, is < x.nbooks → ip < x.npages → 1 ≤ ic → ic < x.ncols →
          x.data is ip (x.nrows - 1) ic = x.data is ip (x.nrows - 1) (ic - 1)) ∧
      ∃ is : Nat, is < x.nbooks ∧
        chk_atm_field4 x 3 nspecies p_grid lat_grid lon_grid =
          .error (.runtime_error (.north_pole (some (is : Int)))) ∧
        (∃ ip ic : Nat, ip < x.npages ∧ 1 ≤ ic ∧ ic < x.ncols ∧
          ¬ x.data is ip (x.nrows - 1) ic = x.data is ip (x.nrows - 1) (ic - 1)) ∧
        ∀ is2 ip ic : Nat, is2 < is → ip < x.npages → 1 ≤ ic → ic < x.ncols →
          x.data is2 ip (x.nrows - 1) ic = x.data is2 ip (x.nrows - 1) (ic - 1)) ∨
    ((lon_grid.getD (lon_grid.length - 1) 0 - lon_grid.getD 0 0 = 360 →
        ∀ is ip ir : Nat, is < x.nbooks → ip < x.npages → ir < x.nrows →
          x.data is ip ir (x.ncols - 1) = x.data is ip ir 0) ∧
      (lat_grid.getD 0 0 = -90 →
        ∀ is ip ic : Nat, is < x.nbooks → ip < x.npages → 1 ≤ ic → ic < x.ncols →
          x.data is ip 0 ic = x.data is ip 0 (ic - 1)) ∧
      (lat_grid.getD (lat_grid.length - 1) 0 = 90 →
        ∀ is ip ic : Nat, is < x.nbooks → ip < x.npages → 1 ≤ ic → ic < x.ncols →
          x.data is ip (x.nrows - 1) ic = x.data is ip (x.nrows - 1) (ic - 1)) ∧
      chk_atm_field4 x 3 nspecies p_grid lat_grid lon_grid = .ok ()) := by
  obtain ⟨hA, hB, hC, hD⟩ :=
    chk_atm_field4_3d_cases x nspecies p_grid lat_grid lon_grid hns hs hlat hlon
  by_cases c1 : lon_grid.getD (lon_grid.length - 1) 0 - lon_grid.getD 0 0 = 360 →
      ∀ is ip ir : Nat, is < x.nbooks → ip < x.npages → ir < x.nrows →
        x.data is ip ir (x.ncols - 1) = x.data is ip ir 0
  swap
  · left
    have hspan : lon_grid.getD (lon_grid.length - 1) 0 - lon_grid.getD 0 0 = 360 := by
      by_contra hn; exact c1 (fun h => absurd h hn)
    have hex : ∃ is ip ir : Nat, is < x.nbooks ∧ ip < x.npages ∧ ir < x.nrows ∧
        ¬ x.data is ip ir (x.ncols - 1) = x.data is ip ir 0 := by
      by_contra hn
      apply c1
      intro _ is ip ir a0 a b
      by_contra hne
      exact hn ⟨is, ip, ir, a0, a, b, hne⟩
    exact ⟨c1, hA hspan hex⟩
  by_cases c2 : lat_grid.getD 0 0 = -90 →
      ∀ is ip ic : Nat, is < x.nbooks → ip < x.npages → 1 ≤ ic → ic < x.ncols →
        x.data is ip 0 ic = x.data is ip 0 (ic - 1)
  swap
  · right; left
    have hpole : lat_grid.getD 0 0 = -90 := by
      by_contra hn; exact c2 (fun h => absurd h hn)
    have hex : ∃ is ip ic : Nat, is < x.nbooks ∧ ip < x.npages ∧ 1 ≤ ic ∧ ic < x.ncols ∧
        ¬ x.data is ip 0 ic = x.data is ip 0 (ic - 1) := by
      by_contra hn
      apply c2
      intro _ is ip ic a0 a b c
      by_contra hne
      exact hn ⟨is, ip, ic, a0, a, b, c, hne⟩
    exact ⟨c1, c2, hB c1 hpole hex⟩
  by_cases c3 : lat_grid.getD (lat_grid.length - 1) 0 = 90 →
      ∀ is ip ic : Nat, is < x.nbooks → ip < x.npages → 1 ≤ ic → ic < x.ncols →
        x.data is ip (x.nrows - 1) ic = x.data is ip (x.nrows - 1) (ic - 1)
  swap
  · right; right; left
    have hpole : lat_grid.getD (lat_grid.length - 1) 0 = 90 := by
      by_contra hn; exact c3 (fun h => absurd h hn)
    have hex : ∃ is ip ic : Nat, is < x.nbooks ∧ ip < x.npages ∧ 1 ≤ ic ∧ ic < x.ncols ∧
        ¬ x.data is ip (x.nrows - 1) ic = x.data is ip (x.nrows - 1) (ic - 1) := by
      by_contra hn
      apply c3
      intro _ is ip ic a0 a b c
      by_contra hne
      exact hn ⟨is, ip, ic, a0, a, b, c, hne⟩
    exact ⟨c1, c2, c3, hC c1 c2 hpole hex⟩
  exact Or.inr (Or.inr (Or.inr ⟨c1, c2, c3, hD c1 c2 c3⟩))

/-- The rank-4 `chk_atm_field` for `dim = 3` with species, on a field of the expected
shape and non-empty latitude and longitude grids, succeeds exactly when the three
conditions hold for every species; otherwise it throws. -/
theorem chk_atm_field4_3d_ok_iff (x : ConstTensor4View) (nspecies : Index)
    (p_grid lat_grid lon_grid : ConstVectorView) (hns : nspecies ≠ 0)
    (hs : (x.nbooks : Index) = nspecies ∧ x.npages = p_grid.length ∧
      x.nrows = lat_grid.length ∧ x.ncols = lon_grid.length)
    (hlat : 0 < lat_grid.length) (hlon : 0 < lon_grid.length) :
    (chk_atm_field4 x 3 nspecies p_grid lat_grid lon_grid = .ok () ↔
      (lon_grid.getD (lon_grid.length - 1) 0 - lon_grid.getD 0 0 = 360 →
        ∀ is ip ir : Nat, is < x.nbooks → ip < x.npages → ir < x.nrows →
          x.data is ip ir (x.ncols - 1) = x.data is ip ir 0) ∧
      (lat_grid.getD 0 0 = -90 →
        ∀ is ip ic : Nat, is < x.nbooks → ip < x.npages → 1 ≤ ic → ic < x.ncols →
          x.data is ip 0 ic = x.data is ip 0 (ic - 1)) ∧
      (lat_grid.getD (lat_grid.length - 1) 0 = 90 →
        ∀ is ip ic : Nat, is < x.nbooks → ip < x.npages → 1 ≤ ic → ic < x.ncols →
          x.data is ip (x.nrows - 1) ic = x.data is ip (x.nrows - 1) (ic - 1))) ∧
    (chk_atm_field4 x 3 nspecies p_grid lat_grid lon_grid = .ok () ∨
      fails (chk_atm_field4 x 3 nspecies p_grid lat_grid lon_grid)) := by
  rcases chk_atm_field4_3d_outcome x nspecies p_grid lat_grid lon_grid hns hs hlat hlon
    with ⟨c1, is, -, herr, -⟩ | ⟨-, c2, is, -, herr, -⟩ | ⟨-, -, c3, is, -, herr, -⟩ |
      ⟨c1, c2, c3, hok⟩
  · rw [herr]
    exact ⟨⟨fun h => (by cases h), fun h => absurd h.1 c1⟩, Or.inr ⟨_, rfl⟩⟩
  · rw [herr]
    exact ⟨⟨fun h => (by cases h), fun h => absurd h.2.1 c2⟩, Or.inr ⟨_, rfl⟩⟩
  · rw [herr]
    exact ⟨⟨fun h => (by cases h), fun h => absurd h.2.2 c3⟩, Or.inr ⟨_, rfl⟩⟩
  · exact ⟨⟨fun _ => ⟨c1, c2, c3⟩, fun _ => hok⟩, Or.inl hok⟩

/-- C34. For `nspecies > 0`, the rank-4 `chk_atm_field` succeeds on the field `x` if and
only if `x` has exactly `nspecies` books and the rank-3 `chk_atm_field` succeeds on every
species slice `x(is, :, :, :)` with the same `dim` and grids. -/
theorem chk_atm_field4_iff_slices (x : ConstTensor4View) (dim nspecies : Index)
    (p_grid lat_grid lon_grid : ConstVectorView) (hns : nspecies > 0) :
    chk_atm_field4 x dim nspecies p_grid lat_grid lon_grid = .ok () ↔
      (x.nbooks : Index) = nspecies ∧
      ∀ is : Nat, is < x.nbooks →
        chk_atm_field (x.book is) dim p_grid lat_grid lon_grid = .ok () := by
  have hns0 : nspecies ≠ 0 := ne_of_gt hns
  by_cases hb : (x.nbooks : Index) = nspecies
  swap
  · rw [chk_atm_field4_wrong_shape x dim nspecies p_grid lat_grid lon_grid hns0
      (Or.inr (Or.inr (Or.inr hb)))]
    exact ⟨fun h => (by cases h), fun h => absurd h.1 hb⟩
  have hpos : 0 < x.nbooks := by
    rw [← hb] at hns
    exact_mod_cast hns
  by_cases hsh : (x.ncols : Index) ≠ (if dim > 2 then nelem lon_grid else 1) ∨
      (x.nrows : Index) ≠ (if dim > 1 then nelem lat_grid else 1) ∨
      (x.npages : Index) ≠ nelem p_grid
  · have h4 : (x.ncols : Index) ≠ (if dim > 2 then nelem lon_grid else 1) ∨
        (x.nrows : Index) ≠ (if dim > 1 then nelem lat_grid else 1) ∨
        (x.npages : Index) ≠ nelem p_grid ∨ (x.nbooks : Index) ≠ nspecies := by
      rcases hsh with h | h | h
      · exact Or.inl h
      · exact Or.inr (Or.inl h)
      · exact Or.inr (Or.inr (Or.inl h))
    rw [chk_atm_field4_wrong_shape x dim nspecies p_grid lat_grid lon_grid hns0 h4]
    refine ⟨fun h => (by cases h), fun h => ?_⟩
    have h0 := h.2 0 hpos
    rw [chk_atm_field_wrong_shape (x.book 0) dim p_grid lat_grid lon_grid hsh] at h0
    cases h0
  have h4 : ¬ ((x.ncols : Index) ≠ (if dim > 2 then nelem lon_grid else 1) ∨
      (x.nrows : Index) ≠ (if dim > 1 then nelem lat_grid else 1) ∨
      (x.npages : Index) ≠ nelem p_grid ∨ (x.nbooks : Index) ≠ nspecies) := by
    intro h
    rcases h with h | h | h | h
    · exact hsh (Or.inl h)
    · exact hsh (Or.inr (Or.inl h))
    · exact hsh (Or.inr (Or.inr h))
    · exact h hb
  by_cases hd : dim = 3
  swap
  · rw [chk_atm_field4_not_3d x dim nspecies p_grid lat_grid lon_grid hns0 h4 hd]
    exact ⟨fun _ => ⟨hb, fun is _ =>
      chk_atm_field_not_3d (x.book is) dim p_grid lat_grid lon_grid hsh hd⟩, fun _ => rfl⟩
  subst hd
  simp only [show (3 : Index) > 1 by decide, show (3 : Index) > 2 by decide, if_true,
    not_or, not_not, nelem] at hsh
  have hs3 : x.npages = p_grid.length ∧ x.nrows = lat_grid.length ∧
      x.ncols = lon_grid.length :=
    ⟨by exact_mod_cast hsh.2.2, by exact_mod_cast hsh.2.1, by exact_mod_cast hsh.1⟩
  have hs4 : (x.nbooks : Index) = nspecies ∧ x.npages = p_grid.length ∧
      x.nrows = lat_grid.length ∧ x.ncols = lon_grid.length := ⟨hb, hs3⟩
  by_cases he : lat_grid = [] ∨ lon_grid = []
  · rw [chk_atm_field4_3d_unreadable x nspecies p_grid lat_grid lon_grid hns0 hs4 he]
    refine ⟨fun h => (by cases h), fun h => ?_⟩
    have h0 := h.2 0 hpos
    rw [chk_atm_field_3d_unreadable (x.book 0) p_grid lat_grid lon_grid hs3 he] at h0
    cases h0
  rw [not_or] at he
  have hlat : 0 < lat_grid.length := List.length_pos.mpr he.1
  have hlon : 0 < lon_grid.length := List.length_pos.mpr he.2
  rw [(chk_atm_field4_3d_ok_iff x nspecies p_grid lat_grid lon_grid hns0 hs4 hlat hlon).1]
  have slice : ∀ is : Nat,
      (chk_atm_field (x.book is) 3 p_grid lat_grid lon_grid = .ok () ↔
        (lon_grid.getD (lon_grid.length - 1) 0 - lon_grid.getD 0 0 = 360 →
          ∀ ip ir : Nat, ip < x.npages → ir < x.nrows →
            x.data is ip ir (x.ncols - 1) = x.data is ip ir 0) ∧
        (lat_grid.getD 0 0 = -90 →
          ∀ ip ic : Nat, ip < x.npages → ic < x.ncols →
            x.data is ip 0 ic = x.data is ip 0 0) ∧
        (lat_grid.getD (lat_grid.length - 1) 0 = 90 →
          ∀ ip ic : Nat, ip < x.npages → ic < x.ncols →
            x.data is ip (x.nrows - 1) ic = x.data is ip (x.nrows - 1) 0)) :=
    fun is => (chk_atm_field_3d_ok_iff (x.book is) p_grid lat_grid lon_grid hs3 hlat hlon).1
  constructor
  · rintro ⟨c1, c2, c3⟩
    refine ⟨hb, fun is his => (slice is).mpr ⟨?_, ?_, ?_⟩⟩
    · exact fun hspan ip ir a b => c1 hspan is ip ir his a b
    · exact fun hp ip ic a b =>
        (adjacent_eq_iff_const (x.data is ip 0) x.ncols).mp
          (fun ic h1 h2 => c2 hp is ip ic his a h1 h2) ic b
    · exact fun hp ip ic a b =>
        (adjacent_eq_iff_const (x.data is ip (x.nrows - 1)) x.ncols).mp
          (fun ic h1 h2 => c3 hp is ip ic his a h1 h2) ic b
  · rintro ⟨-, h⟩
    refine ⟨?_, ?_, ?_⟩
    · exact fun hspan is ip ir his a b => ((slice is).mp (h is his)).1 hspan ip ir a b
    · exact fun hp is ip ic his a h1 h2 =>
        (adjacent_eq_iff_const (x.data is ip 0) x.ncols).mpr
          (fun ic hc => ((slice is).mp (h is his)).2.1 hp ip ic a hc) ic h1 h2
    · exact fun hp is ip ic his a h1 h2 =>
        (adjacent_eq_iff_const (x.data is ip (x.nrows - 1)) x.ncols).mpr
          (fun ic hc => ((slice is).mp (h is his)).2.2 hp ip ic a hc) ic h1 h2

/-- C34 on a field with two species whose values depend on the species only, with the
latitude grid -90, 90 and the longitude grid 0, 360: the rank-4 check succeeds, and so
does the rank-3 check on both slices. -/
theorem chk_atm_field4_iff_slices_witness :
    chk_atm_field4 ⟨2, 1, 2, 2, fun b _ _ _ => (b : Numeric)⟩ 3 2
      [1000] [-90, 90] [0, 360] = .ok () ∧
    ∀ is : Nat, is < 2 →
      chk_atm_field
        (ConstTensor4View.book ⟨2, 1, 2, 2, fun b _ _ _ => (b : Numeric)⟩ is) 3
        [1000] [-90, 90] [0, 360] = .ok () :=
  have h : chk_atm_field4 ⟨2, 1, 2, 2, fun b _ _ _ => (b : Numeric)⟩ 3 2
      [1000] [-90, 90] [0, 360] = .ok () := by
    norm_num [chk_atm_field4, for_index, for_index_from, ConstTensor4View.elem, throw_if,
      index_cons_zero, index_cons_pos, nelem, bind, Except.bind, pure, Except.pure]
  ⟨h, ((chk_atm_field4_iff_slices ⟨2, 1, 2, 2, fun b _ _ _ => (b : Numeric)⟩ 3 2
    [1000] [-90, 90] [0, 360] (by decide)).mp h).2⟩

/-! ## Reads stay inside the grids and the fields -/

/-- The surface check reads inside the longitude grid and the matrix when, for
`dim = 3`, the longitude grid is not empty: it succeeds or throws. -/
theorem chk_atm_surface_ok_or_fails (x : Matrix) (dim : Index)
    (lat_grid lon_grid : ConstVectorView) (hlon : dim = 3 → lon_grid ≠ []) :
    chk_atm_surface x dim lat_grid lon_grid = .ok () ∨
      fails (chk_atm_surface x dim lat_grid lon_grid) := by
  unfold chk_atm_surface
  by_cases hsh : (x.ncols : Index) ≠ (if dim > 2 then nelem lon_grid else 1) ∨
      (x.nrows : Index) ≠ (if dim > 1 then nelem lat_grid else 1)
  · simp only [throw_if_pos _ _ hsh, error_bind]
    exact Or.inr ⟨_, rfl⟩
  simp only [throw_if_neg _ _ hsh, ok_bind]
  by_cases hd : dim = 3
  swap
  · rw [if_neg hd]
    exact Or.inl rfl
  subst hd
  simp only [show (3 : Index) > 1 by decide, show (3 : Index) > 2 by decide, if_true,
    not_or, not_not, nelem] at hsh ⊢
  have hc : x.ncols = lon_grid.length := by exact_mod_cast hsh.1
  have hr : x.nrows = lat_grid.length := by exact_mod_cast hsh.2
  have hl : 0 < lon_grid.length := List.length_pos.mpr (hlon rfl)
  have i0 := index_zero lon_grid hl
  have i1 := index_nelem_sub lon_grid 1 (by omega) (by omega)
  simp only [Nat.cast_one, nelem] at i1
  simp only [i0, i1, ok_bind]
  split_ifs
  · refine for_index_ok_or_fails _ _ _ (fun ir h1 h2 => ?_)
    rw [matrix_elem_ok x ir _ ⟨h1, by omega⟩ ⟨by omega, by omega⟩,
      matrix_elem_ok x ir 0 ⟨h1, by omega⟩ ⟨le_refl 0, by omega⟩]
    simp only [ok_bind]
    exact throw_if_ok_or_fails _ _
  · exact Or.inl rfl

/-- C39. If `chk_atm_grids(dim, p_grid, lat_grid, lon_grid)` succeeds with `dim` 1, 2 or
3, then `chk_atm_field`, rank 3 and rank 4, and `chk_atm_surface` with the same `dim` and
grids never read `lat_grid`, `lon_grid`, the field or the surface outside its range, for
any field, number of species and surface: each of them succeeds or throws, and a read
out of range, the one other outcome, does not occur. -/
theorem chk_atm_checks_in_bounds (dim : Index) (p_grid lat_grid lon_grid : ConstVectorView)
    (hd : dim = 1 ∨ dim = 2 ∨ dim = 3)
    (hg : chk_atm_grids dim p_grid lat_grid lon_grid = .ok ()) :
    (∀ x : ConstTensor3View,
      (chk_atm_field x dim p_grid lat_grid lon_grid = .ok () ∨
        fails (chk_atm_field x dim p_grid lat_grid lon_grid)) ∧
      chk_atm_field x dim p_grid lat_grid lon_grid ≠ .error .out_of_range) ∧
    (∀ (x : ConstTensor4View) (nspecies : Index),
      (chk_atm_field4 x dim nspecies p_grid lat_grid lon_grid = .ok () ∨
        fails (chk_atm_field4 x dim nspecies p_grid lat_grid lon_grid)) ∧
      chk_atm_field4 x dim nspecies p_grid lat_grid lon_grid ≠ .error .out_of_range) ∧
    (∀ x : Matrix,
      (chk_atm_surface x dim lat_grid lon_grid = .ok () ∨
        fails (chk_atm_surface x dim lat_grid lon_grid)) ∧
      chk_atm_surface x dim lat_grid lon_grid ≠ .error .out_of_range) := by
  have hne : dim = 3 → 0 < lat_grid.length ∧ 0 < lon_grid.length := by
    intro h3
    subst h3
    exact chk_atm_grids_three_nonempty p_grid lat_grid lon_grid hg
  have excl : ∀ r : Check Unit, (r = .ok () ∨ fails r) →
      (r = .ok () ∨ fails r) ∧ r ≠ .error .out_of_range := by
    intro r h
    refine ⟨h, fun hr => ?_⟩
    rcases h with h | ⟨m, hm⟩
    · rw [h] at hr
      cases hr
    · rw [hm] at hr
      cases hr
  refine ⟨fun x => excl _ ?_, fun x nspecies => excl _ ?_, fun x => excl _ ?_⟩
  · by_cases hsh : (x.ncols : Index) ≠ (if dim > 2 then nelem lon_grid else 1) ∨
        (x.nrows : Index) ≠ (if dim > 1 then nelem lat_grid else 1) ∨
        (x.npages : Index) ≠ nelem p_grid
    · rw [chk_atm_field_wrong_shape x dim p_grid lat_grid lon_grid hsh]
      exact Or.inr ⟨_, rfl⟩
    by_cases h3 : dim = 3
    swap
    · exact Or.inl (chk_atm_field_not_3d x dim p_grid lat_grid lon_grid hsh h3)
    obtain ⟨hlat, hlon⟩ := hne h3
    subst h3
    simp only [show (3 : Index) > 1 by decide, show (3 : Index) > 2 by decide, if_true,
      not_or, not_not, nelem] at hsh
    exact (chk_atm_field_3d_ok_iff x p_grid lat_grid lon_grid
      ⟨by exact_mod_cast hsh.2.2, by exact_mod_cast hsh.2.1, by exact_mod_cast hsh.1⟩
      hlat hlon).2
  · by_cases hns : nspecies = 0
    · subst hns
      unfold chk_atm_field4
      by_cases hb : (x.nbooks : Index) ≠ 0
      · simp only [if_true, if_pos hb]
        exact Or.inr ⟨_, rfl⟩
      · simp only [if_true, if_neg hb]
        exact Or.inl trivial
    by_cases hsh : (x.ncols : Index) ≠ (if dim > 2 then nelem lon_grid else 1) ∨
        (x.nrows : Index) ≠ (if dim > 1 then nelem lat_grid else 1) ∨
        (x.npages : Index) ≠ nelem p_grid ∨ (x.nbooks : Index) ≠ nspecies
    · rw [chk_atm_field4_wrong_shape x dim nspecies p_grid lat_grid lon_grid hns hsh]
      exact Or.inr ⟨_, rfl⟩
    by_cases h3 : dim = 3
    swap
    · exact Or.inl (chk_atm_field4_not_3d x dim nspecies p_grid lat_grid lon_grid hns hsh h3)
    obtain ⟨hlat, hlon⟩ := hne h3
    subst h3
    simp only [show (3 : Index) > 1 by decide, show (3 : Index) > 2 by decide, if_true,
      not_or, not_not, nelem] at hsh
    exact (chk_atm_field4_3d_ok_iff x nspecies p_grid lat_grid lon_grid hns
      ⟨hsh.2.2.2, by exact_mod_cast hsh.2.2.1, by exact_mod_cast hsh.2.1,
        by exact_mod_cast hsh.1⟩ hlat hlon).2
  · exact chk_atm_surface_ok_or_fails x dim lat_grid lon_grid
      (fun h3 => List.length_pos.mp (hne h3).2)

/-- C39 on grids accepted for `dim = 3`: pressures 3, 2, 1, latitudes -90, 90 and
longitudes 0, 360. -/
theorem chk_atm_checks_in_bounds_witness :
    chk_atm_grids 3 [3, 2, 1] [-90, 90] [0, 360] = .ok () ∧
    (∀ x : ConstTensor3View,
      (chk_atm_field x 3 [3, 2, 1] [-90, 90] [0, 360] = .ok () ∨
        fails (chk_atm_field x 3 [3, 2, 1] [-90, 90] [0, 360])) ∧
      chk_atm_field x 3 [3, 2, 1] [-90, 90] [0, 360] ≠ .error .out_of_range) ∧
    (∀ (x : ConstTensor4View) (nspecies : Index),
      (chk_atm_field4 x 3 nspecies [3, 2, 1] [-90, 90] [0, 360] = .ok () ∨
        fails (chk_atm_field4 x 3 nspecies [3, 2, 1] [-90, 90] [0, 360])) ∧
      chk_atm_field4 x 3 nspecies [3, 2, 1] [-90, 90] [0, 360] ≠ .error .out_of_range) ∧
    (∀ x : Matrix,
      (chk_atm_surface x 3 [-90, 90] [0, 360] = .ok () ∨
        fails (chk_atm_surface x 3 [-90, 90] [0, 360])) ∧
      chk_atm_surface x 3 [-90, 90] [0, 360] ≠ .error .out_of_range) :=
  have hg : chk_atm_grids 3 [3, 2, 1] [-90, 90] [0, 360] = .ok () :=
    (chk_atm_grids_three_iff [3, 2, 1] [-90, 90] [0, 360]).mpr
      ⟨⟨by decide, by simp [List.Sorted]; norm_num⟩,
        ⟨by decide, by simp [List.Sorted]⟩,
        ⟨by decide, by simp [List.Sorted]⟩, by norm_num⟩
  ⟨hg, chk_atm_checks_in_bounds 3 [3, 2, 1] [-90, 90] [0, 360] (Or.inr (Or.inr rfl)) hg⟩

/-! ## The first sample outside the cloudbox -/

/-- A failed read of a vector is a read out of range. -/
theorem index_error_out_of_range (x : ConstVectorView) (i : Index) (e : Fault)
    (h : index x i = .error e) : e = .out_of_range := by
  unfold index at h
  split_ifs at h
  · split at h
    · cases h
    · exact (Except.error.inj h).symm
  · exact (Except.error.inj h).symm

/-- A failed read of an array of `Index` is a read out of range. -/
theorem ArrayOfIndex.at_index_error_out_of_range (a : ArrayOfIndex) (i : Index) (e : Fault)
    (h : a.at_index i = .error e) : e = .out_of_range := by
  unfold ArrayOfIndex.at_index at h
  split_ifs at h
  · split at h
    · cases h
    · exact (Except.error.inj h).symm
  · exact (Except.error.inj h).symm

/-- When a read followed by further steps throws, the read itself went well and the
further steps threw. -/
theorem bind_runtime_error_of_read {α β : Type} (a : Check α) (g : α → Check β) (m : Msg)
    (ha : ∀ e, a = .error e → e = .out_of_range)
    (h : (a >>= g) = .error (.runtime_error m)) :
    ∃ v, a = .ok v ∧ g v = .error (.runtime_error m) := by
  cases hv : a with
  | error e =>
    rw [hv, error_bind] at h
    have := ha e hv
    rw [this] at h
    cases h
  | ok v =>
    rw [hv, ok_bind] at h
    exact ⟨v, rfl, h⟩

/-- The value of a grid at a cloudbox limit, from its two reads. -/
theorem limit_value_of_reads (grid : ConstVectorView) (cloudbox_limits : ArrayOfIndex)
    (k c : Index) (v : Numeric) (h1 : cloudbox_limits.at_index k = .ok c)
    (h2 : index grid c = .ok v) : limit_value grid cloudbox_limits k = .ok v := by
  unfold limit_value
  simp only [h1, ok_bind, h2]

/-- The comparison of one coordinate with its two cloudbox limits: when it passes, the
three values were read and the coordinate lies within the limits; when it throws, the
three values were read, the coordinate lies outside, and the message holds the two limits
and the coordinate. -/
theorem limit_block (own grid : ConstVectorView) (cloudbox_limits : ArrayOfIndex)
    (i k1 k2 : Index) (msg : Numeric → Numeric → Numeric → Msg) :
    ((do
        let a ← index own i
        let l ← index grid (← cloudbox_limits.at_index k1)
        let u ← index grid (← cloudbox_limits.at_index k2)
        throw_if (¬ (a ≥ l ∧ a ≤ u)) (msg l u a)) = .ok () →
      ∃ a l u, index own i = .ok a ∧ limit_value grid cloudbox_limits k1 = .ok l ∧
        limit_value grid cloudbox_limits k2 = .ok u ∧ (a ≥ l ∧ a ≤ u)) ∧
    (∀ m : Msg,
      (do
        let a ← index own i
        let l ← index grid (← cloudbox_limits.at_index k1)
        let u ← index grid (← cloudbox_limits.at_index k2)
        throw_if (¬ (a ≥ l ∧ a ≤ u)) (msg l u a)) = .error (.runtime_error m) →
      ∃ a l u, index own i = .ok a ∧ limit_value grid cloudbox_limits k1 = .ok l ∧
        limit_value grid cloudbox_limits k2 = .ok u ∧ ¬ (a ≥ l ∧ a ≤ u) ∧ m = msg l u a) := by
  constructor
  · intro h
    obtain ⟨a, ha, h⟩ := (bind_eq_ok_iff _ _ _).mp h
    obtain ⟨c1, hc1, h⟩ := (bind_eq_ok_iff _ _ _).mp h
    obtain ⟨l, hl, h⟩ := (bind_eq_ok_iff _ _ _).mp h
    obtain ⟨c2, hc2, h⟩ := (bind_eq_ok_iff _ _ _).mp h
    obtain ⟨u, hu, h⟩ := (bind_eq_ok_iff _ _ _).mp h
    exact ⟨a, l, u, ha, limit_value_of_reads _ _ _ _ _ hc1 hl,
      limit_value_of_reads _ _ _ _ _ hc2 hu, not_not.mp ((throw_if_ok_iff _ _).mp h)⟩
  · intro m h
    obtain ⟨a, ha, h⟩ := bind_runtime_error_of_read _ _ m (index_error_out_of_range _ _) h
    obtain ⟨c1, hc1, h⟩ := bind_runtime_error_of_read _ _ m
      (ArrayOfIndex.at_index_error_out_of_range _ _) h
    obtain ⟨l, hl, h⟩ := bind_runtime_error_of_read _ _ m (index_error_out_of_range _ _) h
    obtain ⟨c2, hc2, h⟩ := bind_runtime_error_of_read _ _ m
      (ArrayOfIndex.at_index_error_out_of_range _ _) h
    obtain ⟨u, hu, h⟩ := bind_runtime_error_of_read _ _ m (index_error_out_of_range _ _) h
    refine ⟨a, l, u, ha, limit_value_of_reads _ _ _ _ _ hc1 hl,
      limit_value_of_reads _ _ _ _ _ hc2 hu, ?_⟩
    by_cases hin : a ≥ l ∧ a ≤ u
    · rw [throw_if_neg _ _ (not_not.mpr hin)] at h
      cases h
    · rw [throw_if_pos _ _ hin] at h
      simp only [Except.error.injEq, Fault.runtime_error.injEq] at h
      exact ⟨hin, h.symm⟩

/-- What a thrown comparison of one sample with the cloudbox limits says.  The pressure is
tested first, then, for `dim > 1`, the latitude, then, for `dim > 2`, the longitude; the
message holds the two limits of the coordinate that lies outside, the sample value and
that coordinate. -/
theorem pnd_sample_in_cloudbox_error_cases (dim : Index) (f : GriddedField3)
    (p_grid lat_grid lon_grid : ConstVectorView) (cloudbox_limits : ArrayOfIndex)
    (p_i lat_i lon_i : Index) (v : Numeric) (m : Msg)
    (h : pnd_sample_in_cloudbox dim f p_grid lat_grid lon_grid cloudbox_limits
      p_i lat_i lon_i v = .error (.runtime_error m)) :
    ∃ p P0 P1, index f.p_grid p_i = .ok p ∧
      limit_value p_grid cloudbox_limits 0 = .ok P0 ∧
      limit_value p_grid cloudbox_limits 1 = .ok P1 ∧
      ((¬ (p ≤ P0 ∧ p ≥ P1) ∧ m = .pnd_outside_p P0 P1 v p) ∨
       ((p ≤ P0 ∧ p ≥ P1) ∧ dim > 1 ∧
        ∃ lat L2 L3, index f.lat_grid lat_i = .ok lat ∧
          limit_value lat_grid cloudbox_limits 2 = .ok L2 ∧
          limit_value lat_grid cloudbox_limits 3 = .ok L3 ∧
          ((¬ (lat ≥ L2 ∧ lat ≤ L3) ∧ m = .pnd_outside_lat L2 L3 v lat) ∨
           ((lat ≥ L2 ∧ lat ≤ L3) ∧ dim > 2 ∧
            ∃ lon L4 L5, index f.lon_grid lon_i = .ok lon ∧
              limit_value lon_grid cloudbox_limits 4 = .ok L4 ∧
              limit_value lon_grid cloudbox_limits 5 = .ok L5 ∧
              ¬ (lon ≥ L4 ∧ lon ≤ L5) ∧ m = .pnd_outside_lon L4 L5 v lon)))) := by
  unfold pnd_sample_in_cloudbox at h
  obtain ⟨p, hp, h⟩ := bind_runtime_error_of_read _ _ m (index_error_out_of_range _ _) h
  obtain ⟨c0, hc0, h⟩ := bind_runtime_error_of_read _ _ m
    (ArrayOfIndex.at_index_error_out_of_range _ _) h
  obtain ⟨P0, hP0, h⟩ := bind_runtime_error_of_read _ _ m (index_error_out_of_range _ _) h
  obtain ⟨c1, hc1, h⟩ := bind_runtime_error_of_read _ _ m
    (ArrayOfIndex.at_index_error_out_of_range _ _) h
  obtain ⟨P1, hP1, h⟩ := bind_runtime_error_of_read _ _ m (index_error_out_of_range _ _) h
  refine ⟨p, P0, P1, hp, limit_value_of_reads _ _ _ _ _ hc0 hP0,
    limit_value_of_reads _ _ _ _ _ hc1 hP1, ?_⟩
  by_cases hin : p ≤ P0 ∧ p ≥ P1
  swap
  · left
    rw [throw_if_pos _ _ hin, error_bind] at h
    simp only [Except.error.injEq, Fault.runtime_error.injEq] at h
    exact ⟨hin, h.symm⟩
  right
  rw [throw_if_neg _ _ (not_not.mpr hin), ok_bind, bind_error_iff] at h
  by_cases hd1 : dim > 1
  swap
  · have hd2 : ¬ dim > 2 := fun h2 => hd1 (lt_trans (by decide) h2)
    rw [if_neg hd1, if_neg hd2] at h
    rcases h with h | ⟨-, h⟩ <;> cases h
  rw [if_pos hd1] at h
  refine ⟨hin, hd1, ?_⟩
  have hlat := limit_block f.lat_grid lat_grid cloudbox_limits lat_i 2 3
    (fun l u a => .pnd_outside_lat l u v a)
  have hlon := limit_block f.lon_grid lon_grid cloudbox_limits lon_i 4 5
    (fun l u a => .pnd_outside_lon l u v a)
  rcases h with h | ⟨hok, h⟩
  · obtain ⟨lat, L2, L3, r1, r2, r3, hout, hm⟩ := hlat.2 m h
    exact ⟨lat, L2, L3, r1, r2, r3, Or.inl ⟨hout, hm⟩⟩
  · obtain ⟨lat, L2, L3, r1, r2, r3, hinl⟩ := hlat.1 hok
    refine ⟨lat, L2, L3, r1, r2, r3, Or.inr ⟨hinl, ?_⟩⟩
    by_cases hd2 : dim > 2
    swap
    · rw [if_neg hd2] at h
      cases h
    rw [if_pos hd2] at h
    obtain ⟨lon, L4, L5, s1, s2, s3, hout, hm⟩ := hlon.2 m h
    exact ⟨hd2, lon, L4, L5, s1, s2, s3, hout, hm⟩

/-- The three loops over the samples of one field, when they succeed: every nonzero
sample passes the step `S` taken for it. -/
theorem sample_loops_ok (d : ConstTensor3View) (S : Int → Int → Int → Numeric → Check Unit)
    (h : (for_index 0 (d.npages : Int) fun p_i =>
        for_index 0 (d.nrows : Int) fun lat_i =>
          for_index 0 (d.ncols : Int) fun lon_i => do
            let v ← d.elem p_i lat_i lon_i
            (if v ≠ 0 then S p_i lat_i lon_i v else pure ())) = .ok ()) :
    ∀ p l o : Nat, p < d.npages → l < d.nrows → o < d.ncols → d.data p l o ≠ 0 →
      S p l o (d.data p l o) = .ok () := by
  intro p l o h1 h2 h3 hv
  have := (for_index_ok_iff _ _ _).mp
    ((for_index_ok_iff _ _ _).mp ((for_index_ok_iff _ _ _).mp h p (by omega) (by omega))
      l (by omega) (by omega)) o (by omega) (by omega)
  rw [tensor3_elem_ok d p l o ⟨by omega, by omega⟩ ⟨by omega, by omega⟩
    ⟨by omega, by omega⟩] at this
  simp only [ok_bind, Int.toNat_ofNat, if_pos hv] at this
  exact this

/-- The three loops over the samples of one field, when they fail: the failure is that of
the step `S` taken for a nonzero sample, and every nonzero sample before it, in the order
pressure, latitude, longitude position, has passed. -/
theorem sample_loops_error (d : ConstTensor3View)
    (S : Int → Int → Int → Numeric → Check Unit) (e : Fault)
    (h : (for_index 0 (d.npages : Int) fun p_i =>
        for_index 0 (d.nrows : Int) fun lat_i =>
          for_index 0 (d.ncols : Int) fun lon_i => do
            let v ← d.elem p_i lat_i lon_i
            (if v ≠ 0 then S p_i lat_i lon_i v else pure ())) = .error e) :
    ∃ p l o : Nat, p < d.npages ∧ l < d.nrows ∧ o < d.ncols ∧ d.data p l o ≠ 0 ∧
      S p l o (d.data p l o) = .error e ∧
      ∀ p2 l2 o2 : Nat, p2 < d.npages → l2 < d.nrows → o2 < d.ncols →
        (p2 < p ∨ (p2 = p ∧ (l2 < l ∨ (l2 = l ∧ o2 < o)))) →
        d.data p2 l2 o2 ≠ 0 → S p2 l2 o2 (d.data p2 l2 o2) = .ok () := by
  obtain ⟨jp, hp0, hp1, hpe, hpb⟩ := (for_index_error_iff _ _ _ _).mp h
  obtain ⟨jl, hl0, hl1, hle, hlb⟩ := (for_index_error_iff _ _ _ _).mp hpe
  obtain ⟨jo, ho0, ho1, hoe, hob⟩ := (for_index_error_iff _ _ _ _).mp hle
  have body : ∀ p l o : Nat, p < d.npages → l < d.nrows → o < d.ncols →
      (do
        let v ← d.elem (p : Int) (l : Int) (o : Int)
        (if v ≠ 0 then S p l o v else pure ())) =
      (if d.data p l o ≠ 0 then S p l o (d.data p l o) else pure ()) := by
    intro p l o h1 h2 h3
    rw [tensor3_elem_ok d p l o ⟨by omega, by omega⟩ ⟨by omega, by omega⟩
      ⟨by omega, by omega⟩]
    simp only [ok_bind, Int.toNat_ofNat]
  have cp : ((jp.toNat : Nat) : Int) = jp := Int.toNat_of_nonneg hp0
  have cl : ((jl.toNat : Nat) : Int) = jl := Int.toNat_of_nonneg hl0
  have co : ((jo.toNat : Nat) : Int) = jo := Int.toNat_of_nonneg ho0
  have hfail := body jp.toNat jl.toNat jo.toNat (by omega) (by omega) (by omega)
  rw [cp, cl, co, hoe] at hfail
  have hv : d.data jp.toNat jl.toNat jo.toNat ≠ 0 := by
    intro h0
    rw [if_neg (not_not.mpr h0)] at hfail
    cases hfail
  rw [if_pos hv] at hfail
  refine ⟨jp.toNat, jl.toNat, jo.toNat, by omega, by omega, by omega, hv, ?_, ?_⟩
  · rw [cp, cl, co]
    exact hfail.symm
  · intro p2 l2 o2 h1 h2 h3 hlex hv2
    have key : (do
        let v ← d.elem (p2 : Int) (l2 : Int) (o2 : Int)
        (if v ≠ 0 then S p2 l2 o2 v else pure ())) = .ok () := by
      rcases hlex with hlt | ⟨hpe2, hlt | ⟨hle2, hlt⟩⟩
      · exact (for_index_ok_iff _ _ _).mp
          ((for_index_ok_iff _ _ _).mp (hpb p2 (by omega) (by omega)) l2 (by omega)
            (by omega)) o2 (by omega) (by omega)
      · have e1 : (p2 : Int) = jp := by omega
        rw [e1]
        exact (for_index_ok_iff _ _ _).mp (hlb l2 (by omega) (by omega)) o2 (by omega)
          (by omega)
      · have e1 : (p2 : Int) = jp := by omega
        have e2 : (l2 : Int) = jl := by omega
        rw [e1, e2]
        exact hob o2 (by omega) (by omega)
    rw [body p2 l2 o2 h1 h2 h3, if_pos hv2] at key
    exact key

/-- C32, evaluated on the code. For `dim = 1`, the pressure grid 3, 2, 1 and the cloudbox
limits 0, 1 (pressures 3 and 2), take one raw field with the single sample 7 at its own
pressure 1, outside the cloudbox, and one raw field with the single sample 0.  With the
nonzero field as species 0 and with the nonzero field as species 1 the check throws one
and the same error: it holds the two bounds, the sample and its pressure, and no species
index. -/
theorem chk_pnd_field_raw_only_in_cloudbox_first_failure_counterexample :
    chk_pnd_field_raw_only_in_cloudbox 1
      [⟨[1], [], [], ⟨1, 1, 1, fun _ _ _ => 7⟩⟩, ⟨[1], [], [], ⟨1, 1, 1, fun _ _ _ => 0⟩⟩]
      [3, 2, 1] [] [] [0, 1] =
      .error (.runtime_error (.pnd_outside_p 3 2 7 1)) ∧
    chk_pnd_field_raw_only_in_cloudbox 1
      [⟨[1], [], [], ⟨1, 1, 1, fun _ _ _ => 0⟩⟩, ⟨[1], [], [], ⟨1, 1, 1, fun _ _ _ => 7⟩⟩]
      [3, 2, 1] [] [] [0, 1] =
      .error (.runtime_error (.pnd_outside_p 3 2 7 1)) := by
  constructor <;>
  norm_num [chk_pnd_field_raw_only_in_cloudbox, pnd_sample_in_cloudbox, for_index,
    for_index_from, ArrayOfGriddedField3.at_index, ConstTensor3View.elem, throw_if,
    ArrayOfIndex.at_index_cons_zero, ArrayOfIndex.at_index_cons_pos,
    index_cons_zero, index_cons_pos, bind, Except.bind, pure, Except.pure]

/-- C32, amended. When `chk_pnd_field_raw_only_in_cloudbox` fails, the failure is the one
for the first out-of-bounds nonzero sample in iteration order (species, then pressure,
latitude, longitude index): that sample, of the field `f` of species `n`, is not zero and
its comparison with the cloudbox limits throws the error of the check, and every sample
before it is zero or passes the comparison.  For that sample the pressure is tested before
the latitude before the longitude, and the message reports the value of the sample
together with the offending physical coordinate and the two cloudbox bounds of that
coordinate; it holds no species index. -/
theorem chk_pnd_field_raw_only_in_cloudbox_first_failure (dim : Index)
    (pnd_field_raw : ArrayOfGriddedField3) (p_grid lat_grid lon_grid : ConstVectorView)
    (cloudbox_limits : ArrayOfIndex) (m : Msg)
    (h : chk_pnd_field_raw_only_in_cloudbox dim pnd_field_raw p_grid lat_grid lon_grid
      cloudbox_limits = .error (.runtime_error m)) :
    ∃ (n : Nat) (f : GriddedField3) (p_i lat_i lon_i : Nat),
      pnd_field_raw.at_index (n : Int) = .ok f ∧
      p_i < f.data.npages ∧ lat_i < f.data.nrows ∧ lon_i < f.data.ncols ∧
      f.data.data p_i lat_i lon_i ≠ 0 ∧
      pnd_sample_in_cloudbox dim f p_grid lat_grid lon_grid cloudbox_limits
        p_i lat_i lon_i (f.data.data p_i lat_i lon_i) = .error (.runtime_error m) ∧
      (∀ (n2 : Nat) (f2 : GriddedField3) (p2 l2 o2 : Nat),
        pnd_field_raw.at_index (n2 : Int) = .ok f2 →
        p2 < f2.data.npages → l2 < f2.data.nrows → o2 < f2.data.ncols →
        (n2 < n ∨ (n2 = n ∧ (p2 < p_i ∨ (p2 = p_i ∧ (l2 < lat_i ∨
          (l2 = lat_i ∧ o2 < lon_i)))))) →
        f2.data.data p2 l2 o2 = 0 ∨
          pnd_sample_in_cloudbox dim f2 p_grid lat_grid lon_grid cloudbox_limits
            p2 l2 o2 (f2.data.data p2 l2 o2) = .ok ()) ∧
      ∃ p P0 P1, index f.p_grid p_i = .ok p ∧
        limit_value p_grid cloudbox_limits 0 = .ok P0 ∧
        limit_value p_grid cloudbox_limits 1 = .ok P1 ∧
        ((¬ (p ≤ P0 ∧ p ≥ P1) ∧
            m = .pnd_outside_p P0 P1 (f.data.data p_i lat_i lon_i) p) ∨
         ((p ≤ P0 ∧ p ≥ P1) ∧ dim > 1 ∧
          ∃ lat L2 L3, index f.lat_grid lat_i = .ok lat ∧
            limit_value lat_grid cloudbox_limits 2 = .ok L2 ∧
            limit_value lat_grid cloudbox_limits 3 = .ok L3 ∧
            ((¬ (lat ≥ L2 ∧ lat ≤ L3) ∧
                m = .pnd_outside_lat L2 L3 (f.data.data p_i lat_i lon_i) lat) ∨
             ((lat ≥ L2 ∧ lat ≤ L3) ∧ dim > 2 ∧
              ∃ lon L4 L5, index f.lon_grid lon_i = .ok lon ∧
                limit_value lon_grid cloudbox_limits 4 = .ok L4 ∧
                limit_value lon_grid cloudbox_limits 5 = .ok L5 ∧
                ¬ (lon ≥ L4 ∧ lon ≤ L5) ∧
                m = .pnd_outside_lon L4 L5 (f.data.data p_i lat_i lon_i) lon)))) := by
  unfold chk_pnd_field_raw_only_in_cloudbox at h
  obtain ⟨jn, hn0, hn1, hne, hnb⟩ := (for_index_error_iff _ _ _ _).mp h
  have hlen : jn.toNat < pnd_field_raw.length := by omega
  have cn : ((jn.toNat : Nat) : Int) = jn := Int.toNat_of_nonneg hn0
  have hf := pnd_field_raw.at_index_ok jn.toNat hlen
  rw [cn] at hf
  rw [hf, ok_bind] at hne
  obtain ⟨p, l, o, h1, h2, h3, hv, herr, hbefore⟩ :=
    sample_loops_error (pnd_field_raw.get ⟨jn.toNat, hlen⟩).data
      (fun p_i lat_i lon_i v =>
        pnd_sample_in_cloudbox dim (pnd_field_raw.get ⟨jn.toNat, hlen⟩) p_grid lat_grid
          lon_grid cloudbox_limits p_i lat_i lon_i v) _ hne
  refine ⟨jn.toNat, pnd_field_raw.get ⟨jn.toNat, hlen⟩, p, l, o, by rw [cn]; exact hf,
    h1, h2, h3, hv, herr, ?_,
    pnd_sample_in_cloudbox_error_cases dim _ p_grid lat_grid lon_grid cloudbox_limits
      p l o _ m herr⟩
  intro n2 f2 p2 l2 o2 hf2 a b c hlex
  by_cases hz : f2.data.data p2 l2 o2 = 0
  · exact Or.inl hz
  right
  rcases hlex with hlt | ⟨hn2, hlex⟩
  · have hb := hnb n2 (by omega) (by omega)
    rw [hf2, ok_bind] at hb
    exact sample_loops_ok f2.data
      (fun p_i lat_i lon_i v =>
        pnd_sample_in_cloudbox dim f2 p_grid lat_grid lon_grid cloudbox_limits
          p_i lat_i lon_i v) hb p2 l2 o2 a b c hz
  · subst hn2
    rw [cn, hf] at hf2
    have hff : pnd_field_raw.get ⟨jn.toNat, hlen⟩ = f2 := Except.ok.inj hf2
    subst hff
    exact hbefore p2 l2 o2 a b c hlex hz

/-- C32, amended, on the array whose species 0 is zero and whose species 1 holds the
sample 7 at its own pressure 1, outside the cloudbox pressures 3 and 2. -/
theorem chk_pnd_field_raw_only_in_cloudbox_first_failure_witness :
    chk_pnd_field_raw_only_in_cloudbox 1
      [⟨[1], [], [], ⟨1, 1, 1, fun _ _ _ => 0⟩⟩, ⟨[1], [], [], ⟨1, 1, 1, fun _ _ _ => 7⟩⟩]
      [3, 2, 1] [] [] [0, 1] =
      .error (.runtime_error (.pnd_outside_p 3 2 7 1)) ∧
    ∃ (n : Nat) (f : GriddedField3) (p_i lat_i lon_i : Nat),
      ArrayOfGriddedField3.at_index
        [⟨[1], [], [], ⟨1, 1, 1, fun _ _ _ => 0⟩⟩, ⟨[1], [], [], ⟨1, 1, 1, fun _ _ _ => 7⟩⟩]
        (n : Int) = .ok f ∧
      p_i < f.data.npages ∧ lat_i < f.data.nrows ∧ lon_i < f.data.ncols ∧
      f.data.data p_i lat_i lon_i ≠ 0 ∧
      pnd_sample_in_cloudbox 1 f [3, 2, 1] [] [] [0, 1]
        p_i lat_i lon_i (f.data.data p_i lat_i lon_i) =
          .error (.runtime_error (.pnd_outside_p 3 2 7 1)) ∧
      (∀ (n2 : Nat) (f2 : GriddedField3) (p2 l2 o2 : Nat),
        ArrayOfGriddedField3.at_index
          [⟨[1], [], [], ⟨1, 1, 1, fun _ _ _ => 0⟩⟩,
            ⟨[1], [], [], ⟨1, 1, 1, fun _ _ _ => 7⟩⟩] (n2 : Int) = .ok f2 →
        p2 < f2.data.npages → l2 < f2.data.nrows → o2 < f2.data.ncols →
        (n2 < n ∨ (n2 = n ∧ (p2 < p_i ∨ (p2 = p_i ∧ (l2 < lat_i ∨
          (l2 = lat_i ∧ o2 < lon_i)))))) →
        f2.data.data p2 l2 o2 = 0 ∨
          pnd_sample_in_cloudbox 1 f2 [3, 2, 1] [] [] [0, 1]
            p2 l2 o2 (f2.data.data p2 l2 o2) = .ok ()) ∧
      ∃ p P0 P1, index f.p_grid p_i = .ok p ∧
        limit_value [3, 2, 1] [0, 1] 0 = .ok P0 ∧
        limit_value [3, 2, 1] [0, 1] 1 = .ok P1 ∧
        ((¬ (p ≤ P0 ∧ p ≥ P1) ∧
            Msg.pnd_outside_p 3 2 7 1 =
              .pnd_outside_p P0 P1 (f.data.data p_i lat_i lon_i) p) ∨
         ((p ≤ P0 ∧ p ≥ P1) ∧ (1 : Index) > 1 ∧
          ∃ lat L2 L3, index f.lat_grid lat_i = .ok lat ∧
            limit_value [] [0, 1] 2 = .ok L2 ∧
            limit_value [] [0, 1] 3 = .ok L3 ∧
            ((¬ (lat ≥ L2 ∧ lat ≤ L3) ∧
                Msg.pnd_outside_p 3 2 7 1 =
                  .pnd_outside_lat L2 L3 (f.data.data p_i lat_i lon_i) lat) ∨
             ((lat ≥ L2 ∧ lat ≤ L3) ∧ (1 : Index) > 2 ∧
              ∃ lon L4 L5, index f.lon_grid lon_i = .ok lon ∧
                limit_value [] [0, 1] 4 = .ok L4 ∧
                limit_value [] [0, 1] 5 = .ok L5 ∧
                ¬ (lon ≥ L4 ∧ lon ≤ L5) ∧
                Msg.pnd_outside_p 3 2 7 1 =
                  .pnd_outside_lon L4 L5 (f.data.data p_i lat_i lon_i) lon)))) :=
  have h : chk_pnd_field_raw_only_in_cloudbox 1
      [⟨[1], [], [], ⟨1, 1, 1, fun _ _ _ => 0⟩⟩, ⟨[1], [], [], ⟨1, 1, 1, fun _ _ _ => 7⟩⟩]
      [3, 2, 1] [] [] [0, 1] =
      .error (.runtime_error (.pnd_outside_p 3 2 7 1)) := by
    norm_num [chk_pnd_field_raw_only_in_cloudbox, pnd_sample_in_cloudbox, for_index,
      for_index_from, ArrayOfGriddedField3.at_index, ConstTensor3View.elem, throw_if,
      ArrayOfIndex.at_index_cons_zero, ArrayOfIndex.at_index_cons_pos,
      index_cons_zero, index_cons_pos, bind, Except.bind, pure, Except.pure]
  ⟨h, chk_pnd_field_raw_only_in_cloudbox_first_failure 1 _ [3, 2, 1] [] [] [0, 1] _ h⟩

/-! ## Doubles: comparisons and elements -/

namespace Ieee

theorem fin_lt_fin (a b : ℚ) : (Double.fin a < Double.fin b) ↔ a < b := by
  show Double.blt _ _ = true ↔ _
  simp [Double.blt]

theorem fin_le_fin (a b : ℚ) : (Double.fin a ≤ Double.fin b) ↔ a ≤ b := by
  show Double.ble _ _ = true ↔ _
  simp [Double.ble]

theorem not_nan_lt (a : Double) : ¬ Double.nan < a := by
  show ¬ Double.blt _ _ = true
  cases a <;> simp [Double.blt]

theorem not_lt_nan (a : Double) : ¬ a < Double.nan := by
  show ¬ Double.blt _ _ = true
  cases a <;> simp [Double.blt]

theorem not_nan_le (a : Double) : ¬ Double.nan ≤ a := by
  show ¬ Double.ble _ _ = true
  cases a <;> simp [Double.ble]

theorem not_le_nan (a : Double) : ¬ a ≤ Double.nan := by
  show ¬ Double.ble _ _ = true
  cases a <;> simp [Double.ble]

/-- Either side of a comparison that holds is a number. -/
theorem lt_not_nan (a b : Double) (h : a < b) : a ≠ .nan ∧ b ≠ .nan := by
  constructor
  · rintro rfl; exact not_nan_lt _ h
  · rintro rfl; exact not_lt_nan _ h

/-- For two doubles that are numbers, `a < b` does not hold exactly when `b <= a`. -/
theorem not_lt_iff_le (a b : Double) (ha : a ≠ .nan) (hb : b ≠ .nan) : ¬ a < b ↔ b ≤ a := by
  show ¬ Double.blt _ _ = true ↔ Double.ble _ _ = true
  cases a <;> cases b <;> simp [Double.blt, Double.ble] at ha hb ⊢

theorem lt_trans_d (a b c : Double) (h1 : a < b) (h2 : b < c) : a < c := by
  revert h1 h2
  show Double.blt _ _ = true → Double.blt _ _ = true → Double.blt _ _ = true
  cases a <;> cases b <;> cases c <;> simp [Double.blt]
  exact fun h1 h2 => lt_trans h1 h2

theorem le_of_lt_d (a b : Double) (h : a < b) : a ≤ b := by
  revert h
  show Double.blt _ _ = true → Double.ble _ _ = true
  cases a <;> cases b <;> simp [Double.blt, Double.ble]
  exact fun h => le_of_lt h

theorem le_trans_d (a b c : Double) (h1 : a ≤ b) (h2 : b ≤ c) : a ≤ c := by
  revert h1 h2
  show Double.ble _ _ = true → Double.ble _ _ = true → Double.ble _ _ = true
  cases a <;> cases b <;> cases c <;> simp [Double.ble]
  exact fun h1 h2 => le_trans h1 h2

theorem le_refl_d (a : Double) (h : a ≠ .nan) : a ≤ a := by
  revert h
  show _ → Double.ble _ _ = true
  cases a <;> simp [Double.ble]

/-- Of two numbers with `lo > hi`, every number lies below `lo` or above `hi`. -/
theorem lt_or_gt_of_gt (x lo hi : Double) (hx : x ≠ .nan) (h : lo > hi) : x < lo ∨ x > hi := by
  revert hx h
  show _ → Double.blt _ _ = true → Double.blt _ _ = true ∨ Double.blt _ _ = true
  cases x <;> cases lo <;> cases hi <;> simp [Double.blt]
  intro h
  rename_i x lo hi
  by_cases hxl : x < lo
  · exact Or.inl hxl
  · exact Or.inr (lt_of_lt_of_le h (not_lt.mp hxl))

theorem index_natCast_d (x : ConstVectorView) (i : Nat) (h : i < x.length) :
    index x (i : Int) = .ok (x.getD i (.fin 0)) := by
  unfold index
  simp [List.getD_eq_getElem?_getD, List.getElem?_eq_getElem h]

theorem index_int_d (x : ConstVectorView) (j : Int) (h0 : 0 ≤ j) (h1 : j < x.length) :
    index x j = .ok (x.getD j.toNat (.fin 0)) := by
  obtain ⟨n, rfl⟩ := Int.eq_ofNat_of_zero_le h0
  simpa using index_natCast_d x n (by exact_mod_cast h1)

theorem index_nil_d (i : Index) : index [] i = .error .out_of_range := by
  unfold index
  split <;> simp

theorem index_cons_zero_d (a : Double) (r : ConstVectorView) : index (a :: r) 0 = .ok a := by
  simp [index]

theorem index_cons_pos_d (a : Double) (r : ConstVectorView) (i : Index) (h : 0 < i) :
    index (a :: r) i = index r (i - 1) := by
  obtain ⟨n, rfl⟩ := Int.eq_ofNat_of_zero_le (le_of_lt h)
  cases n with
  | zero => simp at h
  | succ k =>
    have : ((k + 1 : Nat) : Int) - 1 = (k : Int) := by push_cast; ring
    rw [this]
    unfold index
    simp
    have h2 : (0 : Int) ≤ (k : Int) + 1 := by positivity
    simp [h2]

theorem index_nelem_sub_d (x : ConstVectorView) (k : Nat) (hk : 0 < k) (h : k ≤ x.length) :
    index x (nelem x - (k : Int)) = .ok (x.getD (x.length - k) (.fin 0)) := by
  have : nelem x - (k : Int) = ((x.length - k : Nat) : Int) := by
    unfold nelem
    rw [Nat.cast_sub h]
  rw [this]
  exact index_natCast_d x _ (by omega)

/-! ## Ranges, line of sight and position over doubles -/

/-- C24, as stated, fails on the code.  For the `Numeric` form with the empty range from 3
to 1 and an `x` that is not a number, neither `x < x_low` nor `x > x_high` holds, so the
check succeeds, although `x_low > x_high` and `x_low <= x` does not hold. -/
theorem chk_if_in_range_ok_iff_counterexample :
    chk_if_in_range .nan (.fin 3) (.fin 1) = .ok () ∧
    Double.fin 3 > Double.fin 1 ∧
    ¬ fails (chk_if_in_range .nan (.fin 3) (.fin 1)) ∧
    ¬ (Double.fin 3 ≤ Double.nan ∧ Double.nan ≤ Double.fin 1) := by
  have h : chk_if_in_range .nan (.fin 3) (.fin 1) = .ok () := by
    unfold chk_if_in_range
    rw [if_neg]
    rintro (h | h)
    · exact not_nan_lt _ h
    · exact not_lt_nan _ h
  refine ⟨h, ?_, ?_, fun hc => not_le_nan _ hc.1⟩
  · show Double.fin 1 < Double.fin 3
    rw [fin_lt_fin]; norm_num
  · rintro ⟨m, hm⟩
    rw [h] at hm
    cases hm

/-- C24, amended.  `chk_if_in_range` in its `Index` form succeeds if and only if
`x_low <= x <= x_high`, and fails for every `x` when `x_low > x_high`.  In its `Numeric`
form, for `x`, `x_low` and `x_high` that are numbers (none of them a NaN), it succeeds if
and only if `x_low <= x <= x_high`, both ends included, and fails when
`x_low > x_high`. -/
theorem chk_if_in_range_ok_iff :
    (∀ x x_low x_high : Index,
      (chk_if_in_range_index x x_low x_high = .ok () ↔ x_low ≤ x ∧ x ≤ x_high) ∧
      (x_low > x_high → fails (chk_if_in_range_index x x_low x_high))) ∧
    (∀ x x_low x_high : Double, x ≠ .nan → x_low ≠ .nan → x_high ≠ .nan →
      (chk_if_in_range x x_low x_high = .ok () ↔ x_low ≤ x ∧ x ≤ x_high) ∧
      (x_low > x_high → fails (chk_if_in_range x x_low x_high))) := by
  constructor
  · intro x x_low x_high
    unfold chk_if_in_range_index
    by_cases h : x < x_low ∨ x > x_high
    · rw [if_pos h]
      refine ⟨⟨fun hk => (by cases hk), fun h' => ?_⟩, fun _ => ⟨_, rfl⟩⟩
      rcases h with h | h
      · exact absurd h'.1 (not_le.mpr h)
      · exact absurd h'.2 (not_le.mpr h)
    · rw [if_neg h]
      rw [not_or, not_lt, not_lt] at h
      exact ⟨⟨fun _ => h, fun _ => rfl⟩, fun hlt => absurd (le_trans h.1 h.2) (not_le.mpr hlt)⟩
  · intro x x_low x_high hx hl hh
    unfold chk_if_in_range
    by_cases h : x < x_low ∨ x > x_high
    · rw [if_pos h]
      refine ⟨⟨fun hk => (by cases hk), fun h' => ?_⟩, fun _ => ⟨_, rfl⟩⟩
      rcases h with h | h
      · exact absurd h ((not_lt_iff_le x x_low hx hl).mpr h'.1)
      · exact absurd h ((not_lt_iff_le x_high x hh hx).mpr h'.2)
    · rw [if_neg h]
      refine ⟨⟨fun _ => ?_, fun _ => rfl⟩,
        fun hlt => absurd (lt_or_gt_of_gt x x_low x_high hx hlt) h⟩
      rw [not_or] at h
      exact ⟨(not_lt_iff_le x x_low hx hl).mp h.1, (not_lt_iff_le x_high x hh hx).mp h.2⟩

/-- C24 on the ends of the range 1 to 3 and on the empty range 3 to 1. -/
theorem chk_if_in_range_ok_iff_witness :
    chk_if_in_range_index 1 1 3 = .ok () ∧ chk_if_in_range (.fin 3) (.fin 1) (.fin 3) = .ok () ∧
    fails (chk_if_in_range_index 2 3 1) ∧ fails (chk_if_in_range (.fin 2) (.fin 3) (.fin 1)) :=
  ⟨(chk_if_in_range_ok_iff.1 1 1 3).1.mpr (by decide),
   (chk_if_in_range_ok_iff.2 (.fin 3) (.fin 1) (.fin 3) (by simp) (by simp) (by simp)).1.mpr
     ⟨(fin_le_fin 1 3).mpr (by norm_num), (fin_le_fin 3 3).mpr (by norm_num)⟩,
   (chk_if_in_range_ok_iff.1 2 3 1).2 (by decide),
   (chk_if_in_range_ok_iff.2 (.fin 2) (.fin 3) (.fin 1) (by simp) (by simp) (by simp)).2
     ((fin_lt_fin 1 3).mpr (by norm_num))⟩

theorem index_zero_d (x : ConstVectorView) (h : 0 < x.length) :
    index x 0 = .ok (x.getD 0 (.fin 0)) := by
  simpa using index_natCast_d x 0 h

theorem index_one_d (x : ConstVectorView) (h : 1 < x.length) :
    index x 1 = .ok (x.getD 1 (.fin 0)) := by
  simpa using index_natCast_d x 1 h

/-- The binary logarithm of a rational between two neighbouring powers of 2. -/
theorem log_eq (q : ℚ) (L : Int) (h1 : (2 : ℚ) ^ L ≤ |q|) (h2 : |q| < (2 : ℚ) ^ (L + 1)) :
    Int.log 2 |q| = L := by
  have hpos : 0 < |q| := lt_of_lt_of_le (by positivity) h1
  apply le_antisymm
  · have := (Int.lt_zpow_iff_log_lt (b := 2) (by norm_num) hpos (x := L + 1)).mp
      (by exact_mod_cast h2)
    omega
  · exact (Int.zpow_le_iff_le_log (b := 2) (by norm_num) hpos).mp (by exact_mod_cast h1)

/-- Rounding leaves 3 and -3 as they are. -/
theorem round_double_three : round_double 3 = .fin 3 ∧ round_double (-3) = .fin (-3) := by
  have hl : Int.log 2 |(3 : ℚ)| = 1 := by apply log_eq <;> norm_num
  have hl2 : Int.log 2 |(-3 : ℚ)| = 1 := by apply log_eq <;> norm_num
  constructor
  · unfold round_double ulp
    rw [hl]
    norm_num [round_half_even]
  · unfold round_double ulp
    rw [hl2]
    norm_num [round_half_even]

/-- Rounding leaves 5 as it is. -/
theorem round_double_five : round_double 5 = .fin 5 := by
  have hl : Int.log 2 |(5 : ℚ)| = 2 := by apply log_eq <;> norm_num
  unfold round_double ulp
  rw [hl]
  norm_num [round_half_even]

/-- Rounding leaves 0 as it is. -/
theorem round_double_zero : round_double 0 = .fin 0 := by
  simp [round_double]

/-- Rounding leaves 1, 2, 20 and 360 as they are. -/
theorem round_double_small :
    round_double 1 = .fin 1 ∧ round_double 2 = .fin 2 ∧ round_double 20 = .fin 20 ∧
    round_double 360 = .fin 360 := by
  have h1 : Int.log 2 |(1 : ℚ)| = 0 := by apply log_eq <;> norm_num
  have h2 : Int.log 2 |(2 : ℚ)| = 1 := by apply log_eq <;> norm_num
  have h3 : Int.log 2 |(20 : ℚ)| = 4 := by apply log_eq <;> norm_num
  have h4 : Int.log 2 |(360 : ℚ)| = 8 := by apply log_eq <;> norm_num
  refine ⟨?_, ?_, ?_, ?_⟩
  · unfold round_double ulp
    rw [h1]
    norm_num [round_half_even]
  · unfold round_double ulp
    rw [h2]
    norm_num [round_half_even]
  · unfold round_double ulp
    rw [h3]
    norm_num [round_half_even]
  · unfold round_double ulp
    rw [h4]
    norm_num [round_half_even]

/-- Rounding leaves 180 as it is. -/
theorem round_double_more :
    round_double 180 = .fin 180 := by
  have h : Int.log 2 |(180 : ℚ)| = 7 := by apply log_eq <;> norm_num
  unfold round_double ulp
  rw [h]
  norm_num [round_half_even]

/-- The halves and the negative unit used below are doubles: rounding leaves them. -/
theorem round_double_halves :
    round_double (1 / 2) = .fin (1 / 2) ∧ round_double (-1 / 2) = .fin (-1 / 2) ∧
    round_double (9 / 2) = .fin (9 / 2) ∧ round_double (-1) = .fin (-1) := by
  have h1 : Int.log 2 |(1 / 2 : ℚ)| = -1 := by apply log_eq <;> norm_num [abs_of_pos]
  have h2 : Int.log 2 |(-1 / 2 : ℚ)| = -1 := by
    apply log_eq <;> norm_num [abs_of_pos]
  have h3 : Int.log 2 |(9 / 2 : ℚ)| = 2 := by
    apply log_eq <;> rw [abs_of_pos (by norm_num)] <;> norm_num
  have h4 : Int.log 2 |(-1 : ℚ)| = 0 := by apply log_eq <;> norm_num
  refine ⟨?_, ?_, ?_, ?_⟩
  · unfold round_double ulp
    rw [h1]
    norm_num [round_half_even]
    intro h
    rw [abs_of_pos (by norm_num)] at h
    norm_num at h
  · unfold round_double ulp
    rw [h2]
    norm_num [round_half_even]
    intro h
    rw [abs_of_pos (by norm_num)] at h
    norm_num at h
  · unfold round_double ulp
    rw [h3]
    norm_num [round_half_even]
    intro h
    rw [abs_of_pos (by norm_num)] at h
    norm_num at h
  · unfold round_double ulp
    rw [h4]
    norm_num [round_half_even]

theorem abs_ne_nan (d : Double) (h : d ≠ .nan) : d.abs ≠ .nan := by
  cases d <;> simp [Double.abs] at h ⊢

/-- The sum of 1 and `2 ^ (-60)` is rounded to 1. -/
theorem ieee_sub_one_tiny :
    ieee.sub (.fin 1) (.fin (-(2 : ℚ) ^ (-60 : Int))) = .fin 1 := by
  show round_double (1 - -(2 : ℚ) ^ (-60 : Int)) = _
  rw [sub_neg_eq_add]
  have hl : Int.log 2 |(1 + (2 : ℚ) ^ (-60 : Int))| = 0 := by
    apply log_eq
    · rw [abs_of_pos (by positivity)]; norm_num
    · rw [abs_of_pos (by positivity)]; norm_num
  unfold round_double ulp
  rw [hl]
  norm_num [round_half_even]

/-- The outcome of `chk_if_equal` in terms of its own tests. -/
theorem chk_if_equal_form (A : Arith) (v1 v2 : ConstVectorView) (margin : Double) :
    chk_if_equal A v1 v2 margin = .ok () ↔
      v1.length = v2.length ∧
      ∀ i : Nat, i < v1.length →
        ¬ (A.sub (v1.getD i (.fin 0)) (v2.getD i (.fin 0))).abs > margin := by
  unfold chk_if_equal
  rw [seq_ok_iff, for_index_ok_iff]
  have hlen : chk_vector_length2 v1 v2 = .ok () ↔ v1.length = v2.length := by
    unfold chk_vector_length2 nelem
    by_cases h : v1.length = v2.length
    · simp [h]
    · have : ¬ ((v1.length : Int) = (v2.length : Int)) := by exact_mod_cast h
      simp [h, this]
  rw [hlen]
  constructor
  · rintro ⟨hl, h⟩
    refine ⟨hl, fun i hi => ?_⟩
    have := h i (by omega) (by unfold nelem; omega)
    rw [index_int_d v1 i (by omega) (by omega), index_int_d v2 i (by omega) (by omega)] at this
    simp only [ok_bind, throw_if_ok_iff, Int.toNat_ofNat] at this
    exact this
  · rintro ⟨hl, h⟩
    refine ⟨hl, fun j h0 h1 => ?_⟩
    unfold nelem at h1
    rw [index_int_d v1 j h0 h1, index_int_d v2 j h0 (by omega)]
    simp only [ok_bind, throw_if_ok_iff]
    exact h j.toNat (by omega)

/-- C22, as stated, fails on the code, in two ways.  With `v1` holding one value that is
not a number, `v2` holding 0 and the margin 1, the difference is not a number and the
test `fabs(v1[0] - v2[0]) > margin` does not hold: the check succeeds, although the
difference is not at most the margin.  With `v1` holding 1, `v2` holding `-2 ^ (-60)` and
the margin 1, the difference `1 + 2 ^ (-60)` is above the margin, but the machine rounds it
to 1 and the check succeeds. -/
theorem chk_if_equal_ok_iff_counterexample :
    (chk_if_equal ieee [.nan] [.fin 0] (.fin 1) = .ok () ∧
      ¬ (unrounded.sub .nan (.fin 0)).abs ≤ .fin 1) ∧
    (chk_if_equal ieee [.fin 1] [.fin (-(2 : ℚ) ^ (-60 : Int))] (.fin 1) = .ok () ∧
      ¬ (unrounded.sub (.fin 1) (.fin (-(2 : ℚ) ^ (-60 : Int)))).abs ≤ .fin 1) := by
  refine ⟨⟨?_, ?_⟩, ?_, ?_⟩
  · rw [chk_if_equal_form]
    refine ⟨rfl, fun i hi => ?_⟩
    have : i = 0 := by simpa using hi
    subst this
    exact not_lt_nan _
  · exact not_nan_le _
  · rw [chk_if_equal_form]
    refine ⟨rfl, fun i hi => ?_⟩
    have : i = 0 := by simpa using hi
    subst this
    show ¬ (Double.fin 1 < (ieee.sub (.fin 1) (.fin (-(2 : ℚ) ^ (-60 : Int)))).abs)
    rw [ieee_sub_one_tiny]
    simp [Double.abs, fin_lt_fin]
  · show ¬ (Double.fin |1 - -(2 : ℚ) ^ (-60 : Int)| ≤ Double.fin 1)
    rw [fin_le_fin, sub_neg_eq_add, abs_of_pos (by positivity)]
    simp
    positivity

/-- C22, amended.  When the margin and the differences `v1[i] - v2[i]`, as the machine
computes them, are numbers (not NaN), `chk_if_equal` succeeds if and only if `v1` and `v2`
have the same length and the absolute value of the computed difference `v1[i] - v2[i]` is
at most `margin` at every position `i`; a computed difference equal to `margin` is
accepted. -/
theorem chk_if_equal_ok_iff (A : Arith) (v1 v2 : ConstVectorView) (margin : Double)
    (hm : margin ≠ .nan)
    (hd : ∀ i : Nat, i < v1.length → i < v2.length →
      A.sub (v1.getD i (.fin 0)) (v2.getD i (.fin 0)) ≠ .nan) :
    chk_if_equal A v1 v2 margin = .ok () ↔
      v1.length = v2.length ∧
      ∀ i : Nat, i < v1.length →
        (A.sub (v1.getD i (.fin 0)) (v2.getD i (.fin 0))).abs ≤ margin := by
  rw [chk_if_equal_form]
  constructor
  · rintro ⟨hl, h⟩
    exact ⟨hl, fun i hi =>
      (not_lt_iff_le _ _ hm (abs_ne_nan _ (hd i hi (by omega)))).mp (h i hi)⟩
  · rintro ⟨hl, h⟩
    exact ⟨hl, fun i hi =>
      (not_lt_iff_le _ _ hm (abs_ne_nan _ (hd i hi (by omega)))).mpr (h i hi)⟩

/-- C22 on vectors that differ by exactly the margin, by more than the margin, and in
length, in the arithmetic of IEEE 754. -/
theorem chk_if_equal_ok_iff_witness :
    chk_if_equal ieee [.fin 2, .fin 5] [.fin 1, .fin 5] (.fin 1) = .ok () ∧
    ¬ chk_if_equal ieee [.fin 3, .fin 5] [.fin 1, .fin 5] (.fin 1) = .ok () ∧
    ¬ chk_if_equal ieee [.fin 1, .fin 5] [.fin 1] (.fin 1) = .ok () := by
  have e0 : ieee.sub (.fin 5) (.fin 5) = .fin 0 := by
    show round_double (5 - 5) = _
    norm_num [round_double_zero]
  have e1 : ieee.sub (.fin 2) (.fin 1) = .fin 1 := by
    show round_double (2 - 1) = _
    norm_num [round_double_small.1]
  have e2 : ieee.sub (.fin 3) (.fin 1) = .fin 2 := by
    show round_double (3 - 1) = _
    norm_num [round_double_small.2.1]
  refine ⟨(chk_if_equal_ok_iff ieee [.fin 2, .fin 5] [.fin 1, .fin 5] (.fin 1) (by simp)
      (fun i hi _ => ?_)).mpr ⟨rfl, fun i hi => ?_⟩, fun h => ?_, fun h => ?_⟩
  · have : i = 0 ∨ i = 1 := by simp at hi; omega
    rcases this with rfl | rfl <;> simp [e0, e1]
  · have : i = 0 ∨ i = 1 := by simp at hi; omega
    rcases this with rfl | rfl <;> simp [e0, e1, Double.abs, fin_le_fin]
  · have := ((chk_if_equal_ok_iff ieee [.fin 3, .fin 5] [.fin 1, .fin 5] (.fin 1)
      (by simp) (fun i hi _ => by
        have : i = 0 ∨ i = 1 := by simp at hi; omega
        rcases this with rfl | rfl <;> simp [e0, e2])).mp h).2 0 (by simp)
    simp only [List.getD_cons_zero, e2] at this
    norm_num [Double.abs, fin_le_fin] at this
  · have := ((chk_if_equal_form ieee [.fin 1, .fin 5] [.fin 1] (.fin 1)).mp h).1
    simp at this

/-! ## The strict interpolation check over doubles -/

theorem not_le_of_lt_d (a b : Double) (h : b < a) : ¬ a ≤ b := by
  revert h
  show Double.blt _ _ = true → ¬ Double.ble _ _ = true
  cases a <;> cases b <;> simp [Double.blt, Double.ble]

/-- `is_increasing` holds exactly of the strictly increasing lists. -/
theorem is_increasing_iff_d (x : ConstVectorView) :
    is_increasing x = true ↔ x.Sorted (· < ·) := by
  haveI : IsTrans Double (· < ·) := ⟨lt_trans_d⟩
  unfold List.Sorted
  rw [← List.chain'_iff_pairwise]
  induction x with
  | nil => simp [is_increasing]
  | cons a r ih =>
    cases r with
    | nil => simp [is_increasing]
    | cons b r => simp [is_increasing, List.chain'_cons, ih]

/-- `is_decreasing` holds exactly of the strictly decreasing lists. -/
theorem is_decreasing_iff_d (x : ConstVectorView) :
    is_decreasing x = true ↔ x.Sorted (· > ·) := by
  haveI : IsTrans Double (· > ·) := ⟨fun a b c h1 h2 => lt_trans_d c b a h2 h1⟩
  unfold List.Sorted
  rw [← List.chain'_iff_pairwise]
  induction x with
  | nil => simp [is_decreasing]
  | cons a r ih =>
    cases r with
    | nil => simp [is_decreasing]
    | cons b r => simp [is_decreasing, List.chain'_cons, ih]

/-- The setup on a strictly increasing old grid that is long enough: the limits are the
code's expressions, computed with the machine's arithmetic. -/
theorem grid_limits_ascending_d (A : Arith) (old_grid : ConstVectorView) (order : Index)
    (e : Double)
    (hsorted : old_grid.Sorted (· < ·)) (hlen : max 2 (order + 1) ≤ nelem old_grid) :
    grid_limits A old_grid order e = .ok (true,
      A.sub (old_grid.getD 0 (.fin 0))
        (A.mul e (A.sub (old_grid.getD 1 (.fin 0)) (old_grid.getD 0 (.fin 0)))),
      A.add (old_grid.getD (old_grid.length - 1) (.fin 0))
        (A.mul e (A.sub (old_grid.getD (old_grid.length - 1) (.fin 0))
          (old_grid.getD (old_grid.length - 2) (.fin 0))))) := by
  have h2 : 2 ≤ old_grid.length := by
    have : (2 : Int) ≤ nelem old_grid := le_trans (le_max_left _ _) hlen
    unfold nelem at this; omega
  have ho : ¬ nelem old_grid < order + 1 := not_lt.mpr (le_trans (le_max_right _ _) hlen)
  have hinc : is_increasing old_grid = true := (is_increasing_iff_d _).mpr hsorted
  have h01 : old_grid.getD 0 (.fin 0) ≤ old_grid.getD 1 (.fin 0) := by
    match old_grid, hsorted, h2 with
    | a :: b :: r, hs, _ =>
      simp only [List.sorted_cons, List.mem_cons] at hs
      simpa using le_of_lt_d _ _ (hs.1 b (Or.inl rfl))
  have i0 := index_zero_d old_grid (by omega)
  have i1 := index_one_d old_grid (by omega)
  have z1 := index_nelem_sub_d old_grid 1 (by omega) (by omega)
  have z2 := index_nelem_sub_d old_grid 2 (by omega) (by omega)
  simp only [Nat.cast_one, Nat.cast_ofNat] at z1 z2
  unfold grid_limits
  simp only [ho, i0, i1, z1, z2, hinc, h01, bind, Except.bind, pure, Except.pure, if_false,
    decide_True, if_true, Bool.not_true, Bool.false_eq_true]

/-- The setup on a strictly decreasing old grid that is long enough: the upper limit
comes from the first two elements, the lower one from the last two. -/
theorem grid_limits_descending_d (A : Arith) (old_grid : ConstVectorView) (order : Index)
    (e : Double)
    (hsorted : old_grid.Sorted (· > ·)) (hlen : max 2 (order + 1) ≤ nelem old_grid) :
    grid_limits A old_grid order e = .ok (false,
      A.add (old_grid.getD (old_grid.length - 1) (.fin 0))
        (A.mul e (A.sub (old_grid.getD (old_grid.length - 1) (.fin 0))
          (old_grid.getD (old_grid.length - 2) (.fin 0)))),
      A.sub (old_grid.getD 0 (.fin 0))
        (A.mul e (A.sub (old_grid.getD 1 (.fin 0)) (old_grid.getD 0 (.fin 0))))) := by
  have h2 : 2 ≤ old_grid.length := by
    have : (2 : Int) ≤ nelem old_grid := le_trans (le_max_left _ _) hlen
    unfold nelem at this; omega
  have ho : ¬ nelem old_grid < order + 1 := not_lt.mpr (le_trans (le_max_right _ _) hlen)
  have hdec : is_decreasing old_grid = true := (is_decreasing_iff_d _).mpr hsorted
  have h01 : ¬ old_grid.getD 0 (.fin 0) ≤ old_grid.getD 1 (.fin 0) := by
    match old_grid, hsorted, h2 with
    | a :: b :: r, hs, _ =>
      simp only [List.sorted_cons, List.mem_cons] at hs
      simpa using not_le_of_lt_d _ _ (hs.1 b (Or.inl rfl))
  have i0 := index_zero_d old_grid (by omega)
  have i1 := index_one_d old_grid (by omega)
  have z1 := index_nelem_sub_d old_grid 1 (by omega) (by omega)
  have z2 := index_nelem_sub_d old_grid 2 (by omega) (by omega)
  simp only [Nat.cast_one, Nat.cast_ofNat] at z1 z2
  unfold grid_limits
  simp only [ho, i0, i1, z1, z2, hdec, h01, bind, Except.bind, pure, Except.pure, if_false,
    decide_False, if_true, Bool.not_true, Bool.false_eq_true]

/-- The strict check once the limits and the extrema of the new grid are known. -/
theorem chk_interpolation_grids_eq_d (A : Arith) (old_grid new_grid : ConstVectorView)
    (order : Index) (e : Double) (asc : Bool) (og_min og_max lo hi : Double)
    (hl : grid_limits A old_grid order e = .ok (asc, og_min, og_max))
    (hlo : vec_min new_grid = .ok lo) (hhi : vec_max new_grid = .ok hi) :
    chk_interpolation_grids A old_grid new_grid order e =
      if lo < og_min then
        (vec_min old_grid).bind fun m =>
          .error (.runtime_error (.minimum_outside_double m og_min lo))
      else if hi > og_max then
        (vec_max old_grid).bind fun m =>
          .error (.runtime_error (.maximum_outside_double m og_max hi))
      else .ok () := by
  unfold chk_interpolation_grids
  simp only [hl, hlo, hhi, bind, Except.bind, pure, Except.pure, throw, throwThe,
    MonadExceptOf.throw]

/-- Success of the strict check in terms of its two tests. -/
theorem chk_interpolation_grids_ok_tests (A : Arith) (old_grid new_grid : ConstVectorView)
    (order : Index) (e : Double) (asc : Bool) (og_min og_max lo hi : Double)
    (hl : grid_limits A old_grid order e = .ok (asc, og_min, og_max))
    (hlo : vec_min new_grid = .ok lo) (hhi : vec_max new_grid = .ok hi) :
    chk_interpolation_grids A old_grid new_grid order e = .ok () ↔
      ¬ lo < og_min ∧ ¬ hi > og_max := by
  rw [chk_interpolation_grids_eq_d A old_grid new_grid order e asc og_min og_max lo hi hl hlo
    hhi]
  by_cases h1 : lo < og_min
  · rw [if_pos h1]
    constructor
    · intro h
      cases hv : vec_min old_grid <;> simp [hv, Except.bind] at h
    · intro h
      exact absurd h1 h.1
  · rw [if_neg h1]
    by_cases h2 : hi > og_max
    · rw [if_pos h2]
      constructor
      · intro h
        cases hv : vec_max old_grid <;> simp [hv, Except.bind] at h
      · intro h
        exact absurd h2 h.2
    · rw [if_neg h2]
      exact ⟨fun _ => ⟨h1, h2⟩, fun _ => rfl⟩

/-- Success of the strict check in terms of the limits and the extrema, all numbers. -/
theorem chk_interpolation_grids_ok_iff_d (A : Arith) (old_grid new_grid : ConstVectorView)
    (order : Index) (e : Double) (asc : Bool) (og_min og_max lo hi : Double)
    (hl : grid_limits A old_grid order e = .ok (asc, og_min, og_max))
    (hlo : vec_min new_grid = .ok lo) (hhi : vec_max new_grid = .ok hi)
    (n1 : lo ≠ .nan) (n2 : hi ≠ .nan) (n3 : og_min ≠ .nan) (n4 : og_max ≠ .nan) :
    chk_interpolation_grids A old_grid new_grid order e = .ok () ↔
      og_min ≤ lo ∧ hi ≤ og_max := by
  rw [chk_interpolation_grids_ok_tests A old_grid new_grid order e asc og_min og_max lo hi hl
    hlo hhi, not_lt_iff_le lo og_min n1 n3,
    show (hi > og_max) = (og_max < hi) from rfl, not_lt_iff_le og_max hi n4 n2]

/-- The double nearest to 1/3. -/
theorem third_mul_three :
    ieee.mul (.fin (6004799503160661 / 2 ^ 54)) (.fin 3) = .fin 1 := by
  show round_double (6004799503160661 / 2 ^ 54 * 3) = _
  have hl : Int.log 2 |((6004799503160661 : ℚ) / 2 ^ 54 * 3)| = -1 := by
    apply log_eq
    · rw [abs_of_pos (by positivity)]; norm_num
    · rw [abs_of_pos (by positivity)]; norm_num
  unfold round_double ulp
  rw [hl]
  norm_num [round_half_even]

/-- The product of the double nearest to 1/3 and -3 is rounded to -1. -/
theorem third_mul_neg_three :
    ieee.mul (.fin (6004799503160661 / 2 ^ 54)) (.fin (-3)) = .fin (-1) := by
  show round_double (6004799503160661 / 2 ^ 54 * (-3)) = _
  have hl : Int.log 2 |((6004799503160661 : ℚ) / 2 ^ 54 * (-3))| = -1 := by
    apply log_eq
    · rw [abs_of_neg (by norm_num)]; norm_num
    · rw [abs_of_neg (by norm_num)]; norm_num
  unfold round_double ulp
  rw [hl]
  norm_num [round_half_even]

/-- C1, as stated, fails on the code, in two ways.  With the old grid 1, 2, 3, the factor
1/2 and the new grid holding one value that is not a number, neither test of the new grid
against the limits holds and the check succeeds, although the minimum of the new grid is
not at or above the lower limit.  With the old grid 1, 4, the double nearest to 1/3 as
factor and the new grid holding 0, the lower limit `1 - e * 3` is `2 ^ (-54)`, above 0, but
the machine rounds the product to 1 and the limit to 0, and the check succeeds. -/
theorem chk_interpolation_grids_ascending_iff_counterexample :
    (([.fin 1, .fin 2, .fin 3] : ConstVectorView).Sorted (· < ·) ∧
      max 2 ((1 : Index) + 1) ≤ nelem [.fin 1, .fin 2, .fin 3] ∧
      vec_min [.nan] = .ok .nan ∧
      chk_interpolation_grids ieee [.fin 1, .fin 2, .fin 3] [.nan] 1 (.fin (1 / 2)) = .ok () ∧
      ¬ unrounded.sub (.fin 1) (unrounded.mul (.fin (1 / 2)) (unrounded.sub (.fin 2) (.fin 1)))
        ≤ Double.nan) ∧
    (([.fin 1, .fin 4] : ConstVectorView).Sorted (· < ·) ∧
      max 2 ((1 : Index) + 1) ≤ nelem [.fin 1, .fin 4] ∧
      vec_min [.fin 0] = .ok (.fin 0) ∧
      chk_interpolation_grids ieee [.fin 1, .fin 4] [.fin 0] 1
        (.fin (6004799503160661 / 2 ^ 54)) = .ok () ∧
      ¬ unrounded.sub (.fin 1) (unrounded.mul (.fin (6004799503160661 / 2 ^ 54))
        (unrounded.sub (.fin 4) (.fin 1))) ≤ Double.fin 0) := by
  have s1 : ([.fin 1, .fin 2, .fin 3] : ConstVectorView).Sorted (· < ·) := by
    simp [List.Sorted, fin_lt_fin]; norm_num
  have s2 : ([.fin 1, .fin 4] : ConstVectorView).Sorted (· < ·) := by
    simp [List.Sorted, fin_lt_fin]
  refine ⟨⟨s1, by decide, rfl, ?_, not_le_nan _⟩, s2, by decide, rfl, ?_, ?_⟩
  · rw [chk_interpolation_grids_ok_tests ieee [.fin 1, .fin 2, .fin 3] [.nan] 1 (.fin (1 / 2))
      true _ _ .nan .nan (grid_limits_ascending_d ieee _ 1 _ s1 (by decide)) rfl rfl]
    exact ⟨not_nan_lt _, not_lt_nan _⟩
  · rw [chk_interpolation_grids_ok_tests ieee [.fin 1, .fin 4] [.fin 0] 1
      (.fin (6004799503160661 / 2 ^ 54)) true _ _ (.fin 0) (.fin 0)
      (grid_limits_ascending_d ieee _ 1 _ s2 (by decide)) rfl rfl]
    simp only [List.getD_cons_zero, List.getD_cons_succ, List.length_cons, List.length_nil]
    have e1 : ieee.sub (.fin 4) (.fin 1) = .fin 3 := by
      show round_double (4 - 1) = _
      norm_num [round_double_three.1]
    have e2 : ieee.sub (.fin 1) (.fin 1) = .fin 0 := by
      show round_double (1 - 1) = _
      norm_num [round_double_zero]
    have e3 : ieee.add (.fin 4) (.fin 1) = .fin 5 := by
      show round_double (4 + 1) = _
      norm_num [round_double_five]
    simp only [Nat.reduceAdd, Nat.reduceSub, List.getD_cons_zero, List.getD_cons_succ, e1,
      third_mul_three, e2, e3, GT.gt, fin_lt_fin]
    norm_num
  · show ¬ Double.fin (1 - 6004799503160661 / 2 ^ 54 * (4 - 1)) ≤ Double.fin 0
    rw [fin_le_fin]
    norm_num

/-- C1, amended.  For a strictly increasing old grid with at least `max(2, order+1)`
elements, a new grid whose minimum `lo` and maximum `hi` are numbers (not NaN) and an
extrapolation factor `e`, `chk_interpolation_grids` succeeds if and only if
`lo >= og_min` and `hi <= og_max`, where `og_min = old[0] - e*(old[1]-old[0])` and
`og_max = old[last] + e*(old[last]-old[last-1])` are the values that the machine computes,
every operation in double arithmetic, and are numbers. -/
theorem chk_interpolation_grids_ascending_iff (A : Arith)
    (old_grid new_grid : ConstVectorView) (order : Index) (e lo hi : Double)
    (hsorted : old_grid.Sorted (· < ·))
    (hlen : max 2 (order + 1) ≤ nelem old_grid)
    (hlo : vec_min new_grid = .ok lo) (hhi : vec_max new_grid = .ok hi)
    (n1 : lo ≠ .nan) (n2 : hi ≠ .nan)
    (n3 : A.sub (old_grid.getD 0 (.fin 0))
      (A.mul e (A.sub (old_grid.getD 1 (.fin 0)) (old_grid.getD 0 (.fin 0)))) ≠ .nan)
    (n4 : A.add (old_grid.getD (old_grid.length - 1) (.fin 0))
      (A.mul e (A.sub (old_grid.getD (old_grid.length - 1) (.fin 0))
        (old_grid.getD (old_grid.length - 2) (.fin 0)))) ≠ .nan) :
    chk_interpolation_grids A old_grid new_grid order e = .ok () ↔
      A.sub (old_grid.getD 0 (.fin 0))
        (A.mul e (A.sub (old_grid.getD 1 (.fin 0)) (old_grid.getD 0 (.fin 0)))) ≤ lo ∧
      hi ≤ A.add (old_grid.getD (old_grid.length - 1) (.fin 0))
        (A.mul e (A.sub (old_grid.getD (old_grid.length - 1) (.fin 0))
          (old_grid.getD (old_grid.length - 2) (.fin 0)))) :=
  chk_interpolation_grids_ok_iff_d A old_grid new_grid order e true _ _ lo hi
    (grid_limits_ascending_d A old_grid order e hsorted hlen) hlo hhi n1 n2 n3 n4

/-- The ascending characterisation applied to the grid 1, 2, 3, 4 with factor 1/2, in the
arithmetic of IEEE 754: the limits are 1/2 and 9/2, and the new grid 1/2, 4 passes. -/
theorem chk_interpolation_grids_ascending_iff_witness :
    chk_interpolation_grids ieee [.fin 1, .fin 2, .fin 3, .fin 4] [.fin (1 / 2), .fin 4] 1
      (.fin (1 / 2)) = .ok () := by
  have s21 : ieee.sub (.fin 2) (.fin 1) = .fin 1 := by
    show round_double (2 - 1) = _
    norm_num [round_double_small.1]
  have s43 : ieee.sub (.fin 4) (.fin 3) = .fin 1 := by
    show round_double (4 - 3) = _
    norm_num [round_double_small.1]
  have m : ieee.mul (.fin (1 / 2)) (.fin 1) = .fin (1 / 2) := by
    show round_double (1 / 2 * 1) = _
    rw [mul_one]
    exact round_double_halves.1
  have lo : ieee.sub (.fin 1) (.fin (1 / 2)) = .fin (1 / 2) := by
    show round_double (1 - 1 / 2) = _
    norm_num
    simpa using round_double_halves.1
  have hi : ieee.add (.fin 4) (.fin (1 / 2)) = .fin (9 / 2) := by
    show round_double (4 + 1 / 2) = _
    norm_num
    simpa using round_double_halves.2.2.1
  have n3 : ieee.sub (.fin 1) (ieee.mul (.fin (1 / 2)) (ieee.sub (.fin 2) (.fin 1))) =
      .fin (1 / 2) := by rw [s21, m, lo]
  have n4 : ieee.add (.fin 4) (ieee.mul (.fin (1 / 2)) (ieee.sub (.fin 4) (.fin 3))) =
      .fin (9 / 2) := by rw [s43, m, hi]
  exact (chk_interpolation_grids_ascending_iff ieee [.fin 1, .fin 2, .fin 3, .fin 4]
    [.fin (1 / 2), .fin 4] 1 (.fin (1 / 2)) (.fin (1 / 2)) (.fin 4)
    (by simp [List.Sorted, fin_lt_fin]; norm_num) (by decide)
    (by simp [vec_min, fin_lt_fin]; norm_num) (by simp [vec_max, GT.gt, fin_lt_fin]; norm_num)
    (by simp) (by simp)
    (by
      simp only [List.getD_cons_zero, List.getD_cons_succ]
      rw [n3]
      simp)
    (by
      simp only [List.length_cons, List.length_nil, Nat.reduceAdd, Nat.reduceSub,
        List.getD_cons_zero, List.getD_cons_succ]
      rw [n4]
      simp)).mpr
    (by
      simp only [List.length_cons, List.length_nil, Nat.reduceAdd, Nat.reduceSub,
        List.getD_cons_zero, List.getD_cons_succ]
      rw [n3, n4, fin_le_fin, fin_le_fin]
      norm_num)

/-- C2, as stated, fails on the code, in two ways.  With the old grid 3, 2, 1, the factor
1/2 and the new grid holding one value that is not a number, neither test of the new grid
against the limits holds and the check succeeds, although the maximum of the new grid is
not at or below the upper limit.  With the old grid 4, 1, the double nearest to 1/3 as
factor and the new grid holding 0, the lower limit `1 - e * (4 - 1)` is `2 ^ (-54)`, above
0, but the machine computes the limit 0, and the check succeeds. -/
theorem chk_interpolation_grids_descending_iff_counterexample :
    (([.fin 3, .fin 2, .fin 1] : ConstVectorView).Sorted (· > ·) ∧
      max 2 ((1 : Index) + 1) ≤ nelem [.fin 3, .fin 2, .fin 1] ∧
      vec_max [.nan] = .ok .nan ∧
      chk_interpolation_grids ieee [.fin 3, .fin 2, .fin 1] [.nan] 1 (.fin (1 / 2)) = .ok () ∧
      ¬ Double.nan ≤
        unrounded.add (.fin 3) (unrounded.mul (.fin (1 / 2)) (unrounded.sub (.fin 3) (.fin 2))))
    ∧
    (([.fin 4, .fin 1] : ConstVectorView).Sorted (· > ·) ∧
      max 2 ((1 : Index) + 1) ≤ nelem [.fin 4, .fin 1] ∧
      vec_min [.fin 0] = .ok (.fin 0) ∧
      chk_interpolation_grids ieee [.fin 4, .fin 1] [.fin 0] 1
        (.fin (6004799503160661 / 2 ^ 54)) = .ok () ∧
      ¬ unrounded.sub (.fin 1) (unrounded.mul (.fin (6004799503160661 / 2 ^ 54))
        (unrounded.sub (.fin 4) (.fin 1))) ≤ Double.fin 0) := by
  have s1 : ([.fin 3, .fin 2, .fin 1] : ConstVectorView).Sorted (· > ·) := by
    simp [List.Sorted, GT.gt, fin_lt_fin]; norm_num
  have s2 : ([.fin 4, .fin 1] : ConstVectorView).Sorted (· > ·) := by
    simp [List.Sorted, GT.gt, fin_lt_fin]
  refine ⟨⟨s1, by decide, rfl, ?_, not_nan_le _⟩, s2, by decide, rfl, ?_, ?_⟩
  · rw [chk_interpolation_grids_ok_tests ieee [.fin 3, .fin 2, .fin 1] [.nan] 1 (.fin (1 / 2))
      false _ _ .nan .nan (grid_limits_descending_d ieee _ 1 _ s1 (by decide)) rfl rfl]
    exact ⟨not_nan_lt _, not_lt_nan _⟩
  · rw [chk_interpolation_grids_ok_tests ieee [.fin 4, .fin 1] [.fin 0] 1
      (.fin (6004799503160661 / 2 ^ 54)) false _ _ (.fin 0) (.fin 0)
      (grid_limits_descending_d ieee _ 1 _ s2 (by decide)) rfl rfl]
    simp only [List.getD_cons_zero, List.getD_cons_succ, List.length_cons, List.length_nil]
    have e1 : ieee.sub (.fin 1) (.fin 4) = .fin (-3) := by
      show round_double (1 - 4) = _
      norm_num [round_double_three.2]
    have e2 : ieee.add (.fin 1) (.fin (-1)) = .fin 0 := by
      show round_double (1 + -1) = _
      norm_num [round_double_zero]
    have e3 : ieee.sub (.fin 4) (.fin (-1)) = .fin 5 := by
      show round_double (4 - -1) = _
      norm_num [round_double_five]
    simp only [Nat.reduceAdd, Nat.reduceSub, List.getD_cons_zero, List.getD_cons_succ, e1,
      third_mul_neg_three, e2, e3, GT.gt, fin_lt_fin]
    norm_num
  · show ¬ Double.fin (1 - 6004799503160661 / 2 ^ 54 * (4 - 1)) ≤ Double.fin 0
    rw [fin_le_fin]
    norm_num

/-- C2, amended.  For a strictly decreasing old grid with at least `max(2, order+1)`
elements, a new grid whose minimum `lo` and maximum `hi` are numbers (not NaN) and an
extrapolation factor `e`, `chk_interpolation_grids` succeeds if and only if
`hi <= og_max` and `lo >= og_min`, where `og_max = old[0] - e*(old[1]-old[0])` and
`og_min = old[last] + e*(old[last]-old[last-1])` are the values that the machine computes,
every operation in double arithmetic, and are numbers: the maximum comes from the
low-index end of the old grid, and each side is widened by `e` times the spacing at that
end. -/
theorem chk_interpolation_grids_descending_iff (A : Arith)
    (old_grid new_grid : ConstVectorView) (order : Index) (e lo hi : Double)
    (hsorted : old_grid.Sorted (· > ·))
    (hlen : max 2 (order + 1) ≤ nelem old_grid)
    (hlo : vec_min new_grid = .ok lo) (hhi : vec_max new_grid = .ok hi)
    (n1 : lo ≠ .nan) (n2 : hi ≠ .nan)
    (n3 : A.add (old_grid.getD (old_grid.length - 1) (.fin 0))
      (A.mul e (A.sub (old_grid.getD (old_grid.length - 1) (.fin 0))
        (old_grid.getD (old_grid.length - 2) (.fin 0)))) ≠ .nan)
    (n4 : A.sub (old_grid.getD 0 (.fin 0))
      (A.mul e (A.sub (old_grid.getD 1 (.fin 0)) (old_grid.getD 0 (.fin 0)))) ≠ .nan) :
    chk_interpolation_grids A old_grid new_grid order e = .ok () ↔
      hi ≤ A.sub (old_grid.getD 0 (.fin 0))
        (A.mul e (A.sub (old_grid.getD 1 (.fin 0)) (old_grid.getD 0 (.fin 0)))) ∧
      A.add (old_grid.getD (old_grid.length - 1) (.fin 0))
        (A.mul e (A.sub (old_grid.getD (old_grid.length - 1) (.fin 0))
          (old_grid.getD (old_grid.length - 2) (.fin 0)))) ≤ lo := by
  rw [chk_interpolation_grids_ok_iff_d A old_grid new_grid order e false _ _ lo hi
    (grid_limits_descending_d A old_grid order e hsorted hlen) hlo hhi n1 n2 n3 n4]
  exact and_comm

/-- The descending characterisation applied to the grid 4, 3, 2, 1 with factor 1/2, in the
arithmetic of IEEE 754: the limits are 9/2 and 1/2, and the new grid 1/2, 9/2 passes. -/
theorem chk_interpolation_grids_descending_iff_witness :
    chk_interpolation_grids ieee [.fin 4, .fin 3, .fin 2, .fin 1] [.fin (1 / 2), .fin (9 / 2)]
      1 (.fin (1 / 2)) = .ok () := by
  have s34 : ieee.sub (.fin 3) (.fin 4) = .fin (-1) := by
    show round_double (3 - 4) = _
    norm_num [round_double_halves.2.2.2]
  have s12 : ieee.sub (.fin 1) (.fin 2) = .fin (-1) := by
    show round_double (1 - 2) = _
    norm_num [round_double_halves.2.2.2]
  have m : ieee.mul (.fin (1 / 2)) (.fin (-1)) = .fin (-1 / 2) := by
    show round_double (1 / 2 * -1) = _
    convert round_double_halves.2.1 using 2
    norm_num
  have hi : ieee.sub (.fin 4) (.fin (-1 / 2)) = .fin (9 / 2) := by
    show round_double (4 - -1 / 2) = _
    norm_num
    simpa using round_double_halves.2.2.1
  have lo : ieee.add (.fin 1) (.fin (-1 / 2)) = .fin (1 / 2) := by
    show round_double (1 + -1 / 2) = _
    norm_num
    simpa using round_double_halves.1
  have n3 : ieee.add (.fin 1) (ieee.mul (.fin (1 / 2)) (ieee.sub (.fin 1) (.fin 2))) =
      .fin (1 / 2) := by rw [s12, m, lo]
  have n4 : ieee.sub (.fin 4) (ieee.mul (.fin (1 / 2)) (ieee.sub (.fin 3) (.fin 4))) =
      .fin (9 / 2) := by rw [s34, m, hi]
  exact (chk_interpolation_grids_descending_iff ieee [.fin 4, .fin 3, .fin 2, .fin 1]
    [.fin (1 / 2), .fin (9 / 2)] 1 (.fin (1 / 2)) (.fin (1 / 2)) (.fin (9 / 2))
    (by simp [List.Sorted, GT.gt, fin_lt_fin]; norm_num) (by decide)
    (by simp [vec_min, fin_lt_fin]; norm_num) (by simp [vec_max, GT.gt, fin_lt_fin]; norm_num)
    (by simp) (by simp)
    (by
      simp only [List.length_cons, List.length_nil, Nat.reduceAdd, Nat.reduceSub,
        List.getD_cons_zero, List.getD_cons_succ]
      rw [n3]
      simp)
    (by
      simp only [List.getD_cons_zero, List.getD_cons_succ]
      rw [n4]
      simp)).mpr
    (by
      simp only [List.length_cons, List.length_nil, Nat.reduceAdd, Nat.reduceSub,
        List.getD_cons_zero, List.getD_cons_succ]
      rw [n3, n4, fin_le_fin, fin_le_fin]
      norm_num)

/-! ## Atmospheric grids over doubles -/

theorem chk_if_increasing_ok_iff_d (n : String) (x : ConstVectorView) :
    chk_if_increasing n x = .ok () ↔ x.Sorted (· < ·) := by
  rw [← is_increasing_iff_d]
  unfold chk_if_increasing
  cases is_increasing x <;> simp

theorem chk_if_decreasing_ok_iff_d (n : String) (x : ConstVectorView) :
    chk_if_decreasing n x = .ok () ↔ x.Sorted (· > ·) := by
  rw [← is_decreasing_iff_d]
  unfold chk_if_decreasing
  cases is_decreasing x <;> simp

/-- A strictly increasing vector of at least two elements holds no NaN, and each of its
elements lies between the first and the last. -/
theorem sorted_lt_bounds_d (x : ConstVectorView) (h : x.Sorted (· < ·)) (h2 : 2 ≤ x.length)
    (v : Double) (hv : v ∈ x) :
    v ≠ .nan ∧ x.getD 0 (.fin 0) ≤ v ∧ v ≤ x.getD (x.length - 1) (.fin 0) := by
  obtain ⟨i, hi, rfl⟩ := List.getElem_of_mem hv
  have hp := List.pairwise_iff_getElem.mp h
  rw [List.getD_eq_getElem x _ (show 0 < x.length by omega),
    List.getD_eq_getElem x _ (show x.length - 1 < x.length by omega)]
  have hn : x[i] ≠ .nan := by
    by_cases h0 : i = 0
    · subst h0
      exact (lt_not_nan _ _ (hp 0 1 (by omega) (by omega) (by omega))).1
    · exact (lt_not_nan _ _ (hp 0 i (by omega) hi (by omega))).2
  refine ⟨hn, ?_, ?_⟩
  · by_cases h0 : i = 0
    · subst h0
      exact le_refl_d _ hn
    · exact le_of_lt_d _ _ (hp 0 i (by omega) hi (by omega))
  · by_cases h0 : i = x.length - 1
    · subst h0
      exact le_refl_d _ hn
    · exact le_of_lt_d _ _ (hp i (x.length - 1) hi (by omega) (by omega))

/-- Success of `chk_atm_grids` for `dim = 1`. -/
theorem chk_atm_grids_one_iff_d (A : Arith) (p_grid lat_grid lon_grid : ConstVectorView) :
    chk_atm_grids A 1 p_grid lat_grid lon_grid = .ok () ↔
      (2 ≤ p_grid.length ∧ p_grid.Sorted (· > ·)) ∧ lat_grid = [] ∧ lon_grid = [] := by
  unfold chk_atm_grids
  simp [seq_ok_iff, throw_if_ok_iff, chk_if_decreasing_ok_iff_d, chk_if_increasing_ok_iff_d,
    nelem, and_assoc]

/-- Success of `chk_atm_grids` for `dim = 2`. -/
theorem chk_atm_grids_two_iff_d (A : Arith) (p_grid lat_grid lon_grid : ConstVectorView) :
    chk_atm_grids A 2 p_grid lat_grid lon_grid = .ok () ↔
      (2 ≤ p_grid.length ∧ p_grid.Sorted (· > ·)) ∧
      (2 ≤ lat_grid.length ∧ lat_grid.Sorted (· < ·)) ∧ lon_grid = [] := by
  unfold chk_atm_grids
  simp [seq_ok_iff, throw_if_ok_iff, chk_if_decreasing_ok_iff_d, chk_if_increasing_ok_iff_d,
    nelem, and_assoc]

/-- Success of `chk_atm_grids` for `dim = 3`: the span is the one the machine computes. -/
theorem chk_atm_grids_three_iff_d (A : Arith) (p_grid lat_grid lon_grid : ConstVectorView) :
    chk_atm_grids A 3 p_grid lat_grid lon_grid = .ok () ↔
      (2 ≤ p_grid.length ∧ p_grid.Sorted (· > ·)) ∧
      (2 ≤ lat_grid.length ∧ lat_grid.Sorted (· < ·)) ∧
      (2 ≤ lon_grid.length ∧ lon_grid.Sorted (· < ·)) ∧
      (Double.fin (-90) ≤ lat_grid.getD 0 (.fin 0) ∧
        lat_grid.getD (lat_grid.length - 1) (.fin 0) ≤ .fin 90 ∧
        Double.fin (-360) ≤ lon_grid.getD 0 (.fin 0) ∧
        lon_grid.getD (lon_grid.length - 1) (.fin 0) ≤ .fin 360 ∧
        ¬ A.sub (lon_grid.getD (lon_grid.length - 1) (.fin 0)) (lon_grid.getD 0 (.fin 0)) >
          .fin 360) := by
  unfold chk_atm_grids
  simp only [seq_ok_iff, throw_if_ok_iff, chk_if_decreasing_ok_iff_d,
    chk_if_increasing_ok_iff_d, nelem, if_true, if_false, show ¬ ((3 : Index) = 1) by decide,
    show ¬ ((3 : Index) < 3) by decide, not_lt, and_assoc]
  have key : ∀ (h1 : 2 ≤ lat_grid.length) (h2 : 2 ≤ lon_grid.length)
      (s1 : lat_grid.Sorted (· < ·)) (s2 : lon_grid.Sorted (· < ·)),
      ((do
        throw_if ((← index lat_grid 0) < .fin (-90)) .lat_below
        throw_if ((← index lat_grid ((lat_grid.length : Int) - 1)) > .fin 90) .lat_above
        throw_if ((← index lon_grid 0) < .fin (-360)) .lon_below
        throw_if ((← index lon_grid ((lon_grid.length : Int) - 1)) > .fin 360) .lon_above
        throw_if (A.sub (← index lon_grid ((lon_grid.length : Int) - 1)) (← index lon_grid 0) >
          .fin 360) .lon_span) = (.ok () : Check Unit)) ↔
      (Double.fin (-90) ≤ lat_grid.getD 0 (.fin 0) ∧
        lat_grid.getD (lat_grid.length - 1) (.fin 0) ≤ .fin 90 ∧
        Double.fin (-360) ≤ lon_grid.getD 0 (.fin 0) ∧
        lon_grid.getD (lon_grid.length - 1) (.fin 0) ≤ .fin 360 ∧
        ¬ A.sub (lon_grid.getD (lon_grid.length - 1) (.fin 0)) (lon_grid.getD 0 (.fin 0)) >
          .fin 360) := by
    intro h1 h2 s1 s2
    have a0 := index_zero_d lat_grid (by omega)
    have a1 := index_nelem_sub_d lat_grid 1 (by omega) (by omega)
    have b0 := index_zero_d lon_grid (by omega)
    have b1 := index_nelem_sub_d lon_grid 1 (by omega) (by omega)
    have na0 := (sorted_lt_bounds_d lat_grid s1 h1 (lat_grid.getD 0 (.fin 0))
      (by rw [List.getD_eq_getElem _ _ (show 0 < lat_grid.length by omega)]
          exact List.getElem_mem _)).1
    have na1 := (sorted_lt_bounds_d lat_grid s1 h1 (lat_grid.getD (lat_grid.length - 1) (.fin 0))
      (by rw [List.getD_eq_getElem _ _ (show lat_grid.length - 1 < lat_grid.length by omega)]
          exact List.getElem_mem _)).1
    have nb0 := (sorted_lt_bounds_d lon_grid s2 h2 (lon_grid.getD 0 (.fin 0))
      (by rw [List.getD_eq_getElem _ _ (show 0 < lon_grid.length by omega)]
          exact List.getElem_mem _)).1
    have nb1 := (sorted_lt_bounds_d lon_grid s2 h2 (lon_grid.getD (lon_grid.length - 1) (.fin 0))
      (by rw [List.getD_eq_getElem _ _ (show lon_grid.length - 1 < lon_grid.length by omega)]
          exact List.getElem_mem _)).1
    have fn : ∀ q : ℚ, Double.fin q ≠ .nan := fun q => by simp
    simp only [nelem, Nat.cast_one] at a1 b1
    simp only [a0, a1, b0, b1, bind, Except.bind]
    simp only [throw_if]
    rw [← not_lt_iff_le _ _ na0 (fn _), ← not_lt_iff_le _ _ (fn _) na1,
      ← not_lt_iff_le _ _ nb0 (fn _), ← not_lt_iff_le _ _ (fn _) nb1]
    split_ifs with c1 c2 c3 c4 c5
    all_goals simp only [reduceCtorEq, false_iff, true_iff, not_and]
    · intro h; exact absurd c1 h
    · intro _ h; exact absurd c2 h
    · intro _ _ h; exact absurd c3 h
    · intro _ _ _ h; exact absurd c4 h
    · intro _ _ _ _ h; exact absurd c5 h
    · exact ⟨c1, c2, c3, c4, c5⟩
  constructor
  · rintro ⟨h1, h2, h3, h4, h5, h6, h7⟩
    have h3' : 2 ≤ lat_grid.length := by exact_mod_cast h3
    have h5' : 2 ≤ lon_grid.length := by exact_mod_cast h5
    exact ⟨by exact_mod_cast h1, h2, h3', h4, h5', h6, (key h3' h5' h4 h6).mp h7⟩
  · rintro ⟨h1, h2, h3, h4, h5, h6, h7⟩
    exact ⟨by exact_mod_cast h1, h2, by exact_mod_cast h3, h4, by exact_mod_cast h5, h6,
      (key h3 h5 h4 h6).mpr h7⟩

/-- The sum of 360 and `2 ^ (-60)` is rounded to 360. -/
theorem round_double_span : round_double (360 + (2 : ℚ) ^ (-60 : Int)) = .fin 360 := by
  have hl : Int.log 2 |(360 + (2 : ℚ) ^ (-60 : Int))| = 8 := by
    apply log_eq
    · rw [abs_of_pos (by positivity)]; norm_num
    · rw [abs_of_pos (by positivity)]; norm_num
  unfold round_double ulp
  rw [hl]
  norm_num [round_half_even]

/-- C8, as stated, fails on the code.  With `dim = 3` and the longitude grid from -360 to
`2 ^ (-60)`, which is strictly increasing and inside [-360, 360], the span
`360 + 2 ^ (-60)` is above 360, but the machine rounds the difference to 360 and the
check succeeds. -/
theorem chk_atm_grids_ok_iff_counterexample :
    chk_atm_grids ieee 3 [.fin 3, .fin 2, .fin 1] [.fin (-90), .fin 90]
      [.fin (-360), .fin ((2 : ℚ) ^ (-60 : Int))] = .ok () ∧
    ¬ unrounded.sub (.fin ((2 : ℚ) ^ (-60 : Int))) (.fin (-360)) ≤ Double.fin 360 := by
  constructor
  · rw [chk_atm_grids_three_iff_d]
    refine ⟨⟨by simp, by simp [List.Sorted, GT.gt, fin_lt_fin]; norm_num⟩,
      ⟨by simp, by simp [List.Sorted, fin_lt_fin]⟩,
      ⟨by simp, ?_⟩,
      by simp [fin_le_fin], by simp [fin_le_fin], by simp [fin_le_fin], ?_, ?_⟩
    · simp only [List.Sorted, List.pairwise_cons, List.mem_singleton, forall_eq, fin_lt_fin,
        List.not_mem_nil, false_imp_iff, implies_true, List.Pairwise.nil, and_true]
      have : (0 : ℚ) < (2 : ℚ) ^ (-60 : Int) := by positivity
      linarith
    · simp only [List.length_cons, List.length_nil, Nat.reduceAdd, Nat.reduceSub,
        List.getD_cons_succ, List.getD_cons_zero, fin_le_fin]
      norm_num
    · simp only [List.length_cons, List.length_nil, Nat.reduceAdd, Nat.reduceSub,
        List.getD_cons_succ, List.getD_cons_zero]
      have : ieee.sub (.fin ((2 : ℚ) ^ (-60 : Int))) (.fin (-360)) = .fin 360 := by
        show round_double ((2 : ℚ) ^ (-60 : Int) - -360) = _
        rw [sub_neg_eq_add, add_comm]
        exact round_double_span
      rw [this]
      simp [GT.gt, fin_lt_fin]
  · show ¬ Double.fin ((2 : ℚ) ^ (-60 : Int) - -360) ≤ Double.fin 360
    rw [fin_le_fin, sub_neg_eq_add]
    simp
    positivity

/-- C8, amended.  For `dim` in 1, 2, 3, `chk_atm_grids` succeeds if and only if: `p_grid`
has length at least 2 and is strictly decreasing; `lat_grid` is empty when `dim = 1` and
otherwise has length at least 2 and is strictly increasing; `lon_grid` is empty when
`dim < 3` and otherwise has length at least 2 and is strictly increasing; and, when
`dim = 3`, `lat_grid[0] >= -90`, `lat_grid[last] <= 90`, `lon_grid[0] >= -360`,
`lon_grid[last] <= 360` and the difference `lon_grid[last] - lon_grid[0]`, as the machine
computes it in double arithmetic, is not greater than 360. -/
theorem chk_atm_grids_ok_iff (A : Arith) (dim : Index)
    (p_grid lat_grid lon_grid : ConstVectorView) (hdim : dim = 1 ∨ dim = 2 ∨ dim = 3) :
    chk_atm_grids A dim p_grid lat_grid lon_grid = .ok () ↔
      (2 ≤ p_grid.length ∧ p_grid.Sorted (· > ·)) ∧
      (if dim = 1 then lat_grid = [] else 2 ≤ lat_grid.length ∧ lat_grid.Sorted (· < ·)) ∧
      (if dim < 3 then lon_grid = [] else 2 ≤ lon_grid.length ∧ lon_grid.Sorted (· < ·)) ∧
      (dim = 3 →
        Double.fin (-90) ≤ lat_grid.getD 0 (.fin 0) ∧
        lat_grid.getD (lat_grid.length - 1) (.fin 0) ≤ .fin 90 ∧
        Double.fin (-360) ≤ lon_grid.getD 0 (.fin 0) ∧
        lon_grid.getD (lon_grid.length - 1) (.fin 0) ≤ .fin 360 ∧
        ¬ A.sub (lon_grid.getD (lon_grid.length - 1) (.fin 0)) (lon_grid.getD 0 (.fin 0)) >
          .fin 360) := by
  rcases hdim with rfl | rfl | rfl
  · rw [chk_atm_grids_one_iff_d]
    simp
  · rw [chk_atm_grids_two_iff_d]
    simp
  · rw [chk_atm_grids_three_iff_d]
    simp

/-- The witness of C8: with `dim = 1` and the pressure grid 3, 2, 1 the check succeeds on
empty latitude and longitude grids, and with the latitude grid 1, 2 it fails with the
message that the length of `lat_grid` must be 0. -/
theorem chk_atm_grids_ok_iff_witness :
    chk_atm_grids ieee 1 [.fin 3, .fin 2, .fin 1] [] [] = .ok () ∧
    chk_atm_grids ieee 1 [.fin 3, .fin 2, .fin 1] [.fin 1, .fin 2] [] =
      .error (.runtime_error .lat_grid_length_0) :=
  ⟨(chk_atm_grids_ok_iff ieee 1 [.fin 3, .fin 2, .fin 1] [] [] (Or.inl rfl)).mpr
    (by simp [List.Sorted, GT.gt, fin_lt_fin]; norm_num),
   by norm_num [chk_atm_grids, throw_if, chk_if_decreasing, is_decreasing, nelem, bind,
     Except.bind, GT.gt, fin_lt_fin]⟩

/-- C9, as stated, fails on the code.  With `dim = 3` and the longitude grid from
`-2 ^ (-60)` to 360 the check succeeds, because the machine rounds the difference of the
last and the first longitude to 360, although the span `360 + 2 ^ (-60)` is above 360. -/
theorem chk_atm_grids_3d_ranges_counterexample :
    chk_atm_grids ieee 3 [.fin 3, .fin 2, .fin 1] [.fin (-90), .fin 90]
      [.fin (-(2 : ℚ) ^ (-60 : Int)), .fin 360] = .ok () ∧
    ¬ unrounded.sub (.fin 360) (.fin (-(2 : ℚ) ^ (-60 : Int))) ≤ Double.fin 360 := by
  constructor
  · rw [chk_atm_grids_three_iff_d]
    refine ⟨⟨by simp, by simp [List.Sorted, GT.gt, fin_lt_fin]; norm_num⟩,
      ⟨by simp, by simp [List.Sorted, fin_lt_fin]⟩,
      ⟨by simp, ?_⟩,
      by simp [fin_le_fin], by simp [fin_le_fin], ?_, by simp [fin_le_fin], ?_⟩
    · simp only [List.Sorted, List.pairwise_cons, List.mem_singleton, forall_eq, fin_lt_fin,
        List.not_mem_nil, false_imp_iff, implies_true, List.Pairwise.nil, and_true]
      have : (0 : ℚ) < (2 : ℚ) ^ (-60 : Int) := by positivity
      linarith
    · simp only [List.getD_cons_zero, fin_le_fin]
      have : (2 : ℚ) ^ (-60 : Int) ≤ 1 := by norm_num
      linarith
    · simp only [List.length_cons, List.length_nil, Nat.reduceAdd, Nat.reduceSub,
        List.getD_cons_succ, List.getD_cons_zero]
      have : ieee.sub (.fin 360) (.fin (-(2 : ℚ) ^ (-60 : Int))) = .fin 360 := by
        show round_double (360 - -(2 : ℚ) ^ (-60 : Int)) = _
        rw [sub_neg_eq_add]
        exact round_double_span
      rw [this]
      simp [GT.gt, fin_lt_fin]
  · show ¬ Double.fin (360 - -(2 : ℚ) ^ (-60 : Int)) ≤ Double.fin 360
    rw [fin_le_fin, sub_neg_eq_add]
    simp
    positivity

/-- C9, amended.  Whenever `chk_atm_grids` succeeds with `dim = 3`, every element of
`lat_grid` lies in [-90, 90], every element of `lon_grid` lies in [-360, 360], and the
difference `lon_grid[last] - lon_grid[0]`, as the machine computes it in double
arithmetic, is not greater than 360. -/
theorem chk_atm_grids_3d_ranges (A : Arith) (p_grid lat_grid lon_grid : ConstVectorView)
    (h : chk_atm_grids A 3 p_grid lat_grid lon_grid = .ok ()) :
    (∀ v ∈ lat_grid, Double.fin (-90) ≤ v ∧ v ≤ .fin 90) ∧
    (∀ v ∈ lon_grid, Double.fin (-360) ≤ v ∧ v ≤ .fin 360) ∧
    ¬ A.sub (lon_grid.getD (lon_grid.length - 1) (.fin 0)) (lon_grid.getD 0 (.fin 0)) >
      .fin 360 := by
  obtain ⟨-, ⟨l1, hlat⟩, ⟨l2, hlon⟩, a0, a1, b0, b1, hspan⟩ :=
    (chk_atm_grids_three_iff_d A p_grid lat_grid lon_grid).mp h
  refine ⟨fun v hv => ?_, fun v hv => ?_, hspan⟩
  · obtain ⟨-, h1, h2⟩ := sorted_lt_bounds_d lat_grid hlat l1 v hv
    exact ⟨le_trans_d _ _ _ a0 h1, le_trans_d _ _ _ h2 a1⟩
  · obtain ⟨-, h1, h2⟩ := sorted_lt_bounds_d lon_grid hlon l2 v hv
    exact ⟨le_trans_d _ _ _ b0 h1, le_trans_d _ _ _ h2 b1⟩

/-- C9 on the grids `p = 3, 2, 1`, `lat = -90, 0, 90`, `lon = -180, 0, 180`, in the
arithmetic of IEEE 754: the computed span is 360. -/
theorem chk_atm_grids_3d_ranges_witness :
    (∀ v ∈ ([.fin (-90), .fin 0, .fin 90] : ConstVectorView),
      Double.fin (-90) ≤ v ∧ v ≤ .fin 90) ∧
    (∀ v ∈ ([.fin (-180), .fin 0, .fin 180] : ConstVectorView),
      Double.fin (-360) ≤ v ∧ v ≤ .fin 360) ∧
    ¬ ieee.sub
        (([.fin (-180), .fin 0, .fin 180] : ConstVectorView).getD
          (([.fin (-180), .fin 0, .fin 180] : ConstVectorView).length - 1) (.fin 0))
        (([.fin (-180), .fin 0, .fin 180] : ConstVectorView).getD 0 (.fin 0)) > .fin 360 := by
  have hspan : ieee.sub (.fin 180) (.fin (-180)) = .fin 360 := by
    show round_double (180 - -180) = _
    norm_num [round_double_small.2.2.2]
  refine chk_atm_grids_3d_ranges ieee [.fin 3, .fin 2, .fin 1] [.fin (-90), .fin 0, .fin 90]
    [.fin (-180), .fin 0, .fin 180] ?_
  rw [chk_atm_grids_three_iff_d]
  simp only [List.length_cons, List.length_nil, Nat.reduceAdd, Nat.reduceSub,
    List.getD_cons_succ, List.getD_cons_zero, hspan]
  norm_num [List.Sorted, GT.gt, fin_lt_fin, fin_le_fin]

/-! ## Rank-3 fields over doubles -/

/-- The statement `if (c) throw` either passes, and then `c` does not hold, or throws. -/
theorem throw_if_cases (c : Prop) [Decidable c] (m : Msg) :
    (throw_if c m = .ok () ∧ ¬ c) ∨ (throw_if c m = .error (.runtime_error m) ∧ ¬ ¬ c) := by
  by_cases h : c
  · exact Or.inr ⟨throw_if_pos _ _ h, not_not.mpr h⟩
  · exact Or.inl ⟨throw_if_neg _ _ h, h⟩

/-- Reading a rank-3 view at a position inside its extents. -/
theorem tensor3_elem_ok_d (x : ConstTensor3View) (p r c : Int)
    (hp : 0 ≤ p ∧ p < x.npages) (hr : 0 ≤ r ∧ r < x.nrows) (hc : 0 ≤ c ∧ c < x.ncols) :
    x.elem p r c = .ok (x.data p.toNat r.toNat c.toNat) := by
  unfold ConstTensor3View.elem
  rw [if_pos ⟨hp.1, hp.2, hr.1, hr.2, hc.1, hc.2⟩]

/-- The cyclic check of a rank-3 field: it passes and the test of the last against the
first longitude value holds at no page and row, or it throws the cyclic error and the test
holds somewhere. -/
theorem cyclic_block3_d (A : Arith) (x : ConstTensor3View) (hC : 0 < x.ncols) :
    ((for_index 0 (x.npages : Int) fun ip =>
        for_index 0 (x.nrows : Int) fun ir => do
          throw_if (differ A (← x.elem ip ir ((x.ncols : Int) - 1)) (← x.elem ip ir 0))
            (.not_cyclic none)) = .ok () ∧
      ∀ ip ir : Nat, ip < x.npages → ir < x.nrows →
        ¬ differ A (x.data ip ir (x.ncols - 1)) (x.data ip ir 0)) ∨
    ((for_index 0 (x.npages : Int) fun ip =>
        for_index 0 (x.nrows : Int) fun ir => do
          throw_if (differ A (← x.elem ip ir ((x.ncols : Int) - 1)) (← x.elem ip ir 0))
            (.not_cyclic none)) = .error (.runtime_error (.not_cyclic none)) ∧
      ∃ ip ir : Nat, ip < x.npages ∧ ir < x.nrows ∧
        differ A (x.data ip ir (x.ncols - 1)) (x.data ip ir 0)) := by
  have inner : ∀ ip : Int, 0 ≤ ip → ip < x.npages →
      ((for_index 0 (x.nrows : Int) fun ir => do
          throw_if (differ A (← x.elem ip ir ((x.ncols : Int) - 1)) (← x.elem ip ir 0))
            (.not_cyclic none)) = .ok () ∧
        (∀ ir : Int, 0 ≤ ir → ir < x.nrows →
          ¬ differ A (x.data ip.toNat ir.toNat (x.ncols - 1)) (x.data ip.toNat ir.toNat 0))) ∨
      ((for_index 0 (x.nrows : Int) fun ir => do
          throw_if (differ A (← x.elem ip ir ((x.ncols : Int) - 1)) (← x.elem ip ir 0))
            (.not_cyclic none)) = .error (.runtime_error (.not_cyclic none)) ∧
        ¬ (∀ ir : Int, 0 ≤ ir → ir < x.nrows →
          ¬ differ A (x.data ip.toNat ir.toNat (x.ncols - 1)) (x.data ip.toNat ir.toNat 0))) := by
    intro ip h1 h2
    have := for_index_first 0 (x.nrows : Int) (fun ir => do
          throw_if (differ A (← x.elem ip ir ((x.ncols : Int) - 1)) (← x.elem ip ir 0))
            (.not_cyclic none)) (fun _ => .runtime_error (.not_cyclic none))
        (fun ir => ¬ differ A (x.data ip.toNat ir.toNat (x.ncols - 1)) (x.data ip.toNat ir.toNat 0))
        (by
          intro ir h3 h4
          have e1 := tensor3_elem_ok_d x ip ir ((x.ncols : Int) - 1) ⟨h1, h2⟩ ⟨h3, h4⟩
            ⟨by omega, by omega⟩
          have e2 := tensor3_elem_ok_d x ip ir 0 ⟨h1, h2⟩ ⟨h3, h4⟩ ⟨le_refl 0, by omega⟩
          rw [show ((x.ncols : Int) - 1).toNat = x.ncols - 1 by omega] at e1
          simp only [e1, e2, ok_bind, Int.toNat_zero]
          exact throw_if_cases _ _)
    rcases this with ⟨h, hp⟩ | ⟨j, hj1, hj2, hnp, -, h⟩
    · exact Or.inl ⟨h, hp⟩
    · exact Or.inr ⟨h, fun hall => hnp (hall j hj1 hj2)⟩
  have := for_index_first 0 (x.npages : Int) (fun ip =>
        for_index 0 (x.nrows : Int) fun ir => do
          throw_if (differ A (← x.elem ip ir ((x.ncols : Int) - 1)) (← x.elem ip ir 0))
            (.not_cyclic none)) (fun _ => .runtime_error (.not_cyclic none))
      (fun ip => ∀ ir : Int, 0 ≤ ir → ir < x.nrows →
          ¬ differ A (x.data ip.toNat ir.toNat (x.ncols - 1)) (x.data ip.toNat ir.toNat 0)) inner
  rcases this with ⟨h, hp⟩ | ⟨j, hj1, hj2, hnp, -, h⟩
  · left
    refine ⟨h, fun ip ir h1 h2 => ?_⟩
    have := hp ip (by omega) (by omega) ir (by omega) (by omega)
    simpa using this
  · right
    refine ⟨h, ?_⟩
    by_contra hcon
    apply hnp
    intro ir h1 h2
    by_contra hne
    exact hcon ⟨j.toNat, ir.toNat, by omega, by omega, hne⟩

/-- The pole check of a rank-3 field at row `r`: it passes and the test holds of no two
neighbouring longitude values of that row on any page, or it throws and the test holds of
two neighbours. -/
theorem pole_block3_d (A : Arith) (x : ConstTensor3View) (r : Int)
    (hr : 0 ≤ r ∧ r < x.nrows) (m : Msg) :
    ((for_index 0 (x.npages : Int) fun ip =>
        for_index 1 (x.ncols : Int) fun ic => do
          throw_if (differ A (← x.elem ip r ic) (← x.elem ip r (ic - 1))) m) = .ok () ∧
      ∀ ip ic : Nat, ip < x.npages → 1 ≤ ic → ic < x.ncols →
        ¬ differ A (x.data ip r.toNat ic) (x.data ip r.toNat (ic - 1))) ∨
    ((for_index 0 (x.npages : Int) fun ip =>
        for_index 1 (x.ncols : Int) fun ic => do
          throw_if (differ A (← x.elem ip r ic) (← x.elem ip r (ic - 1))) m) =
        .error (.runtime_error m) ∧
      ∃ ip ic : Nat, ip < x.npages ∧ 1 ≤ ic ∧ ic < x.ncols ∧
        differ A (x.data ip r.toNat ic) (x.data ip r.toNat (ic - 1))) := by
  have inner : ∀ ip : Int, 0 ≤ ip → ip < x.npages →
      ((for_index 1 (x.ncols : Int) fun ic => do
          throw_if (differ A (← x.elem ip r ic) (← x.elem ip r (ic - 1))) m) = .ok () ∧
        (∀ ic : Int, 1 ≤ ic → ic < x.ncols →
          ¬ differ A (x.data ip.toNat r.toNat ic.toNat) (x.data ip.toNat r.toNat (ic - 1).toNat))) ∨
      ((for_index 1 (x.ncols : Int) fun ic => do
          throw_if (differ A (← x.elem ip r ic) (← x.elem ip r (ic - 1))) m) =
          .error (.runtime_error m) ∧
        ¬ (∀ ic : Int, 1 ≤ ic → ic < x.ncols →
          ¬ differ A (x.data ip.toNat r.toNat ic.toNat)
            (x.data ip.toNat r.toNat (ic - 1).toNat))) := by
    intro ip h1 h2
    have := for_index_first 1 (x.ncols : Int) (fun ic => do
          throw_if (differ A (← x.elem ip r ic) (← x.elem ip r (ic - 1))) m)
        (fun _ => .runtime_error m)
        (fun ic => ¬ differ A (x.data ip.toNat r.toNat ic.toNat)
          (x.data ip.toNat r.toNat (ic - 1).toNat))
        (by
          intro ic h3 h4
          have e1 := tensor3_elem_ok_d x ip r ic ⟨h1, h2⟩ hr ⟨by omega, h4⟩
          have e2 := tensor3_elem_ok_d x ip r (ic - 1) ⟨h1, h2⟩ hr ⟨by omega, by omega⟩
          simp only [e1, e2, ok_bind]
          exact throw_if_cases _ _)
    rcases this with ⟨h, hp⟩ | ⟨j, hj1, hj2, hnp, -, h⟩
    · exact Or.inl ⟨h, hp⟩
    · exact Or.inr ⟨h, fun hall => hnp (hall j hj1 hj2)⟩
  have := for_index_first 0 (x.npages : Int) (fun ip =>
        for_index 1 (x.ncols : Int) fun ic => do
          throw_if (differ A (← x.elem ip r ic) (← x.elem ip r (ic - 1))) m)
      (fun _ => .runtime_error m)
      (fun ip => ∀ ic : Int, 1 ≤ ic → ic < x.ncols →
          ¬ differ A (x.data ip.toNat r.toNat ic.toNat)
            (x.data ip.toNat r.toNat (ic - 1).toNat)) inner
  rcases this with ⟨h, hp⟩ | ⟨j, hj1, hj2, hnp, -, h⟩
  · left
    refine ⟨h, fun ip ic h1 h2 h3 => ?_⟩
    have := hp ip (by omega) (by omega) ic (by omega) (by omega)
    rw [show ((ic : Int) - 1).toNat = ic - 1 by omega] at this
    simpa using this
  · right
    refine ⟨h, ?_⟩
    by_contra hcon
    apply hnp
    intro ic h1 h2
    by_contra hne
    refine hcon ⟨j.toNat, ic.toNat, by omega, by omega, by omega, ?_⟩
    rw [show ic.toNat - 1 = (ic - 1).toNat by omega]
    exact hne

/-- The rank-3 `chk_atm_field` for `dim = 3` on a field of the expected shape and
non-empty latitude and longitude grids: which of its four outcomes it has.  The cyclic
check comes first, then the South pole, then the North pole. -/
theorem chk_atm_field_3d_cases_d (A : Arith) (x : ConstTensor3View)
    (p_grid lat_grid lon_grid : ConstVectorView)
    (hs : x.npages = p_grid.length ∧ x.nrows = lat_grid.length ∧ x.ncols = lon_grid.length)
    (hlat : 0 < lat_grid.length) (hlon : 0 < lon_grid.length) :
    (A.sub (lon_grid.getD (lon_grid.length - 1) (.fin 0)) (lon_grid.getD 0 (.fin 0)) = .fin 360 →
      (∃ ip ir : Nat, ip < x.npages ∧ ir < x.nrows ∧
        differ A (x.data ip ir (x.ncols - 1)) (x.data ip ir 0)) →
      chk_atm_field A x 3 p_grid lat_grid lon_grid =
        .error (.runtime_error (.not_cyclic none))) ∧
    ((A.sub (lon_grid.getD (lon_grid.length - 1) (.fin 0)) (lon_grid.getD 0 (.fin 0)) = .fin 360 →
        ∀ ip ir : Nat, ip < x.npages → ir < x.nrows →
          ¬ differ A (x.data ip ir (x.ncols - 1)) (x.data ip ir 0)) →
      lat_grid.getD 0 (.fin 0) = .fin (-90) →
      (∃ ip ic : Nat, ip < x.npages ∧ 1 ≤ ic ∧ ic < x.ncols ∧
        differ A (x.data ip 0 ic) (x.data ip 0 (ic - 1))) →
      chk_atm_field A x 3 p_grid lat_grid lon_grid =
        .error (.runtime_error (.south_pole none))) ∧
    ((A.sub (lon_grid.getD (lon_grid.length - 1) (.fin 0)) (lon_grid.getD 0 (.fin 0)) = .fin 360 →
        ∀ ip ir : Nat, ip < x.npages → ir < x.nrows →
          ¬ differ A (x.data ip ir (x.ncols - 1)) (x.data ip ir 0)) →
      (lat_grid.getD 0 (.fin 0) = .fin (-90) →
        ∀ ip ic : Nat, ip < x.npages → 1 ≤ ic → ic < x.ncols →
          ¬ differ A (x.data ip 0 ic) (x.data ip 0 (ic - 1))) →
      lat_grid.getD (lat_grid.length - 1) (.fin 0) = .fin 90 →
      (∃ ip ic : Nat, ip < x.npages ∧ 1 ≤ ic ∧ ic < x.ncols ∧
        differ A (x.data ip (x.nrows - 1) ic) (x.data ip (x.nrows - 1) (ic - 1))) →
      chk_atm_field A x 3 p_grid lat_grid lon_grid =
        .error (.runtime_error (.north_pole none))) ∧
    ((A.sub (lon_grid.getD (lon_grid.length - 1) (.fin 0)) (lon_grid.getD 0 (.fin 0)) = .fin 360 →
        ∀ ip ir : Nat, ip < x.npages → ir < x.nrows →
          ¬ differ A (x.data ip ir (x.ncols - 1)) (x.data ip ir 0)) →
      (lat_grid.getD 0 (.fin 0) = .fin (-90) →
        ∀ ip ic : Nat, ip < x.npages → 1 ≤ ic → ic < x.ncols →
          ¬ differ A (x.data ip 0 ic) (x.data ip 0 (ic - 1))) →
      (lat_grid.getD (lat_grid.length - 1) (.fin 0) = .fin 90 →
        ∀ ip ic : Nat, ip < x.npages → 1 ≤ ic → ic < x.ncols →
          ¬ differ A (x.data ip (x.nrows - 1) ic) (x.data ip (x.nrows - 1) (ic - 1))) →
      chk_atm_field A x 3 p_grid lat_grid lon_grid = .ok ()) := by
  obtain ⟨h1, h2, h3⟩ := hs
  have i0 := index_zero_d lon_grid hlon
  have i1 := index_nelem_sub_d lon_grid 1 (by omega) (by omega)
  have j0 := index_zero_d lat_grid hlat
  have j1 := index_nelem_sub_d lat_grid 1 (by omega) (by omega)
  simp only [Nat.cast_one, nelem] at i1 j1
  have hc := cyclic_block3_d A x (by omega)
  have hsp := pole_block3_d A x 0 ⟨le_refl 0, by omega⟩ (.south_pole none)
  have hnp := pole_block3_d A x ((x.nrows : Int) - 1) ⟨by omega, by omega⟩ (.north_pole none)
  rw [show ((x.nrows : Int) - 1).toNat = x.nrows - 1 by omega] at hnp
  simp only [Int.toNat_zero] at hsp
  have h2' : lat_grid.length = x.nrows := h2.symm
  have h3' : lon_grid.length = x.ncols := h3.symm
  simp only [h2', h3'] at i1 j1 ⊢
  have unfolded : chk_atm_field A x 3 p_grid lat_grid lon_grid =
      (do
        (if A.sub (lon_grid.getD (x.ncols - 1) (.fin 0)) (lon_grid.getD 0 (.fin 0)) = .fin 360 then
          for_index 0 (x.npages : Int) fun ip =>
            for_index 0 (x.nrows : Int) fun ir => do
              throw_if (differ A (← x.elem ip ir ((x.ncols : Int) - 1)) (← x.elem ip ir 0))
                (.not_cyclic none)
        else pure ())
        (if lat_grid.getD 0 (.fin 0) = .fin (-90) then
          for_index 0 (x.npages : Int) fun ip =>
            for_index 1 (x.ncols : Int) fun ic => do
              throw_if (differ A (← x.elem ip 0 ic) (← x.elem ip 0 (ic - 1)))
                (.south_pole none)
        else pure ())
        (if lat_grid.getD (x.nrows - 1) (.fin 0) = .fin 90 then
          for_index 0 (x.npages : Int) fun ip =>
            for_index 1 (x.ncols : Int) fun ic => do
              throw_if (differ A (← x.elem ip ((x.nrows : Int) - 1) ic)
                (← x.elem ip ((x.nrows : Int) - 1) (ic - 1)))
                (.north_pole none)
        else pure ())) := by
    unfold chk_atm_field
    simp only [show (3 : Index) > 1 by decide, show (3 : Index) > 2 by decide, if_true]
    rw [throw_if_neg _ _ (by simp [nelem, h1, h2, h3])]
    simp only [nelem, ← h1, h2', h3', ok_bind, i0, i1, j0, j1]
  rw [unfolded]
  refine ⟨?_, ?_, ?_, ?_⟩
  · intro hspan hex
    rcases hc with ⟨-, hall⟩ | ⟨hblk, -⟩
    · obtain ⟨ip, ir, a, b, hne⟩ := hex
      exact absurd hne (hall ip ir a b)
    · rw [if_pos hspan, hblk]
      rfl
  · intro hcyc hpole hex
    have e1 : (if A.sub (lon_grid.getD (x.ncols - 1) (.fin 0)) (lon_grid.getD 0 (.fin 0)) =
        .fin 360 then
          for_index 0 (x.npages : Int) fun ip =>
            for_index 0 (x.nrows : Int) fun ir => do
              throw_if (differ A (← x.elem ip ir ((x.ncols : Int) - 1)) (← x.elem ip ir 0))
                (.not_cyclic none)
        else pure ()) = .ok () := by
      split_ifs with hspan
      · rcases hc with ⟨hblk, -⟩ | ⟨-, ip, ir, a, b, hne⟩
        · exact hblk
        · exact absurd hne (hcyc hspan ip ir a b)
      · rfl
    rw [e1, if_pos hpole]
    rcases hsp with ⟨-, hall⟩ | ⟨hblk, -⟩
    · obtain ⟨ip, ic, a, b, c, hne⟩ := hex
      exact absurd hne (hall ip ic a b c)
    · rw [hblk]
      rfl
  · intro hcyc hsouth hpole hex
    have e1 : (if A.sub (lon_grid.getD (x.ncols - 1) (.fin 0)) (lon_grid.getD 0 (.fin 0)) =
        .fin 360 then
          for_index 0 (x.npages : Int) fun ip =>
            for_index 0 (x.nrows : Int) fun ir => do
              throw_if (differ A (← x.elem ip ir ((x.ncols : Int) - 1)) (← x.elem ip ir 0))
                (.not_cyclic none)
        else pure ()) = .ok () := by
      split_ifs with hspan
      · rcases hc with ⟨hblk, -⟩ | ⟨-, ip, ir, a, b, hne⟩
        · exact hblk
        · exact absurd hne (hcyc hspan ip ir a b)
      · rfl
    have e2 : (if lat_grid.getD 0 (.fin 0) = .fin (-90) then
          for_index 0 (x.npages : Int) fun ip =>
            for_index 1 (x.ncols : Int) fun ic => do
              throw_if (differ A (← x.elem ip 0 ic) (← x.elem ip 0 (ic - 1)))
                (.south_pole none)
        else pure ()) = .ok () := by
      split_ifs with hp
      · rcases hsp with ⟨hblk, -⟩ | ⟨-, ip, ic, a, b, c, hne⟩
        · exact hblk
        · exact absurd hne (hsouth hp ip ic a b c)
      · rfl
    rw [e1, e2, if_pos hpole]
    rcases hnp with ⟨-, hall⟩ | ⟨hblk, -⟩
    · obtain ⟨ip, ic, a, b, c, hne⟩ := hex
      exact absurd hne (hall ip ic a b c)
    · rw [hblk]
      rfl
  · intro hcyc hsouth hnorth
    have e1 : (if A.sub (lon_grid.getD (x.ncols - 1) (.fin 0)) (lon_grid.getD 0 (.fin 0)) =
        .fin 360 then
          for_index 0 (x.npages : Int) fun ip =>
            for_index 0 (x.nrows : Int) fun ir => do
              throw_if (differ A (← x.elem ip ir ((x.ncols : Int) - 1)) (← x.elem ip ir 0))
                (.not_cyclic none)
        else pure ()) = .ok () := by
      split_ifs with hspan
      · rcases hc with ⟨hblk, -⟩ | ⟨-, ip, ir, a, b, hne⟩
        · exact hblk
        · exact absurd hne (hcyc hspan ip ir a b)
      · rfl
    have e2 : (if lat_grid.getD 0 (.fin 0) = .fin (-90) then
          for_index 0 (x.npages : Int) fun ip =>
            for_index 1 (x.ncols : Int) fun ic => do
              throw_if (differ A (← x.elem ip 0 ic) (← x.elem ip 0 (ic - 1)))
                (.south_pole none)
        else pure ()) = .ok () := by
      split_ifs with hp
      · rcases hsp with ⟨hblk, -⟩ | ⟨-, ip, ic, a, b, c, hne⟩
        · exact hblk
        · exact absurd hne (hsouth hp ip ic a b c)
      · rfl
    rw [e1, e2]
    split_ifs with hp
    · rcases hnp with ⟨hblk, -⟩ | ⟨-, ip, ic, a, b, c, hne⟩
      · rw [hblk]
        rfl
      · exact absurd hne (hnorth hp ip ic a b c)
    · rfl

/-- Grids accepted by `chk_atm_grids` for `dim = 3` are not empty. -/
theorem chk_atm_grids_three_nonempty_d (A : Arith) (p_grid lat_grid lon_grid : ConstVectorView)
    (hg : chk_atm_grids A 3 p_grid lat_grid lon_grid = .ok ()) :
    0 < lat_grid.length ∧ 0 < lon_grid.length := by
  obtain ⟨-, ⟨h1, -⟩, ⟨h2, -⟩, -⟩ := (chk_atm_grids_three_iff_d A p_grid lat_grid lon_grid).mp hg
  exact ⟨by omega, by omega⟩

/-- The rank-3 `chk_atm_field` for `dim = 3` on a field of the expected shape and
non-empty latitude and longitude grids succeeds exactly when the three conditions hold;
otherwise it throws. -/
theorem chk_atm_field_3d_ok_iff_d (A : Arith) (x : ConstTensor3View)
    (p_grid lat_grid lon_grid : ConstVectorView)
    (hs : x.npages = p_grid.length ∧ x.nrows = lat_grid.length ∧ x.ncols = lon_grid.length)
    (hlat : 0 < lat_grid.length) (hlon : 0 < lon_grid.length) :
    (chk_atm_field A x 3 p_grid lat_grid lon_grid = .ok () ↔
      (A.sub (lon_grid.getD (lon_grid.length - 1) (.fin 0)) (lon_grid.getD 0 (.fin 0)) = .fin 360 →
        ∀ ip ir : Nat, ip < x.npages → ir < x.nrows →
          ¬ differ A (x.data ip ir (x.ncols - 1)) (x.data ip ir 0)) ∧
      (lat_grid.getD 0 (.fin 0) = .fin (-90) →
        ∀ ip ic : Nat, ip < x.npages → 1 ≤ ic → ic < x.ncols →
          ¬ differ A (x.data ip 0 ic) (x.data ip 0 (ic - 1))) ∧
      (lat_grid.getD (lat_grid.length - 1) (.fin 0) = .fin 90 →
        ∀ ip ic : Nat, ip < x.npages → 1 ≤ ic → ic < x.ncols →
          ¬ differ A (x.data ip (x.nrows - 1) ic) (x.data ip (x.nrows - 1) (ic - 1)))) ∧
    (chk_atm_field A x 3 p_grid lat_grid lon_grid = .ok () ∨
      fails (chk_atm_field A x 3 p_grid lat_grid lon_grid)) := by
  obtain ⟨hA, hB, hC, hD⟩ := chk_atm_field_3d_cases_d A x p_grid lat_grid lon_grid hs hlat hlon
  by_cases c1 : A.sub (lon_grid.getD (lon_grid.length - 1) (.fin 0)) (lon_grid.getD 0 (.fin 0)) =
      .fin 360 →
      ∀ ip ir : Nat, ip < x.npages → ir < x.nrows →
        ¬ differ A (x.data ip ir (x.ncols - 1)) (x.data ip ir 0)
  swap
  · have hspan : A.sub (lon_grid.getD (lon_grid.length - 1) (.fin 0)) (lon_grid.getD 0 (.fin 0)) =
      .fin 360 := by
      by_contra hn; exact c1 (fun h => absurd h hn)
    have hex : ∃ ip ir : Nat, ip < x.npages ∧ ir < x.nrows ∧
        differ A (x.data ip ir (x.ncols - 1)) (x.data ip ir 0) := by
      by_contra hn
      apply c1
      intro _ ip ir a b
      intro hne
      exact hn ⟨ip, ir, a, b, hne⟩
    have he := hA hspan hex
    rw [he]
    exact ⟨⟨fun h => (by cases h), fun h => absurd h.1 c1⟩, Or.inr ⟨_, rfl⟩⟩
  by_cases c2 : lat_grid.getD 0 (.fin 0) = .fin (-90) →
      ∀ ip ic : Nat, ip < x.npages → 1 ≤ ic → ic < x.ncols →
        ¬ differ A (x.data ip 0 ic) (x.data ip 0 (ic - 1))
  swap
  · have hpole : lat_grid.getD 0 (.fin 0) = .fin (-90) := by
      by_contra hn; exact c2 (fun h => absurd h hn)
    have hex : ∃ ip ic : Nat, ip < x.npages ∧ 1 ≤ ic ∧ ic < x.ncols ∧
        differ A (x.data ip 0 ic) (x.data ip 0 (ic - 1)) := by
      by_contra hn
      apply c2
      intro _ ip ic a b c
      intro hne
      exact hn ⟨ip, ic, a, b, c, hne⟩
    have he := hB c1 hpole hex
    rw [he]
    exact ⟨⟨fun h => (by cases h), fun h => absurd h.2.1 c2⟩, Or.inr ⟨_, rfl⟩⟩
  by_cases c3 : lat_grid.getD (lat_grid.length - 1) (.fin 0) = .fin 90 →
      ∀ ip ic : Nat, ip < x.npages → 1 ≤ ic → ic < x.ncols →
        ¬ differ A (x.data ip (x.nrows - 1) ic) (x.data ip (x.nrows - 1) (ic - 1))
  swap
  · have hpole : lat_grid.getD (lat_grid.length - 1) (.fin 0) = .fin 90 := by
      by_contra hn; exact c3 (fun h => absurd h hn)
    have hex : ∃ ip ic : Nat, ip < x.npages ∧ 1 ≤ ic ∧ ic < x.ncols ∧
        differ A (x.data ip (x.nrows - 1) ic) (x.data ip (x.nrows - 1) (ic - 1)) := by
      by_contra hn
      apply c3
      intro _ ip ic a b c
      intro hne
      exact hn ⟨ip, ic, a, b, c, hne⟩
    have he := hC c1 c2 hpole hex
    rw [he]
    exact ⟨⟨fun h => (by cases h), fun h => absurd h.2.2 c3⟩, Or.inr ⟨_, rfl⟩⟩
  have he := hD c1 c2 c3
  exact ⟨⟨fun _ => ⟨c1, c2, c3⟩, fun _ => he⟩, Or.inl he⟩

/-- In the arithmetic of IEEE 754 the test `fabs(a - b) > 0` holds only of two different
values that are both numbers. -/
theorem differ_ieee_imp (a b : Double) (h : differ ieee a b) :
    a ≠ .nan ∧ b ≠ .nan ∧ a ≠ b := by
  refine ⟨?_, ?_, ?_⟩
  · rintro rfl
    have : ieee.sub .nan b = .nan := by
      cases b <;> rfl
    unfold differ at h
    rw [this] at h
    exact not_lt_nan _ h
  · rintro rfl
    have : ieee.sub a .nan = .nan := by
      cases a <;> rfl
    unfold differ at h
    rw [this] at h
    exact not_lt_nan _ h
  · rintro rfl
    unfold differ at h
    cases a with
    | nan => exact not_lt_nan _ h
    | neg_inf => exact not_lt_nan _ h
    | pos_inf => exact not_lt_nan _ h
    | fin q =>
      have : ieee.sub (.fin q) (.fin q) = .fin 0 := by
        show round_double (q - q) = _
        simp [round_double]
      rw [this] at h
      have h2 : Double.fin 0 < Double.fin |0| := h
      rw [fin_lt_fin] at h2
      simp at h2

/-- In the arithmetic of IEEE 754 no value is told apart from itself. -/
theorem not_differ_self_ieee (a : Double) : ¬ differ ieee a a :=
  fun h => (differ_ieee_imp a a h).2.2 rfl

/-- A value that is not a number is told apart from no value. -/
theorem not_differ_nan_ieee (b : Double) : ¬ differ ieee .nan b ∧ ¬ differ ieee b .nan :=
  ⟨fun h => (differ_ieee_imp _ _ h).1 rfl, fun h => (differ_ieee_imp _ _ h).2.1 rfl⟩

/-- Two finite values are told apart when their difference is rounded to a value other
than 0. -/
theorem differ_ieee_of_round (a b r : ℚ) (h : round_double (a - b) = .fin r) (hr : r ≠ 0) :
    differ ieee (.fin a) (.fin b) := by
  show Double.fin 0 < (round_double (a - b)).abs
  rw [h]
  show Double.fin 0 < Double.fin |r|
  rw [fin_lt_fin]
  exact abs_pos.mpr hr

/-- In arithmetic without rounding the test holds exactly of two different values that
are both numbers. -/
theorem differ_unrounded_iff (a b : Double) :
    differ unrounded a b ↔ a ≠ .nan ∧ b ≠ .nan ∧ a ≠ b := by
  show Double.blt (.fin 0) (Double.sub_exact a b).abs = true ↔ _
  cases a <;> cases b <;>
    simp [Double.sub_exact, Double.abs, Double.blt, sub_eq_zero]

/-- The difference of 360 and `2 ^ (-45)` lies half-way between two doubles and is rounded
to the even one, 360. -/
theorem round_double_tie : round_double (360 - (2 : ℚ) ^ (-45 : Int)) = .fin 360 := by
  have hl : Int.log 2 |(360 - (2 : ℚ) ^ (-45 : Int))| = 8 := by
    apply log_eq
    · rw [abs_of_pos (by norm_num)]; norm_num
    · rw [abs_of_pos (by norm_num)]; norm_num
  unfold round_double ulp
  rw [hl]
  norm_num [round_half_even]

/-! ## Cyclic closure and the poles of a rank-3 field over doubles -/

/-- C11, as stated, fails on the code.  On grids accepted by `chk_atm_grids` with the
longitude grid -180, 180, whose span the machine computes as 360, a field of the expected
shape that holds 1 in the first longitude column and a value that is not a number in the
last one has different first and last values at every page and row; yet the test
`fabs(x(ip,ir,last) - x(ip,ir,0)) > 0` holds nowhere and the check succeeds. -/
theorem chk_atm_field_cyclic_counterexample :
    chk_atm_grids ieee 3 [.fin 2, .fin 1] [.fin 0, .fin 1] [.fin (-180), .fin 180] = .ok () ∧
    unrounded.sub (.fin 180) (.fin (-180)) = .fin 360 ∧
    ieee.sub (.fin 180) (.fin (-180)) = .fin 360 ∧
    (ConstTensor3View.mk 2 2 2 fun _ _ c => if c = 1 then .nan else .fin 1).data 0 0 1 ≠
      (ConstTensor3View.mk 2 2 2 fun _ _ c => if c = 1 then .nan else .fin 1).data 0 0 0 ∧
    chk_atm_field ieee ⟨2, 2, 2, fun _ _ c => if c = 1 then .nan else .fin 1⟩ 3
      [.fin 2, .fin 1] [.fin 0, .fin 1] [.fin (-180), .fin 180] = .ok () := by
  have hspan : ieee.sub (.fin 180) (.fin (-180)) = .fin 360 := by
    show round_double (180 - -180) = _
    norm_num [round_double_small.2.2.2]
  have hexact : unrounded.sub (.fin 180) (.fin (-180)) = .fin 360 := by
    show Double.fin (180 - -180) = _
    norm_num
  refine ⟨?_, hexact, hspan, by simp, ?_⟩
  · rw [chk_atm_grids_three_iff_d]
    simp only [List.length_cons, List.length_nil, Nat.reduceAdd, Nat.reduceSub,
      List.getD_cons_succ, List.getD_cons_zero, hspan]
    norm_num [List.Sorted, GT.gt, fin_lt_fin, fin_le_fin]
  · refine (chk_atm_field_3d_cases_d ieee ⟨2, 2, 2, fun _ _ c => if c = 1 then .nan else .fin 1⟩
      [.fin 2, .fin 1] [.fin 0, .fin 1] [.fin (-180), .fin 180] ⟨rfl, rfl, rfl⟩ (by simp)
      (by simp)).2.2.2 ?_ ?_ ?_
    · intro _ ip ir _ _
      exact (not_differ_nan_ieee _).1
    · intro h
      simp at h
    · intro h
      simp at h

/-- The cyclic closure in terms of the test of the code.  For `dim = 3`, grids accepted by
`chk_atm_grids` for which the machine computes `lon_grid[last] - lon_grid[0]` as 360, and
a rank-3 field of the expected shape: `chk_atm_field` fails with the cyclic-mismatch error
whenever there is a page and row at which the test `fabs(x(ip,ir,last) - x(ip,ir,0)) > 0`
holds; hence on success the test holds at no page and row. -/
theorem chk_atm_field_cyclic_tests (A : Arith) (x : ConstTensor3View)
    (p_grid lat_grid lon_grid : ConstVectorView)
    (hg : chk_atm_grids A 3 p_grid lat_grid lon_grid = .ok ())
    (hs : x.npages = p_grid.length ∧ x.nrows = lat_grid.length ∧ x.ncols = lon_grid.length)
    (hspan : A.sub (lon_grid.getD (lon_grid.length - 1) (.fin 0)) (lon_grid.getD 0 (.fin 0)) =
      .fin 360) :
    ((∃ ip ir : Nat, ip < x.npages ∧ ir < x.nrows ∧
        differ A (x.data ip ir (x.ncols - 1)) (x.data ip ir 0)) →
      chk_atm_field A x 3 p_grid lat_grid lon_grid =
        .error (.runtime_error (.not_cyclic none))) ∧
    (chk_atm_field A x 3 p_grid lat_grid lon_grid = .ok () →
      ∀ ip ir : Nat, ip < x.npages → ir < x.nrows →
        ¬ differ A (x.data ip ir (x.ncols - 1)) (x.data ip ir 0)) := by
  obtain ⟨hlat, hlon⟩ := chk_atm_grids_three_nonempty_d A p_grid lat_grid lon_grid hg
  have hA := (chk_atm_field_3d_cases_d A x p_grid lat_grid lon_grid hs hlat hlon).1 hspan
  refine ⟨hA, fun hok ip ir h1 h2 hne => ?_⟩
  rw [hA ⟨ip, ir, h1, h2, hne⟩] at hok
  cases hok

/-- C12, as stated, fails on the code.  With the latitude grid starting at -90 and a
field of the expected shape whose first latitude row holds 1, a value that is not a
number, and 3, the row is not constant across longitude; yet neither neighbouring pair
passes the test `fabs(x(ip,0,ic) - x(ip,0,ic-1)) > 0` and the check succeeds. -/
theorem chk_atm_field_poles_counterexample :
    (ConstTensor3View.mk 2 2 3 fun _ _ c => if c = 1 then .nan else .fin (c + 1)).data 0 0 2 ≠
      (ConstTensor3View.mk 2 2 3 fun _ _ c => if c = 1 then .nan else .fin (c + 1)).data 0 0 0 ∧
    chk_atm_field ieee ⟨2, 2, 3, fun _ _ c => if c = 1 then .nan else .fin (c + 1)⟩ 3
      [.fin 2, .fin 1] [.fin (-90), .fin 0] [.fin 0, .fin 10, .fin 20] = .ok () := by
  have hspan : ieee.sub (.fin 20) (.fin 0) = .fin 20 := by
    show round_double (20 - 0) = _
    norm_num [round_double_small.2.2.1]
  refine ⟨by norm_num, ?_⟩
  refine (chk_atm_field_3d_cases_d ieee
    ⟨2, 2, 3, fun _ _ c => if c = 1 then .nan else .fin (c + 1)⟩
    [.fin 2, .fin 1] [.fin (-90), .fin 0] [.fin 0, .fin 10, .fin 20] ⟨rfl, rfl, rfl⟩ (by simp)
    (by simp)).2.2.2 ?_ ?_ ?_
  · intro h
    simp only [List.length_cons, List.length_nil, Nat.reduceAdd, Nat.reduceSub,
      List.getD_cons_succ, List.getD_cons_zero, hspan] at h
    simp at h
  · intro _ ip ic _ h1 h2
    have hc : ic = 1 ∨ ic = 2 := by
      have : ic < 3 := h2
      omega
    rcases hc with rfl | rfl
    · exact (not_differ_nan_ieee _).1
    · exact (not_differ_nan_ieee _).2
  · intro h
    simp at h

/-- The poles in terms of the test of the code.  For `dim = 3` and a rank-3 field of the
expected shape: if `chk_atm_field` succeeds and `lat_grid[0] = -90`, then at the first
latitude row the test `fabs(x(ip,0,ic) - x(ip,0,ic-1)) > 0` holds for no page `ip` and no
longitude position `ic >= 1`; if it succeeds and `lat_grid[last] = 90`, the same holds at
the last latitude row; and a field for which the test holds somewhere at such a row is
rejected. -/
theorem chk_atm_field_poles_tests (A : Arith) (x : ConstTensor3View)
    (p_grid lat_grid lon_grid : ConstVectorView)
    (hs : x.npages = p_grid.length ∧ x.nrows = lat_grid.length ∧ x.ncols = lon_grid.length) :
    (chk_atm_field A x 3 p_grid lat_grid lon_grid = .ok () →
      lat_grid.getD 0 (.fin 0) = .fin (-90) →
      ∀ ip ic : Nat, ip < x.npages → 1 ≤ ic → ic < x.ncols →
        ¬ differ A (x.data ip 0 ic) (x.data ip 0 (ic - 1))) ∧
    (chk_atm_field A x 3 p_grid lat_grid lon_grid = .ok () →
      lat_grid.getD (lat_grid.length - 1) (.fin 0) = .fin 90 →
      ∀ ip ic : Nat, ip < x.npages → 1 ≤ ic → ic < x.ncols →
        ¬ differ A (x.data ip (x.nrows - 1) ic) (x.data ip (x.nrows - 1) (ic - 1))) ∧
    (lat_grid.getD 0 (.fin 0) = .fin (-90) →
      (∃ ip ic : Nat, ip < x.npages ∧ 1 ≤ ic ∧ ic < x.ncols ∧
        differ A (x.data ip 0 ic) (x.data ip 0 (ic - 1))) →
      fails (chk_atm_field A x 3 p_grid lat_grid lon_grid)) ∧
    (lat_grid.getD (lat_grid.length - 1) (.fin 0) = .fin 90 →
      (∃ ip ic : Nat, ip < x.npages ∧ 1 ≤ ic ∧ ic < x.ncols ∧
        differ A (x.data ip (x.nrows - 1) ic) (x.data ip (x.nrows - 1) (ic - 1))) →
      fails (chk_atm_field A x 3 p_grid lat_grid lon_grid)) := by
  have hlat_of : ∀ i : Nat, ∀ v : ℚ, v ≠ 0 → lat_grid.getD i (.fin 0) = .fin v →
      0 < lat_grid.length := by
    intro i v hv h
    rcases Nat.eq_zero_or_pos lat_grid.length with h0 | h0
    · rw [List.length_eq_zero.mp h0] at h
      simp at h
      exact absurd h.symm hv
    · exact h0
  have hlon_of : ∀ ic : Nat, ic < x.ncols → 0 < lon_grid.length := by
    intro ic h
    rw [← hs.2.2]
    omega
  refine ⟨?_, ?_, ?_, ?_⟩
  · intro hok hp ip ic h1 h2 h3
    have hlat := hlat_of 0 (-90) (by norm_num) hp
    have hlon := hlon_of ic h3
    exact ((chk_atm_field_3d_ok_iff_d A x p_grid lat_grid lon_grid hs hlat hlon).1.mp hok).2.1
      hp ip ic h1 h2 h3
  · intro hok hp ip ic h1 h2 h3
    have hlat := hlat_of _ 90 (by norm_num) hp
    have hlon := hlon_of ic h3
    exact ((chk_atm_field_3d_ok_iff_d A x p_grid lat_grid lon_grid hs hlat hlon).1.mp hok).2.2
      hp ip ic h1 h2 h3
  · rintro hp ⟨ip, ic, h1, h2, h3, hne⟩
    have hlat := hlat_of 0 (-90) (by norm_num) hp
    have hlon := hlon_of ic h3
    obtain ⟨hiff, hor⟩ := chk_atm_field_3d_ok_iff_d A x p_grid lat_grid lon_grid hs hlat hlon
    rcases hor with hok | hf
    · exact absurd hne ((hiff.mp hok).2.1 hp ip ic h1 h2 h3)
    · exact hf
  · rintro hp ⟨ip, ic, h1, h2, h3, hne⟩
    have hlat := hlat_of _ 90 (by norm_num) hp
    have hlon := hlon_of ic h3
    obtain ⟨hiff, hor⟩ := chk_atm_field_3d_ok_iff_d A x p_grid lat_grid lon_grid hs hlat hlon
    rcases hor with hok | hf
    · exact absurd hne ((hiff.mp hok).2.2 hp ip ic h1 h2 h3)
    · exact hf

/-- C13, as stated, fails on the code.  The longitude grid -180, 0, `180 - 2 ^ (-45)` is
accepted by `chk_atm_grids` and its span `360 - 2 ^ (-45)` is not 360, the latitude grid
0, 1 touches no pole, so the three conditions of the claim hold of every field of the
expected shape; but the machine rounds the span to 360, the cyclic check runs, and a
field whose values are the longitude positions fails with the cyclic-mismatch error. -/
theorem chk_atm_field_3d_sufficient_counterexample :
    chk_atm_grids ieee 3 [.fin 2, .fin 1] [.fin 0, .fin 1]
      [.fin (-180), .fin 0, .fin (180 - (2 : ℚ) ^ (-45 : Int))] = .ok () ∧
    unrounded.sub (.fin (180 - (2 : ℚ) ^ (-45 : Int))) (.fin (-180)) ≠ .fin 360 ∧
    Double.fin 0 ≠ .fin (-90) ∧ Double.fin 1 ≠ .fin 90 ∧
    chk_atm_field ieee ⟨2, 2, 3, fun _ _ c => .fin c⟩ 3 [.fin 2, .fin 1] [.fin 0, .fin 1]
      [.fin (-180), .fin 0, .fin (180 - (2 : ℚ) ^ (-45 : Int))] =
      .error (.runtime_error (.not_cyclic none)) := by
  have hspan : ieee.sub (.fin (180 - (2 : ℚ) ^ (-45 : Int))) (.fin (-180)) = .fin 360 := by
    show round_double (180 - (2 : ℚ) ^ (-45 : Int) - -180) = _
    rw [show (180 - (2 : ℚ) ^ (-45 : Int) - -180) = 360 - (2 : ℚ) ^ (-45 : Int) by ring]
    exact round_double_tie
  have hpos : (0 : ℚ) < (2 : ℚ) ^ (-45 : Int) := by positivity
  have hle : (2 : ℚ) ^ (-45 : Int) ≤ 1 := by norm_num
  refine ⟨?_, ?_, by simp, by simp, ?_⟩
  · rw [chk_atm_grids_three_iff_d]
    simp only [List.length_cons, List.length_nil, Nat.reduceAdd, Nat.reduceSub,
      List.getD_cons_succ, List.getD_cons_zero, hspan]
    refine ⟨⟨by simp, by simp [List.Sorted, GT.gt, fin_lt_fin]⟩,
      ⟨by simp, by simp [List.Sorted, fin_lt_fin]⟩, ⟨by simp, ?_⟩,
      by rw [fin_le_fin]; norm_num, by rw [fin_le_fin]; norm_num,
      by rw [fin_le_fin]; norm_num, ?_, by simp [GT.gt, fin_lt_fin]⟩
    · simp only [List.Sorted, List.pairwise_cons, List.mem_cons, List.mem_singleton,
        forall_eq_or_imp, forall_eq, fin_lt_fin, List.not_mem_nil, false_imp_iff,
        implies_true, List.Pairwise.nil, and_true]
      refine ⟨⟨by norm_num, by linarith⟩, by linarith⟩
    · rw [fin_le_fin]
      linarith
  · show Double.fin (180 - (2 : ℚ) ^ (-45 : Int) - -180) ≠ .fin 360
    simp only [ne_eq, Double.fin.injEq]
    linarith
  · refine (chk_atm_field_3d_cases_d ieee ⟨2, 2, 3, fun _ _ c => .fin c⟩ [.fin 2, .fin 1]
      [.fin 0, .fin 1] [.fin (-180), .fin 0, .fin (180 - (2 : ℚ) ^ (-45 : Int))]
      ⟨rfl, rfl, rfl⟩ (by simp) (by simp)).1 ?_ ⟨0, 0, by decide, by decide, ?_⟩
    · simpa using hspan
    · exact differ_ieee_of_round _ _ 2 (by simpa using round_double_small.2.1) (by norm_num)

/-- C13, amended.  In an arithmetic in which no value is told apart from itself by the
test `fabs(a - a) > 0`, as in IEEE 754: for `dim = 3`, grids accepted by `chk_atm_grids`
and a rank-3 field of the expected shape, `chk_atm_field` succeeds whenever (a) the
difference `lon_grid[last] - lon_grid[0]`, as the machine computes it, is not 360 or the
first and last longitude slices are identical, (b) `lat_grid[0]` is not -90 or the first
latitude row is constant across longitude on every page, and (c) `lat_grid[last]` is not
90 or the last latitude row is constant across longitude on every page. -/
theorem chk_atm_field_3d_sufficient (A : Arith) (x : ConstTensor3View)
    (p_grid lat_grid lon_grid : ConstVectorView)
    (hA : ∀ a : Double, ¬ differ A a a)
    (hg : chk_atm_grids A 3 p_grid lat_grid lon_grid = .ok ())
    (hs : x.npages = p_grid.length ∧ x.nrows = lat_grid.length ∧ x.ncols = lon_grid.length)
    (ha : A.sub (lon_grid.getD (lon_grid.length - 1) (.fin 0)) (lon_grid.getD 0 (.fin 0)) ≠
        .fin 360 ∨
      ∀ ip ir : Nat, ip < x.npages → ir < x.nrows →
        x.data ip ir (x.ncols - 1) = x.data ip ir 0)
    (hb : lat_grid.getD 0 (.fin 0) ≠ .fin (-90) ∨
      ∀ ip ic : Nat, ip < x.npages → ic < x.ncols → x.data ip 0 ic = x.data ip 0 0)
    (hc : lat_grid.getD (lat_grid.length - 1) (.fin 0) ≠ .fin 90 ∨
      ∀ ip ic : Nat, ip < x.npages → ic < x.ncols →
        x.data ip (x.nrows - 1) ic = x.data ip (x.nrows - 1) 0) :
    chk_atm_field A x 3 p_grid lat_grid lon_grid = .ok () := by
  obtain ⟨hlat, hlon⟩ := chk_atm_grids_three_nonempty_d A p_grid lat_grid lon_grid hg
  refine (chk_atm_field_3d_ok_iff_d A x p_grid lat_grid lon_grid hs hlat hlon).1.mpr
    ⟨?_, ?_, ?_⟩
  · intro h ip ir h1 h2
    rcases ha with ha | ha
    · exact absurd h ha
    · rw [ha ip ir h1 h2]
      exact hA _
  · intro h ip ic h1 h2 h3
    rcases hb with hb | hb
    · exact absurd h hb
    · rw [hb ip ic h1 h3, hb ip (ic - 1) h1 (by omega)]
      exact hA _
  · intro h ip ic h1 h2 h3
    rcases hc with hc | hc
    · exact absurd h hc
    · rw [hc ip ic h1 h3, hc ip (ic - 1) h1 (by omega)]
      exact hA _

/-- C13 in the arithmetic of IEEE 754, on the longitude grid -180, -90, 0, 90, 180 and
the latitude grid -90, 0, 90 with a field that depends on the page only: the field is
accepted. -/
theorem chk_atm_field_3d_sufficient_witness :
    chk_atm_field ieee ⟨2, 3, 5, fun p _ _ => .fin p⟩ 3 [.fin 2, .fin 1]
      [.fin (-90), .fin 0, .fin 90] [.fin (-180), .fin (-90), .fin 0, .fin 90, .fin 180] =
      .ok () := by
  have hspan : ieee.sub (.fin 180) (.fin (-180)) = .fin 360 := by
    show round_double (180 - -180) = _
    norm_num [round_double_small.2.2.2]
  refine chk_atm_field_3d_sufficient ieee ⟨2, 3, 5, fun p _ _ => .fin p⟩ [.fin 2, .fin 1]
    [.fin (-90), .fin 0, .fin 90] [.fin (-180), .fin (-90), .fin 0, .fin 90, .fin 180]
    not_differ_self_ieee ?_ ⟨rfl, rfl, rfl⟩ (Or.inr (fun _ _ _ _ => rfl))
    (Or.inr (fun _ _ _ _ => rfl)) (Or.inr (fun _ _ _ _ => rfl))
  rw [chk_atm_grids_three_iff_d]
  simp only [List.length_cons, List.length_nil, Nat.reduceAdd, Nat.reduceSub,
    List.getD_cons_succ, List.getD_cons_zero, hspan]
  norm_num [List.Sorted, GT.gt, fin_lt_fin, fin_le_fin]

/-! ## Rank-4 fields and surfaces over doubles -/

/-- Reading a matrix at a position inside its extents. -/
theorem matrix_elem_ok_d (x : Matrix) (r c : Int)
    (hr : 0 ≤ r ∧ r < x.nrows) (hc : 0 ≤ c ∧ c < x.ncols) :
    x.elem r c = .ok (x.data r.toNat c.toNat) := by
  unfold Matrix.elem
  rw [if_pos ⟨hr.1, hr.2, hc.1, hc.2⟩]

/-- Reading a rank-4 view at a position inside its extents. -/
theorem tensor4_elem_ok_d (x : ConstTensor4View) (b p r c : Int)
    (hb : 0 ≤ b ∧ b < x.nbooks) (hp : 0 ≤ p ∧ p < x.npages) (hr : 0 ≤ r ∧ r < x.nrows)
    (hc : 0 ≤ c ∧ c < x.ncols) :
    x.elem b p r c = .ok (x.data b.toNat p.toNat r.toNat c.toNat) := by
  unfold ConstTensor4View.elem
  rw [if_pos ⟨hb.1, hb.2, hp.1, hp.2, hr.1, hr.2, hc.1, hc.2⟩]

/-- The cyclic check of a rank-4 field: it passes and the test of the last against the
first longitude value holds for no species, page and row, or it throws the cyclic error
naming the first species for which the test holds somewhere. -/
theorem cyclic_block4_d (A : Arith) (x : ConstTensor4View) (hC : 0 < x.ncols) :
    ((for_index 0 (x.nbooks : Int) fun is =>
        for_index 0 (x.npages : Int) fun ip =>
          for_index 0 (x.nrows : Int) fun ir => do
            throw_if (differ A (← x.elem is ip ir ((x.ncols : Int) - 1)) (← x.elem is ip ir 0))
              (.not_cyclic (some is))) = .ok () ∧
      ∀ is ip ir : Nat, is < x.nbooks → ip < x.npages → ir < x.nrows →
        ¬ differ A (x.data is ip ir (x.ncols - 1)) (x.data is ip ir 0)) ∨
    (∃ is : Nat, is < x.nbooks ∧
      (for_index 0 (x.nbooks : Int) fun is =>
        for_index 0 (x.npages : Int) fun ip =>
          for_index 0 (x.nrows : Int) fun ir => do
            throw_if (differ A (← x.elem is ip ir ((x.ncols : Int) - 1)) (← x.elem is ip ir 0))
              (.not_cyclic (some is))) =
        .error (.runtime_error (.not_cyclic (some (is : Int)))) ∧
      (∃ ip ir : Nat, ip < x.npages ∧ ir < x.nrows ∧
        differ A (x.data is ip ir (x.ncols - 1)) (x.data is ip ir 0)) ∧
      ∀ is2 ip ir : Nat, is2 < is → ip < x.npages → ir < x.nrows →
        ¬ differ A (x.data is2 ip ir (x.ncols - 1)) (x.data is2 ip ir 0)) := by
  rcases species_loop_first (x.nbooks : Int) 0 (x.npages : Int) 0 (x.nrows : Int)
    (fun is ip ir => do
      throw_if (differ A (← x.elem is ip ir ((x.ncols : Int) - 1)) (← x.elem is ip ir 0))
        (.not_cyclic (some is)))
    (fun is => .runtime_error (.not_cyclic (some is)))
    (fun is ip ir => ¬ differ A (x.data is.toNat ip.toNat ir.toNat (x.ncols - 1))
      (x.data is.toNat ip.toNat ir.toNat 0))
    (by
      intro is ip ir h1 h2 h3 h4 h5 h6
      have e1 := tensor4_elem_ok_d x is ip ir ((x.ncols : Int) - 1) ⟨h1, h2⟩ ⟨h3, h4⟩ ⟨h5, h6⟩
        ⟨by omega, by omega⟩
      have e2 := tensor4_elem_ok_d x is ip ir 0 ⟨h1, h2⟩ ⟨h3, h4⟩ ⟨h5, h6⟩ ⟨le_refl 0, by omega⟩
      rw [show ((x.ncols : Int) - 1).toNat = x.ncols - 1 by omega] at e1
      simp only [e1, e2, ok_bind, Int.toNat_zero]
      exact throw_if_cases _ _) with
    ⟨hok, hp⟩ | ⟨s, hs1, hs2, herr, ⟨i, j, a, b, c, d, hne⟩, hbefore⟩
  · left
    refine ⟨hok, fun is ip ir h1 h2 h3 => ?_⟩
    have := hp is ip ir (by omega) (by omega) (by omega) (by omega) (by omega) (by omega)
    simpa using this
  · right
    refine ⟨s.toNat, by omega, ?_, ⟨i.toNat, j.toNat, by omega, by omega, not_not.mp hne⟩,
      fun is2 ip ir h1 h2 h3 => ?_⟩
    · rw [show ((s.toNat : Nat) : Int) = s by omega]
      exact herr
    · have := hbefore is2 ip ir (by omega) (by omega) (by omega) (by omega) (by omega)
        (by omega)
      simpa using this

/-- The pole check of a rank-4 field at row `r`: it passes and the test holds of no two
neighbouring longitude values of that row for any species and page, or it throws the error
naming the first species for which the test holds of two neighbours. -/
theorem pole_block4_d (A : Arith) (x : ConstTensor4View) (r : Int) (hr : 0 ≤ r ∧ r < x.nrows)
    (m : Option Index → Msg) :
    ((for_index 0 (x.nbooks : Int) fun is =>
        for_index 0 (x.npages : Int) fun ip =>
          for_index 1 (x.ncols : Int) fun ic => do
            throw_if (differ A (← x.elem is ip r ic) (← x.elem is ip r (ic - 1)))
              (m (some is))) = .ok () ∧
      ∀ is ip ic : Nat, is < x.nbooks → ip < x.npages → 1 ≤ ic → ic < x.ncols →
        ¬ differ A (x.data is ip r.toNat ic) (x.data is ip r.toNat (ic - 1))) ∨
    (∃ is : Nat, is < x.nbooks ∧
      (for_index 0 (x.nbooks : Int) fun is =>
        for_index 0 (x.npages : Int) fun ip =>
          for_index 1 (x.ncols : Int) fun ic => do
            throw_if (differ A (← x.elem is ip r ic) (← x.elem is ip r (ic - 1)))
              (m (some is))) = .error (.runtime_error (m (some (is : Int)))) ∧
      (∃ ip ic : Nat, ip < x.npages ∧ 1 ≤ ic ∧ ic < x.ncols ∧
        differ A (x.data is ip r.toNat ic) (x.data is ip r.toNat (ic - 1))) ∧
      ∀ is2 ip ic : Nat, is2 < is → ip < x.npages → 1 ≤ ic → ic < x.ncols →
        ¬ differ A (x.data is2 ip r.toNat ic) (x.data is2 ip r.toNat (ic - 1))) := by
  rcases species_loop_first (x.nbooks : Int) 0 (x.npages : Int) 1 (x.ncols : Int)
    (fun is ip ic => do
      throw_if (differ A (← x.elem is ip r ic) (← x.elem is ip r (ic - 1))) (m (some is)))
    (fun is => .runtime_error (m (some is)))
    (fun is ip ic => ¬ differ A (x.data is.toNat ip.toNat r.toNat ic.toNat)
      (x.data is.toNat ip.toNat r.toNat (ic - 1).toNat))
    (by
      intro is ip ic h1 h2 h3 h4 h5 h6
      have e1 := tensor4_elem_ok_d x is ip r ic ⟨h1, h2⟩ ⟨h3, h4⟩ hr ⟨by omega, h6⟩
      have e2 := tensor4_elem_ok_d x is ip r (ic - 1) ⟨h1, h2⟩ ⟨h3, h4⟩ hr
        ⟨by omega, by omega⟩
      simp only [e1, e2, ok_bind]
      exact throw_if_cases _ _) with
    ⟨hok, hp⟩ | ⟨s, hs1, hs2, herr, ⟨i, j, a, b, c, d, hne⟩, hbefore⟩
  · left
    refine ⟨hok, fun is ip ic h1 h2 h3 h4 => ?_⟩
    have := hp is ip ic (by omega) (by omega) (by omega) (by omega) (by omega) (by omega)
    rw [show ((ic : Int) - 1).toNat = ic - 1 by omega] at this
    simpa using this
  · right
    refine ⟨s.toNat, by omega, ?_, ⟨i.toNat, j.toNat, by omega, by omega, by omega, ?_⟩,
      fun is2 ip ic h1 h2 h3 h4 => ?_⟩
    · rw [show ((s.toNat : Nat) : Int) = s by omega]
      exact herr
    · rw [show j.toNat - 1 = (j - 1).toNat by omega]
      exact not_not.mp hne
    · have := hbefore is2 ip ic (by omega) (by omega) (by omega) (by omega) (by omega)
        (by omega)
      rw [show ((ic : Int) - 1).toNat = ic - 1 by omega] at this
      simpa using this

/-- The rank-4 `chk_atm_field` for `dim = 3` with species, on a field of the expected
shape and non-empty latitude and longitude grids: which of its four outcomes it has.
The cyclic check comes first, then the South pole, then the North pole, and the error
names the first species that violates the check reported. -/
theorem chk_atm_field4_3d_cases_d (A : Arith) (x : ConstTensor4View) (nspecies : Index)
    (p_grid lat_grid lon_grid : ConstVectorView) (hns : nspecies ≠ 0)
    (hs : (x.nbooks : Index) = nspecies ∧ x.npages = p_grid.length ∧
      x.nrows = lat_grid.length ∧ x.ncols = lon_grid.length)
    (hlat : 0 < lat_grid.length) (hlon : 0 < lon_grid.length) :
    (A.sub (lon_grid.getD (lon_grid.length - 1) (.fin 0)) (lon_grid.getD 0 (.fin 0)) = .fin 360 →
      (∃ is ip ir : Nat, is < x.nbooks ∧ ip < x.npages ∧ ir < x.nrows ∧
        differ A (x.data is ip ir (x.ncols - 1)) (x.data is ip ir 0)) →
      ∃ is : Nat, is < x.nbooks ∧
        chk_atm_field4 A x 3 nspecies p_grid lat_grid lon_grid =
          .error (.runtime_error (.not_cyclic (some (is : Int)))) ∧
        (∃ ip ir : Nat, ip < x.npages ∧ ir < x.nrows ∧
          differ A (x.data is ip ir (x.ncols - 1)) (x.data is ip ir 0)) ∧
        ∀ is2 ip ir : Nat, is2 < is → ip < x.npages → ir < x.nrows →
          ¬ differ A (x.data is2 ip ir (x.ncols - 1)) (x.data is2 ip ir 0)) ∧
    ((A.sub (lon_grid.getD (lon_grid.length - 1) (.fin 0)) (lon_grid.getD 0 (.fin 0)) = .fin 360 →
        ∀ is ip ir : Nat, is < x.nbooks → ip < x.npages → ir < x.nrows →
          ¬ differ A (x.data is ip ir (x.ncols - 1)) (x.data is ip ir 0)) →
      lat_grid.getD 0 (.fin 0) = .fin (-90) →
      (∃ is ip ic : Nat, is < x.nbooks ∧ ip < x.npages ∧ 1 ≤ ic ∧ ic < x.ncols ∧
        differ A (x.data is ip 0 ic) (x.data is ip 0 (ic - 1))) →
      ∃ is : Nat, is < x.nbooks ∧
        chk_atm_field4 A x 3 nspecies p_grid lat_grid lon_grid =
          .error (.runtime_error (.south_pole (some (is : Int)))) ∧
        (∃ ip ic : Nat, ip < x.npages ∧ 1 ≤ ic ∧ ic < x.ncols ∧
          differ A (x.data is ip 0 ic) (x.data is ip 0 (ic - 1))) ∧
        ∀ is2 ip ic : Nat, is2 < is → ip < x.npages → 1 ≤ ic → ic < x.ncols →
          ¬ differ A (x.data is2 ip 0 ic) (x.data is2 ip 0 (ic - 1))) ∧
    ((A.sub (lon_grid.getD (lon_grid.length - 1) (.fin 0)) (lon_grid.getD 0 (.fin 0)) = .fin 360 →
        ∀ is ip ir : Nat, is < x.nbooks → ip < x.npages → ir < x.nrows →
          ¬ differ A (x.data is ip ir (x.ncols - 1)) (x.data is ip ir 0)) →
      (lat_grid.getD 0 (.fin 0) = .fin (-90) →
        ∀ is ip ic : Nat, is < x.nbooks → ip < x.npages → 1 ≤ ic → ic < x.ncols →
          ¬ differ A (x.data is ip 0 ic) (x.data is ip 0 (ic - 1))) →
      lat_grid.getD (lat_grid.length - 1) (.fin 0) = .fin 90 →
      (∃ is ip ic : Nat, is < x.nbooks ∧ ip < x.npages ∧ 1 ≤ ic ∧ ic < x.ncols ∧
        differ A (x.data is ip (x.nrows - 1) ic) (x.data is ip (x.nrows - 1) (ic - 1))) →
      ∃ is : Nat, is < x.nbooks ∧
        chk_atm_field4 A x 3 nspecies p_grid lat_grid lon_grid =
          .error (.runtime_error (.north_pole (some (is : Int)))) ∧
        (∃ ip ic : Nat, ip < x.npages ∧ 1 ≤ ic ∧ ic < x.ncols ∧
          differ A (x.data is ip (x.nrows - 1) ic) (x.data is ip (x.nrows - 1) (ic - 1))) ∧
        ∀ is2 ip ic : Nat, is2 < is → ip < x.npages → 1 ≤ ic → ic < x.ncols →
          ¬ differ A (x.data is2 ip (x.nrows - 1) ic) (x.data is2 ip (x.nrows - 1) (ic - 1))) ∧
    ((A.sub (lon_grid.getD (lon_grid.length - 1) (.fin 0)) (lon_grid.getD 0 (.fin 0)) = .fin 360 →
        ∀ is ip ir : Nat, is < x.nbooks → ip < x.npages → ir < x.nrows →
          ¬ differ A (x.data is ip ir (x.ncols - 1)) (x.data is ip ir 0)) →
      (lat_grid.getD 0 (.fin 0) = .fin (-90) →
        ∀ is ip ic : Nat, is < x.nbooks → ip < x.npages → 1 ≤ ic → ic < x.ncols →
          ¬ differ A (x.data is ip 0 ic) (x.data is ip 0 (ic - 1))) →
      (lat_grid.getD (lat_grid.length - 1) (.fin 0) = .fin 90 →
        ∀ is ip ic : Nat, is < x.nbooks → ip < x.npages → 1 ≤ ic → ic < x.ncols →
          ¬ differ A (x.data is ip (x.nrows - 1) ic) (x.data is ip (x.nrows - 1) (ic - 1))) →
      chk_atm_field4 A x 3 nspecies p_grid lat_grid lon_grid = .ok ()) := by
  obtain ⟨h0, h1, h2, h3⟩ := hs
  subst h0
  have i0 := index_zero_d lon_grid hlon
  have i1 := index_nelem_sub_d lon_grid 1 (by omega) (by omega)
  have j0 := index_zero_d lat_grid hlat
  have j1 := index_nelem_sub_d lat_grid 1 (by omega) (by omega)
  simp only [Nat.cast_one, nelem] at i1 j1
  have hc := cyclic_block4_d A x (by omega)
  have hsp := pole_block4_d A x 0 ⟨le_refl 0, by omega⟩ .south_pole
  have hnp := pole_block4_d A x ((x.nrows : Int) - 1) ⟨by omega, by omega⟩ .north_pole
  rw [show ((x.nrows : Int) - 1).toNat = x.nrows - 1 by omega] at hnp
  simp only [Int.toNat_zero] at hsp
  have h2' : lat_grid.length = x.nrows := h2.symm
  have h3' : lon_grid.length = x.ncols := h3.symm
  simp only [h2', h3'] at i1 j1 ⊢
  have unfolded : chk_atm_field4 A x 3 (x.nbooks : Int) p_grid lat_grid lon_grid =
      (do
        (if A.sub (lon_grid.getD (x.ncols - 1) (.fin 0)) (lon_grid.getD 0 (.fin 0)) = .fin 360 then
          for_index 0 (x.nbooks : Int) fun is =>
            for_index 0 (x.npages : Int) fun ip =>
              for_index 0 (x.nrows : Int) fun ir => do
                throw_if (differ A (← x.elem is ip ir ((x.ncols : Int) - 1)) (← x.elem is ip ir 0))
                  (.not_cyclic (some is))
        else pure ())
        (if lat_grid.getD 0 (.fin 0) = .fin (-90) then
          for_index 0 (x.nbooks : Int) fun is =>
            for_index 0 (x.npages : Int) fun ip =>
              for_index 1 (x.ncols : Int) fun ic => do
                throw_if (differ A (← x.elem is ip 0 ic) (← x.elem is ip 0 (ic - 1)))
                  (.south_pole (some is))
        else pure ())
        (if lat_grid.getD (x.nrows - 1) (.fin 0) = .fin 90 then
          for_index 0 (x.nbooks : Int) fun is =>
            for_index 0 (x.npages : Int) fun ip =>
              for_index 1 (x.ncols : Int) fun ic => do
                throw_if (differ A (← x.elem is ip ((x.nrows : Int) - 1) ic)
                  (← x.elem is ip ((x.nrows : Int) - 1) (ic - 1)))
                  (.north_pole (some is))
        else pure ())) := by
    unfold chk_atm_field4
    simp only [hns, if_false]
    simp only [show (3 : Index) > 1 by decide, show (3 : Index) > 2 by decide, if_true]
    rw [throw_if_neg _ _ (by simp [nelem, h1, h2, h3])]
    simp only [nelem, ← h1, h2', h3', ok_bind, i0, i1, j0, j1]
  rw [unfolded]
  have e1 : (A.sub (lon_grid.getD (x.ncols - 1) (.fin 0)) (lon_grid.getD 0 (.fin 0)) = .fin 360 →
        ∀ is ip ir : Nat, is < x.nbooks → ip < x.npages → ir < x.nrows →
          ¬ differ A (x.data is ip ir (x.ncols - 1)) (x.data is ip ir 0)) →
      (if A.sub (lon_grid.getD (x.ncols - 1) (.fin 0)) (lon_grid.getD 0 (.fin 0)) = .fin 360 then
          for_index 0 (x.nbooks : Int) fun is =>
            for_index 0 (x.npages : Int) fun ip =>
              for_index 0 (x.nrows : Int) fun ir => do
                throw_if (differ A (← x.elem is ip ir ((x.ncols : Int) - 1)) (← x.elem is ip ir 0))
                  (.not_cyclic (some is))
        else pure ()) = .ok () := by
    intro hcyc
    split_ifs with hspan
    · rcases hc with ⟨hblk, -⟩ | ⟨is, a0, -, ⟨ip, ir, a, b, hne⟩, -⟩
      · exact hblk
      · exact absurd hne (hcyc hspan is ip ir a0 a b)
    · rfl
  have e2 : (lat_grid.getD 0 (.fin 0) = .fin (-90) →
        ∀ is ip ic : Nat, is < x.nbooks → ip < x.npages → 1 ≤ ic → ic < x.ncols →
          ¬ differ A (x.data is ip 0 ic) (x.data is ip 0 (ic - 1))) →
      (if lat_grid.getD 0 (.fin 0) = .fin (-90) then
          for_index 0 (x.nbooks : Int) fun is =>
            for_index 0 (x.npages : Int) fun ip =>
              for_index 1 (x.ncols : Int) fun ic => do
                throw_if (differ A (← x.elem is ip 0 ic) (← x.elem is ip 0 (ic - 1)))
                  (.south_pole (some is))
        else pure ()) = .ok () := by
    intro hsouth
    split_ifs with hp
    · rcases hsp with ⟨hblk, -⟩ | ⟨is, a0, -, ⟨ip, ic, a, b, c, hne⟩, -⟩
      · exact hblk
      · exact absurd hne (hsouth hp is ip ic a0 a b c)
    · rfl
  refine ⟨?_, ?_, ?_, ?_⟩
  · intro hspan hex
    rcases hc with ⟨-, hall⟩ | ⟨is, his, hblk, hviol, hbefore⟩
    · obtain ⟨is, ip, ir, a0, a, b, hne⟩ := hex
      exact absurd hne (hall is ip ir a0 a b)
    · refine ⟨is, his, ?_, hviol, hbefore⟩
      rw [if_pos hspan, hblk]
      rfl
  · intro hcyc hpole hex
    rcases hsp with ⟨-, hall⟩ | ⟨is, his, hblk, hviol, hbefore⟩
    · obtain ⟨is, ip, ic, a0, a, b, c, hne⟩ := hex
      exact absurd hne (hall is ip ic a0 a b c)
    · refine ⟨is, his, ?_, hviol, hbefore⟩
      rw [e1 hcyc, if_pos hpole, hblk]
      rfl
  · intro hcyc hsouth hpole hex
    rcases hnp with ⟨-, hall⟩ | ⟨is, his, hblk, hviol, hbefore⟩
    · obtain ⟨is, ip, ic, a0, a, b, c, hne⟩ := hex
      exact absurd hne (hall is ip ic a0 a b c)
    · refine ⟨is, his, ?_, hviol, hbefore⟩
      rw [e1 hcyc, e2 hsouth, if_pos hpole, hblk]
      rfl
  · intro hcyc hsouth hnorth
    rw [e1 hcyc, e2 hsouth]
    split_ifs with hp
    · rcases hnp with ⟨hblk, -⟩ | ⟨is, a0, -, ⟨ip, ic, a, b, c, hne⟩, -⟩
      · rw [hblk]
        rfl
      · exact absurd hne (hnorth hp is ip ic a0 a b c)
    · rfl

/-- A rank-4 field of another shape than expected gets the wrong-size error, for every
`dim`, when species are expected. -/
theorem chk_atm_field4_wrong_shape_d (A : Arith) (x : ConstTensor4View) (dim nspecies : Index)
    (p_grid lat_grid lon_grid : ConstVectorView) (hns : nspecies ≠ 0)
    (h : (x.ncols : Index) ≠ (if dim > 2 then nelem lon_grid else 1) ∨
      (x.nrows : Index) ≠ (if dim > 1 then nelem lat_grid else 1) ∨
      (x.npages : Index) ≠ nelem p_grid ∨ (x.nbooks : Index) ≠ nspecies) :
    chk_atm_field4 A x dim nspecies p_grid lat_grid lon_grid =
      .error (.runtime_error (.field_wrong_size
        [nspecies, nelem p_grid, (if dim > 1 then nelem lat_grid else 1),
          (if dim > 2 then nelem lon_grid else 1)]
        [x.nbooks, x.npages, x.nrows, x.ncols])) := by
  unfold chk_atm_field4
  simp only [hns, if_false]
  rw [throw_if_pos _ _ h]
  rfl

/-- A rank-4 field of the expected shape is accepted when `dim` is not 3. -/
theorem chk_atm_field4_not_3d_d (A : Arith) (x : ConstTensor4View) (dim nspecies : Index)
    (p_grid lat_grid lon_grid : ConstVectorView) (hns : nspecies ≠ 0)
    (h : ¬ ((x.ncols : Index) ≠ (if dim > 2 then nelem lon_grid else 1) ∨
      (x.nrows : Index) ≠ (if dim > 1 then nelem lat_grid else 1) ∨
      (x.npages : Index) ≠ nelem p_grid ∨ (x.nbooks : Index) ≠ nspecies)) (hd : dim ≠ 3) :
    chk_atm_field4 A x dim nspecies p_grid lat_grid lon_grid = .ok () := by
  unfold chk_atm_field4
  simp only [hns, if_false]
  rw [throw_if_neg _ _ h]
  simp only [ok_bind, hd, if_false]
  rfl

/-- A rank-4 field of the expected shape for `dim = 3` with an empty latitude or longitude
grid: the check reads a grid outside its range. -/
theorem chk_atm_field4_3d_unreadable_d (A : Arith) (x : ConstTensor4View) (nspecies : Index)
    (p_grid lat_grid lon_grid : ConstVectorView) (hns : nspecies ≠ 0)
    (hs : (x.nbooks : Index) = nspecies ∧ x.npages = p_grid.length ∧
      x.nrows = lat_grid.length ∧ x.ncols = lon_grid.length)
    (he : lat_grid = [] ∨ lon_grid = []) :
    chk_atm_field4 A x 3 nspecies p_grid lat_grid lon_grid = .error .out_of_range := by
  obtain ⟨h0, h1, h2, h3⟩ := hs
  unfold chk_atm_field4
  simp only [hns, if_false]
  simp only [show (3 : Index) > 1 by decide, show (3 : Index) > 2 by decide, if_true]
  rw [throw_if_neg _ _ (by simp [nelem, h0, h1, h2, h3])]
  simp only [ok_bind]
  by_cases hlon : lon_grid = []
  · subst hlon
    simp only [index_nil_d, error_bind]
  · have hlat : lat_grid = [] := he.resolve_right hlon
    subst hlat
    have hl : 0 < lon_grid.length := List.length_pos.mpr hlon
    have i0 := index_zero_d lon_grid hl
    have i1 := index_nelem_sub_d lon_grid 1 (by omega) (by omega)
    simp only [Nat.cast_one] at i1
    simp only [i0, i1, ok_bind]
    rw [bind_error_iff]
    right
    constructor
    · split_ifs
      · rw [for_index_ok_iff]
        intro is _ _
        rw [for_index_ok_iff]
        intro ip _ _
        exact for_index_empty _ _ _ (by simp [nelem])
      · rfl
    · simp only [index_nil_d, error_bind]

/-- The rank-4 `chk_atm_field` for `dim = 3` with species, on a field of the expected
shape and non-empty latitude and longitude grids, has exactly one of four outcomes: the
cyclic error, when the cyclic condition is violated; else the South-pole error, when the
South-pole condition is violated; else the North-pole error, when the North-pole
condition is violated; else success.  Each error names the first species that violates
the condition. -/
theorem chk_atm_field4_3d_outcome_d (A : Arith) (x : ConstTensor4View) (nspecies : Index)
    (p_grid lat_grid lon_grid : ConstVectorView) (hns : nspecies ≠ 0)
    (hs : (x.nbooks : Index) = nspecies ∧ x.npages = p_grid.length ∧
      x.nrows = lat_grid.length ∧ x.ncols = lon_grid.length)
    (hlat : 0 < lat_grid.length) (hlon : 0 < lon_grid.length) :
    (¬ (A.sub (lon_grid.getD (lon_grid.length - 1) (.fin 0)) (lon_grid.getD 0 (.fin 0)) = .fin 360 →
        ∀ is ip ir : Nat, is < x.nbooks → ip < x.npages → ir < x.nrows →
          ¬ differ A (x.data is ip ir (x.ncols - 1)) (x.data is ip ir 0)) ∧
      ∃ is : Nat, is < x.nbooks ∧
        chk_atm_field4 A x 3 nspecies p_grid lat_grid lon_grid =
          .error (.runtime_error (.not_cyclic (some (is : Int)))) ∧
        (∃ ip ir : Nat, ip < x.npages ∧ ir < x.nrows ∧
          differ A (x.data is ip ir (x.ncols - 1)) (x.data is ip ir 0)) ∧
        ∀ is2 ip ir : Nat, is2 < is → ip < x.npages → ir < x.nrows →
          ¬ differ A (x.data is2 ip ir (x.ncols - 1)) (x.data is2 ip ir 0)) ∨
    ((A.sub (lon_grid.getD (lon_grid.length - 1) (.fin 0)) (lon_grid.getD 0 (.fin 0)) = .fin 360 →
        ∀ is ip ir : Nat, is < x.nbooks → ip < x.npages → ir < x.nrows →
          ¬ differ A (x.data is ip ir (x.ncols - 1)) (x.data is ip ir 0)) ∧
      ¬ (lat_grid.getD 0 (.fin 0) = .fin (-90) →
        ∀ is ip ic : Nat, is < x.nbooks → ip < x.npages → 1 ≤ ic → ic < x.ncols →
          ¬ differ A (x.data is ip 0 ic) (x.data is ip 0 (ic - 1))) ∧
      ∃ is : Nat, is < x.nbooks ∧
        chk_atm_field4 A x 3 nspecies p_grid lat_grid lon_grid =
          .error (.runtime_error (.south_pole (some (is : Int)))) ∧
        (∃ ip ic : Nat, ip < x.npages ∧ 1 ≤ ic ∧ ic < x.ncols ∧
          differ A (x.data is ip 0 ic) (x.data is ip 0 (ic - 1))) ∧
        ∀ is2 ip ic : Nat, is2 < is → ip < x.npages → 1 ≤ ic → ic < x.ncols →
          ¬ differ A (x.data is2 ip 0 ic) (x.data is2 ip 0 (ic - 1))) ∨
    ((A.sub (lon_grid.getD (lon_grid.length - 1) (.fin 0)) (lon_grid.getD 0 (.fin 0)) = .fin 360 →
        ∀ is ip ir : Nat, is < x.nbooks → ip < x.npages → ir < x.nrows →
          ¬ differ A (x.data is ip ir (x.ncols - 1)) (x.data is ip ir 0)) ∧
      (lat_grid.getD 0 (.fin 0) = .fin (-90) →
        ∀ is ip ic : Nat, is < x.nbooks → ip < x.npages → 1 ≤ ic → ic < x.ncols →
          ¬ differ A (x.data is ip 0 ic) (x.data is ip 0 (ic - 1))) ∧
      ¬ (lat_grid.getD (lat_grid.length - 1) (.fin 0) = .fin 90 →
        ∀ is ip ic : Nat, is < x.nbooks → ip < x.npages → 1 ≤ ic → ic < x.ncols →
          ¬ differ A (x.data is ip (x.nrows - 1) ic) (x.data is ip (x.nrows - 1) (ic - 1))) ∧
      ∃ is : Nat, is < x.nbooks ∧
        chk_atm_field4 A x 3 nspecies p_grid lat_grid lon_grid =
          .error (.runtime_error (.north_pole (some (is : Int)))) ∧
        (∃ ip ic : Nat, ip < x.npages ∧ 1 ≤ ic ∧ ic < x.ncols ∧
          differ A (x.data is ip (x.nrows - 1) ic) (x.data is ip (x.nrows - 1) (ic - 1))) ∧
        ∀ is2 ip ic : Nat, is2 < is → ip < x.npages → 1 ≤ ic → ic < x.ncols →
          ¬ differ A (x.data is2 ip (x.nrows - 1) ic) (x.data is2 ip (x.nrows - 1) (ic - 1))) ∨
    ((A.sub (lon_grid.getD (lon_grid.length - 1) (.fin 0)) (lon_grid.getD 0 (.fin 0)) = .fin 360 →
        ∀ is ip ir : Nat, is < x.nbooks → ip < x.npages → ir < x.nrows →
          ¬ differ A (x.data is ip ir (x.ncols - 1)) (x.data is ip ir 0)) ∧
      (lat_grid.getD 0 (.fin 0) = .fin (-90) →
        ∀ is ip ic : Nat, is < x.nbooks → ip < x.npages → 1 ≤ ic → ic < x.ncols →
          ¬ differ A (x.data is ip 0 ic) (x.data is ip 0 (ic - 1))) ∧
      (lat_grid.getD (lat_grid.length - 1) (.fin 0) = .fin 90 →
        ∀ is ip ic : Nat, is < x.nbooks → ip < x.npages → 1 ≤ ic → ic < x.ncols →
          ¬ differ A (x.data is ip (x.nrows - 1) ic) (x.data is ip (x.nrows - 1) (ic - 1))) ∧
      chk_atm_field4 A x 3 nspecies p_grid lat_grid lon_grid = .ok ()) := by
  obtain ⟨hA, hB, hC, hD⟩ :=
    chk_atm_field4_3d_cases_d A x nspecies p_grid lat_grid lon_grid hns hs hlat hlon
  by_cases c1 : A.sub (lon_grid.getD (lon_grid.length - 1) (.fin 0)) (lon_grid.getD 0 (.fin 0)) =
      .fin 360 →
      ∀ is ip ir : Nat, is < x.nbooks → ip < x.npages → ir < x.nrows →
        ¬ differ A (x.data is ip ir (x.ncols - 1)) (x.data is ip ir 0)
  swap
  · left
    have hspan : A.sub (lon_grid.getD (lon_grid.length - 1) (.fin 0)) (lon_grid.getD 0 (.fin 0)) =
        .fin 360 := by
      by_contra hn; exact c1 (fun h => absurd h hn)
    have hex : ∃ is ip ir : Nat, is < x.nbooks ∧ ip < x.npages ∧ ir < x.nrows ∧
        differ A (x.data is ip ir (x.ncols - 1)) (x.data is ip ir 0) := by
      by_contra hn
      apply c1
      intro _ is ip ir a0 a b
      by_contra hne
      exact hn ⟨is, ip, ir, a0, a, b, hne⟩
    exact ⟨c1, hA hspan hex⟩
  by_cases c2 : lat_grid.getD 0 (.fin 0) = .fin (-90) →
      ∀ is ip ic : Nat, is < x.nbooks → ip < x.npages → 1 ≤ ic → ic < x.ncols →
        ¬ differ A (x.data is ip 0 ic) (x.data is ip 0 (ic - 1))
  swap
  · right; left
    have hpole : lat_grid.getD 0 (.fin 0) = .fin (-90) := by
      by_contra hn; exact c2 (fun h => absurd h hn)
    have hex : ∃ is ip ic : Nat, is < x.nbooks ∧ ip < x.npages ∧ 1 ≤ ic ∧ ic < x.ncols ∧
        differ A (x.data is ip 0 ic) (x.data is ip 0 (ic - 1)) := by
      by_contra hn
      apply c2
      intro _ is ip ic a0 a b c
      by_contra hne
      exact hn ⟨is, ip, ic, a0, a, b, c, hne⟩
    exact ⟨c1, c2, hB c1 hpole hex⟩
  by_cases c3 : lat_grid.getD (lat_grid.length - 1) (.fin 0) = .fin 90 →
      ∀ is ip ic : Nat, is < x.nbooks → ip < x.npages → 1 ≤ ic → ic < x.ncols →
        ¬ differ A (x.data is ip (x.nrows - 1) ic) (x.data is ip (x.nrows - 1) (ic - 1))
  swap
  · right; right; left
    have hpole : lat_grid.getD (lat_grid.length - 1) (.fin 0) = .fin 90 := by
      by_contra hn; exact c3 (fun h => absurd h hn)
    have hex : ∃ is ip ic : Nat, is < x.nbooks ∧ ip < x.npages ∧ 1 ≤ ic ∧ ic < x.ncols ∧
        differ A (x.data is ip (x.nrows - 1) ic) (x.data is ip (x.nrows - 1) (ic - 1)) := by
      by_contra hn
      apply c3
      intro _ is ip ic a0 a b c
      by_contra hne
      exact hn ⟨is, ip, ic, a0, a, b, c, hne⟩
    exact ⟨c1, c2, c3, hC c1 c2 hpole hex⟩
  exact Or.inr (Or.inr (Or.inr ⟨c1, c2, c3, hD c1 c2 c3⟩))

/-- A rank-4 `chk_atm_field` that throws another error than "should be empty" and "wrong
size" has reached the checks for three dimensions: species are expected, `dim` is 3, the
field has the expected shape, and the latitude and longitude grids are not empty. -/
theorem chk_atm_field4_reaches_3d_d (A : Arith) (x : ConstTensor4View) (dim nspecies : Index)
    (p_grid lat_grid lon_grid : ConstVectorView) (m : Msg)
    (h : chk_atm_field4 A x dim nspecies p_grid lat_grid lon_grid = .error (.runtime_error m))
    (hm1 : m ≠ .should_be_empty) (hm2 : ∀ a b, m ≠ .field_wrong_size a b) :
    nspecies ≠ 0 ∧ dim = 3 ∧
      ((x.nbooks : Index) = nspecies ∧ x.npages = p_grid.length ∧
        x.nrows = lat_grid.length ∧ x.ncols = lon_grid.length) ∧
      0 < lat_grid.length ∧ 0 < lon_grid.length := by
  have hns : nspecies ≠ 0 := by
    intro h0
    subst h0
    unfold chk_atm_field4 at h
    by_cases hb : (x.nbooks : Index) ≠ 0
    · simp only [if_true, if_pos hb, Except.error.injEq, Fault.runtime_error.injEq] at h
      exact hm1 h.symm
    · simp only [if_true, if_neg hb] at h
      cases h
  by_cases hsh : (x.ncols : Index) ≠ (if dim > 2 then nelem lon_grid else 1) ∨
      (x.nrows : Index) ≠ (if dim > 1 then nelem lat_grid else 1) ∨
      (x.npages : Index) ≠ nelem p_grid ∨ (x.nbooks : Index) ≠ nspecies
  · rw [chk_atm_field4_wrong_shape_d A x dim nspecies p_grid lat_grid lon_grid hns hsh] at h
    simp only [Except.error.injEq, Fault.runtime_error.injEq] at h
    exact absurd h.symm (hm2 _ _)
  by_cases hd : dim = 3
  swap
  · rw [chk_atm_field4_not_3d_d A x dim nspecies p_grid lat_grid lon_grid hns hsh hd] at h
    cases h
  subst hd
  simp only [show (3 : Index) > 1 by decide, show (3 : Index) > 2 by decide, if_true,
    not_or, not_not, nelem] at hsh
  have hs : (x.nbooks : Index) = nspecies ∧ x.npages = p_grid.length ∧
      x.nrows = lat_grid.length ∧ x.ncols = lon_grid.length :=
    ⟨hsh.2.2.2, by exact_mod_cast hsh.2.2.1, by exact_mod_cast hsh.2.1,
      by exact_mod_cast hsh.1⟩
  refine ⟨hns, rfl, hs, ?_⟩
  by_contra hcon
  have he : lat_grid = [] ∨ lon_grid = [] := by
    by_contra hne
    rw [not_or] at hne
    exact hcon ⟨List.length_pos.mpr hne.1, List.length_pos.mpr hne.2⟩
  rw [chk_atm_field4_3d_unreadable_d A x nspecies p_grid lat_grid lon_grid hns hs he] at h
  cases h

/-! ## Surfaces over doubles -/

/-- C15, as stated, fails on the code.  With `dim = 3` and the longitude grid -180, 180,
whose span the machine computes as 360, a surface of the expected shape that holds 1 in
the first column and a value that is not a number in the last one has different first
and last columns; yet the test `fabs(x(ir,last) - x(ir,0)) > 0` holds in no row and the
check succeeds. -/
theorem chk_atm_surface_ok_iff_counterexample :
    unrounded.sub (.fin 180) (.fin (-180)) = .fin 360 ∧
    ieee.sub (.fin 180) (.fin (-180)) = .fin 360 ∧
    (Matrix.mk 2 2 fun _ c => if c = 1 then .nan else .fin 1).data 0 1 ≠
      (Matrix.mk 2 2 fun _ c => if c = 1 then .nan else .fin 1).data 0 0 ∧
    chk_atm_surface ieee ⟨2, 2, fun _ c => if c = 1 then .nan else .fin 1⟩ 3
      [.fin 0, .fin 1] [.fin (-180), .fin 180] = .ok () := by
  have hspan : ieee.sub (.fin 180) (.fin (-180)) = .fin 360 := by
    show round_double (180 - -180) = _
    norm_num [round_double_small.2.2.2]
  have hexact : unrounded.sub (.fin 180) (.fin (-180)) = .fin 360 := by
    show Double.fin (180 - -180) = _
    norm_num
  refine ⟨hexact, hspan, by simp, ?_⟩
  unfold chk_atm_surface
  simp only [show (3 : Index) > 1 by decide, show (3 : Index) > 2 by decide, if_true,
    seq_ok_iff, throw_if_ok_iff, not_or, not_not, ne_eq]
  refine ⟨⟨rfl, rfl⟩, ?_⟩
  have i0 : index [.fin (-180), .fin 180] 0 = .ok (.fin (-180)) := index_cons_zero_d _ _
  have i1 : index [.fin (-180), .fin 180] (nelem [.fin (-180), .fin 180] - 1) =
      .ok (.fin 180) := by
    rw [show nelem [.fin (-180), .fin 180] - 1 = 1 from rfl, index_cons_pos_d _ _ _ (by decide)]
    exact index_cons_zero_d _ _
  simp only [i0, i1, ok_bind, hspan, if_true]
  rw [for_index_ok_iff]
  intro j h1 h2
  have e1 := matrix_elem_ok_d ⟨2, 2, fun _ c => if c = 1 then .nan else .fin 1⟩ j
    (nelem [.fin (-180), .fin 180] - 1) ⟨h1, h2⟩ ⟨by decide, by decide⟩
  have e2 := matrix_elem_ok_d ⟨2, 2, fun _ c => if c = 1 then .nan else .fin 1⟩ j 0
    ⟨h1, h2⟩ ⟨by decide, by decide⟩
  simp only [e1, e2, ok_bind]
  exact throw_if_neg _ _ (not_differ_nan_ieee _).1

/-- Success of `chk_atm_surface` in terms of the test of the code: the matrix has the
expected shape and, when `dim = 3` and the machine computes `lon_grid[last] - lon_grid[0]`
as 360, the test `fabs(x(ir,last) - x(ir,0)) > 0` holds in no row.  For `dim = 3` the
longitude grid is taken to be non-empty. -/
theorem chk_atm_surface_ok_tests (A : Arith) (x : Matrix) (dim : Index)
    (lat_grid lon_grid : ConstVectorView) (hlon : dim = 3 → lon_grid ≠ []) :
    chk_atm_surface A x dim lat_grid lon_grid = .ok () ↔
      (x.nrows : Index) = (if dim > 1 then nelem lat_grid else 1) ∧
      (x.ncols : Index) = (if dim > 2 then nelem lon_grid else 1) ∧
      (dim = 3 →
        A.sub (lon_grid.getD (lon_grid.length - 1) (.fin 0)) (lon_grid.getD 0 (.fin 0)) =
          .fin 360 →
        ∀ ir : Nat, ir < x.nrows → ¬ differ A (x.data ir (x.ncols - 1)) (x.data ir 0)) := by
  unfold chk_atm_surface
  simp only [seq_ok_iff, throw_if_ok_iff, not_or, not_not, ne_eq]
  by_cases h3 : dim = 3
  swap
  · simp only [h3, if_false, pure, Except.pure, and_true, false_implies]
    tauto
  subst h3
  simp only [show (3 : Index) > 1 by decide, show (3 : Index) > 2 by decide, if_true,
    true_implies]
  have hpos : 0 < lon_grid.length := List.length_pos.mpr (hlon rfl)
  have i0 := index_zero_d lon_grid hpos
  have i1 := index_nelem_sub_d lon_grid 1 (by omega) (by omega)
  simp only [Nat.cast_one] at i1
  simp only [i0, i1, ok_bind]
  constructor
  · rintro ⟨⟨hc, hr⟩, hblk⟩
    refine ⟨hr, hc, fun hspan ir hir => ?_⟩
    rw [if_pos hspan, for_index_ok_iff] at hblk
    have hcn : x.ncols = lon_grid.length := by
      unfold nelem at hc; exact_mod_cast hc
    have hrn : x.nrows = lat_grid.length := by
      unfold nelem at hr; exact_mod_cast hr
    have hb := hblk ir (by omega) (by unfold nelem; omega)
    have e1 := matrix_elem_ok_d x ir (nelem lon_grid - 1) ⟨by omega, by omega⟩
      ⟨by unfold nelem; omega, by unfold nelem; omega⟩
    have e2 := matrix_elem_ok_d x ir 0 ⟨by omega, by omega⟩ ⟨le_refl 0, by omega⟩
    rw [show (nelem lon_grid - 1).toNat = x.ncols - 1 by unfold nelem; omega] at e1
    simp only [e1, e2, ok_bind, Int.toNat_zero, Int.toNat_ofNat] at hb
    exact (throw_if_ok_iff _ _).mp hb
  · rintro ⟨hr, hc, hall⟩
    refine ⟨⟨hc, hr⟩, ?_⟩
    split_ifs with hspan
    swap
    · rfl
    rw [for_index_ok_iff]
    intro j h1 h2
    have hcn : x.ncols = lon_grid.length := by
      unfold nelem at hc; exact_mod_cast hc
    have hrn : x.nrows = lat_grid.length := by
      unfold nelem at hr; exact_mod_cast hr
    have e1 := matrix_elem_ok_d x j (nelem lon_grid - 1) ⟨h1, by unfold nelem at h2; omega⟩
      ⟨by unfold nelem; omega, by unfold nelem; omega⟩
    have e2 := matrix_elem_ok_d x j 0 ⟨h1, by unfold nelem at h2; omega⟩ ⟨le_refl 0, by omega⟩
    rw [show (nelem lon_grid - 1).toNat = x.ncols - 1 by unfold nelem; omega] at e1
    simp only [e1, e2, ok_bind, Int.toNat_zero]
    exact throw_if_neg _ _ (hall hspan j.toNat (by unfold nelem at h2; omega))

/-! ## The order of the field checks and the species named, over doubles -/

/-- The order of the field checks in terms of the test of the code, for `dim = 3`, rank 3
and rank 4 (with `nspecies` not 0): the wrong-size error for a field of another shape than
expected; else the cyclic error when the machine computes the span as 360 and the test
`fabs(a - b) > 0` holds of the last and the first longitude value somewhere; else the
South-pole error when the first latitude is -90 and the test holds of two neighbouring
longitude values of the first row; else the North-pole error, likewise at the last row;
else success. -/
theorem chk_atm_field_fail_fast_tests (A : Arith) (x : ConstTensor3View) (y : ConstTensor4View)
    (nspecies : Index) (p_grid lat_grid lon_grid : ConstVectorView) (hns : nspecies ≠ 0) :
    (¬ (x.npages = p_grid.length ∧ x.nrows = lat_grid.length ∧ x.ncols = lon_grid.length) →
      chk_atm_field A x 3 p_grid lat_grid lon_grid =
        .error (.runtime_error (.field_wrong_size
          [nelem p_grid, nelem lat_grid, nelem lon_grid] [x.npages, x.nrows, x.ncols]))) ∧
    (x.npages = p_grid.length ∧ x.nrows = lat_grid.length ∧ x.ncols = lon_grid.length →
      0 < lat_grid.length → 0 < lon_grid.length →
      (A.sub (lon_grid.getD (lon_grid.length - 1) (.fin 0)) (lon_grid.getD 0 (.fin 0)) = .fin 360 →
        (∃ ip ir : Nat, ip < x.npages ∧ ir < x.nrows ∧
          differ A (x.data ip ir (x.ncols - 1)) (x.data ip ir 0)) →
        chk_atm_field A x 3 p_grid lat_grid lon_grid =
          .error (.runtime_error (.not_cyclic none))) ∧
      ((A.sub (lon_grid.getD (lon_grid.length - 1) (.fin 0)) (lon_grid.getD 0 (.fin 0)) = .fin 360 →
          ∀ ip ir : Nat, ip < x.npages → ir < x.nrows →
            ¬ differ A (x.data ip ir (x.ncols - 1)) (x.data ip ir 0)) →
        lat_grid.getD 0 (.fin 0) = .fin (-90) →
        (∃ ip ic : Nat, ip < x.npages ∧ 1 ≤ ic ∧ ic < x.ncols ∧
          differ A (x.data ip 0 ic) (x.data ip 0 (ic - 1))) →
        chk_atm_field A x 3 p_grid lat_grid lon_grid =
          .error (.runtime_error (.south_pole none))) ∧
      ((A.sub (lon_grid.getD (lon_grid.length - 1) (.fin 0)) (lon_grid.getD 0 (.fin 0)) = .fin 360 →
          ∀ ip ir : Nat, ip < x.npages → ir < x.nrows →
            ¬ differ A (x.data ip ir (x.ncols - 1)) (x.data ip ir 0)) →
        (lat_grid.getD 0 (.fin 0) = .fin (-90) →
          ∀ ip ic : Nat, ip < x.npages → 1 ≤ ic → ic < x.ncols →
            ¬ differ A (x.data ip 0 ic) (x.data ip 0 (ic - 1))) →
        lat_grid.getD (lat_grid.length - 1) (.fin 0) = .fin 90 →
        (∃ ip ic : Nat, ip < x.npages ∧ 1 ≤ ic ∧ ic < x.ncols ∧
          differ A (x.data ip (x.nrows - 1) ic) (x.data ip (x.nrows - 1) (ic - 1))) →
        chk_atm_field A x 3 p_grid lat_grid lon_grid =
          .error (.runtime_error (.north_pole none))) ∧
      ((A.sub (lon_grid.getD (lon_grid.length - 1) (.fin 0)) (lon_grid.getD 0 (.fin 0)) = .fin 360 →
          ∀ ip ir : Nat, ip < x.npages → ir < x.nrows →
            ¬ differ A (x.data ip ir (x.ncols - 1)) (x.data ip ir 0)) →
        (lat_grid.getD 0 (.fin 0) = .fin (-90) →
          ∀ ip ic : Nat, ip < x.npages → 1 ≤ ic → ic < x.ncols →
            ¬ differ A (x.data ip 0 ic) (x.data ip 0 (ic - 1))) →
        (lat_grid.getD (lat_grid.length - 1) (.fin 0) = .fin 90 →
          ∀ ip ic : Nat, ip < x.npages → 1 ≤ ic → ic < x.ncols →
            ¬ differ A (x.data ip (x.nrows - 1) ic) (x.data ip (x.nrows - 1) (ic - 1))) →
        chk_atm_field A x 3 p_grid lat_grid lon_grid = .ok ())) ∧
    (¬ ((y.nbooks : Index) = nspecies ∧ y.npages = p_grid.length ∧
        y.nrows = lat_grid.length ∧ y.ncols = lon_grid.length) →
      chk_atm_field4 A y 3 nspecies p_grid lat_grid lon_grid =
        .error (.runtime_error (.field_wrong_size
          [nspecies, nelem p_grid, nelem lat_grid, nelem lon_grid]
          [y.nbooks, y.npages, y.nrows, y.ncols]))) ∧
    ((y.nbooks : Index) = nspecies ∧ y.npages = p_grid.length ∧
        y.nrows = lat_grid.length ∧ y.ncols = lon_grid.length →
      0 < lat_grid.length → 0 < lon_grid.length →
      (A.sub (lon_grid.getD (lon_grid.length - 1) (.fin 0)) (lon_grid.getD 0 (.fin 0)) = .fin 360 →
        (∃ is ip ir : Nat, is < y.nbooks ∧ ip < y.npages ∧ ir < y.nrows ∧
          differ A (y.data is ip ir (y.ncols - 1)) (y.data is ip ir 0)) →
        ∃ is : Nat, is < y.nbooks ∧
          chk_atm_field4 A y 3 nspecies p_grid lat_grid lon_grid =
            .error (.runtime_error (.not_cyclic (some (is : Int))))) ∧
      ((A.sub (lon_grid.getD (lon_grid.length - 1) (.fin 0)) (lon_grid.getD 0 (.fin 0)) = .fin 360 →
          ∀ is ip ir : Nat, is < y.nbooks → ip < y.npages → ir < y.nrows →
            ¬ differ A (y.data is ip ir (y.ncols - 1)) (y.data is ip ir 0)) →
        lat_grid.getD 0 (.fin 0) = .fin (-90) →
        (∃ is ip ic : Nat, is < y.nbooks ∧ ip < y.npages ∧ 1 ≤ ic ∧ ic < y.ncols ∧
          differ A (y.data is ip 0 ic) (y.data is ip 0 (ic - 1))) →
        ∃ is : Nat, is < y.nbooks ∧
          chk_atm_field4 A y 3 nspecies p_grid lat_grid lon_grid =
            .error (.runtime_error (.south_pole (some (is : Int))))) ∧
      ((A.sub (lon_grid.getD (lon_grid.length - 1) (.fin 0)) (lon_grid.getD 0 (.fin 0)) = .fin 360 →
          ∀ is ip ir : Nat, is < y.nbooks → ip < y.npages → ir < y.nrows →
            ¬ differ A (y.data is ip ir (y.ncols - 1)) (y.data is ip ir 0)) →
        (lat_grid.getD 0 (.fin 0) = .fin (-90) →
          ∀ is ip ic : Nat, is < y.nbooks → ip < y.npages → 1 ≤ ic → ic < y.ncols →
            ¬ differ A (y.data is ip 0 ic) (y.data is ip 0 (ic - 1))) →
        lat_grid.getD (lat_grid.length - 1) (.fin 0) = .fin 90 →
        (∃ is ip ic : Nat, is < y.nbooks ∧ ip < y.npages ∧ 1 ≤ ic ∧ ic < y.ncols ∧
          differ A (y.data is ip (y.nrows - 1) ic) (y.data is ip (y.nrows - 1) (ic - 1))) →
        ∃ is : Nat, is < y.nbooks ∧
          chk_atm_field4 A y 3 nspecies p_grid lat_grid lon_grid =
            .error (.runtime_error (.north_pole (some (is : Int))))) ∧
      ((A.sub (lon_grid.getD (lon_grid.length - 1) (.fin 0)) (lon_grid.getD 0 (.fin 0)) = .fin 360 →
          ∀ is ip ir : Nat, is < y.nbooks → ip < y.npages → ir < y.nrows →
            ¬ differ A (y.data is ip ir (y.ncols - 1)) (y.data is ip ir 0)) →
        (lat_grid.getD 0 (.fin 0) = .fin (-90) →
          ∀ is ip ic : Nat, is < y.nbooks → ip < y.npages → 1 ≤ ic → ic < y.ncols →
            ¬ differ A (y.data is ip 0 ic) (y.data is ip 0 (ic - 1))) →
        (lat_grid.getD (lat_grid.length - 1) (.fin 0) = .fin 90 →
          ∀ is ip ic : Nat, is < y.nbooks → ip < y.npages → 1 ≤ ic → ic < y.ncols →
            ¬ differ A (y.data is ip (y.nrows - 1) ic) (y.data is ip (y.nrows - 1) (ic - 1))) →
        chk_atm_field4 A y 3 nspecies p_grid lat_grid lon_grid = .ok ())) := by
  refine ⟨fun hne => ?_, fun hs hlat hlon => ?_, fun hne => ?_, fun hs hlat hlon => ?_⟩
  · have hc : (x.ncols : Index) ≠ nelem lon_grid ∨ (x.nrows : Index) ≠ nelem lat_grid ∨
        (x.npages : Index) ≠ nelem p_grid := by
      by_contra hcon
      push_neg at hcon
      unfold nelem at hcon
      exact hne ⟨by exact_mod_cast hcon.2.2, by exact_mod_cast hcon.2.1,
        by exact_mod_cast hcon.1⟩
    unfold chk_atm_field
    simp only [show (3 : Index) > 1 by decide, show (3 : Index) > 2 by decide, if_true]
    rw [throw_if_pos _ _ hc]
    rfl
  · exact chk_atm_field_3d_cases_d A x p_grid lat_grid lon_grid hs hlat hlon
  · have hc : (y.ncols : Index) ≠ nelem lon_grid ∨ (y.nrows : Index) ≠ nelem lat_grid ∨
        (y.npages : Index) ≠ nelem p_grid ∨ (y.nbooks : Index) ≠ nspecies := by
      by_contra hcon
      push_neg at hcon
      unfold nelem at hcon
      exact hne ⟨hcon.2.2.2, by exact_mod_cast hcon.2.2.1, by exact_mod_cast hcon.2.1,
        by exact_mod_cast hcon.1⟩
    unfold chk_atm_field4
    simp only [hns, if_false]
    simp only [show (3 : Index) > 1 by decide, show (3 : Index) > 2 by decide, if_true]
    rw [throw_if_pos _ _ hc]
    rfl
  · obtain ⟨hA, hB, hC, hD⟩ :=
      chk_atm_field4_3d_cases_d A y nspecies p_grid lat_grid lon_grid hns hs hlat hlon
    refine ⟨fun h1 h2 => ?_, fun h1 h2 h3 => ?_, fun h1 h2 h3 h4 => ?_, hD⟩
    · obtain ⟨is, his, herr, -⟩ := hA h1 h2
      exact ⟨is, his, herr⟩
    · obtain ⟨is, his, herr, -⟩ := hB h1 h2 h3
      exact ⟨is, his, herr⟩
    · obtain ⟨is, his, herr, -⟩ := hC h1 h2 h3 h4
      exact ⟨is, his, herr⟩

/-- The species named by an error of the rank-4 check, in terms of the test of the code:
it is the smallest species index in whose slice the test `fabs(a - b) > 0` of the
reported check holds somewhere. -/
theorem chk_atm_field4_first_species_tests (A : Arith) (x : ConstTensor4View)
    (dim nspecies : Index)
    (p_grid lat_grid lon_grid : ConstVectorView) (s : Option Index) :
    (chk_atm_field4 A x dim nspecies p_grid lat_grid lon_grid =
        .error (.runtime_error (.not_cyclic s)) →
      ∃ is : Nat, s = some (is : Int) ∧ is < x.nbooks ∧
        (∃ ip ir : Nat, ip < x.npages ∧ ir < x.nrows ∧
          differ A (x.data is ip ir (x.ncols - 1)) (x.data is ip ir 0)) ∧
        ∀ is2 ip ir : Nat, is2 < is → ip < x.npages → ir < x.nrows →
          ¬ differ A (x.data is2 ip ir (x.ncols - 1)) (x.data is2 ip ir 0)) ∧
    (chk_atm_field4 A x dim nspecies p_grid lat_grid lon_grid =
        .error (.runtime_error (.south_pole s)) →
      ∃ is : Nat, s = some (is : Int) ∧ is < x.nbooks ∧
        (∃ ip ic : Nat, ip < x.npages ∧ 1 ≤ ic ∧ ic < x.ncols ∧
          differ A (x.data is ip 0 ic) (x.data is ip 0 (ic - 1))) ∧
        ∀ is2 ip ic : Nat, is2 < is → ip < x.npages → 1 ≤ ic → ic < x.ncols →
          ¬ differ A (x.data is2 ip 0 ic) (x.data is2 ip 0 (ic - 1))) ∧
    (chk_atm_field4 A x dim nspecies p_grid lat_grid lon_grid =
        .error (.runtime_error (.north_pole s)) →
      ∃ is : Nat, s = some (is : Int) ∧ is < x.nbooks ∧
        (∃ ip ic : Nat, ip < x.npages ∧ 1 ≤ ic ∧ ic < x.ncols ∧
          differ A (x.data is ip (x.nrows - 1) ic) (x.data is ip (x.nrows - 1) (ic - 1))) ∧
        ∀ is2 ip ic : Nat, is2 < is → ip < x.npages → 1 ≤ ic → ic < x.ncols →
          ¬ differ A (x.data is2 ip (x.nrows - 1) ic) (x.data is2 ip (x.nrows - 1) (ic - 1))) := by
  refine ⟨fun h => ?_, fun h => ?_, fun h => ?_⟩
  · obtain ⟨hns, hd, hs, hlat, hlon⟩ :=
      chk_atm_field4_reaches_3d_d A x dim nspecies p_grid lat_grid lon_grid _ h
        (fun hc => by cases hc) (fun a b hc => by cases hc)
    subst hd
    rcases chk_atm_field4_3d_outcome_d A x nspecies p_grid lat_grid lon_grid hns hs hlat hlon
      with ⟨-, is, his, herr, hv, hb⟩ | ⟨-, -, is, -, herr, -⟩ | ⟨-, -, -, is, -, herr, -⟩ |
        ⟨-, -, -, herr⟩
    · rw [h] at herr
      simp only [Except.error.injEq, Fault.runtime_error.injEq, Msg.not_cyclic.injEq] at herr
      exact ⟨is, herr, his, hv, hb⟩
    · rw [h] at herr
      simp at herr
    · rw [h] at herr
      simp at herr
    · rw [h] at herr
      cases herr
  · obtain ⟨hns, hd, hs, hlat, hlon⟩ :=
      chk_atm_field4_reaches_3d_d A x dim nspecies p_grid lat_grid lon_grid _ h
        (fun hc => by cases hc) (fun a b hc => by cases hc)
    subst hd
    rcases chk_atm_field4_3d_outcome_d A x nspecies p_grid lat_grid lon_grid hns hs hlat hlon
      with ⟨-, is, -, herr, -⟩ | ⟨-, -, is, his, herr, hv, hb⟩ | ⟨-, -, -, is, -, herr, -⟩ |
        ⟨-, -, -, herr⟩
    · rw [h] at herr
      simp at herr
    · rw [h] at herr
      simp only [Except.error.injEq, Fault.runtime_error.injEq, Msg.south_pole.injEq] at herr
      exact ⟨is, herr, his, hv, hb⟩
    · rw [h] at herr
      simp at herr
    · rw [h] at herr
      cases herr
  · obtain ⟨hns, hd, hs, hlat, hlon⟩ :=
      chk_atm_field4_reaches_3d_d A x dim nspecies p_grid lat_grid lon_grid _ h
        (fun hc => by cases hc) (fun a b hc => by cases hc)
    subst hd
    rcases chk_atm_field4_3d_outcome_d A x nspecies p_grid lat_grid lon_grid hns hs hlat hlon
      with ⟨-, is, -, herr, -⟩ | ⟨-, -, is, -, herr, -⟩ | ⟨-, -, -, is, his, herr, hv, hb⟩ |
        ⟨-, -, -, herr⟩
    · rw [h] at herr
      simp at herr
    · rw [h] at herr
      simp at herr
    · rw [h] at herr
      simp only [Except.error.injEq, Fault.runtime_error.injEq, Msg.north_pole.injEq] at herr
      exact ⟨is, herr, his, hv, hb⟩
    · rw [h] at herr
      cases herr

/-- C30, as stated, fails on the code.  On the latitude grid -90, 90 and the longitude
grid 0, 180, 360 take the field of the expected shape whose first latitude row is 0, 5, 0
and whose last latitude row is 1, 1 and a value that is not a number.  The last row has
different first and last longitude values, so the cyclic closure is violated, and the
first row varies at the South pole; the claim gives the cyclic error.  But the test
`fabs(x(ip,ir,last) - x(ip,ir,0)) > 0` holds in neither row, the cyclic check passes, and
the field fails with the South-pole error. -/
theorem chk_atm_field_fail_fast_counterexample :
    unrounded.sub (.fin 360) (.fin 0) = .fin 360 ∧
    ieee.sub (.fin 360) (.fin 0) = .fin 360 ∧
    (ConstTensor3View.mk 2 2 3 fun _ r c =>
        if r = 0 then (if c = 1 then .fin 5 else .fin 0)
        else (if c = 2 then .nan else .fin 1)).data 0 1 2 ≠
      (ConstTensor3View.mk 2 2 3 fun _ r c =>
        if r = 0 then (if c = 1 then .fin 5 else .fin 0)
        else (if c = 2 then .nan else .fin 1)).data 0 1 0 ∧
    (ConstTensor3View.mk 2 2 3 fun _ r c =>
        if r = 0 then (if c = 1 then .fin 5 else .fin 0)
        else (if c = 2 then .nan else .fin 1)).data 0 0 1 ≠
      (ConstTensor3View.mk 2 2 3 fun _ r c =>
        if r = 0 then (if c = 1 then .fin 5 else .fin 0)
        else (if c = 2 then .nan else .fin 1)).data 0 0 0 ∧
    chk_atm_field ieee
        ⟨2, 2, 3, fun _ r c =>
          if r = 0 then (if c = 1 then .fin 5 else .fin 0)
          else (if c = 2 then .nan else .fin 1)⟩
        3 [.fin 2, .fin 1] [.fin (-90), .fin 90] [.fin 0, .fin 180, .fin 360] =
      .error (.runtime_error (.south_pole none)) := by
  have hspan : ieee.sub (.fin 360) (.fin 0) = .fin 360 := by
    show round_double (360 - 0) = _
    norm_num [round_double_small.2.2.2]
  have hexact : unrounded.sub (.fin 360) (.fin 0) = .fin 360 := by
    show Double.fin (360 - 0) = _
    norm_num
  refine ⟨hexact, hspan, by simp, by simp, ?_⟩
  refine (chk_atm_field_3d_cases_d ieee
    ⟨2, 2, 3, fun _ r c =>
      if r = 0 then (if c = 1 then .fin 5 else .fin 0) else (if c = 2 then .nan else .fin 1)⟩
    [.fin 2, .fin 1] [.fin (-90), .fin 90] [.fin 0, .fin 180, .fin 360] ⟨rfl, rfl, rfl⟩
    (by simp) (by simp)).2.1 ?_ (by simp) ⟨0, 1, by decide, by decide, by decide, ?_⟩
  · intro _ ip ir _ h2
    have hr : ir = 0 ∨ ir = 1 := by
      have : ir < 2 := h2
      omega
    rcases hr with rfl | rfl
    · exact not_differ_self_ieee _
    · exact (not_differ_nan_ieee _).1
  · exact differ_ieee_of_round _ _ 5 (by simpa using round_double_five) (by norm_num)

/-- The rank-4 check on a field with two species, the longitude grid -180, 180 and no
pole in the latitude grid, when the test holds nowhere in the slice of species 0 and
somewhere in the slice of species 1: the cyclic error names species 1. -/
theorem chk_atm_field4_names_second (x : ConstTensor4View)
    (hx : x.nbooks = 2 ∧ x.npages = 2 ∧ x.nrows = 2 ∧ x.ncols = 2)
    (h0 : ∀ ip ir : Nat, ¬ differ ieee (x.data 0 ip ir 1) (x.data 0 ip ir 0))
    (h1 : differ ieee (x.data 1 0 0 1) (x.data 1 0 0 0)) :
    chk_atm_field4 ieee x 3 2 [.fin 2, .fin 1] [.fin 0, .fin 1] [.fin (-180), .fin 180] =
      .error (.runtime_error (.not_cyclic (some 1))) := by
  have hspan : ieee.sub (.fin 180) (.fin (-180)) = .fin 360 := by
    show round_double (180 - -180) = _
    norm_num [round_double_small.2.2.2]
  obtain ⟨hb, hp, hr, hc⟩ := hx
  obtain ⟨is, his, herr, ⟨ip, ir, -, -, hv⟩, -⟩ :=
    (chk_atm_field4_3d_cases_d ieee x 2 [.fin 2, .fin 1] [.fin 0, .fin 1]
      [.fin (-180), .fin 180] (by decide) ⟨by rw [hb]; rfl, by rw [hp]; rfl, by rw [hr]; rfl,
        by rw [hc]; rfl⟩ (by simp) (by simp)).1 (by simpa using hspan)
      ⟨1, 0, 0, by omega, by omega, by omega, by rw [hc]; exact h1⟩
  rw [hc] at hv
  have h01 : is = 0 ∨ is = 1 := by omega
  rcases h01 with rfl | rfl
  · exact absurd hv (h0 ip ir)
  · exact herr

/-- C31, as stated, fails on the code.  Take two species on the longitude grid -180, 180:
the slice of species 0 holds 1 in the first longitude column and a value that is not a
number in the last one, so its first and last longitude values differ and it violates the
cyclic closure; the slice of species 1 holds the longitude positions.  The test
`fabs(a - b) > 0` holds nowhere in the slice of species 0, and the cyclic error names
species 1, not the smallest species whose slice violates the condition. -/
theorem chk_atm_field4_first_species_counterexample :
    unrounded.sub (.fin 180) (.fin (-180)) = .fin 360 ∧
    (ConstTensor4View.mk 2 2 2 2 fun b _ _ c =>
        if b = 0 then (if c = 1 then .nan else .fin 1) else .fin c).data 0 0 0 1 ≠
      (ConstTensor4View.mk 2 2 2 2 fun b _ _ c =>
        if b = 0 then (if c = 1 then .nan else .fin 1) else .fin c).data 0 0 0 0 ∧
    chk_atm_field4 ieee
        ⟨2, 2, 2, 2, fun b _ _ c => if b = 0 then (if c = 1 then .nan else .fin 1) else .fin c⟩
        3 2 [.fin 2, .fin 1] [.fin 0, .fin 1] [.fin (-180), .fin 180] =
      .error (.runtime_error (.not_cyclic (some 1))) := by
  have hexact : unrounded.sub (.fin 180) (.fin (-180)) = .fin 360 := by
    show Double.fin (180 - -180) = _
    norm_num
  refine ⟨hexact, by simp, chk_atm_field4_names_second _ ⟨rfl, rfl, rfl, rfl⟩ ?_ ?_⟩
  · intro ip ir
    exact (not_differ_nan_ieee _).1
  · exact differ_ieee_of_round _ _ 1 (by simpa using round_double_small.1) (by norm_num)

/-! ## Doubles are told apart by the rounded difference -/

/-- Rounding to the nearest integer does not give 0 from 1 or more in absolute value. -/
theorem round_half_even_ne_zero (t : ℚ) (ht : 1 ≤ |t|) : round_half_even t ≠ 0 := by
  unfold round_half_even
  simp only
  rcases le_abs'.mp ht with h | h
  · -- t ≤ -1
    have hf : ⌊t⌋ ≤ -1 := by
      rw [Int.floor_le_iff]
      push_cast
      linarith
    rcases lt_or_eq_of_le hf with h2 | h2
    · split_ifs <;> omega
    · have ht1 : t = -1 := by
        have h3 : (⌊t⌋ : ℚ) ≤ t := Int.floor_le t
        rw [h2] at h3
        push_cast at h3
        linarith
      subst ht1
      norm_num
  · have hf : 1 ≤ ⌊t⌋ := by
      rw [Int.le_floor]
      exact_mod_cast h
    split_ifs <;> omega

theorem ulp_pos (q : ℚ) : 0 < ulp q := by
  unfold ulp
  positivity

/-- A rational of absolute value at least `2 ^ (-1074)` is not rounded to 0. -/
theorem round_double_ne_zero (d : ℚ) (h : (2 : ℚ) ^ (-1074 : Int) ≤ |d|) :
    round_double d ≠ .fin 0 ∧ round_double d ≠ .nan := by
  have hd : d ≠ 0 := by
    rintro rfl
    have : (0 : ℚ) < (2 : ℚ) ^ (-1074 : Int) := by positivity
    simp at h
    linarith
  have hu : ulp d ≤ |d| := by
    unfold ulp
    rcases le_or_lt (-1022) (Int.log 2 |d|) with hL | hL
    · rw [max_eq_left hL]
      have h1 : (2 : ℚ) ^ (Int.log 2 |d|) ≤ |d| :=
        Int.zpow_log_le_self (by norm_num) (abs_pos.mpr hd)
      have h2 : (2 : ℚ) ^ (Int.log 2 |d| - 52) ≤ (2 : ℚ) ^ (Int.log 2 |d|) :=
        zpow_le_zpow_right₀ (by norm_num) (by omega)
      linarith
    · rw [max_eq_right (le_of_lt hL)]
      norm_num at h ⊢
      exact h
  have ht : 1 ≤ |d / ulp d| := by
    rw [abs_div, abs_of_pos (ulp_pos d), le_div_iff₀ (ulp_pos d)]
    linarith
  have hr := round_half_even_ne_zero _ ht
  unfold round_double
  simp only [hd, if_false]
  constructor
  · split_ifs
    · simp
    · simp
    · simp only [ne_eq, Double.fin.injEq, mul_eq_zero, Int.cast_eq_zero, not_or]
      exact ⟨hr, (ulp_pos d).ne'⟩
  · split_ifs <;> simp

/-- A finite double is an integer multiple of `2 ^ (-1074)`. -/
theorem is_double_on_grid (q : ℚ) (h : (Double.fin q).is_double) :
    ∃ m : Int, q = m * (2 : ℚ) ^ (-1074 : Int) := by
  by_cases hq : q = 0
  · exact ⟨0, by simp [hq]⟩
  have h1 : round_double q = .fin q := h
  unfold round_double at h1
  simp only [hq, if_false] at h1
  split_ifs at h1
  obtain ⟨R, hR⟩ : ∃ R : Int, (R : ℚ) * ulp q = q := ⟨_, by simpa using h1⟩
  have hk : (0 : Int) ≤ max (Int.log 2 |q|) (-1022) - 52 + 1074 := by
    have := le_max_right (Int.log 2 |q|) (-1022)
    omega
  obtain ⟨n, hn⟩ := Int.eq_ofNat_of_zero_le hk
  have hu : ulp q = ((2 ^ n : Nat) : ℚ) * (2 : ℚ) ^ (-1074 : Int) := by
    unfold ulp
    have : max (Int.log 2 |q|) (-1022) - 52 = (n : Int) + (-1074) := by omega
    rw [this, zpow_add₀ (by norm_num), zpow_natCast]
    push_cast
    rfl
  have e : q = (R : ℚ) * (((2 ^ n : Nat) : ℚ) * (2 : ℚ) ^ (-1074 : Int)) := by
    rw [← hu]
    exact hR.symm
  exact ⟨R * (2 ^ n : Nat), by rw [e]; push_cast; ring⟩

/-- In the arithmetic of IEEE 754 the test `fabs(a - b) > 0` holds of two doubles exactly
when both are numbers and they are different. -/
theorem differ_ieee_iff (a b : Double) (ha : a.is_double) (hb : b.is_double) :
    differ ieee a b ↔ a ≠ .nan ∧ b ≠ .nan ∧ a ≠ b := by
  refine ⟨differ_ieee_imp a b, ?_⟩
  rintro ⟨h1, h2, h3⟩
  show Double.blt (.fin 0) ((Double.sub_exact a b).round).abs = true
  cases a with
  | nan => exact absurd rfl h1
  | neg_inf => cases b <;> simp_all [Double.sub_exact, Double.round, Double.abs, Double.blt]
  | pos_inf => cases b <;> simp_all [Double.sub_exact, Double.round, Double.abs, Double.blt]
  | fin p =>
    cases b with
    | nan => exact absurd rfl h2
    | neg_inf => simp [Double.sub_exact, Double.round, Double.abs, Double.blt]
    | pos_inf => simp [Double.sub_exact, Double.round, Double.abs, Double.blt]
    | fin q =>
      obtain ⟨m, hm⟩ := is_double_on_grid p ha
      obtain ⟨n, hn⟩ := is_double_on_grid q hb
      have hne : m ≠ n := by
        rintro rfl
        exact h3 (by rw [hm, hn])
      have hge : (2 : ℚ) ^ (-1074 : Int) ≤ |p - q| := by
        have hpos : (0 : ℚ) < (2 : ℚ) ^ (-1074 : Int) := by positivity
        rw [hm, hn, ← sub_mul, abs_mul, abs_of_pos hpos]
        have : (1 : ℚ) ≤ |(m : ℚ) - n| := by
          have h4 : (1 : Int) ≤ |m - n| := Int.one_le_abs (sub_ne_zero.mpr hne)
          exact_mod_cast h4
        nlinarith
      obtain ⟨r1, r2⟩ := round_double_ne_zero (p - q) hge
      show Double.blt (.fin 0) (round_double (p - q)).abs = true
      cases hr : round_double (p - q) with
      | nan => exact absurd hr r2
      | neg_inf => simp [Double.abs, Double.blt]
      | pos_inf => simp [Double.abs, Double.blt]
      | fin r =>
        have : r ≠ 0 := by
          rintro rfl
          exact r1 hr
        simp [Double.abs, Double.blt, this]

/-- The small whole numbers 0 to 5 are doubles. -/
theorem is_double_small (c : Nat) (h : c ≤ 5) : (Double.fin (c : ℚ)).is_double := by
  have h4 : round_double 4 = .fin 4 := by
    have hl : Int.log 2 |(4 : ℚ)| = 2 := by apply log_eq <;> norm_num
    unfold round_double ulp
    rw [hl]
    norm_num [round_half_even]
  show round_double (c : ℚ) = .fin (c : ℚ)
  interval_cases c
  · simpa using round_double_zero
  · simpa using round_double_small.1
  · simpa using round_double_small.2.1
  · simpa using round_double_three.1
  · simpa using h4
  · simpa using round_double_five

/-! ## Fields of doubles: the checks in terms of the values -/

/-- Within the extents of a rank-3 field of doubles, in an arithmetic that tells doubles
apart as IEEE 754 does, the test holds of two values of a row exactly when both are
numbers and they are different. -/
theorem differ_iff3 (A : Arith) (x : ConstTensor3View)
    (hA : ∀ a b : Double, a.is_double → b.is_double →
      (differ A a b ↔ a ≠ .nan ∧ b ≠ .nan ∧ a ≠ b))
    (hx : ∀ ip ir ic : Nat, ip < x.npages → ir < x.nrows → ic < x.ncols →
      (x.data ip ir ic).is_double)
    (ip ir ic jc : Nat) (h1 : ip < x.npages) (h2 : ir < x.nrows) (h3 : ic < x.ncols)
    (h4 : jc < x.ncols) :
    differ A (x.data ip ir ic) (x.data ip ir jc) ↔
      x.data ip ir ic ≠ .nan ∧ x.data ip ir jc ≠ .nan ∧ x.data ip ir ic ≠ x.data ip ir jc :=
  hA _ _ (hx ip ir ic h1 h2 h3) (hx ip ir jc h1 h2 h4)

/-- The same within the extents of a rank-4 field of doubles. -/
theorem differ_iff4 (A : Arith) (x : ConstTensor4View)
    (hA : ∀ a b : Double, a.is_double → b.is_double →
      (differ A a b ↔ a ≠ .nan ∧ b ≠ .nan ∧ a ≠ b))
    (hx : ∀ is ip ir ic : Nat, is < x.nbooks → ip < x.npages → ir < x.nrows → ic < x.ncols →
      (x.data is ip ir ic).is_double)
    (is ip ir ic jc : Nat) (h0 : is < x.nbooks) (h1 : ip < x.npages) (h2 : ir < x.nrows)
    (h3 : ic < x.ncols) (h4 : jc < x.ncols) :
    differ A (x.data is ip ir ic) (x.data is ip ir jc) ↔
      x.data is ip ir ic ≠ .nan ∧ x.data is ip ir jc ≠ .nan ∧
        x.data is ip ir ic ≠ x.data is ip ir jc :=
  hA _ _ (hx is ip ir ic h0 h1 h2 h3) (hx is ip ir jc h0 h1 h2 h4)

/-- A row whose neighbouring values all agree is constant. -/
theorem adjacent_eq_const_d (f : Nat → Double) (n : Nat)
    (h : ∀ ic : Nat, 1 ≤ ic → ic < n → f ic = f (ic - 1)) :
    ∀ ic : Nat, ic < n → f ic = f 0 := by
  intro ic
  induction ic with
  | zero => intro _; rfl
  | succ k ih =>
    intro hk
    rw [h (k + 1) (by omega) hk]
    exact ih (by omega)

/-- C11, amended.  In an arithmetic that tells doubles apart as IEEE 754 does (the test
`fabs(a - b) > 0` holds of two doubles exactly when both are numbers and they differ),
for `dim = 3`, grids accepted by `chk_atm_grids` for which the machine computes
`lon_grid[last] - lon_grid[0]` as 360, and a rank-3 field of doubles of the expected
shape: `chk_atm_field` fails with the cyclic-mismatch error whenever there is a page and
row at which the first and last longitude values are numbers (not NaN) and differ; hence
on success `x(ip, ir, last) = x(ip, ir, 0)` for every page `ip` and row `ir` at which both
values are numbers. -/
theorem chk_atm_field_cyclic (A : Arith) (x : ConstTensor3View)
    (p_grid lat_grid lon_grid : ConstVectorView)
    (hA : ∀ a b : Double, a.is_double → b.is_double →
      (differ A a b ↔ a ≠ .nan ∧ b ≠ .nan ∧ a ≠ b))
    (hx : ∀ ip ir ic : Nat, ip < x.npages → ir < x.nrows → ic < x.ncols →
      (x.data ip ir ic).is_double)
    (hg : chk_atm_grids A 3 p_grid lat_grid lon_grid = .ok ())
    (hs : x.npages = p_grid.length ∧ x.nrows = lat_grid.length ∧ x.ncols = lon_grid.length)
    (hspan : A.sub (lon_grid.getD (lon_grid.length - 1) (.fin 0)) (lon_grid.getD 0 (.fin 0)) =
      .fin 360) :
    ((∃ ip ir : Nat, ip < x.npages ∧ ir < x.nrows ∧
        x.data ip ir (x.ncols - 1) ≠ .nan ∧ x.data ip ir 0 ≠ .nan ∧
        x.data ip ir (x.ncols - 1) ≠ x.data ip ir 0) →
      chk_atm_field A x 3 p_grid lat_grid lon_grid =
        .error (.runtime_error (.not_cyclic none))) ∧
    (chk_atm_field A x 3 p_grid lat_grid lon_grid = .ok () →
      ∀ ip ir : Nat, ip < x.npages → ir < x.nrows →
        x.data ip ir (x.ncols - 1) ≠ .nan → x.data ip ir 0 ≠ .nan →
        x.data ip ir (x.ncols - 1) = x.data ip ir 0) := by
  obtain ⟨-, hlon⟩ := chk_atm_grids_three_nonempty_d A p_grid lat_grid lon_grid hg
  have hc : 0 < x.ncols := by rw [hs.2.2]; exact hlon
  obtain ⟨t1, t2⟩ := chk_atm_field_cyclic_tests A x p_grid lat_grid lon_grid hg hs hspan
  refine ⟨?_, ?_⟩
  · rintro ⟨ip, ir, h1, h2, n1, n2, hne⟩
    exact t1 ⟨ip, ir, h1, h2,
      (differ_iff3 A x hA hx ip ir _ _ h1 h2 (by omega) hc).mpr ⟨n1, n2, hne⟩⟩
  · intro hok ip ir h1 h2 n1 n2
    by_contra hne
    exact t2 hok ip ir h1 h2
      ((differ_iff3 A x hA hx ip ir _ _ h1 h2 (by omega) hc).mpr ⟨n1, n2, hne⟩)

/-- The witness of C11, in the arithmetic of IEEE 754: with the longitude grid -180, -90,
0, 90, 180 a field whose values are the longitude positions is rejected with the
cyclic-mismatch error. -/
theorem chk_atm_field_cyclic_witness :
    chk_atm_field ieee ⟨2, 2, 5, fun _ _ c => .fin c⟩ 3 [.fin 2, .fin 1] [.fin 0, .fin 1]
        [.fin (-180), .fin (-90), .fin 0, .fin 90, .fin 180] =
      .error (.runtime_error (.not_cyclic none)) := by
  have hspan : ieee.sub (.fin 180) (.fin (-180)) = .fin 360 := by
    show round_double (180 - -180) = _
    norm_num [round_double_small.2.2.2]
  refine (chk_atm_field_cyclic ieee ⟨2, 2, 5, fun _ _ c => .fin c⟩ [.fin 2, .fin 1]
    [.fin 0, .fin 1] [.fin (-180), .fin (-90), .fin 0, .fin 90, .fin 180] differ_ieee_iff
    (fun _ _ ic _ _ h => is_double_small ic (by have : ic < 5 := h; omega)) ?_
    ⟨rfl, rfl, rfl⟩ ?_).1 ⟨0, 0, by decide, by decide, by simp, by simp, by simp⟩
  · rw [chk_atm_grids_three_iff_d]
    simp only [List.length_cons, List.length_nil, Nat.reduceAdd, Nat.reduceSub,
      List.getD_cons_succ, List.getD_cons_zero, hspan]
    norm_num [List.Sorted, GT.gt, fin_lt_fin, fin_le_fin]
  · simpa using hspan

/-- C12, amended.  In an arithmetic that tells doubles apart as IEEE 754 does, for
`dim = 3` and a rank-3 field of doubles of the expected shape: if `chk_atm_field`
succeeds, `lat_grid[0] = -90` and the first latitude row holds no NaN, then
`x(ip, 0, ic) = x(ip, 0, 0)` for every page `ip` and longitude position `ic`; if it
succeeds, `lat_grid[last] = 90` and the last latitude row holds no NaN, the same holds at
the last latitude row; and a field that varies with longitude at such a row, the row
holding no NaN, is rejected. -/
theorem chk_atm_field_poles (A : Arith) (x : ConstTensor3View)
    (p_grid lat_grid lon_grid : ConstVectorView)
    (hA : ∀ a b : Double, a.is_double → b.is_double →
      (differ A a b ↔ a ≠ .nan ∧ b ≠ .nan ∧ a ≠ b))
    (hx : ∀ ip ir ic : Nat, ip < x.npages → ir < x.nrows → ic < x.ncols →
      (x.data ip ir ic).is_double)
    (hs : x.npages = p_grid.length ∧ x.nrows = lat_grid.length ∧ x.ncols = lon_grid.length) :
    (chk_atm_field A x 3 p_grid lat_grid lon_grid = .ok () →
      lat_grid.getD 0 (.fin 0) = .fin (-90) →
      (∀ ip ic : Nat, ip < x.npages → ic < x.ncols → x.data ip 0 ic ≠ .nan) →
      ∀ ip ic : Nat, ip < x.npages → ic < x.ncols → x.data ip 0 ic = x.data ip 0 0) ∧
    (chk_atm_field A x 3 p_grid lat_grid lon_grid = .ok () →
      lat_grid.getD (lat_grid.length - 1) (.fin 0) = .fin 90 →
      (∀ ip ic : Nat, ip < x.npages → ic < x.ncols → x.data ip (x.nrows - 1) ic ≠ .nan) →
      ∀ ip ic : Nat, ip < x.npages → ic < x.ncols →
        x.data ip (x.nrows - 1) ic = x.data ip (x.nrows - 1) 0) ∧
    (lat_grid.getD 0 (.fin 0) = .fin (-90) →
      (∀ ip ic : Nat, ip < x.npages → ic < x.ncols → x.data ip 0 ic ≠ .nan) →
      (∃ ip ic : Nat, ip < x.npages ∧ ic < x.ncols ∧ x.data ip 0 ic ≠ x.data ip 0 0) →
      fails (chk_atm_field A x 3 p_grid lat_grid lon_grid)) ∧
    (lat_grid.getD (lat_grid.length - 1) (.fin 0) = .fin 90 →
      (∀ ip ic : Nat, ip < x.npages → ic < x.ncols → x.data ip (x.nrows - 1) ic ≠ .nan) →
      (∃ ip ic : Nat, ip < x.npages ∧ ic < x.ncols ∧
        x.data ip (x.nrows - 1) ic ≠ x.data ip (x.nrows - 1) 0) →
      fails (chk_atm_field A x 3 p_grid lat_grid lon_grid)) := by
  have hrow : ∀ i : Nat, ∀ v : ℚ, v ≠ 0 → lat_grid.getD i (.fin 0) = .fin v →
      0 < x.nrows := by
    intro i v hv h
    rw [hs.2.1]
    rcases Nat.eq_zero_or_pos lat_grid.length with h0 | h0
    · rw [List.length_eq_zero.mp h0] at h
      simp at h
      exact absurd h.symm hv
    · exact h0
  obtain ⟨t1, t2, t3, t4⟩ := chk_atm_field_poles_tests A x p_grid lat_grid lon_grid hs
  -- a row without NaN: the test on neighbours is their being different
  have key : ∀ r : Nat, r < x.nrows →
      (∀ ip ic : Nat, ip < x.npages → ic < x.ncols → x.data ip r ic ≠ .nan) →
      ∀ ip ic : Nat, ip < x.npages → 1 ≤ ic → ic < x.ncols →
        (differ A (x.data ip r ic) (x.data ip r (ic - 1)) ↔
          x.data ip r ic ≠ x.data ip r (ic - 1)) := by
    intro r hr hn ip ic h1 h2 h3
    rw [differ_iff3 A x hA hx ip r ic (ic - 1) h1 hr h3 (by omega)]
    exact ⟨fun h => h.2.2, fun h => ⟨hn ip ic h1 h3, hn ip (ic - 1) h1 (by omega), h⟩⟩
  have varies : ∀ r : Nat, ∀ ip : Nat,
      (∃ ic : Nat, ic < x.ncols ∧ x.data ip r ic ≠ x.data ip r 0) →
      ∃ ic : Nat, 1 ≤ ic ∧ ic < x.ncols ∧ x.data ip r ic ≠ x.data ip r (ic - 1) := by
    rintro r ip ⟨ic, h1, hne⟩
    by_contra hcon
    apply hne
    refine adjacent_eq_const_d (x.data ip r) x.ncols (fun jc a b => ?_) ic h1
    by_contra hj
    exact hcon ⟨jc, a, b, hj⟩
  refine ⟨?_, ?_, ?_, ?_⟩
  · intro hok hp hn ip ic h1 h2
    have hr := hrow 0 (-90) (by norm_num) hp
    refine adjacent_eq_const_d (x.data ip 0) x.ncols (fun jc a b => ?_) ic h2
    by_contra hj
    exact t1 hok hp ip jc h1 a b ((key 0 hr hn ip jc h1 a b).mpr hj)
  · intro hok hp hn ip ic h1 h2
    have hr := hrow _ 90 (by norm_num) hp
    refine adjacent_eq_const_d (x.data ip (x.nrows - 1)) x.ncols (fun jc a b => ?_) ic h2
    by_contra hj
    exact t2 hok hp ip jc h1 a b ((key (x.nrows - 1) (by omega) hn ip jc h1 a b).mpr hj)
  · rintro hp hn ⟨ip, ic, h1, h2, hne⟩
    have hr := hrow 0 (-90) (by norm_num) hp
    obtain ⟨jc, a, b, hj⟩ := varies 0 ip ⟨ic, h2, hne⟩
    exact t3 hp ⟨ip, jc, h1, a, b, (key 0 hr hn ip jc h1 a b).mpr hj⟩
  · rintro hp hn ⟨ip, ic, h1, h2, hne⟩
    have hr := hrow _ 90 (by norm_num) hp
    obtain ⟨jc, a, b, hj⟩ := varies (x.nrows - 1) ip ⟨ic, h2, hne⟩
    exact t4 hp ⟨ip, jc, h1, a, b, (key (x.nrows - 1) (by omega) hn ip jc h1 a b).mpr hj⟩

/-- C12 in the arithmetic of IEEE 754, on a field whose values are the longitude
positions, the latitude grid starting at -90: the first latitude row varies and the field
is rejected. -/
theorem chk_atm_field_poles_witness :
    fails (chk_atm_field ieee ⟨2, 2, 3, fun _ _ c => .fin c⟩ 3 [.fin 2, .fin 1]
      [.fin (-90), .fin 0] [.fin 0, .fin 10, .fin 20]) :=
  (chk_atm_field_poles ieee ⟨2, 2, 3, fun _ _ c => .fin c⟩ [.fin 2, .fin 1]
    [.fin (-90), .fin 0] [.fin 0, .fin 10, .fin 20] differ_ieee_iff
    (fun _ _ ic _ _ h => is_double_small ic (by have : ic < 3 := h; omega))
    ⟨rfl, rfl, rfl⟩).2.2.1 (by simp) (fun _ _ _ _ => by simp)
    ⟨0, 1, by decide, by decide, by simp⟩


/-- C15, amended.  In an arithmetic that tells doubles apart as IEEE 754 does, for a
matrix of doubles, `chk_atm_surface` succeeds if and only if the matrix has `|lat_grid|`
rows when `dim > 1` (else 1 row) and `|lon_grid|` columns when `dim > 2` (else 1 column)
and, when `dim = 3` and the machine computes `lon_grid[last] - lon_grid[0]` as 360, its
first and last columns are equal in every row in which both values are numbers (not NaN);
nothing is asked at the poles.  For `dim = 3` the longitude grid is taken to be
non-empty, so that `lon_grid[last]` and `lon_grid[0]` exist. -/
theorem chk_atm_surface_ok_iff (A : Arith) (x : Matrix) (dim : Index)
    (lat_grid lon_grid : ConstVectorView)
    (hA : ∀ a b : Double, a.is_double → b.is_double →
      (differ A a b ↔ a ≠ .nan ∧ b ≠ .nan ∧ a ≠ b))
    (hx : ∀ ir ic : Nat, ir < x.nrows → ic < x.ncols → (x.data ir ic).is_double)
    (hlon : dim = 3 → lon_grid ≠ []) :
    chk_atm_surface A x dim lat_grid lon_grid = .ok () ↔
      (x.nrows : Index) = (if dim > 1 then nelem lat_grid else 1) ∧
      (x.ncols : Index) = (if dim > 2 then nelem lon_grid else 1) ∧
      (dim = 3 →
        A.sub (lon_grid.getD (lon_grid.length - 1) (.fin 0)) (lon_grid.getD 0 (.fin 0)) =
          .fin 360 →
        ∀ ir : Nat, ir < x.nrows → x.data ir (x.ncols - 1) ≠ .nan → x.data ir 0 ≠ .nan →
          x.data ir (x.ncols - 1) = x.data ir 0) := by
  rw [chk_atm_surface_ok_tests A x dim lat_grid lon_grid hlon]
  have hc : dim = 3 → (x.ncols : Index) = (if dim > 2 then nelem lon_grid else 1) →
      0 < x.ncols := by
    intro h3 hcols
    subst h3
    have hpos : 0 < lon_grid.length := List.length_pos.mpr (hlon rfl)
    rw [if_pos (by decide)] at hcols
    have hcn : (x.ncols : Int) = (lon_grid.length : Int) := hcols
    omega
  constructor
  · rintro ⟨hr, hcols, h⟩
    refine ⟨hr, hcols, fun h3 hspan ir hir n1 n2 => ?_⟩
    by_contra hne
    exact h h3 hspan ir hir
      ((hA _ _ (hx ir _ hir (by have := hc h3 hcols; omega)) (hx ir 0 hir (hc h3 hcols))).mpr
        ⟨n1, n2, hne⟩)
  · rintro ⟨hr, hcols, h⟩
    refine ⟨hr, hcols, fun h3 hspan ir hir hd => ?_⟩
    obtain ⟨n1, n2, hne⟩ :=
      (hA _ _ (hx ir _ hir (by have := hc h3 hcols; omega)) (hx ir 0 hir (hc h3 hcols))).mp hd
    exact hne (h h3 hspan ir hir n1 n2)

/-- C15 in the arithmetic of IEEE 754, on a surface over the longitude grid -180, 0, 180:
one whose values depend on the row only is accepted, one whose values are the column
positions is not. -/
theorem chk_atm_surface_ok_iff_witness :
    chk_atm_surface ieee ⟨2, 3, fun r _ => .fin r⟩ 3 [.fin 0, .fin 1]
      [.fin (-180), .fin 0, .fin 180] = .ok () ∧
    ¬ chk_atm_surface ieee ⟨2, 3, fun _ c => .fin c⟩ 3 [.fin 0, .fin 1]
      [.fin (-180), .fin 0, .fin 180] = .ok () := by
  have hspan : ieee.sub (.fin 180) (.fin (-180)) = .fin 360 := by
    show round_double (180 - -180) = _
    norm_num [round_double_small.2.2.2]
  refine ⟨(chk_atm_surface_ok_iff ieee ⟨2, 3, fun r _ => .fin r⟩ 3 [.fin 0, .fin 1]
      [.fin (-180), .fin 0, .fin 180] differ_ieee_iff
      (fun ir _ h _ => is_double_small ir (by have : ir < 2 := h; omega))
      (fun _ => by simp)).mpr
      ⟨by simp [nelem], by simp [nelem], fun _ _ _ _ _ _ => rfl⟩, fun h => ?_⟩
  have := ((chk_atm_surface_ok_iff ieee ⟨2, 3, fun _ c => .fin c⟩ 3 [.fin 0, .fin 1]
    [.fin (-180), .fin 0, .fin 180] differ_ieee_iff
    (fun _ ic _ h => is_double_small ic (by have : ic < 3 := h; omega))
    (fun _ => by simp)).mp h).2.2 rfl
    (by simpa using hspan) 0 (by decide) (by simp) (by simp)
  simp at this


/-- C30, amended.  Fail-fast ordering in `chk_atm_field` for `dim = 3`, rank 3 and rank 4
(with `nspecies` not 0), in an arithmetic that tells doubles apart as IEEE 754 does and
for fields of doubles: one error is reported, with the priority shape mismatch, then
cyclic longitude mismatch, then South-pole variation, then North-pole variation, a
violation being one between values that are numbers (not NaN).  A field of another shape
than expected fails with the wrong-size error whatever its values.  A field of the
expected shape (latitude and longitude grids not empty) fails with the cyclic error when
the machine computes `lon_grid[last] - lon_grid[0]` as 360 and the last and the first
longitude value at some page and row are numbers and differ, whatever happens at the
poles; with the South-pole error when it passes the cyclic check (the last and the first
value are equal wherever both are numbers), `lat_grid[0] = -90` and two neighbouring
longitude values of the first latitude row are numbers and differ, whatever happens at the
North pole; with the North-pole error when it passes these two and the same happens at
the last latitude row with `lat_grid[last] = 90`; and it succeeds when it passes all
three.  For rank 4 the three errors name a species of the field. -/
theorem chk_atm_field_fail_fast (A : Arith) (x : ConstTensor3View) (y : ConstTensor4View)
    (nspecies : Index) (p_grid lat_grid lon_grid : ConstVectorView) (hns : nspecies ≠ 0)
    (hA : ∀ a b : Double, a.is_double → b.is_double →
      (differ A a b ↔ a ≠ .nan ∧ b ≠ .nan ∧ a ≠ b))
    (hx : ∀ ip ir ic : Nat, ip < x.npages → ir < x.nrows → ic < x.ncols →
      (x.data ip ir ic).is_double)
    (hy : ∀ is ip ir ic : Nat, is < y.nbooks → ip < y.npages → ir < y.nrows → ic < y.ncols →
      (y.data is ip ir ic).is_double) :
    (¬ (x.npages = p_grid.length ∧ x.nrows = lat_grid.length ∧ x.ncols = lon_grid.length) →
      chk_atm_field A x 3 p_grid lat_grid lon_grid =
        .error (.runtime_error (.field_wrong_size
          [nelem p_grid, nelem lat_grid, nelem lon_grid] [x.npages, x.nrows, x.ncols]))) ∧
    (x.npages = p_grid.length ∧ x.nrows = lat_grid.length ∧ x.ncols = lon_grid.length →
      0 < lat_grid.length → 0 < lon_grid.length →
      (A.sub (lon_grid.getD (lon_grid.length - 1) (.fin 0)) (lon_grid.getD 0 (.fin 0)) = .fin 360 →
        (∃ ip ir : Nat, ip < x.npages ∧ ir < x.nrows ∧
          x.data ip ir (x.ncols - 1) ≠ .nan ∧ x.data ip ir 0 ≠ .nan ∧
            x.data ip ir (x.ncols - 1) ≠ x.data ip ir 0) →
        chk_atm_field A x 3 p_grid lat_grid lon_grid =
          .error (.runtime_error (.not_cyclic none))) ∧
      ((A.sub (lon_grid.getD (lon_grid.length - 1) (.fin 0)) (lon_grid.getD 0 (.fin 0)) = .fin 360 →
          ∀ ip ir : Nat, ip < x.npages → ir < x.nrows →
            x.data ip ir (x.ncols - 1) ≠ .nan → x.data ip ir 0 ≠ .nan →
              x.data ip ir (x.ncols - 1) = x.data ip ir 0) →
        lat_grid.getD 0 (.fin 0) = .fin (-90) →
        (∃ ip ic : Nat, ip < x.npages ∧ 1 ≤ ic ∧ ic < x.ncols ∧
          x.data ip 0 ic ≠ .nan ∧ x.data ip 0 (ic - 1) ≠ .nan ∧
            x.data ip 0 ic ≠ x.data ip 0 (ic - 1)) →
        chk_atm_field A x 3 p_grid lat_grid lon_grid =
          .error (.runtime_error (.south_pole none))) ∧
      ((A.sub (lon_grid.getD (lon_grid.length - 1) (.fin 0)) (lon_grid.getD 0 (.fin 0)) = .fin 360 →
          ∀ ip ir : Nat, ip < x.npages → ir < x.nrows →
            x.data ip ir (x.ncols - 1) ≠ .nan → x.data ip ir 0 ≠ .nan →
              x.data ip ir (x.ncols - 1) = x.data ip ir 0) →
        (lat_grid.getD 0 (.fin 0) = .fin (-90) →
          ∀ ip ic : Nat, ip < x.npages → 1 ≤ ic → ic < x.ncols →
            x.data ip 0 ic ≠ .nan → x.data ip 0 (ic - 1) ≠ .nan →
              x.data ip 0 ic = x.data ip 0 (ic - 1)) →
        lat_grid.getD (lat_grid.length - 1) (.fin 0) = .fin 90 →
        (∃ ip ic : Nat, ip < x.npages ∧ 1 ≤ ic ∧ ic < x.ncols ∧
          x.data ip (x.nrows - 1) ic ≠ .nan ∧ x.data ip (x.nrows - 1) (ic - 1) ≠ .nan ∧
            x.data ip (x.nrows - 1) ic ≠ x.data ip (x.nrows - 1) (ic - 1)) →
        chk_atm_field A x 3 p_grid lat_grid lon_grid =
          .error (.runtime_error (.north_pole none))) ∧
      ((A.sub (lon_grid.getD (lon_grid.length - 1) (.fin 0)) (lon_grid.getD 0 (.fin 0)) = .fin 360 →
          ∀ ip ir : Nat, ip < x.npages → ir < x.nrows →
            x.data ip ir (x.ncols - 1) ≠ .nan → x.data ip ir 0 ≠ .nan →
              x.data ip ir (x.ncols - 1) = x.data ip ir 0) →
        (lat_grid.getD 0 (.fin 0) = .fin (-90) →
          ∀ ip ic : Nat, ip < x.npages → 1 ≤ ic → ic < x.ncols →
            x.data ip 0 ic ≠ .nan → x.data ip 0 (ic - 1) ≠ .nan →
              x.data ip 0 ic = x.data ip 0 (ic - 1)) →
        (lat_grid.getD (lat_grid.length - 1) (.fin 0) = .fin 90 →
          ∀ ip ic : Nat, ip < x.npages → 1 ≤ ic → ic < x.ncols →
            x.data ip (x.nrows - 1) ic ≠ .nan → x.data ip (x.nrows - 1) (ic - 1) ≠ .nan →
              x.data ip (x.nrows - 1) ic = x.data ip (x.nrows - 1) (ic - 1)) →
        chk_atm_field A x 3 p_grid lat_grid lon_grid = .ok ())) ∧
    (¬ ((y.nbooks : Index) = nspecies ∧ y.npages = p_grid.length ∧
        y.nrows = lat_grid.length ∧ y.ncols = lon_grid.length) →
      chk_atm_field4 A y 3 nspecies p_grid lat_grid lon_grid =
        .error (.runtime_error (.field_wrong_size
          [nspecies, nelem p_grid, nelem lat_grid, nelem lon_grid]
          [y.nbooks, y.npages, y.nrows, y.ncols]))) ∧
    ((y.nbooks : Index) = nspecies ∧ y.npages = p_grid.length ∧
        y.nrows = lat_grid.length ∧ y.ncols = lon_grid.length →
      0 < lat_grid.length → 0 < lon_grid.length →
      (A.sub (lon_grid.getD (lon_grid.length - 1) (.fin 0)) (lon_grid.getD 0 (.fin 0)) = .fin 360 →
        (∃ is ip ir : Nat, is < y.nbooks ∧ ip < y.npages ∧ ir < y.nrows ∧
          y.data is ip ir (y.ncols - 1) ≠ .nan ∧ y.data is ip ir 0 ≠ .nan ∧
            y.data is ip ir (y.ncols - 1) ≠ y.data is ip ir 0) →
        ∃ is : Nat, is < y.nbooks ∧
          chk_atm_field4 A y 3 nspecies p_grid lat_grid lon_grid =
            .error (.runtime_error (.not_cyclic (some (is : Int))))) ∧
      ((A.sub (lon_grid.getD (lon_grid.length - 1) (.fin 0)) (lon_grid.getD 0 (.fin 0)) = .fin 360 →
          ∀ is ip ir : Nat, is < y.nbooks → ip < y.npages → ir < y.nrows →
            y.data is ip ir (y.ncols - 1) ≠ .nan → y.data is ip ir 0 ≠ .nan →
              y.data is ip ir (y.ncols - 1) = y.data is ip ir 0) →
        lat_grid.getD 0 (.fin 0) = .fin (-90) →
        (∃ is ip ic : Nat, is < y.nbooks ∧ ip < y.npages ∧ 1 ≤ ic ∧ ic < y.ncols ∧
          y.data is ip 0 ic ≠ .nan ∧ y.data is ip 0 (ic - 1) ≠ .nan ∧
            y.data is ip 0 ic ≠ y.data is ip 0 (ic - 1)) →
        ∃ is : Nat, is < y.nbooks ∧
          chk_atm_field4 A y 3 nspecies p_grid lat_grid lon_grid =
            .error (.runtime_error (.south_pole (some (is : Int))))) ∧
      ((A.sub (lon_grid.getD (lon_grid.length - 1) (.fin 0)) (lon_grid.getD 0 (.fin 0)) = .fin 360 →
          ∀ is ip ir : Nat, is < y.nbooks → ip < y.npages → ir < y.nrows →
            y.data is ip ir (y.ncols - 1) ≠ .nan → y.data is ip ir 0 ≠ .nan →
              y.data is ip ir (y.ncols - 1) = y.data is ip ir 0) →
        (lat_grid.getD 0 (.fin 0) = .fin (-90) →
          ∀ is ip ic : Nat, is < y.nbooks → ip < y.npages → 1 ≤ ic → ic < y.ncols →
            y.data is ip 0 ic ≠ .nan → y.data is ip 0 (ic - 1) ≠ .nan →
              y.data is ip 0 ic = y.data is ip 0 (ic - 1)) →
        lat_grid.getD (lat_grid.length - 1) (.fin 0) = .fin 90 →
        (∃ is ip ic : Nat, is < y.nbooks ∧ ip < y.npages ∧ 1 ≤ ic ∧ ic < y.ncols ∧
          y.data is ip (y.nrows - 1) ic ≠ .nan ∧ y.data is ip (y.nrows - 1) (ic - 1) ≠ .nan ∧
            y.data is ip (y.nrows - 1) ic ≠ y.data is ip (y.nrows - 1) (ic - 1)) →
        ∃ is : Nat, is < y.nbooks ∧
          chk_atm_field4 A y 3 nspecies p_grid lat_grid lon_grid =
            .error (.runtime_error (.north_pole (some (is : Int))))) ∧
      ((A.sub (lon_grid.getD (lon_grid.length - 1) (.fin 0)) (lon_grid.getD 0 (.fin 0)) = .fin 360 →
          ∀ is ip ir : Nat, is < y.nbooks → ip < y.npages → ir < y.nrows →
            y.data is ip ir (y.ncols - 1) ≠ .nan → y.data is ip ir 0 ≠ .nan →
              y.data is ip ir (y.ncols - 1) = y.data is ip ir 0) →
        (lat_grid.getD 0 (.fin 0) = .fin (-90) →
          ∀ is ip ic : Nat, is < y.nbooks → ip < y.npages → 1 ≤ ic → ic < y.ncols →
            y.data is ip 0 ic ≠ .nan → y.data is ip 0 (ic - 1) ≠ .nan →
              y.data is ip 0 ic = y.data is ip 0 (ic - 1)) →
        (lat_grid.getD (lat_grid.length - 1) (.fin 0) = .fin 90 →
          ∀ is ip ic : Nat, is < y.nbooks → ip < y.npages → 1 ≤ ic → ic < y.ncols →
            y.data is ip (y.nrows - 1) ic ≠ .nan → y.data is ip (y.nrows - 1) (ic - 1) ≠ .nan →
              y.data is ip (y.nrows - 1) ic = y.data is ip (y.nrows - 1) (ic - 1)) →
        chk_atm_field4 A y 3 nspecies p_grid lat_grid lon_grid = .ok ()))  := by
  obtain ⟨T1, T2, T3, T4⟩ :=
    chk_atm_field_fail_fast_tests A x y nspecies p_grid lat_grid lon_grid hns
  refine ⟨T1, fun hs hlat hlon => ?_, T3, fun hs hlat hlon => ?_⟩
  · obtain ⟨a1, a2, a3, a4⟩ := T2 hs hlat hlon
    have hc : 0 < x.ncols := by rw [hs.2.2]; exact hlon
    have hr : 0 < x.nrows := by rw [hs.2.1]; exact hlat
    have pt := differ_iff3 A x hA hx
    refine ⟨fun h1 h2 => a1 h1 ?_, fun h1 h2 h3 => a2 ?_ h2 ?_,
      fun h1 h2 h3 h4 => a3 ?_ ?_ h3 ?_, fun h1 h2 h3 => a4 ?_ ?_ ?_⟩
    · obtain ⟨ip, ir, b1, b2, n⟩ := h2
      exact ⟨ip, ir, b1, b2, (pt ip ir _ _ b1 b2 (by omega) hc).mpr n⟩
    · intro hS ip ir b1 b2 hd
      obtain ⟨n1, n2, hne⟩ := (pt ip ir _ _ b1 b2 (by omega) hc).mp hd
      exact hne (h1 hS ip ir b1 b2 n1 n2)
    · obtain ⟨ip, ic, b1, b2, b3, n⟩ := h3
      exact ⟨ip, ic, b1, b2, b3, (pt ip 0 _ _ b1 hr b3 (by omega)).mpr n⟩
    · intro hS ip ir b1 b2 hd
      obtain ⟨n1, n2, hne⟩ := (pt ip ir _ _ b1 b2 (by omega) hc).mp hd
      exact hne (h1 hS ip ir b1 b2 n1 n2)
    · intro hP ip ic b1 b2 b3 hd
      obtain ⟨n1, n2, hne⟩ := (pt ip 0 _ _ b1 hr b3 (by omega)).mp hd
      exact hne (h2 hP ip ic b1 b2 b3 n1 n2)
    · obtain ⟨ip, ic, b1, b2, b3, n⟩ := h4
      exact ⟨ip, ic, b1, b2, b3, (pt ip _ _ _ b1 (by omega) b3 (by omega)).mpr n⟩
    · intro hS ip ir b1 b2 hd
      obtain ⟨n1, n2, hne⟩ := (pt ip ir _ _ b1 b2 (by omega) hc).mp hd
      exact hne (h1 hS ip ir b1 b2 n1 n2)
    · intro hP ip ic b1 b2 b3 hd
      obtain ⟨n1, n2, hne⟩ := (pt ip 0 _ _ b1 hr b3 (by omega)).mp hd
      exact hne (h2 hP ip ic b1 b2 b3 n1 n2)
    · intro hP ip ic b1 b2 b3 hd
      obtain ⟨n1, n2, hne⟩ := (pt ip _ _ _ b1 (by omega) b3 (by omega)).mp hd
      exact hne (h3 hP ip ic b1 b2 b3 n1 n2)
  · obtain ⟨a1, a2, a3, a4⟩ := T4 hs hlat hlon
    have hc : 0 < y.ncols := by rw [hs.2.2.2]; exact hlon
    have hr : 0 < y.nrows := by rw [hs.2.2.1]; exact hlat
    have pt := differ_iff4 A y hA hy
    refine ⟨fun h1 h2 => a1 h1 ?_, fun h1 h2 h3 => a2 ?_ h2 ?_,
      fun h1 h2 h3 h4 => a3 ?_ ?_ h3 ?_, fun h1 h2 h3 => a4 ?_ ?_ ?_⟩
    · obtain ⟨is, ip, ir, b0, b1, b2, n⟩ := h2
      exact ⟨is, ip, ir, b0, b1, b2, (pt is ip ir _ _ b0 b1 b2 (by omega) hc).mpr n⟩
    · intro hS is ip ir b0 b1 b2 hd
      obtain ⟨n1, n2, hne⟩ := (pt is ip ir _ _ b0 b1 b2 (by omega) hc).mp hd
      exact hne (h1 hS is ip ir b0 b1 b2 n1 n2)
    · obtain ⟨is, ip, ic, b0, b1, b2, b3, n⟩ := h3
      exact ⟨is, ip, ic, b0, b1, b2, b3, (pt is ip 0 _ _ b0 b1 hr b3 (by omega)).mpr n⟩
    · intro hS is ip ir b0 b1 b2 hd
      obtain ⟨n1, n2, hne⟩ := (pt is ip ir _ _ b0 b1 b2 (by omega) hc).mp hd
      exact hne (h1 hS is ip ir b0 b1 b2 n1 n2)
    · intro hP is ip ic b0 b1 b2 b3 hd
      obtain ⟨n1, n2, hne⟩ := (pt is ip 0 _ _ b0 b1 hr b3 (by omega)).mp hd
      exact hne (h2 hP is ip ic b0 b1 b2 b3 n1 n2)
    · obtain ⟨is, ip, ic, b0, b1, b2, b3, n⟩ := h4
      exact ⟨is, ip, ic, b0, b1, b2, b3,
        (pt is ip _ _ _ b0 b1 (by omega) b3 (by omega)).mpr n⟩
    · intro hS is ip ir b0 b1 b2 hd
      obtain ⟨n1, n2, hne⟩ := (pt is ip ir _ _ b0 b1 b2 (by omega) hc).mp hd
      exact hne (h1 hS is ip ir b0 b1 b2 n1 n2)
    · intro hP is ip ic b0 b1 b2 b3 hd
      obtain ⟨n1, n2, hne⟩ := (pt is ip 0 _ _ b0 b1 hr b3 (by omega)).mp hd
      exact hne (h2 hP is ip ic b0 b1 b2 b3 n1 n2)
    · intro hP is ip ic b0 b1 b2 b3 hd
      obtain ⟨n1, n2, hne⟩ := (pt is ip _ _ _ b0 b1 (by omega) b3 (by omega)).mp hd
      exact hne (h3 hP is ip ic b0 b1 b2 b3 n1 n2)

/-- C31, amended.  In an arithmetic that tells doubles apart as IEEE 754 does and for a
rank-4 field of doubles: when the rank-4 `chk_atm_field` fails with a cyclic-mismatch
(respectively South-pole, North-pole) error, the error names a species index, and this
index is the smallest species index whose slice violates that condition between values
that are numbers (not NaN): in the slice of that species the last and the first longitude
value at some page and row (respectively two neighbouring longitude values of the pole
row) are numbers and differ, and in the slice of no smaller species are two such values
numbers that differ. -/
theorem chk_atm_field4_first_species (A : Arith) (x : ConstTensor4View)
    (dim nspecies : Index)
    (p_grid lat_grid lon_grid : ConstVectorView) (s : Option Index)
    (hA : ∀ a b : Double, a.is_double → b.is_double →
      (differ A a b ↔ a ≠ .nan ∧ b ≠ .nan ∧ a ≠ b))
    (hx : ∀ is ip ir ic : Nat, is < x.nbooks → ip < x.npages → ir < x.nrows → ic < x.ncols →
      (x.data is ip ir ic).is_double) :
    (chk_atm_field4 A x dim nspecies p_grid lat_grid lon_grid =
        .error (.runtime_error (.not_cyclic s)) →
      ∃ is : Nat, s = some (is : Int) ∧ is < x.nbooks ∧
        (∃ ip ir : Nat, ip < x.npages ∧ ir < x.nrows ∧
          x.data is ip ir (x.ncols - 1) ≠ .nan ∧ x.data is ip ir 0 ≠ .nan ∧
            x.data is ip ir (x.ncols - 1) ≠ x.data is ip ir 0) ∧
        ∀ is2 ip ir : Nat, is2 < is → ip < x.npages → ir < x.nrows →
          x.data is2 ip ir (x.ncols - 1) ≠ .nan → x.data is2 ip ir 0 ≠ .nan →
            x.data is2 ip ir (x.ncols - 1) = x.data is2 ip ir 0) ∧
    (chk_atm_field4 A x dim nspecies p_grid lat_grid lon_grid =
        .error (.runtime_error (.south_pole s)) →
      ∃ is : Nat, s = some (is : Int) ∧ is < x.nbooks ∧
        (∃ ip ic : Nat, ip < x.npages ∧ 1 ≤ ic ∧ ic < x.ncols ∧
          x.data is ip 0 ic ≠ .nan ∧ x.data is ip 0 (ic - 1) ≠ .nan ∧
            x.data is ip 0 ic ≠ x.data is ip 0 (ic - 1)) ∧
        ∀ is2 ip ic : Nat, is2 < is → ip < x.npages → 1 ≤ ic → ic < x.ncols →
          x.data is2 ip 0 ic ≠ .nan → x.data is2 ip 0 (ic - 1) ≠ .nan →
            x.data is2 ip 0 ic = x.data is2 ip 0 (ic - 1)) ∧
    (chk_atm_field4 A x dim nspecies p_grid lat_grid lon_grid =
        .error (.runtime_error (.north_pole s)) →
      ∃ is : Nat, s = some (is : Int) ∧ is < x.nbooks ∧
        (∃ ip ic : Nat, ip < x.npages ∧ 1 ≤ ic ∧ ic < x.ncols ∧
          x.data is ip (x.nrows - 1) ic ≠ .nan ∧ x.data is ip (x.nrows - 1) (ic - 1) ≠ .nan ∧
            x.data is ip (x.nrows - 1) ic ≠ x.data is ip (x.nrows - 1) (ic - 1)) ∧
        ∀ is2 ip ic : Nat, is2 < is → ip < x.npages → 1 ≤ ic → ic < x.ncols →
          x.data is2 ip (x.nrows - 1) ic ≠ .nan → x.data is2 ip (x.nrows - 1) (ic - 1) ≠ .nan →
            x.data is2 ip (x.nrows - 1) ic = x.data is2 ip (x.nrows - 1) (ic - 1))  := by
  have pt := differ_iff4 A x hA hx
  have reach : ∀ m : Msg, m ≠ .should_be_empty → (∀ a b, m ≠ .field_wrong_size a b) →
      chk_atm_field4 A x dim nspecies p_grid lat_grid lon_grid = .error (.runtime_error m) →
      0 < x.nrows ∧ 0 < x.ncols := by
    intro m m1 m2 h
    obtain ⟨-, -, hs, hlat, hlon⟩ :=
      chk_atm_field4_reaches_3d_d A x dim nspecies p_grid lat_grid lon_grid m h m1 m2
    exact ⟨by rw [hs.2.2.1]; exact hlat, by rw [hs.2.2.2]; exact hlon⟩
  obtain ⟨T1, T2, T3⟩ :=
    chk_atm_field4_first_species_tests A x dim nspecies p_grid lat_grid lon_grid s
  refine ⟨fun h => ?_, fun h => ?_, fun h => ?_⟩
  · obtain ⟨hr, hc⟩ := reach _ (fun hc => by cases hc) (fun a b hc => by cases hc) h
    obtain ⟨is, e, b0, ⟨ip, ir, b1, b2, hd⟩, hall⟩ := T1 h
    refine ⟨is, e, b0, ⟨ip, ir, b1, b2, (pt is ip ir _ _ b0 b1 b2 (by omega) hc).mp hd⟩,
      fun is2 ip ir c0 c1 c2 n1 n2 => ?_⟩
    by_contra hne
    exact hall is2 ip ir c0 c1 c2
      ((pt is2 ip ir _ _ (by omega) c1 c2 (by omega) hc).mpr ⟨n1, n2, hne⟩)
  · obtain ⟨hr, hc⟩ := reach _ (fun hc => by cases hc) (fun a b hc => by cases hc) h
    obtain ⟨is, e, b0, ⟨ip, ic, b1, b2, b3, hd⟩, hall⟩ := T2 h
    refine ⟨is, e, b0, ⟨ip, ic, b1, b2, b3, (pt is ip 0 _ _ b0 b1 hr b3 (by omega)).mp hd⟩,
      fun is2 ip ic c0 c1 c2 c3 n1 n2 => ?_⟩
    by_contra hne
    exact hall is2 ip ic c0 c1 c2 c3
      ((pt is2 ip 0 _ _ (by omega) c1 hr c3 (by omega)).mpr ⟨n1, n2, hne⟩)
  · obtain ⟨hr, hc⟩ := reach _ (fun hc => by cases hc) (fun a b hc => by cases hc) h
    obtain ⟨is, e, b0, ⟨ip, ic, b1, b2, b3, hd⟩, hall⟩ := T3 h
    refine ⟨is, e, b0,
      ⟨ip, ic, b1, b2, b3, (pt is ip _ _ _ b0 b1 (by omega) b3 (by omega)).mp hd⟩,
      fun is2 ip ic c0 c1 c2 c3 n1 n2 => ?_⟩
    by_contra hne
    exact hall is2 ip ic c0 c1 c2 c3
      ((pt is2 ip _ _ _ (by omega) c1 (by omega) c3 (by omega)).mpr ⟨n1, n2, hne⟩)


/-- C30 on the two examples, in the arithmetic of IEEE 754, for rank 3 and for rank 4
with one species.  On the latitude grid -90, 90 and the longitude grid 0, 360 a field of
the expected shape whose values are the longitude positions violates the cyclic closure
and varies at both poles: it fails with the cyclic error.  On the longitude grid 0, 180
the same field varies at both poles: it fails with the South-pole error. -/
theorem chk_atm_field_fail_fast_witness :
    chk_atm_field ieee ⟨1, 2, 2, fun _ _ c => .fin c⟩ 3 [.fin 1000] [.fin (-90), .fin 90]
        [.fin 0, .fin 360] =
      .error (.runtime_error (.not_cyclic none)) ∧
    chk_atm_field ieee ⟨1, 2, 2, fun _ _ c => .fin c⟩ 3 [.fin 1000] [.fin (-90), .fin 90]
        [.fin 0, .fin 180] =
      .error (.runtime_error (.south_pole none)) ∧
    (∃ is : Nat, is < 1 ∧
      chk_atm_field4 ieee ⟨1, 1, 2, 2, fun _ _ _ c => .fin c⟩ 3 1 [.fin 1000]
          [.fin (-90), .fin 90] [.fin 0, .fin 360] =
        .error (.runtime_error (.not_cyclic (some (is : Int))))) ∧
    (∃ is : Nat, is < 1 ∧
      chk_atm_field4 ieee ⟨1, 1, 2, 2, fun _ _ _ c => .fin c⟩ 3 1 [.fin 1000]
          [.fin (-90), .fin 90] [.fin 0, .fin 180] =
        .error (.runtime_error (.south_pole (some (is : Int))))) := by
  have hspan : ieee.sub (.fin 360) (.fin 0) = .fin 360 := by
    show round_double (360 - 0) = _
    norm_num [round_double_small.2.2.2]
  have hspan2 : ieee.sub (.fin 180) (.fin 0) ≠ .fin 360 := by
    show round_double (180 - 0) ≠ _
    norm_num [round_double_more]
  have hx : ∀ ip ir ic : Nat, ip < 1 → ir < 2 → ic < 2 → (Double.fin (ic : ℚ)).is_double :=
    fun _ _ ic _ _ h => is_double_small ic (by omega)
  have hy : ∀ is ip ir ic : Nat, is < 1 → ip < 1 → ir < 2 → ic < 2 →
      (Double.fin (ic : ℚ)).is_double :=
    fun _ _ _ ic _ _ _ h => is_double_small ic (by omega)
  refine ⟨?_, ?_, ?_, ?_⟩
  · exact ((chk_atm_field_fail_fast ieee ⟨1, 2, 2, fun _ _ c => .fin c⟩
      ⟨1, 1, 2, 2, fun _ _ _ c => .fin c⟩ 1 [.fin 1000] [.fin (-90), .fin 90]
      [.fin 0, .fin 360] (by decide) differ_ieee_iff hx hy).2.1 ⟨rfl, rfl, rfl⟩ (by decide)
      (by decide)).1 (by simpa using hspan)
      ⟨0, 0, by decide, by decide, by simp, by simp, by simp⟩
  · exact ((chk_atm_field_fail_fast ieee ⟨1, 2, 2, fun _ _ c => .fin c⟩
      ⟨1, 1, 2, 2, fun _ _ _ c => .fin c⟩ 1 [.fin 1000] [.fin (-90), .fin 90]
      [.fin 0, .fin 180] (by decide) differ_ieee_iff hx hy).2.1 ⟨rfl, rfl, rfl⟩ (by decide)
      (by decide)).2.1 (fun h => absurd (by simpa using h) hspan2) (by simp)
      ⟨0, 1, by decide, by decide, by decide, by simp, by simp, by simp⟩
  · exact ((chk_atm_field_fail_fast ieee ⟨1, 2, 2, fun _ _ c => .fin c⟩
      ⟨1, 1, 2, 2, fun _ _ _ c => .fin c⟩ 1 [.fin 1000] [.fin (-90), .fin 90]
      [.fin 0, .fin 360] (by decide) differ_ieee_iff hx hy).2.2.2 ⟨rfl, rfl, rfl, rfl⟩
      (by decide) (by decide)).1 (by simpa using hspan)
      ⟨0, 0, 0, by decide, by decide, by decide, by simp, by simp, by simp⟩
  · exact ((chk_atm_field_fail_fast ieee ⟨1, 2, 2, fun _ _ c => .fin c⟩
      ⟨1, 1, 2, 2, fun _ _ _ c => .fin c⟩ 1 [.fin 1000] [.fin (-90), .fin 90]
      [.fin 0, .fin 180] (by decide) differ_ieee_iff hx hy).2.2.2 ⟨rfl, rfl, rfl, rfl⟩
      (by decide) (by decide)).2.1 (fun h => absurd (by simpa using h) hspan2) (by simp)
      ⟨0, 0, 1, by decide, by decide, by decide, by decide, by simp, by simp, by simp⟩

/-- C31 in the arithmetic of IEEE 754, on a field with two species on the longitude grid
-180, 180: the slice of species 0 is zero throughout, the slice of species 1 holds the
longitude positions and so is not cyclic; the error names species 1, in whose slice the
last and the first longitude value differ, and they are equal throughout the slice of
species 0. -/
theorem chk_atm_field4_first_species_witness :
    chk_atm_field4 ieee ⟨2, 2, 2, 2, fun b _ _ c => if b = 1 then .fin c else .fin 0⟩ 3 2
        [.fin 2, .fin 1] [.fin 0, .fin 1] [.fin (-180), .fin 180] =
      .error (.runtime_error (.not_cyclic (some 1))) ∧
    ∃ is : Nat, some (1 : Index) = some (is : Int) ∧ is < 2 ∧
      (∃ ip ir : Nat, ip < 2 ∧ ir < 2 ∧
        (if is = 1 then Double.fin ((2 - 1 : Nat) : ℚ) else .fin 0) ≠ .nan ∧
        (if is = 1 then Double.fin ((0 : Nat) : ℚ) else .fin 0) ≠ .nan ∧
        (if is = 1 then Double.fin ((2 - 1 : Nat) : ℚ) else .fin 0) ≠
          (if is = 1 then Double.fin ((0 : Nat) : ℚ) else .fin 0)) ∧
      ∀ is2 ip ir : Nat, is2 < is → ip < 2 → ir < 2 →
        (if is2 = 1 then Double.fin ((2 - 1 : Nat) : ℚ) else .fin 0) ≠ .nan →
        (if is2 = 1 then Double.fin ((0 : Nat) : ℚ) else .fin 0) ≠ .nan →
        (if is2 = 1 then Double.fin ((2 - 1 : Nat) : ℚ) else .fin 0) =
          (if is2 = 1 then Double.fin ((0 : Nat) : ℚ) else .fin 0) :=
  have h : chk_atm_field4 ieee ⟨2, 2, 2, 2, fun b _ _ c => if b = 1 then .fin c else .fin 0⟩
      3 2 [.fin 2, .fin 1] [.fin 0, .fin 1] [.fin (-180), .fin 180] =
      .error (.runtime_error (.not_cyclic (some 1))) :=
    chk_atm_field4_names_second _ ⟨rfl, rfl, rfl, rfl⟩
      (fun _ _ => not_differ_self_ieee _)
      (differ_ieee_of_round _ _ 1 (by simpa using round_double_small.1) (by norm_num))
  ⟨h, (chk_atm_field4_first_species ieee
    ⟨2, 2, 2, 2, fun b _ _ c => if b = 1 then .fin c else .fin 0⟩ 3 2
    [.fin 2, .fin 1] [.fin 0, .fin 1] [.fin (-180), .fin 180] (some 1) differ_ieee_iff
    (fun is _ _ ic _ _ _ h => by
      have hc : ic < 2 := h
      show (if is = 1 then Double.fin (ic : ℚ) else .fin 0).is_double
      split
      · exact is_double_small ic (by omega)
      · exact is_double_small 0 (by omega))).1 h⟩

end Ieee

end Arts
